import Mathlib

/-!
# Blobber: commit, download, staging and pool pre-redeem handlers

A shallow embedding of `handler/object_operation_handler.go` and
`handler/storage_handler.go`.

* Go's `int64` arithmetic is integer arithmetic wrapped to 64 bits (`wrap64`).
* A Go result `(value, err)` is a pair of options; `nil` is `none`.
* The datastore transaction is an explicit value `DB` that is passed through
  the handlers.  Every call into a collaborator (datastore, ledger, file store,
  marker verification) is recorded, in order, in `World.trace`.
* Collaborators whose code lives in other packages (`allocation`,
  `writemarker`, `reference`, `encryption`, the ledger client) are the fields
  of `Env`; the handlers are written against an arbitrary `Env`.
-/

namespace Blobber

/-! ## Machine integers and errors -/

/-- Two's-complement reading of an integer in 64 bits. -/
def wrap64 (x : Int) : Int := (x + 2 ^ 63) % 2 ^ 64 - 2 ^ 63

/-- Go's `a + b` on `int64`. -/
def add64 (a b : Int) : Int := wrap64 (a + b)

/-- Go's `a - b` on `int64`. -/
def sub64 (a b : Int) : Int := wrap64 (a - b)

/-- Whether an integer is representable as an `int64` (a `bigint` column). -/
def inInt64 (x : Int) : Bool := decide (-(2 ^ 63) ≤ x) && decide (x < 2 ^ 63)

/-- The value of `common.Error`: a code and a message. Errors of other packages
carry whatever code their package gave them. -/
structure GoError where
  Code : String
  Msg : String
deriving DecidableEq, Repr

/-- The function `common.NewError(code, msg)`. -/
def NewError (code msg : String) : GoError := ⟨code, msg⟩

/-- The function `strconv.FormatInt(x, 10)`, also the `%d` verb. -/
def FormatInt (x : Int) : String := toString x

/-- The value of a string of decimal digits, `none` when it is empty or holds
another character. -/
def parseDigits (cs : List Char) : Option Nat :=
  if cs = [] ∨ ¬ cs.all Char.isDigit = true then none
  else some (cs.foldl (fun acc c => acc * 10 + (c.toNat - '0'.toNat)) 0)

/-- The function `strconv.ParseInt(s, 10, 64)`, `none` for its errors: an
optional sign, then decimal digits, the value within the `int64` range. -/
def ParseInt (s : String) : Option Int :=
  let signed : Bool × List Char :=
    match s.data with
    | '+' :: rest => (false, rest)
    | '-' :: rest => (true, rest)
    | cs => (false, cs)
  match parseDigits signed.2 with
  | none => none
  | some n =>
    let x : Int := if signed.1 then -(n : Int) else (n : Int)
    if inInt64 x then some x else none

/-! ## Data model -/

/-- The row type `allocation.Allocation` (the fields the handlers use). -/
structure Allocation where
  ID : String
  Tx : String
  TotalSize : Int
  UsedSize : Int
  OwnerID : String
  PayerID : String
  Expiration : Int
  AllocationRoot : String
  BlobberSize : Int
  BlobberSizeUsed : Int
  IsRedeemRequired : Bool
  OwnerPublicKey : String := ""
deriving DecidableEq, Repr

/-- The type `writemarker.WriteMarker`. -/
structure WriteMarker where
  AllocationRoot : String
  PreviousAllocationRoot : String
  AllocationID : String
  Size : Int
  BlobberID : String
  Timestamp : Int
  ClientID : String
  Signature : String
deriving DecidableEq, Repr

/-- The row type `writemarker.WriteMarkerEntity`. -/
structure WriteMarkerEntity where
  WM : WriteMarker
  ConnectionID : String
  ClientPublicKey : String
deriving DecidableEq, Repr

/-- The row type `allocation.AllocationChange`. -/
structure AllocationChange where
  ConnectionID : String
  Operation : String
  Size : Int
  Input : String
deriving DecidableEq, Repr

/-- The row type `allocation.AllocationChangeCollector` (a connection). -/
structure AllocationChangeCollector where
  ConnectionID : String
  AllocationID : String
  ClientID : String
  Size : Int
  Changes : List AllocationChange
  Status : Nat
deriving DecidableEq, Repr

/-- The row type `allocation.Pending`. -/
structure Pending where
  ClientID : String
  AllocationID : String
  BlobberID : String
  PendingWrite : Int
deriving DecidableEq, Repr

/-- The row type `allocation.WritePool`. -/
structure WritePool where
  PoolID : String
  ClientID : String
  AllocationID : String
  BlobberID : String
  Balance : Int
  ExpireAt : Int
deriving DecidableEq, Repr

/-- The row type `allocation.ReadPool`. -/
structure ReadPool where
  PoolID : String
  ClientID : String
  AllocationID : String
  BlobberID : String
  Balance : Int
  ExpireAt : Int
deriving DecidableEq, Repr

/-- The row type `reference.Ref` (a node of the reference tree); `RefType` is
the field `Type`. -/
structure Ref where
  ID : Int
  RefType : String
  AllocationID : String
  LookupHash : String
  Name : String
  Path : String
  Hash : String
  ParentPath : String
  Size : Int
  ContentHash : String
  MerkleRoot : String
  ThumbnailHash : String
  OnCloud : Bool := false
deriving DecidableEq, Repr

/-- The type `readmarker.ReadMarker`. -/
structure ReadMarker where
  ClientID : String
  ClientPublicKey : String
  BlobberID : String
  AllocationID : String
  OwnerID : String
  Timestamp : Int
  ReadCounter : Int
  Signature : String
deriving DecidableEq, Repr

/-- The row type `readmarker.ReadMarkerEntity`; `LatestRM` is a pointer. -/
structure ReadMarkerEntity where
  LatestRM : Option ReadMarker
  RedeemRequired : Bool
deriving DecidableEq, Repr

/-- The type `readmarker.AuthTicket`. -/
structure AuthTicket where
  ClientID : String
  OwnerID : String
  AllocationID : String
  FilePathHash : String
  FileName : String
  RefType : String
  Expiration : Int
  Timestamp : Int
  Signature : String
deriving DecidableEq, Repr

/-- The response type `DownloadResponse`. -/
structure DownloadResponse where
  Success : Bool
  Data : List Nat
  AllocationID : String
  Path : String
  LatestRM : Option ReadMarker
deriving DecidableEq, Repr

/-- The value that `DownloadFile` returns as `resp interface{}`: a
`*DownloadResponse` or the bytes read. -/
inductive DownloadResult where
  | response (resp : DownloadResponse)
  | data (respData : List Nat)
deriving DecidableEq, Repr

/-- The type `filestore.FileInputData`. -/
structure FileInputData where
  Name : String
  Path : String
  Hash : String
  OnCloud : Bool
deriving DecidableEq, Repr

/-- The type `filestore.FileOutputData`. -/
structure FileOutputData where
  Name : String
  Path : String
  MerkleRoot : String
  ContentHash : String
  Size : Int
deriving DecidableEq, Repr

/-- The response type `UploadResult`. -/
structure UploadResult where
  Filename : String
  Hash : String
  MerkleRoot : String
  Size : Int
deriving DecidableEq, Repr

/-- The type `allocation.UpdateFileChange` (it embeds `NewFileChange`): the
meta data of an upload. -/
structure UpdateFileChange where
  ConnectionID : String
  AllocationID : String
  Filename : String
  Path : String
  Hash : String
  MerkleRoot : String
  Size : Int
  ThumbnailHash : String
  ThumbnailSize : Int
  ThumbnailFilename : String
deriving DecidableEq, Repr

/-- The payload handed to `AddChange` with a change: one of the types
`RenameFileChange`, `CopyFileChange`, `DeleteFileChange`, `NewFileChange`
and `UpdateFileChange` of the allocation package. -/
inductive FileChange where
  | rename (ConnectionID AllocationID Path NewName : String)
  | copy (ConnectionID AllocationID DestPath SrcPath : String)
  | delete (ConnectionID AllocationID Name Hash Path : String) (Size : Int)
  | newFile (formData : UpdateFileChange)
  | update (formData : UpdateFileChange)
deriving DecidableEq, Repr

/-- One part of a multipart form: what `r.FormFile` gives when the part is
there. -/
structure FormFilePart where
  Filename : String
  Content : List Nat
deriving DecidableEq, Repr

/-- The response type `CommitResult`. -/
structure CommitResult where
  AllocationRoot : String
  WriteMarker : Option WriteMarker
  Success : Bool
  ErrorMessage : String
  Changes : List AllocationChange
deriving DecidableEq, Repr

/-- The zero value `var result CommitResult`. -/
def CommitResult.zero : CommitResult := ⟨"", none, false, "", []⟩

/-- The argument of `encryption.Hash(data interface{})`: a string or bytes. -/
inductive HashInput where
  | str (s : String)
  | bytes (b : List Nat)
deriving DecidableEq, Repr

/-- What a handler reads from `*http.Request` and from the request context. -/
structure Request where
  Method : String
  AllocationTx : String
  ClientID : String
  ClientKey : String
  ParseMultipartForm : Option GoError
  FormValue : String → String
  FormFile : String → Except GoError FormFilePart :=
    fun _ => .error ⟨"", "http: no such file"⟩
  /-- The value of the client signature header in the request context. -/
  ClientSignature : String := ""

/-! ## The datastore transaction and the call trace -/

/-- The tables the handlers read and write through the request's transaction. -/
structure DB where
  allocations : List Allocation
  connections : List AllocationChangeCollector
  writeMarkers : List WriteMarkerEntity
  pendings : List Pending
  writePools : List WritePool
  readPools : List ReadPool
  refs : List Ref
  readMarkers : List ReadMarkerEntity := []
deriving DecidableEq, Repr

/-- One call into a collaborator. -/
inductive Call where
  | verifyAllocationTransaction
  | mutexLock
  | mutexUnlock
  | getAllocationChanges
  | getWriteMarkerEntity
  | verifyMarker
  | getPending
  | writePools
  | requestWritePools
  | setWritePools
  | addPendingWrite
  | pendingSave
  | readPools
  | requestReadPools
  | setReadPools
  | applyChanges
  | getReference
  | writeMarkerSave
  | allocationUpdates
  | commitToFileStore
  | deleteChanges
  | connectionUpdates
  | readMarkerVerify
  | getReferenceFromLookupHash
  | authTicketVerify
  | getLatestReadMarkerEntity
  | pendNumBlocks
  | getFileBlock
  | saveLatestReadMarker
  | fileBlockDownloaded
  | fileStoreWrite
  | connectionSave
  | getRefs (pageLimit : Int)
  | getUpdatedRefs (pageLimit : Int)
  | getDeletedRefs (pageLimit : Int)
deriving DecidableEq, Repr

/-- The transaction state together with the calls made so far, oldest first. -/
structure World where
  db : DB
  trace : List Call
deriving DecidableEq, Repr

/-- Record a call. -/
def World.log (w : World) (c : Call) : World := { w with trace := w.trace ++ [c] }

/-- The collaborators of the handlers: code of other packages, the ledger, the
clock and the configuration. Reads take the transaction state; writes take the
table they write and give the table afterwards. -/
structure Env where
  /-- The value `node.Self.ID`. -/
  SelfID : String
  /-- The value `common.Now()`. -/
  Now : Int
  /-- The value `config.Configuration.ReadLockTimeout`. -/
  ReadLockTimeout : Int
  /-- The value `config.Configuration.WriteLockTimeout`. -/
  WriteLockTimeout : Int
  /-- The function `encryption.Hash`. -/
  Hash : HashInput → String
  /-- The method `err.Error()`, also the `%v` verb on an error. -/
  ErrorText : GoError → String
  /-- The function `allocation.VerifyAllocationTransaction(ctx, tx, readonly)`. -/
  VerifyAllocationTransaction : DB → String → Bool → Except GoError Allocation
  /-- The function `allocation.GetAllocationChanges(ctx, connectionID, allocationID, clientID)`. -/
  GetAllocationChanges : DB → String → String → String → Except GoError AllocationChangeCollector
  /-- The call `json.Unmarshal` into a `WriteMarker`. -/
  ParseWriteMarker : String → Except GoError WriteMarker
  /-- The function `writemarker.GetWriteMarkerEntity(ctx, allocationRoot)`. -/
  GetWriteMarkerEntity : DB → String → Except GoError WriteMarkerEntity
  /-- The method `WriteMarkerEntity.VerifyMarker(ctx, allocationObj, connectionObj)`. -/
  VerifyMarker : DB → WriteMarkerEntity → Allocation → AllocationChangeCollector → Option GoError
  /-- The method `Allocation.WantWrite(blobberID, size)`. -/
  WantWrite : Allocation → String → Int → Int
  /-- The method `Allocation.WantRead(blobberID, numBlocks)`. -/
  WantRead : Allocation → String → Int → Int
  /-- The method `Pending.HaveWrite(wps, alloc)`. -/
  HaveWrite : Pending → List WritePool → Allocation → Int
  /-- The method `Allocation.HaveRead(rps, blobberID, pendNumBlocks)`. -/
  HaveRead : Allocation → List ReadPool → String → Int → Int
  /-- The function `allocation.GetPending(db, clientID, allocationID, blobberID)`. -/
  GetPending : DB → String → String → String → Except GoError Pending
  /-- The method `Pending.WritePools(db, blobberID, until)`. -/
  PendingWritePools : DB → Pending → String → Int → Except GoError (List WritePool)
  /-- The function `allocation.RequestWritePools(clientID, allocationID)` (ledger). -/
  RequestWritePools : String → String → Except GoError (List WritePool)
  /-- The function `allocation.SetWritePools(db, clientID, allocationID, blobberID, wps)`. -/
  SetWritePools : List WritePool → String → String → String → List WritePool →
    Except GoError (List WritePool)
  /-- The method `Pending.Save(db)`. -/
  PendingSave : List Pending → Pending → Except GoError (List Pending)
  /-- The function `allocation.ReadPools(db, clientID, allocationID, blobberID, until)`. -/
  ReadPools : DB → String → String → String → Int → Except GoError (List ReadPool)
  /-- The function `allocation.RequestReadPools(clientID, allocationID)` (ledger). -/
  RequestReadPools : String → String → Except GoError (List ReadPool)
  /-- The function `allocation.SetReadPools(db, clientID, allocationID, blobberID, rps)`. -/
  SetReadPools : List ReadPool → String → String → String → List ReadPool →
    Except GoError (List ReadPool)
  /-- The method `AllocationChangeCollector.ApplyChanges(ctx, allocationRoot)`:
  the reference rows afterwards and the error, if any. -/
  ApplyChanges : List Ref → AllocationChangeCollector → String → List Ref × Option GoError
  /-- The function `reference.GetReference(ctx, allocationID, path)`. -/
  GetReference : List Ref → String → String → Except GoError Ref
  /-- The method `WriteMarkerEntity.Save(ctx)`. -/
  WriteMarkerSave : List WriteMarkerEntity → WriteMarkerEntity →
    Except GoError (List WriteMarkerEntity)
  /-- A failure of the datastore while it runs the allocation `UPDATE`. -/
  AllocationUpdatesError : DB → Allocation → Option GoError
  /-- Whether gorm's `Updates` also assigns the plain values of the map to the
  fields of the model object in memory. -/
  UpdatesAssignModel : Bool
  /-- The method `AllocationChangeCollector.CommitToFileStore(ctx)`. -/
  CommitToFileStore : DB → AllocationChangeCollector → Option GoError
  /-- The constant `allocation.CommittedConnection`. -/
  CommittedConnection : Nat
  /-- The method `AllocationChangeCollector.DeleteChanges(ctx)`. -/
  DeleteChanges : List AllocationChangeCollector → AllocationChangeCollector →
    List AllocationChangeCollector
  /-- The function `reference.GetReferenceLookup(allocationID, path)`. -/
  GetReferenceLookup : String → String → String
  /-- The function `reference.GetReferenceFromLookupHash(ctx, allocationID, pathHash)`. -/
  GetReferenceFromLookupHash : List Ref → String → String → Except GoError Ref
  /-- The call `json.Unmarshal` into a `ReadMarker`. -/
  ParseReadMarker : String → Except GoError ReadMarker
  /-- The method `ReadMarkerEntity.VerifyMarker(ctx, allocationObj)`; it reads
  the client of the request from the context. -/
  ReadMarkerVerify : DB → Request → ReadMarkerEntity → Allocation → Option GoError
  /-- The call `json.Unmarshal` into an `AuthTicket`. -/
  ParseAuthTicket : String → Except GoError AuthTicket
  /-- The method `AuthTicket.Verify(allocationObj, clientID)`. -/
  AuthTicketVerify : AuthTicket → Allocation → String → Option GoError
  /-- The function `readmarker.GetLatestReadMarkerEntity(ctx, clientID)`: the
  entity pointer and the error. -/
  GetLatestReadMarkerEntity : DB → String → Option ReadMarkerEntity × Option GoError
  /-- The test `errors.Is(err, gorm.ErrRecordNotFound)`. -/
  IsRecordNotFound : GoError → Bool
  /-- The method `ReadMarkerEntity.PendNumBlocks()`. -/
  PendNumBlocks : ReadMarkerEntity → Except GoError Int
  /-- The method `GetFileBlock(allocationID, fileData, blockNum, numBlocks)` of
  the file store. -/
  GetFileBlock : String → FileInputData → Int → Int → Except GoError (List Nat)
  /-- The function `readmarker.SaveLatestReadMarker(ctx, rm, isCreate)`. -/
  SaveLatestReadMarker : List ReadMarkerEntity → ReadMarker → Bool →
    Except GoError (List ReadMarkerEntity)
  /-- The function `filepath.Join` on two elements. -/
  FilepathJoin : String → String → String
  /-- The call `json.Unmarshal` into an `UpdateFileChange`. -/
  ParseUploadMeta : String → Except GoError UpdateFileChange
  /-- The method `WriteFile(allocationID, fileData, file, connectionID)` of the
  file store. -/
  FileStoreWrite : String → FileInputData → List Nat → String → Except GoError FileOutputData
  /-- The method `Marshal()` of a change payload. -/
  Marshal : FileChange → String
  /-- The method `AllocationChangeCollector.Save(ctx)`. -/
  ConnectionSave : List AllocationChangeCollector → AllocationChangeCollector →
    Except GoError (List AllocationChangeCollector)
  /-- The function `encryption.MiraclToHerumiSig`. -/
  MiraclToHerumiSig : String → String
  /-- The function `encryption.Verify(publicKey, signature, hash)`: the pair
  `(bool, error)`. -/
  Verify : String → String → String → Bool × Option GoError
  /-- The function `checkValidDate(date, layout)` of the handler package. -/
  CheckValidDate : String → String → Option GoError
  /-- The function `reference.GetRefs(ctx, allocationID, path, offsetPath, fileType,
  level, pageLimit)`: the rows, the number of pages and the new offset path. -/
  ReferenceGetRefs : DB → String → String → String → String → Int → Int →
    Except GoError (List Ref × Int × String)
  /-- The function `reference.GetUpdatedRefs(ctx, allocationID, path, offsetPath,
  fileType, updatedDate, offsetDate, level, pageLimit, layout)`: the rows, the
  number of pages, the new offset path and the new offset date. -/
  GetUpdatedRefs : DB → String → String → String → String → String → String → Int → Int →
    String → Except GoError (List Ref × Int × String × String)
  /-- The function `reference.GetDeletedRefs(ctx, allocationID, updatedDate,
  offsetPath, offsetDate, pageLimit, layout)`. -/
  GetDeletedRefs : DB → String → String → String → String → Int → String →
    Except GoError (List Ref × Int × String × String)
  /-- The method `Ref.GetListingData(ctx)`: the listing map of a reference, as
  its sorted pairs. -/
  GetListingData : Ref → List (String × String)
  /-- The error that `strconv.Atoi` returns for a string that it refuses. -/
  AtoiError : String → GoError

/-- The function `common.NewErrorf(code, format, err)` with one trailing `%v`. -/
def NewErrorf (env : Env) (code fmt : String) (err : GoError) : GoError :=
  NewError code (fmt ++ env.ErrorText err)

/-- Modelled from the spec: the method `Pending.AddPendingWrite(size)` of the
allocation package, whose code is not among the sources. Section 4.4: the
pending-write amount is incremented; the amount is an `int64`. -/
def Pending.AddPendingWrite (p : Pending) (size : Int) : Pending :=
  { p with PendingWrite := add64 p.PendingWrite size }

/-- Replace the transaction state, keeping the trace. -/
def World.setDB (w : World) (db : DB) : World := { w with db := db }

/-! ## Pool pre-redeem (`object_operation_handler.go`, lines 34-170) -/

/-- The function `readPreRedeem`: `none` is the `nil` error. -/
def readPreRedeem (env : Env) (alloc : Allocation) (numBlocks pendNumBlocks : Int)
    (clientID : String) (w : World) : Option GoError × World :=
  if numBlocks = 0 then (none, w) else
  let blobberID := env.SelfID
  let untilTs := add64 env.Now env.ReadLockTimeout
  let want := env.WantRead alloc blobberID numBlocks
  if want = 0 then (none, w) else
  -- lines 91-97
  let finish : Int → World → Option GoError × World := fun have1 w1 =>
    if have1 < want then
      (some (NewError "read_pre_redeem" ("not enough " ++
        "tokens in client's read pools associated with the" ++
        " allocation->blobber")), w1)
    else (none, w1)
  let w1 := w.log .readPools
  match env.ReadPools w1.db clientID alloc.ID blobberID untilTs with
  | .error err =>
    (some (NewErrorf env "read_pre_redeem" "can't get read pools from DB: " err), w1)
  | .ok rps =>
    let have0 := env.HaveRead alloc rps blobberID pendNumBlocks
    if have0 < want then
      let w2 := w1.log .requestReadPools
      match env.RequestReadPools clientID alloc.ID with
      | .error err =>
        (some (NewErrorf env "read_pre_redeem"
          "can't request read pools from sharders: " err), w2)
      | .ok fresh =>
        let w3 := w2.log .setReadPools
        match env.SetReadPools w3.db.readPools clientID alloc.ID blobberID fresh with
        | .error err =>
          (some (NewErrorf env "read_pre_redeem"
            "can't save requested read pools: " err), w3)
        | .ok table =>
          let w4 := (w3.setDB { w3.db with readPools := table }).log .readPools
          match env.ReadPools w4.db clientID alloc.ID blobberID untilTs with
          | .error err =>
            (some (NewErrorf env "read_pre_redeem"
              "can't get read pools from DB: " err), w4)
          | .ok rps2 => finish (env.HaveRead alloc rps2 blobberID pendNumBlocks) w4
    else finish have0 w1

/-- Lines 162-169 of `writePreRedeem`: the size of the write is added to the
pending record, which is then saved. -/
def savePendingWrite (env : Env) (pend : Pending) (size : Int) (w : World) :
    Option GoError × World :=
  let pend1 := pend.AddPendingWrite size
  let wa := (w.log .addPendingWrite).log .pendingSave
  match env.PendingSave wa.db.pendings pend1 with
  | .error err =>
    (some (NewErrorf env "write_pre_redeem" "can't save pending writes in DB: " err), wa)
  | .ok table => (none, wa.setDB { wa.db with pendings := table })

/-- The function `writePreRedeem`: `none` is the `nil` error. -/
def writePreRedeem (env : Env) (alloc : Allocation) (writeMarker : WriteMarker)
    (w : World) : Option GoError × World :=
  let blobberID := env.SelfID
  let untilTs := add64 env.Now env.WriteLockTimeout
  let want := env.WantWrite alloc blobberID writeMarker.Size
  if writeMarker.Size ≤ 0 ∨ want ≤ 0 then (none, w) else
  let w1 := w.log .getPending
  match env.GetPending w1.db writeMarker.ClientID alloc.ID blobberID with
  | .error err =>
    (some (NewErrorf env "write_pre_redeem" "can't get pending payments: " err), w1)
  | .ok pend =>
    -- lines 155-169
    let finish : Int → World → Option GoError × World := fun have1 wf =>
      if have1 < want then
        (some (NewError "write_pre_redeem" ("not enough " ++
          "tokens in write pools (client -> allocation ->  blobber)" ++
          "(" ++ writeMarker.ClientID ++ " -> " ++ alloc.ID ++ " -> " ++
          writeMarker.BlobberID ++ "), have " ++ FormatInt have1 ++
          ", want " ++ FormatInt want)), wf)
      else savePendingWrite env pend writeMarker.Size wf
    let w2 := w1.log .writePools
    match env.PendingWritePools w2.db pend blobberID untilTs with
    | .error err =>
      (some (NewErrorf env "write_pre_redeem" "can't get read pools from DB: " err), w2)
    | .ok wps =>
      let have0 := env.HaveWrite pend wps alloc
      if have0 < want then
        let w3 := w2.log .requestWritePools
        match env.RequestWritePools writeMarker.ClientID alloc.ID with
        | .error err =>
          (some (NewErrorf env "write_pre_redeem"
            "can't request write pools from sharders: " err), w3)
        | .ok fresh =>
          let w4 := w3.log .setWritePools
          match env.SetWritePools w4.db.writePools writeMarker.ClientID alloc.ID
              blobberID fresh with
          | .error err =>
            (some (NewErrorf env "write_pre_redeem"
              "can't save requested write pools: " err), w4)
          | .ok table =>
            let w5 := (w4.setDB { w4.db with writePools := table }).log .writePools
            match env.PendingWritePools w5.db pend blobberID untilTs with
            | .error err =>
              (some (NewErrorf env "write_pre_redeem"
                "can't get write pools from DB: " err), w5)
            | .ok wps2 => finish (env.HaveWrite pend wps2 alloc) w5
      else finish have0 w2

/-! ## Allocation check (`storage_handler.go`, lines 34-54) -/

/-- The method `verifyAllocation`. A Go string has length zero exactly when it
is the empty string. -/
def verifyAllocation (env : Env) (tx : String) (readonly : Bool) (w : World) :
    Except GoError Allocation × World :=
  if tx = "" then
    (.error (NewError "verify_allocation" "invalid allocation id"), w)
  else
    let w1 := w.log .verifyAllocationTransaction
    match env.VerifyAllocationTransaction w1.db tx readonly with
    | .error err =>
      (.error (NewErrorf env "verify_allocation"
        "verifying allocation transaction error: " err), w1)
    | .ok alloc =>
      if alloc.Expiration < env.Now then
        (.error (NewError "verify_allocation" "use of expired allocation"), w1)
      else (.ok alloc, w1)

/-! ## Commit (`object_operation_handler.go`, lines 394-531) -/

/-- The value of one hexadecimal digit (`fromHexChar` of `encoding/hex`). -/
def fromHexChar (c : Char) : Option Nat :=
  if '0' ≤ c ∧ c ≤ '9' then some (c.toNat - '0'.toNat)
  else if 'a' ≤ c ∧ c ≤ 'f' then some (c.toNat - 'a'.toNat + 10)
  else if 'A' ≤ c ∧ c ≤ 'F' then some (c.toNat - 'A'.toNat + 10)
  else none

/-- The bytes `hex.DecodeString` gives back, its error dropped: the pairs
decoded before the first invalid digit or a trailing single digit. -/
def hexDecode : List Char → List Nat
  | a :: b :: rest =>
    match fromHexChar a, fromHexChar b with
    | some x, some y => (x * 16 + y) :: hexDecode rest
    | _, _ => []
  | _ => []

/-- The assignment of the `allocationUpdates` map to one allocation row: the
two `gorm.Expr` additions are evaluated by the datastore on the stored row. -/
def applyAllocationUpdates (size : Int) (root : String) (row : Allocation) : Allocation :=
  { row with
    BlobberSizeUsed := row.BlobberSizeUsed + size
    UsedSize := row.UsedSize + size
    AllocationRoot := root
    IsRedeemRequired := true }

/-- The statement `db.Model(allocationObj).Updates(allocationUpdates)`: an
`UPDATE` of the rows whose primary key is that of `allocationObj`. The columns
are `bigint`: the datastore computes the sums exactly and refuses the statement
when a sum is out of the 64-bit range. -/
def allocationUpdates (env : Env) (db : DB) (allocationObj : Allocation) (size : Int)
    (root : String) : Except GoError (List Allocation) :=
  match env.AllocationUpdatesError db allocationObj with
  | some err => .error err
  | none =>
    if db.allocations.any (fun row => row.ID == allocationObj.ID &&
        !(inInt64 (row.BlobberSizeUsed + size) && inInt64 (row.UsedSize + size))) then
      .error (NewError "" "bigint out of range")
    else
      .ok (db.allocations.map fun row =>
        if row.ID = allocationObj.ID then applyAllocationUpdates size root row else row)

/-- The statement `db.Model(connectionObj).Updates(AllocationChangeCollector{Status: ...})`;
its error is not looked at. -/
def connectionUpdates (env : Env) (rows : List AllocationChangeCollector)
    (connectionObj : AllocationChangeCollector) : List AllocationChangeCollector :=
  rows.map fun row =>
    if row.ConnectionID = connectionObj.ConnectionID then
      { row with Status := env.CommittedConnection }
    else row

/-- Lines 448-457 of `CommitWrite`: the latest write marker of the allocation,
`nil` when the loaded allocation root is empty. -/
def latestWriteMarker (env : Env) (allocationObj : Allocation) (w : World) :
    Except GoError (Option WriteMarkerEntity) × World :=
  if allocationObj.AllocationRoot = "" then (.ok none, w)
  else
    let w1 := w.log .getWriteMarkerEntity
    match env.GetWriteMarkerEntity w1.db allocationObj.AllocationRoot with
    | .error err =>
      (.error (NewError "latest_write_marker_read_error"
        ("Error reading the latest write marker for allocation." ++
          env.ErrorText err)), w1)
    | .ok wm => (.ok (some wm), w1)

/-- Lines 496-530 of `CommitWrite`: the persistence step, run once the
recomputed root `allocationRoot` equals the root claimed by the marker. -/
def commitPersist (env : Env) (r : Request) (allocationObj : Allocation)
    (connectionObj : AllocationChangeCollector) (writeMarker : WriteMarker)
    (allocationRoot : String) (w : World) :
    (Option CommitResult × Option GoError) × World :=
  let writemarkerObj : WriteMarkerEntity :=
    { WM := writeMarker
      ConnectionID := connectionObj.ConnectionID
      ClientPublicKey := r.ClientKey }
  let w1 := w.log .writeMarkerSave
  match env.WriteMarkerSave w1.db.writeMarkers writemarkerObj with
  | .error _ =>
    ((none, some (NewError "write_marker_error" "Error persisting the write marker")), w1)
  | .ok markers =>
  let w2 := (w1.setDB { w1.db with writeMarkers := markers }).log .allocationUpdates
  match allocationUpdates env w2.db allocationObj connectionObj.Size allocationRoot with
  | .error _ =>
    ((none, some (NewError "allocation_write_error"
      "Error persisting the allocation object")), w2)
  | .ok rows =>
  let allocationObj1 : Allocation :=
    if env.UpdatesAssignModel then
      { allocationObj with AllocationRoot := allocationRoot, IsRedeemRequired := true }
    else allocationObj
  let w3 := (w2.setDB { w2.db with allocations := rows }).log .commitToFileStore
  match env.CommitToFileStore w3.db connectionObj with
  | some err =>
    ((none, some (NewError "file_store_error"
      ("Error committing to file store. " ++ env.ErrorText err))), w3)
  | none =>
  let w4 := w3.log .deleteChanges
  let w5 := w4.setDB
    { w4.db with connections := env.DeleteChanges w4.db.connections connectionObj }
  let w6 := w5.log .connectionUpdates
  let w7 := w6.setDB
    { w6.db with connections := connectionUpdates env w6.db.connections connectionObj }
  ((some { CommitResult.zero with
      Changes := connectionObj.Changes
      AllocationRoot := allocationObj1.AllocationRoot
      WriteMarker := some writeMarker
      Success := true
      ErrorMessage := "" }, none), w7)

/-- Lines 473-530 of `CommitWrite`: pre-redeem, application of the staged
changes, recomputation and comparison of the root, then the persistence step.
`latestWM` is the marker found by `latestWriteMarker`. -/
def commitVerified (env : Env) (r : Request) (allocationObj : Allocation)
    (connectionObj : AllocationChangeCollector) (writeMarker : WriteMarker)
    (latestWM : Option WriteMarkerEntity) (w : World) :
    (Option CommitResult × Option GoError) × World :=
  match writePreRedeem env allocationObj writeMarker w with
  | (some err, w1) => ((none, some err), w1)
  | (none, w1) =>
  let w2 := w1.log .applyChanges
  let applied := env.ApplyChanges w2.db.refs connectionObj writeMarker.AllocationRoot
  let w3 := w2.setDB { w2.db with refs := applied.1 }
  match applied.2 with
  | some err => ((none, some err), w3)
  | none =>
  let w4 := w3.log .getReference
  match env.GetReference w4.db.refs allocationObj.ID "/" with
  | .error err => ((none, some err), w4)
  | .ok rootRef =>
  let allocationRoot :=
    env.Hash (.str (rootRef.Hash ++ ":" ++ FormatInt writeMarker.Timestamp))
  if allocationRoot ≠ writeMarker.AllocationRoot then
    let msg := "Allocation root in the write marker does not match the calculated " ++
      "allocation root. Expected hash: " ++ allocationRoot
    ((some { CommitResult.zero with
        AllocationRoot := allocationObj.AllocationRoot
        WriteMarker := latestWM.map (fun e => e.WM)
        Success := false
        ErrorMessage := msg },
      some (NewError "allocation_root_mismatch" msg)), w4)
  else commitPersist env r allocationObj connectionObj writeMarker allocationRoot w4

/-- The part of `CommitWrite` that runs under the allocation mutex (lines
429-471, then `commitVerified`). -/
def CommitWriteLocked (env : Env) (r : Request) (allocationObj : Allocation)
    (connectionID : String) (w : World) : (Option CommitResult × Option GoError) × World :=
  let w1 := w.log .getAllocationChanges
  match env.GetAllocationChanges w1.db connectionID allocationObj.ID r.ClientID with
  | .error err =>
    ((none, some (NewError "invalid_parameters"
      ("Invalid connection id. Connection id was not found. " ++ env.ErrorText err))), w1)
  | .ok connectionObj =>
  if connectionObj.Changes.length = 0 then
    ((none, some (NewError "invalid_parameters"
      "Invalid connection id. Connection does not have any changes.")), w1)
  else if add64 allocationObj.BlobberSizeUsed connectionObj.Size > allocationObj.BlobberSize then
    ((none, some (NewError "max_allocation_size"
      "Max size reached for the allocation with this blobber")), w1)
  else
  match env.ParseWriteMarker (r.FormValue "write_marker") with
  | .error err =>
    ((none, some (NewError "invalid_parameters"
      ("Invalid parameters. Error parsing the writemarker for commit." ++
        env.ErrorText err))), w1)
  | .ok writeMarker =>
  match latestWriteMarker env allocationObj w1 with
  | (.error err, w2) => ((none, some err), w2)
  | (.ok latestWM, w2) =>
  let writemarkerObj : WriteMarkerEntity := ⟨writeMarker, "", ""⟩
  let w3 := w2.log .verifyMarker
  match env.VerifyMarker w3.db writemarkerObj allocationObj connectionObj with
  | some err =>
    let msg := "Verification of write marker failed. " ++ env.ErrorText err
    ((some { CommitResult.zero with
        AllocationRoot := allocationObj.AllocationRoot
        ErrorMessage := msg
        Success := false
        WriteMarker := latestWM.map (fun e => e.WM) },
      some (NewError "write_marker_verification_failed" msg)), w3)
  | none => commitVerified env r allocationObj connectionObj writeMarker latestWM w3

/-- The method `CommitWrite`: the pair `(*CommitResult, error)` and the state
afterwards. The deferred `mutex.Unlock()` runs on every way out of the locked
part. -/
def CommitWrite (env : Env) (r : Request) (w : World) :
    (Option CommitResult × Option GoError) × World :=
  if r.Method = "GET" then
    ((none, some (NewError "invalid_method"
      "Invalid method used for the upload URL. Use POST instead")), w)
  else
  let clientKeyBytes := hexDecode r.ClientKey.data
  match verifyAllocation env r.AllocationTx false w with
  | (.error err, w1) =>
    ((none, some (NewError "invalid_parameters"
      ("Invalid allocation id passed." ++ env.ErrorText err))), w1)
  | (.ok allocationObj, w1) =>
  if r.ClientID = "" ∨ allocationObj.OwnerID ≠ r.ClientID ∨ r.ClientKey = "" ∨
      env.Hash (.bytes clientKeyBytes) ≠ r.ClientID then
    ((none, some (NewError "invalid_operation"
      "Operation needs to be performed by the owner of the allocation")), w1)
  else
  match r.ParseMultipartForm with
  | some err => ((none, some (NewError "request_parse_error" (env.ErrorText err))), w1)
  | none =>
  let connectionID := r.FormValue "connection_id"
  if connectionID = "" then
    ((none, some (NewError "invalid_parameters" "Invalid connection id passed")), w1)
  else
  let locked := CommitWriteLocked env r allocationObj connectionID (w1.log .mutexLock)
  (locked.1, locked.2.log .mutexUnlock)

/-! ## Auth tickets (`storage_handler.go`, lines 56-80) -/

/-- The function `strings.HasPrefix`. -/
def HasPrefix (s pre : String) : Bool := pre.data.isPrefixOf s.data

/-- The method `verifyAuthTicket`: the pair `(bool, error)`. -/
def verifyAuthTicket (env : Env) (authTokenString : String) (allocationObj : Allocation)
    (refRequested : Ref) (clientID : String) (w : World) :
    (Bool × Option GoError) × World :=
  if authTokenString = "" then
    ((false, some (NewError "invalid_parameters"
      "Auth ticket required if data read by anyone other than owner.")), w)
  else
  match env.ParseAuthTicket authTokenString with
  | .error err =>
    ((false, some (NewError "invalid_parameters"
      ("Error parsing the auth ticket for download." ++ env.ErrorText err))), w)
  | .ok authToken =>
  let w1 := w.log .authTicketVerify
  match env.AuthTicketVerify authToken allocationObj clientID with
  | some err => ((false, some err), w1)
  | none =>
  if refRequested.LookupHash ≠ authToken.FilePathHash then
    let w2 := w1.log .getReferenceFromLookupHash
    match env.GetReferenceFromLookupHash w2.db.refs authToken.AllocationID
        authToken.FilePathHash with
    | .error err => ((false, some err), w2)
    | .ok authTokenRef =>
      if refRequested.ParentPath ≠ authTokenRef.Path ∧
          ¬ HasPrefix refRequested.ParentPath (authTokenRef.Path ++ "/") = true then
        ((false, some (NewError "invalid_parameters"
          "Auth ticket is not valid for the resource being requested")), w2)
      else ((true, none), w2)
  else ((true, none), w1)

/-! ## Download (`object_operation_handler.go`, lines 172-392) -/

/-- Modelled from the spec: the constant `reference.FILE`, whose declaration is
not among the sources. Section 3: a node is a file or a directory; the value
is the one of the file rows of `helper_integration_test.go`. -/
def FILE : String := "f"

/-- Modelled from the spec: the constant `reference.DIRECTORY`, whose
declaration is not among the sources. Section 3: a node is a file or a
directory; the value is the one of the directory rows of
`helper_integration_test.go`. -/
def DIRECTORY : String := "d"

/-- The constant `DOWNLOAD_CONTENT_THUMB`, declared as `DownloadContentThumb`
in `storage_handler.go`. -/
def DOWNLOAD_CONTENT_THUMB : String := "thumbnail"

/-- What `DownloadFile` has established when it turns to the latest read
marker (line 306): its local variables. -/
structure DownloadContext where
  allocationObj : Allocation
  fileref : Ref
  readMarker : ReadMarker
  blockNum : Int
  numBlocks : Int
  clientIDForReadRedeem : String
deriving DecidableEq, Repr

/-- Lines 175-304 of `DownloadFile`: the parameter, marker, path and auth
checks. The auth ticket string handed to `verifyAuthTicket` is the form value
`auth_token`. -/
def downloadChecks (env : Env) (r : Request) (w : World) :
    Except GoError DownloadContext × World :=
  if r.Method = "GET" then
    (.error (NewError "download_file" "invalid method used (GET), use POST instead"), w)
  else if r.ClientID = "" then
    (.error (NewError "download_file" "invalid client"), w)
  else
  match verifyAllocation env r.AllocationTx false w with
  | (.error err, w1) =>
    (.error (NewErrorf env "download_file" "invalid allocation id passed: " err), w1)
  | (.ok allocationObj, w1) =>
  match r.ParseMultipartForm with
  | some err => (.error (NewErrorf env "download_file" "request_parse_error: " err), w1)
  | none =>
  if r.FormValue "path_hash" = "" ∧ r.FormValue "path" = "" then
    (.error (NewError "download_file" "invalid path"), w1)
  else
  let pathHash :=
    if r.FormValue "path_hash" = "" then
      env.GetReferenceLookup allocationObj.ID (r.FormValue "path")
    else r.FormValue "path_hash"
  if r.FormValue "block_num" = "" then
    (.error (NewError "download_file" "no block number"), w1)
  else
  match ParseInt (r.FormValue "block_num") with
  | none => (.error (NewError "download_file" "invalid block number"), w1)
  | some blockNum =>
  if blockNum < 0 then (.error (NewError "download_file" "invalid block number"), w1)
  else
  let numBlocksStr := if r.FormValue "num_blocks" = "" then "1" else r.FormValue "num_blocks"
  match ParseInt numBlocksStr with
  | none => (.error (NewError "download_file" "invalid number of blocks"), w1)
  | some numBlocks =>
  if numBlocks < 0 then (.error (NewError "download_file" "invalid number of blocks"), w1)
  else
  match env.ParseReadMarker (r.FormValue "read_marker") with
  | .error err =>
    (.error (NewErrorf env "download_file" ("invalid parameters, " ++
      "error parsing the readmarker for download: ") err), w1)
  | .ok readMarker =>
  let w2 := w1.log .readMarkerVerify
  match env.ReadMarkerVerify w2.db r ⟨some readMarker, false⟩ allocationObj with
  | some err =>
    (.error (NewErrorf env "download_file" ("invalid read marker, " ++
      "failed to verify the read marker: ") err), w2)
  | none =>
  let w3 := w2.log .getReferenceFromLookupHash
  match env.GetReferenceFromLookupHash w3.db.refs allocationObj.ID pathHash with
  | .error err => (.error (NewErrorf env "download_file" "invalid file path: " err), w3)
  | .ok fileref =>
  if fileref.RefType ≠ FILE then
    (.error (NewError "download_file" "path is not a file: <nil>"), w3)
  else
  let authTokenString := r.FormValue "auth_token"
  if (allocationObj.OwnerID ≠ r.ClientID ∧ allocationObj.PayerID ≠ r.ClientID) ∨
      authTokenString ≠ "" then
    match verifyAuthTicket env authTokenString allocationObj fileref r.ClientID w3 with
    | ((_, some err), w4) =>
      (.error (NewErrorf env "download_file" "verifying auth ticket: " err), w4)
    | ((false, none), w4) =>
      (.error (NewError "download_file" "could not verify the auth ticket"), w4)
    | ((true, none), w4) =>
      match env.ParseAuthTicket authTokenString with
      | .error err =>
        (.error (NewErrorf env "download_file"
          "error parsing the auth ticket for download: " err), w4)
      | .ok authToken =>
        (.ok ⟨allocationObj, fileref, readMarker, blockNum, numBlocks, authToken.OwnerID⟩, w4)
  else
    (.ok ⟨allocationObj, fileref, readMarker, blockNum, numBlocks, readMarker.ClientID⟩, w3)

/-- The test of lines 325-326: there is a last known marker and its counter
plus the number of blocks (an `int64` sum) is not the submitted counter. -/
def counterMismatch (latestRM : Option ReadMarker) (numBlocks : Int)
    (readMarker : ReadMarker) : Bool :=
  match latestRM with
  | none => false
  | some latest => decide (add64 latest.ReadCounter numBlocks ≠ readMarker.ReadCounter)

/-- The test of line 351: the form value `content` asks for the thumbnail. -/
def thumbnailMode (r : Request) : Bool :=
  decide (r.FormValue "content" ≠ "" ∧ r.FormValue "content" = DOWNLOAD_CONTENT_THUMB)

/-- The `fileData` of lines 352-356 and 364-368: the thumbnail hash in
thumbnail mode, the content hash otherwise. -/
def downloadFileData (r : Request) (c : DownloadContext) : FileInputData :=
  { Name := c.fileref.Name
    Path := c.fileref.Path
    Hash := if thumbnailMode r = true then c.fileref.ThumbnailHash else c.fileref.ContentHash
    OnCloud := c.fileref.OnCloud }

/-- Lines 337-391 of `DownloadFile`: the pre-redeem, the read of the blocks
and the save of the submitted marker as the latest one. -/
def downloadServe (env : Env) (r : Request) (c : DownloadContext)
    (latestRM : Option ReadMarker) (pendNumBlocks : Int) (w : World) :
    (Option DownloadResult × Option GoError) × World :=
  match readPreRedeem env c.allocationObj c.numBlocks pendNumBlocks
      c.clientIDForReadRedeem w with
  | (some err, w1) =>
    ((none, some (NewErrorf env "download_file" "pre-redeeming read marker: " err)), w1)
  | (none, w1) =>
  let w2 := w1.log .getFileBlock
  match env.GetFileBlock c.allocationObj.ID (downloadFileData r c) c.blockNum c.numBlocks with
  | .error err =>
    ((none, some (NewErrorf env "download_file"
      (if thumbnailMode r = true then "couldn't get thumbnail block: "
        else "couldn't get file block: ")
      err)), w2)
  | .ok respData =>
  let w3 := w2.log .saveLatestReadMarker
  match env.SaveLatestReadMarker w3.db.readMarkers c.readMarker latestRM.isNone with
  | .error err =>
    ((none, some (NewErrorf env "download_file" "couldn't save latest read marker: " err)),
      w3)
  | .ok table =>
  let w4 := (w3.setDB { w3.db with readMarkers := table }).log .fileBlockDownloaded
  ((some (.data respData), none), w4)

/-- Lines 317-335 of `DownloadFile`, then `downloadServe`: the last known
marker and the pending blocks of the entity `rme`, and the continuity test of
the counter. -/
def downloadLatest (env : Env) (r : Request) (c : DownloadContext)
    (rme : Option ReadMarkerEntity) (w : World) :
    (Option DownloadResult × Option GoError) × World :=
  let known : Except GoError (Option ReadMarker × Int) × World :=
    match rme with
    | none => (.ok (none, 0), w)
    | some e =>
      let w1 := w.log .pendNumBlocks
      match env.PendNumBlocks e with
      | .error err =>
        (.error (NewErrorf env "download_file"
          "couldn't get number of blocks pending redeeming: " err), w1)
      | .ok n => (.ok (e.LatestRM, n), w1)
  match known with
  | (.error err, w1) => ((none, some err), w1)
  | (.ok (latestRM, pendNumBlocks), w1) =>
    if counterMismatch latestRM c.numBlocks c.readMarker = true then
      ((some (.response
        { Success := false
          LatestRM := latestRM
          Path := c.fileref.Path
          AllocationID := c.fileref.AllocationID
          Data := [] }), none), w1)
    else downloadServe env r c latestRM pendNumBlocks w1

/-- Lines 306-315 of `DownloadFile`, then `downloadLatest`: the lookup of the
latest read marker entity of the client. -/
def downloadAuthorized (env : Env) (r : Request) (c : DownloadContext) (w : World) :
    (Option DownloadResult × Option GoError) × World :=
  let w1 := w.log .getLatestReadMarkerEntity
  let found := env.GetLatestReadMarkerEntity w1.db r.ClientID
  match found.2 with
  | some err =>
    if env.IsRecordNotFound err = true then downloadLatest env r c found.1 w1
    else
      ((none, some (NewErrorf env "download_file" "couldn't get read marker from DB: " err)),
        w1)
  | none => downloadLatest env r c found.1 w1

/-- The method `DownloadFile`: the pair `(resp, err)` and the state
afterwards. -/
def DownloadFile (env : Env) (r : Request) (w : World) :
    (Option DownloadResult × Option GoError) × World :=
  match downloadChecks env r w with
  | (.error err, w1) => ((none, some err), w1)
  | (.ok c, w1) => downloadAuthorized env r c w1

/-! ## Staging of changes (`object_operation_handler.go`, lines 533-890) -/

/-- Modelled from the spec: the constant `allocation.INSERT_OPERATION`, whose
declaration is not among the sources. Section 3: a change is discriminated by
its operation kind, one of insert, update, delete, rename, copy. -/
def INSERT_OPERATION : String := "insert"

/-- Modelled from the spec: the constant `allocation.UPDATE_OPERATION`, whose
declaration is not among the sources (section 3, operation kinds). -/
def UPDATE_OPERATION : String := "update"

/-- Modelled from the spec: the constant `allocation.DELETE_OPERATION`, whose
declaration is not among the sources (section 3, operation kinds). -/
def DELETE_OPERATION : String := "delete"

/-- Modelled from the spec: the constant `allocation.RENAME_OPERATION`, whose
declaration is not among the sources (section 3, operation kinds). -/
def RENAME_OPERATION : String := "rename"

/-- Modelled from the spec: the constant `allocation.COPY_OPERATION`, whose
declaration is not among the sources (section 3, operation kinds). -/
def COPY_OPERATION : String := "copy"

/-- Modelled from the spec: the method
`AllocationChangeCollector.AddChange(change, payload)` of the allocation
package, whose code is not among the sources. Sections 3 and 4.2: a connection
holds its changes as an ordered sequence, each with its operation kind and its
payload; `addChange(meta, payload)` puts the change at the end, the payload
serialised into `Input`. The cumulative size is stepped by the handlers
themselves (`connectionObj.Size += allocationChange.Size`) before the call. -/
def AllocationChangeCollector.AddChange (env : Env) (cc : AllocationChangeCollector)
    (allocationChange : AllocationChange) (payload : FileChange) :
    AllocationChangeCollector :=
  { cc with Changes := cc.Changes ++ [{ allocationChange with Input := env.Marshal payload }] }

/-- What a staging handler leaves behind: the pair `(result, err)` that it
returns and the object `connectionObj` in memory at the return, `none` when
the handler returned before it loaded the connection. -/
structure Staged where
  result : Option UploadResult
  err : Option GoError
  connectionObj : Option AllocationChangeCollector
deriving DecidableEq, Repr

/-- The part of `RenameObject` that runs under the connection mutex (lines
584-611). -/
def RenameObjectLocked (env : Env) (allocationID : String)
    (connectionObj : AllocationChangeCollector) (path_hash new_name : String) (w : World) :
    Staged × World :=
  let w1 := w.log .getReferenceFromLookupHash
  match env.GetReferenceFromLookupHash w1.db.refs allocationID path_hash with
  | .error err =>
    (⟨none, some (NewError "invalid_parameters" ("Invalid file path. " ++ env.ErrorText err)),
      some connectionObj⟩, w1)
  | .ok objectRef =>
  let allocationChange : AllocationChange :=
    { ConnectionID := connectionObj.ConnectionID, Size := 0, Operation := RENAME_OPERATION,
      Input := "" }
  let dfc := FileChange.rename connectionObj.ConnectionID connectionObj.AllocationID
    objectRef.Path new_name
  let connectionObj1 :=
    { connectionObj with Size := add64 connectionObj.Size allocationChange.Size }
  let connectionObj2 := connectionObj1.AddChange env allocationChange dfc
  let w2 := w1.log .connectionSave
  match env.ConnectionSave w2.db.connections connectionObj2 with
  | .error _ =>
    (⟨none, some (NewError "connection_write_error" "Error writing the connection meta data"),
      some connectionObj2⟩, w2)
  | .ok table =>
    (⟨some { Filename := new_name, Hash := objectRef.Hash, MerkleRoot := objectRef.MerkleRoot,
             Size := objectRef.Size }, none, some connectionObj2⟩,
      w2.setDB { w2.db with connections := table })

/-- The method `RenameObject`. The deferred `mutex.Unlock()` runs on every way
out of the locked part. -/
def RenameObject (env : Env) (r : Request) (w : World) : Staged × World :=
  if r.Method = "GET" then
    (⟨none, some (NewError "invalid_method" "Invalid method used. Use POST instead"), none⟩, w)
  else
  match verifyAllocation env r.AllocationTx false w with
  | (.error err, w1) =>
    (⟨none, some (NewError "invalid_parameters"
      ("Invalid allocation id passed." ++ env.ErrorText err)), none⟩, w1)
  | (.ok allocationObj, w1) =>
  let allocationID := allocationObj.ID
  if r.ClientID = "" then
    (⟨none, some (NewError "invalid_operation" "Invalid client"), none⟩, w1)
  else
  let new_name := r.FormValue "new_name"
  if new_name = "" then
    (⟨none, some (NewError "invalid_parameters" "Invalid name"), none⟩, w1)
  else
  let path := r.FormValue "path"
  if r.FormValue "path_hash" = "" ∧ path = "" then
    (⟨none, some (NewError "invalid_parameters" "Invalid path"), none⟩, w1)
  else
  let path_hash :=
    if r.FormValue "path_hash" = "" then env.GetReferenceLookup allocationID path
    else r.FormValue "path_hash"
  if r.ClientID = "" ∨ allocationObj.OwnerID ≠ r.ClientID then
    (⟨none, some (NewError "invalid_operation"
      "Operation needs to be performed by the owner of the allocation"), none⟩, w1)
  else
  let connectionID := r.FormValue "connection_id"
  if connectionID = "" then
    (⟨none, some (NewError "invalid_parameters" "Invalid connection id passed"), none⟩, w1)
  else
  let w2 := w1.log .getAllocationChanges
  match env.GetAllocationChanges w2.db connectionID allocationID r.ClientID with
  | .error _ =>
    (⟨none, some (NewError "meta_error" "Error reading metadata for connection"), none⟩, w2)
  | .ok connectionObj =>
  let locked := RenameObjectLocked env allocationID connectionObj path_hash new_name
    (w2.log .mutexLock)
  (locked.1, locked.2.log .mutexUnlock)

/-- The part of `CopyObject` that runs under the connection mutex (lines
664-701). `GetReference` gives a reference exactly when it gives no error. -/
def CopyObjectLocked (env : Env) (allocationID : String)
    (connectionObj : AllocationChangeCollector) (path_hash destPath : String) (w : World) :
    Staged × World :=
  let w1 := w.log .getReferenceFromLookupHash
  match env.GetReferenceFromLookupHash w1.db.refs allocationID path_hash with
  | .error err =>
    (⟨none, some (NewError "invalid_parameters" ("Invalid file path. " ++ env.ErrorText err)),
      some connectionObj⟩, w1)
  | .ok objectRef =>
  let newPath := env.FilepathJoin destPath objectRef.Name
  let w2 := w1.log .getReference
  match env.GetReference w2.db.refs allocationID newPath with
  | .ok _ =>
    (⟨none, some (NewError "invalid_parameters"
      "Invalid destination path. Object Already exists."), some connectionObj⟩, w2)
  | .error _ =>
  let w3 := w2.log .getReference
  let invalidDestination : Staged × World :=
    (⟨none, some (NewError "invalid_parameters"
      "Invalid destination path. Should be a valid directory."), some connectionObj⟩, w3)
  match env.GetReference w3.db.refs allocationID destPath with
  | .error _ => invalidDestination
  | .ok destRef =>
  if destRef.RefType ≠ DIRECTORY then invalidDestination
  else
  let allocationChange : AllocationChange :=
    { ConnectionID := connectionObj.ConnectionID, Size := objectRef.Size,
      Operation := COPY_OPERATION, Input := "" }
  let dfc := FileChange.copy connectionObj.ConnectionID connectionObj.AllocationID
    destPath objectRef.Path
  let connectionObj1 :=
    { connectionObj with Size := add64 connectionObj.Size allocationChange.Size }
  let connectionObj2 := connectionObj1.AddChange env allocationChange dfc
  let w4 := w3.log .connectionSave
  match env.ConnectionSave w4.db.connections connectionObj2 with
  | .error _ =>
    (⟨none, some (NewError "connection_write_error" "Error writing the connection meta data"),
      some connectionObj2⟩, w4)
  | .ok table =>
    (⟨some { Filename := objectRef.Name, Hash := objectRef.Hash,
             MerkleRoot := objectRef.MerkleRoot, Size := objectRef.Size },
      none, some connectionObj2⟩,
      w4.setDB { w4.db with connections := table })

/-- The method `CopyObject`. The deferred `mutex.Unlock()` runs on every way out
of the locked part. -/
def CopyObject (env : Env) (r : Request) (w : World) : Staged × World :=
  if r.Method = "GET" then
    (⟨none, some (NewError "invalid_method" "Invalid method used. Use POST instead"), none⟩, w)
  else
  match verifyAllocation env r.AllocationTx false w with
  | (.error err, w1) =>
    (⟨none, some (NewError "invalid_parameters"
      ("Invalid allocation id passed." ++ env.ErrorText err)), none⟩, w1)
  | (.ok allocationObj, w1) =>
  let allocationID := allocationObj.ID
  if r.ClientID = "" then
    (⟨none, some (NewError "invalid_operation" "Invalid client"), none⟩, w1)
  else
  let destPath := r.FormValue "dest"
  if destPath = "" then
    (⟨none, some (NewError "invalid_parameters" "Invalid destination for operation"), none⟩,
      w1)
  else
  let path := r.FormValue "path"
  if r.FormValue "path_hash" = "" ∧ path = "" then
    (⟨none, some (NewError "invalid_parameters" "Invalid path"), none⟩, w1)
  else
  let path_hash :=
    if r.FormValue "path_hash" = "" then env.GetReferenceLookup allocationID path
    else r.FormValue "path_hash"
  if r.ClientID = "" ∨ allocationObj.OwnerID ≠ r.ClientID then
    (⟨none, some (NewError "invalid_operation"
      "Operation needs to be performed by the owner of the allocation"), none⟩, w1)
  else
  let connectionID := r.FormValue "connection_id"
  if connectionID = "" then
    (⟨none, some (NewError "invalid_parameters" "Invalid connection id passed"), none⟩, w1)
  else
  let w2 := w1.log .getAllocationChanges
  match env.GetAllocationChanges w2.db connectionID allocationID r.ClientID with
  | .error _ =>
    (⟨none, some (NewError "meta_error" "Error reading metadata for connection"), none⟩, w2)
  | .ok connectionObj =>
  let locked := CopyObjectLocked env allocationID connectionObj path_hash destPath
    (w2.log .mutexLock)
  (locked.1, locked.2.log .mutexUnlock)

/-- The method `checkIfFileAlreadyExists` (`storage_handler.go`, lines
112-118): `none` is the `nil` pointer. -/
def checkIfFileAlreadyExists (env : Env) (allocationID path : String) (w : World) :
    Option Ref × World :=
  let w1 := w.log .getReference
  match env.GetReference w1.db.refs allocationID path with
  | .error _ => (none, w1)
  | .ok fileReference => (some fileReference, w1)

/-- The method `DeleteFile`: the pair `(*UploadResult, error)` and the object
`connectionObj`, which the method changes through its pointer, as it is after
the call. `GetReference` gives a reference exactly when it gives no error. -/
def DeleteFile (env : Env) (r : Request) (connectionObj : AllocationChangeCollector)
    (w : World) : (Except GoError UploadResult × AllocationChangeCollector) × World :=
  let path := r.FormValue "path"
  if path = "" then ((.error (NewError "invalid_parameters" "Invalid path"), connectionObj), w)
  else
  let w1 := w.log .getReference
  match env.GetReference w1.db.refs connectionObj.AllocationID path with
  | .ok fileRef =>
    let deleteSize := fileRef.Size
    let allocationChange : AllocationChange :=
      { ConnectionID := connectionObj.ConnectionID, Size := sub64 0 deleteSize,
        Operation := DELETE_OPERATION, Input := "" }
    let dfc := FileChange.delete connectionObj.ConnectionID connectionObj.AllocationID
      fileRef.Name fileRef.Hash fileRef.Path deleteSize
    let connectionObj1 :=
      { connectionObj with Size := add64 connectionObj.Size allocationChange.Size }
    let connectionObj2 := connectionObj1.AddChange env allocationChange dfc
    ((.ok { Filename := fileRef.Name, Hash := fileRef.Hash, MerkleRoot := fileRef.MerkleRoot,
            Size := fileRef.Size }, connectionObj2), w1)
  | .error _ =>
    ((.error (NewError "invalid_file" "File does not exist at path"), connectionObj), w1)

/-- Lines 787-881 of `WriteFile`: the insert or update of a file, up to the
change added to the connection. The pair `(result, connectionObj)` is what the
branch leaves when it does not return; an error leaves the object as it
was. -/
def writeFileUpload (env : Env) (r : Request) (allocationObj : Allocation)
    (connectionObj : AllocationChangeCollector) (mode : String) (w : World) :
    Except GoError (UploadResult × AllocationChangeCollector) × World :=
  let allocationID := allocationObj.ID
  let formField := if mode = UPDATE_OPERATION then "updateMeta" else "uploadMeta"
  match env.ParseUploadMeta (r.FormValue formField) with
  | .error err =>
    (.error (NewError "invalid_parameters"
      ("Invalid parameters. Error parsing the meta data for upload." ++ env.ErrorText err)), w)
  | .ok formData =>
  match checkIfFileAlreadyExists env allocationID formData.Path w with
  | (exisitingFileRef, w1) =>
  if mode = INSERT_OPERATION ∧ exisitingFileRef ≠ none then
    (.error (NewError "duplicate_file" "File at path already exists"), w1)
  else if mode = UPDATE_OPERATION ∧ exisitingFileRef = none then
    (.error (NewError "invalid_file_update" "File at path does not exist for update"), w1)
  else
  let existingFileRefSize : Int :=
    match exisitingFileRef with
    | some ref => ref.Size
    | none => 0
  let exisitingFileOnCloud : Bool :=
    match exisitingFileRef with
    | some ref => ref.OnCloud
    | none => false
  match r.FormFile "uploadFile" with
  | .error err =>
    (.error (NewError "invalid_parameters"
      ("Error Reading multi parts for file." ++ env.ErrorText err)), w1)
  | .ok origfile =>
  let fileInputData : FileInputData :=
    { Name := formData.Filename, Path := formData.Path, Hash := "",
      OnCloud := exisitingFileOnCloud }
  let w2 := w1.log .fileStoreWrite
  match env.FileStoreWrite allocationID fileInputData origfile.Content
      connectionObj.ConnectionID with
  | .error err =>
    (.error (NewError "upload_error" ("Failed to upload the file. " ++ env.ErrorText err)), w2)
  | .ok fileOutputData =>
  let result : UploadResult :=
    { Filename := formData.Filename, Hash := fileOutputData.ContentHash,
      MerkleRoot := fileOutputData.MerkleRoot, Size := fileOutputData.Size }
  if formData.Hash ≠ "" ∧ formData.Hash ≠ fileOutputData.ContentHash then
    (.error (NewError "content_hash_mismatch"
      "Content hash provided in the meta data does not match the file content"), w2)
  else if formData.MerkleRoot ≠ "" ∧ formData.MerkleRoot ≠ fileOutputData.MerkleRoot then
    (.error (NewError "content_merkle_root_mismatch"
      "Merkle root provided in the meta data does not match the file content"), w2)
  else
  let formData1 : UpdateFileChange :=
    { formData with Hash := fileOutputData.ContentHash, MerkleRoot := fileOutputData.MerkleRoot,
                    AllocationID := allocationID, Size := fileOutputData.Size }
  let allocationSize := fileOutputData.Size
  -- lines 851-863: the thumbnail, when the form has one
  let thumbnail : Except GoError UpdateFileChange × World :=
    match r.FormFile "uploadThumbnailFile" with
    | .error _ => (.ok formData1, w2)
    | .ok thumbfile =>
      let thumbInputData : FileInputData :=
        { Name := thumbfile.Filename, Path := formData1.Path, Hash := "", OnCloud := false }
      let w3 := w2.log .fileStoreWrite
      match env.FileStoreWrite allocationID thumbInputData thumbfile.Content
          connectionObj.ConnectionID with
      | .error err =>
        (.error (NewError "upload_error"
          ("Failed to upload the thumbnail. " ++ env.ErrorText err)), w3)
      | .ok thumbOutputData =>
        if formData1.ThumbnailHash ≠ "" ∧
            formData1.ThumbnailHash ≠ thumbOutputData.ContentHash then
          (.error (NewError "content_hash_mismatch"
            "Content hash provided in the meta data does not match the thumbnail content"), w3)
        else
          (.ok { formData1 with ThumbnailHash := thumbOutputData.ContentHash,
                                ThumbnailSize := thumbOutputData.Size,
                                ThumbnailFilename := thumbInputData.Name }, w3)
  match thumbnail with
  | (.error err, w3) => (.error err, w3)
  | (.ok formData2, w3) =>
  if add64 allocationObj.BlobberSizeUsed (sub64 allocationSize existingFileRefSize) >
      allocationObj.BlobberSize then
    (.error (NewError "max_allocation_size"
      "Max size reached for the allocation with this blobber"), w3)
  else
  let allocationChange : AllocationChange :=
    { ConnectionID := connectionObj.ConnectionID,
      Size := sub64 allocationSize existingFileRefSize, Operation := mode, Input := "" }
  let connectionObj1 :=
    { connectionObj with Size := add64 connectionObj.Size allocationChange.Size }
  let connectionObj2 :=
    if mode = INSERT_OPERATION then
      connectionObj1.AddChange env allocationChange (.newFile formData2)
    else if mode = UPDATE_OPERATION then
      connectionObj1.AddChange env allocationChange (.update formData2)
    else connectionObj1
  (.ok (result, connectionObj2), w3)

/-- The operation that `WriteFile` derives from the method of the request
(lines 779-784). -/
def writeMode (r : Request) : String :=
  if r.Method = "PUT" then UPDATE_OPERATION
  else if r.Method = "DELETE" then DELETE_OPERATION
  else INSERT_OPERATION

/-- Lines 778-881 of `WriteFile`: the branch on the operation. -/
def writeFileStage (env : Env) (r : Request) (allocationObj : Allocation)
    (connectionObj : AllocationChangeCollector) (w : World) :
    Except GoError (UploadResult × AllocationChangeCollector) × World :=
  let mode := writeMode r
  if mode = DELETE_OPERATION then
    match DeleteFile env r connectionObj w with
    | ((.error err, _), w1) => (.error err, w1)
    | ((.ok result, connectionObj1), w1) => (.ok (result, connectionObj1), w1)
  else if mode = INSERT_OPERATION ∨ mode = UPDATE_OPERATION then
    writeFileUpload env r allocationObj connectionObj mode w
  else (.ok ({ Filename := "", Hash := "", MerkleRoot := "", Size := 0 }, connectionObj), w)

/-- The part of `WriteFile` that runs under the connection mutex (lines
774-889). -/
def WriteFileLocked (env : Env) (r : Request) (allocationObj : Allocation)
    (connectionObj : AllocationChangeCollector) (w : World) : Staged × World :=
  match writeFileStage env r allocationObj connectionObj w with
  | (.error err, w1) => (⟨none, some err, some connectionObj⟩, w1)
  | (.ok (result, connectionObj1), w1) =>
  let w2 := w1.log .connectionSave
  match env.ConnectionSave w2.db.connections connectionObj1 with
  | .error _ =>
    (⟨none, some (NewError "connection_write_error" "Error writing the connection meta data"),
      some connectionObj1⟩, w2)
  | .ok table =>
    (⟨some result, none, some connectionObj1⟩, w2.setDB { w2.db with connections := table })

/-- The method `WriteFile`. The deferred `mutex.Unlock()` runs on every way out
of the locked part. -/
def WriteFile (env : Env) (r : Request) (w : World) : Staged × World :=
  if r.Method = "GET" then
    (⟨none, some (NewError "invalid_method" ("Invalid method used for the upload URL." ++
      " Use multi-part form POST / PUT / DELETE instead")), none⟩, w)
  else
  match verifyAllocation env r.AllocationTx false w with
  | (.error err, w1) =>
    (⟨none, some (NewError "invalid_parameters"
      ("Invalid allocation id passed." ++ env.ErrorText err)), none⟩, w1)
  | (.ok allocationObj, w1) =>
  let allocationID := allocationObj.ID
  if r.ClientID = "" ∨
      (allocationObj.OwnerID ≠ r.ClientID ∧ allocationObj.PayerID ≠ r.ClientID) then
    (⟨none, some (NewError "invalid_operation"
      "Operation needs to be performed by the owner or the payer of the allocation"), none⟩,
      w1)
  else
  match r.ParseMultipartForm with
  | some err => (⟨none, some (NewError "request_parse_error" (env.ErrorText err)), none⟩, w1)
  | none =>
  let connectionID := r.FormValue "connection_id"
  if connectionID = "" then
    (⟨none, some (NewError "invalid_parameters" "Invalid connection id passed"), none⟩, w1)
  else
  let w2 := w1.log .getAllocationChanges
  match env.GetAllocationChanges w2.db connectionID allocationID allocationObj.OwnerID with
  | .error _ =>
    (⟨none, some (NewError "meta_error" "Error reading metadata for connection"), none⟩, w2)
  | .ok connectionObj =>
  let locked := WriteFileLocked env r allocationObj connectionObj (w2.log .mutexLock)
  (locked.1, locked.2.log .mutexUnlock)

/-! ## Paginated references (`storage_handler.go`, lines 24-30 and 672-792) -/

/-- The constant `PageLimit`. -/
def PageLimit : Int := 100

/-- The constant `OffsetDateLayout`. -/
def OffsetDateLayout : String := "2006-01-02T15:04:05.99999Z07:00"

/-- The function `strconv.Atoi` where `int` has 64 bits: `ParseInt(s, 10, 0)`. -/
def Atoi (env : Env) (s : String) : Except GoError Int :=
  match ParseInt s with
  | some n => .ok n
  | none => .error (env.AtoiError s)

/-- The function `verifySignatureFromRequest`: the pair `(bool, error)`. The
length of a Go string is its number of bytes. -/
def verifySignatureFromRequest (env : Env) (allocation sign pbK : String) :
    Bool × Option GoError :=
  let sign1 := env.MiraclToHerumiSig sign
  if sign1.utf8ByteSize < 64 then (false, none)
  else
    let hash := env.Hash (.str allocation)
    env.Verify pbK sign1 hash

/-- The response type `blobberhttp.RefResult` (the fields `GetRefs` sets); the
rows stand for the type `reference.PaginatedRef`. -/
structure RefResult where
  TotalPages : Int
  OffsetPath : String
  OffsetDate : String
  Refs : List Ref
  LatestWM : Option WriteMarker
deriving DecidableEq, Repr

/-- Lines 726-736 of `GetRefs`: the level named by the form value `level`,
zero when the value is absent. -/
def parseLevel (env : Env) (levelStr : String) : Except GoError Int :=
  if levelStr ≠ "" then
    match Atoi env levelStr with
    | .error err => .error (NewError "invalid_parameters" (env.ErrorText err))
    | .ok level =>
      if level < 0 then
        .error (NewError "invalid_parameters" "Negative level value is not allowed")
      else .ok level
  else .ok 0

/-- Lines 738-764 of `GetRefs`: the query that the form value `refType` names,
with its results `(refs, totalPages, newOffsetPath, newOffsetDate)` or its
error. Each of the three queries is recorded with the page limit that it was
given. -/
def queryRefs (env : Env) (r : Request) (allocationObj : Allocation) (level pageLimit : Int)
    (w : World) : Except GoError (List Ref × Int × String × String) × World :=
  let allocationID := allocationObj.ID
  let path := r.FormValue "path"
  let offsetPath := r.FormValue "offsetPath"
  let offsetDate := r.FormValue "offsetDate"
  let updatedDate := r.FormValue "updatedDate"
  let fileType := r.FormValue "fileType"
  let refType := r.FormValue "refType"
  if refType = "regular" then
    let w2 := w.log (.getRefs pageLimit)
    match env.ReferenceGetRefs w2.db allocationID path offsetPath fileType level
        pageLimit with
    | .error err => (.error err, w2)
    | .ok (refs, totalPages, newOffsetPath) => (.ok (refs, totalPages, newOffsetPath, ""), w2)
  else if refType = "updated" then
    let w2 := w.log (.getUpdatedRefs pageLimit)
    match env.GetUpdatedRefs w2.db allocationID path offsetPath fileType updatedDate
        offsetDate level pageLimit OffsetDateLayout with
    | .error err => (.error err, w2)
    | .ok page => (.ok page, w2)
  else if refType = "deleted" then
    let w2 := w.log (.getDeletedRefs pageLimit)
    match env.GetDeletedRefs w2.db allocationID updatedDate offsetPath offsetDate
        pageLimit OffsetDateLayout with
    | .error err => (.error err, w2)
    | .ok page => (.ok page, w2)
  else
    (.error (NewError "invalid_parameters"
      "refType param should have value regular/updated/deleted"), w)

/-- Lines 714-792 of `GetRefs`: what the method does with the page limit
`pageLimit` once it is fixed: the dates, the level, the query and the latest
write marker. -/
def getRefsPage (env : Env) (r : Request) (allocationObj : Allocation) (pageLimit : Int)
    (w : World) : (Option RefResult × Option GoError) × World :=
  match env.CheckValidDate (r.FormValue "offsetDate") OffsetDateLayout with
  | some err => ((none, some err), w)
  | none =>
  match env.CheckValidDate (r.FormValue "updatedDate") OffsetDateLayout with
  | some err => ((none, some err), w)
  | none =>
  match parseLevel env (r.FormValue "level") with
  | .error err => ((none, some err), w)
  | .ok level =>
  match queryRefs env r allocationObj level pageLimit w with
  | (.error err, w2) => ((none, some err), w2)
  | (.ok (refs, totalPages, newOffsetPath, newOffsetDate), w2) =>
  -- lines 765-773, the lines 448-457 of `CommitWrite` again
  match latestWriteMarker env allocationObj w2 with
  | (.error err, w3) => ((none, some err), w3)
  | (.ok latestWM, w3) =>
    ((some { Refs := refs, TotalPages := totalPages, OffsetPath := newOffsetPath,
             OffsetDate := newOffsetDate, LatestWM := latestWM.map (fun e => e.WM) },
      none), w3)

/-- The method `GetRefs`: the pair `(*RefResult, error)` and the state
afterwards. -/
def GetRefs (env : Env) (r : Request) (w : World) :
    (Option RefResult × Option GoError) × World :=
  match verifyAllocation env r.AllocationTx false w with
  | (.error err, w1) =>
    ((none, some (NewError "invalid_parameters"
      ("Invalid allocation id passed." ++ env.ErrorText err))), w1)
  | (.ok allocationObj, w1) =>
  let signed := verifySignatureFromRequest env r.AllocationTx r.ClientSignature
    allocationObj.OwnerPublicKey
  if signed.1 = false ∨ signed.2 ≠ none then
    ((none, some (NewError "invalid_signature" "Invalid signature")), w1)
  else
  if r.ClientID = "" ∨ allocationObj.OwnerID ≠ r.ClientID then
    ((none, some (NewError "invalid_operation"
      "Operation needs to be performed by the owner of the allocation")), w1)
  else
  let path := r.FormValue "path"
  if path = "" then ((none, some (NewError "invalid_parameters" "Invalid path")), w1)
  else
  let pageLimitStr := r.FormValue "pageLimit"
  -- lines 698-713
  let limit : Except GoError Int :=
    if pageLimitStr = "" then .ok PageLimit
    else
      match Atoi env pageLimitStr with
      | .error _ => .error (NewError "invalid_parameters" "Invalid page limit value type")
      | .ok o =>
        if o ≤ 0 then
          .error (NewError "invalid_parameters"
            "Zero/Negative page limit value is not allowed")
        else if o > PageLimit then .ok PageLimit
        else .ok o
  match limit with
  | .error err => ((none, some err), w1)
  | .ok pageLimit => getRefsPage env r allocationObj pageLimit w1

/-! ## Concurrent commits (`object_operation_handler.go`, lines 396-427) -/

/-- Lines 396-423 of `CommitWrite`: what the method does before it asks for the
mutex of the allocation. When the checks pass, the allocation object that
`verifyAllocation` loaded and the connection id are what the method goes on
with. -/
def commitAdmission (env : Env) (r : Request) (w : World) :
    Except GoError (Allocation × String) × World :=
  if r.Method = "GET" then
    (.error (NewError "invalid_method"
      "Invalid method used for the upload URL. Use POST instead"), w)
  else
  let clientKeyBytes := hexDecode r.ClientKey.data
  match verifyAllocation env r.AllocationTx false w with
  | (.error err, w1) =>
    (.error (NewError "invalid_parameters"
      ("Invalid allocation id passed." ++ env.ErrorText err)), w1)
  | (.ok allocationObj, w1) =>
  if r.ClientID = "" ∨ allocationObj.OwnerID ≠ r.ClientID ∨ r.ClientKey = "" ∨
      env.Hash (.bytes clientKeyBytes) ≠ r.ClientID then
    (.error (NewError "invalid_operation"
      "Operation needs to be performed by the owner of the allocation"), w1)
  else
  match r.ParseMultipartForm with
  | some err => (.error (NewError "request_parse_error" (env.ErrorText err)), w1)
  | none =>
  let connectionID := r.FormValue "connection_id"
  if connectionID = "" then
    (.error (NewError "invalid_parameters" "Invalid connection id passed"), w1)
  else (.ok (allocationObj, connectionID), w1)

/-- A request of `CommitWrite` in flight: not started; stopped at
`mutex.Lock()` (line 426) with the allocation object and the connection id of
its local variables; or returned with its pair `(*CommitResult, error)`. -/
inductive CommitThread where
  | start (r : Request)
  | atLock (r : Request) (allocationObj : Allocation) (connectionID : String)
  | returned (result : Option CommitResult) (err : Option GoError)

/-- The pair that a request has returned, if it has. -/
def CommitThread.outcome : CommitThread → Option (Option CommitResult × Option GoError)
  | .returned result err => some (result, err)
  | _ => none

/-- One step of a request. The first step runs the method up to `mutex.Lock()`.
The second runs the whole section between `mutex.Lock()` and the deferred
`mutex.Unlock()`: the requests of one allocation share the mutex, so no other
request of the allocation runs inside this section, and the writes of the
section are in the store when the next request takes its step. -/
def CommitThread.step (env : Env) (t : CommitThread) (w : World) : CommitThread × World :=
  match t with
  | .start r =>
    match commitAdmission env r w with
    | (.error err, w1) => (.returned none (some err), w1)
    | (.ok (allocationObj, connectionID), w1) => (.atLock r allocationObj connectionID, w1)
  | .atLock r allocationObj connectionID =>
    let locked := CommitWriteLocked env r allocationObj connectionID (w.log .mutexLock)
    (.returned locked.1.1 locked.1.2, locked.2.log .mutexUnlock)
  | .returned result err => (.returned result err, w)

/-- Two requests on one allocation run under a schedule: `false` lets the first
request take its next step, `true` the second. -/
def runCommits (env : Env) : List Bool → CommitThread → CommitThread → World →
    (CommitThread × CommitThread) × World
  | [], a, b, w => ((a, b), w)
  | false :: rest, a, b, w => runCommits env rest (a.step env w).1 b (a.step env w).2
  | true :: rest, a, b, w => runCommits env rest a (b.step env w).1 (b.step env w).2

/-! ## The reference path work list (`storage_handler.go`, lines 511-526 and 637-653) -/

/-- The type `reference.Ref` as the flattening loop sees it: the row and the
slice `Children` of pointers to the refs below it. A value of this type is a
finite tree: no ref is reached from itself. -/
inductive RefTree where
  | node (ref : Ref) (Children : List RefTree)

/-- The row of a ref. -/
def RefTree.ref : RefTree → Ref
  | .node ref _ => ref

/-- The field `Children` of a ref. -/
def RefTree.Children : RefTree → List RefTree
  | .node _ Children => Children

/-- The type `reference.ReferencePath` with the three fields that the loop
assigns. A pointer `*ReferencePath` is the address of a cell: its index in the
list of the cells allocated so far. `Meta` is `none` for the nil map and
`RefList`, the field `List`, is `none` for the nil slice; an entry `none` of a
slice is the nil pointer. -/
structure ReferencePath where
  Meta : Option (List (String × String))
  RefList : Option (List (Option Nat))
  Ref : RefTree

/-- The inner loop `for idx, child := range refToProcess.Ref.Children` (lines
520-524), from index `idx` on, for the cell at address `p`: each turn allocates
`&reference.ReferencePath{Ref: child}` at the next free address, stores the
address in `refToProcess.List[idx]` and appends it to `refsToProcess`. The
result is `none` when the index expression panics: the slice is nil or shorter
than `idx + 1`. -/
def linkChildren (p : Nat) : List RefTree → Nat → List ReferencePath → List Nat →
    Option (List ReferencePath × List Nat)
  | [], _, heap, refsToProcess => some (heap, refsToProcess)
  | child :: more, idx, heap, refsToProcess =>
    let childRefPath := heap.length
    let heap1 := heap ++ [(⟨none, none, child⟩ : ReferencePath)]
    match heap1[p]? with
    | none => none
    | some refToProcess =>
    match refToProcess.RefList with
    | none => none
    | some list =>
    if idx < list.length then
      linkChildren p more (idx + 1)
        (heap1.set p { refToProcess with RefList := some (list.set idx (some childRefPath)) })
        (refsToProcess ++ [childRefPath])
    else none

/-- The loop `for len(refsToProcess) > 0` (lines 514-526 of `getReferencePath`
and, word for word, lines 641-653 of `GetObjectTree`), run for at most `fuel`
turns on the cells `heap` and the queue `refsToProcess`. The last argument
records the address that each turn took from the queue, which the source does
not keep: its length is the number of turns. The result is `none` when the
fuel runs out before the queue is empty or when a turn panics. -/
def referencePathLoop (env : Env) : Nat → List ReferencePath → List Nat → List Nat →
    Option (List ReferencePath × List Nat)
  | _, heap, [], dequeued => some (heap, dequeued)
  | 0, _, _ :: _, _ => none
  | fuel + 1, heap, p :: rest, dequeued =>
    match heap[p]? with
    | none => none
    | some refToProcess =>
    let withMeta : ReferencePath :=
      { refToProcess with Meta := some (env.GetListingData refToProcess.Ref.ref) }
    let withList : ReferencePath :=
      if refToProcess.Ref.Children.length > 0 then
        { withMeta with RefList := some (List.replicate refToProcess.Ref.Children.length none) }
      else withMeta
    match linkChildren p refToProcess.Ref.Children 0 (heap.set p withList) (p :: rest) with
    | none => none
    | some (heap1, refsToProcess) =>
      referencePathLoop env fuel heap1 refsToProcess.tail (dequeued ++ [p])

/-- Lines 511-526 of `getReferencePath` and 637-653 of `GetObjectTree`:
`refPath := &reference.ReferencePath{Ref: rootRef}` is the cell at address 0
and the only entry of the queue when the loop starts. -/
def flattenReferencePath (env : Env) (fuel : Nat) (rootRef : RefTree) :
    Option (List ReferencePath × List Nat) :=
  referencePathLoop env fuel [⟨none, none, rootRef⟩] [0] []

/-! ## A concrete deployment

The collaborators instantiated the simple way, on the data of
`AddCommitTestData` in `helper_integration_test.go`: one allocation
`exampleId` with `blobber_size` 99999999 and root `/`, one connection
`connection_id` of size 1337 holding one change. -/

/-- The allocation row of the test data. -/
def demoAllocation : Allocation :=
  { ID := "exampleId", Tx := "exampleTransaction", TotalSize := 0, UsedSize := 0,
    OwnerID := "exampleOwnerId", PayerID := "examplePayerId", Expiration := 1000,
    AllocationRoot := "/", BlobberSize := 99999999, BlobberSizeUsed := 0,
    IsRedeemRequired := false }

/-- The connection row of the test data with its one change. -/
def demoConnection : AllocationChangeCollector :=
  { ConnectionID := "connection_id", AllocationID := "exampleId",
    ClientID := "exampleOwnerId", Size := 1337,
    Changes := [⟨"connection_id", "rename", 1200, "new_name"⟩], Status := 1 }

/-- The root directory row of the test data. -/
def demoRoot : Ref :=
  { ID := 1234, RefType := "d", AllocationID := "exampleId",
    LookupHash := "exampleId:examplePath", Name := "root", Path := "/",
    Hash := "someHash", ParentPath := "/", Size := 0, ContentHash := "contentHash",
    MerkleRoot := "merkleRoot", ThumbnailHash := "thumbnailHash" }

/-- The write marker row of the test data (the latest marker, for root `/`). -/
def demoLatestMarker : WriteMarkerEntity :=
  { WM := { AllocationRoot := "/", PreviousAllocationRoot := "/",
            AllocationID := "exampleId", Size := 1337, BlobberID := "blobber_id",
            Timestamp := 1, ClientID := "exampleOwnerId", Signature := "sig" },
    ConnectionID := "connection_id", ClientPublicKey := "abcd" }

/-- The tables of the test data; the client has one write pool of 500 tokens
and one read pool of 5 tokens. -/
def demoDB : DB :=
  { allocations := [demoAllocation], connections := [demoConnection],
    writeMarkers := [demoLatestMarker], pendings := [],
    writePools := [⟨"wp1", "exampleOwnerId", "exampleId", "blobber_id", 500, 5000⟩],
    readPools := [⟨"rp1", "exampleOwnerId", "exampleId", "blobber_id", 5, 5000⟩],
    refs := [demoRoot] }

/-- The test data with an empty trace. -/
def demoWorld : World := ⟨demoDB, []⟩

/-- A marker submitted for `demoConnection`, claiming the root `root`. -/
def demoMarker (root : String) (size : Int) : WriteMarker :=
  { AllocationRoot := root, PreviousAllocationRoot := "/", AllocationID := "exampleId",
    Size := size, BlobberID := "blobber_id", Timestamp := 7,
    ClientID := "exampleOwnerId", Signature := "sig" }

/-- A read marker of the owner for the test allocation with the counter `n`. -/
def demoReadMarker (n : Int) : ReadMarker :=
  { ClientID := "exampleOwnerId", ClientPublicKey := "abcd", BlobberID := "blobber_id",
    AllocationID := "exampleId", OwnerID := "exampleOwnerId", Timestamp := 50,
    ReadCounter := n, Signature := "sig" }

/-- A deployment: rows are found by key, a write costs `price` tokens a byte
and a read `price` tokens a block, the balance is the sum of the pools less the
pending amount, the ledger answers with one pool of `ledger` tokens, the
marker check is the previous-root continuity check, `ApplyChanges` appends the
connection id to the hash of the root directory, and the submitted marker
claims the root `claimed` for a size of `size` bytes. -/
def demoEnv (price ledger : Int) (claimed : String) (size : Int) : Env where
  SelfID := "blobber_id"
  Now := 100
  ReadLockTimeout := 10
  WriteLockTimeout := 10
  Hash := fun x =>
    match x with
    | .str s => "H(" ++ s ++ ")"
    | .bytes _ => "exampleOwnerId"
  ErrorText := fun e => e.Code ++ ": " ++ e.Msg
  VerifyAllocationTransaction := fun db tx _ =>
    match db.allocations.find? (fun a => a.Tx == tx) with
    | some a => .ok a
    | none => .error ⟨"", "record not found"⟩
  GetAllocationChanges := fun db cid aid client =>
    match db.connections.find?
      (fun c => c.ConnectionID == cid && c.AllocationID == aid && c.ClientID == client) with
    | some c => .ok c
    | none => .error ⟨"", "record not found"⟩
  ParseWriteMarker := fun s =>
    if s = "" then .error ⟨"", "unexpected end of JSON input"⟩
    else .ok (demoMarker claimed size)
  GetWriteMarkerEntity := fun db root =>
    match db.writeMarkers.find? (fun m => m.WM.AllocationRoot == root) with
    | some m => .ok m
    | none => .error ⟨"", "record not found"⟩
  VerifyMarker := fun _ m a _ =>
    if m.WM.PreviousAllocationRoot = a.AllocationRoot then none
    else some ⟨"write_marker_validation_failed", "Invalid write marker. Prev Allocation root does not match"⟩
  WantWrite := fun _ _ n => price * n
  WantRead := fun _ _ n => price * n
  HaveWrite := fun p wps _ => (wps.map fun x => x.Balance).sum - price * p.PendingWrite
  HaveRead := fun _ rps _ pendNumBlocks => (rps.map fun x => x.Balance).sum - price * pendNumBlocks
  GetPending := fun db client aid bid =>
    match db.pendings.find?
      (fun p => p.ClientID == client && p.AllocationID == aid && p.BlobberID == bid) with
    | some p => .ok p
    | none => .ok ⟨client, aid, bid, 0⟩
  PendingWritePools := fun db p bid untilTs =>
    .ok (db.writePools.filter fun x =>
      x.ClientID == p.ClientID && x.AllocationID == p.AllocationID && x.BlobberID == bid &&
        decide (untilTs < x.ExpireAt))
  RequestWritePools := fun client aid => .ok [⟨"ledger", client, aid, "blobber_id", ledger, 5000⟩]
  SetWritePools := fun table client aid bid fresh =>
    .ok (table.filter (fun x =>
      !(x.ClientID == client && x.AllocationID == aid && x.BlobberID == bid)) ++ fresh)
  PendingSave := fun table p =>
    .ok (table.filter (fun q =>
      !(q.ClientID == p.ClientID && q.AllocationID == p.AllocationID &&
        q.BlobberID == p.BlobberID)) ++ [p])
  ReadPools := fun db client aid bid untilTs =>
    .ok (db.readPools.filter fun x =>
      x.ClientID == client && x.AllocationID == aid && x.BlobberID == bid &&
        decide (untilTs < x.ExpireAt))
  RequestReadPools := fun client aid => .ok [⟨"ledger", client, aid, "blobber_id", ledger, 5000⟩]
  SetReadPools := fun table client aid bid fresh =>
    .ok (table.filter (fun x =>
      !(x.ClientID == client && x.AllocationID == aid && x.BlobberID == bid)) ++ fresh)
  ApplyChanges := fun refs c _ =>
    (refs.map (fun x => if x.Path = "/" then { x with Hash := x.Hash ++ "+" ++ c.ConnectionID }
      else x), none)
  GetReference := fun refs aid path =>
    match refs.find? (fun x => x.AllocationID == aid && x.Path == path) with
    | some x => .ok x
    | none => .error ⟨"", "record not found"⟩
  WriteMarkerSave := fun table m => .ok (table ++ [m])
  AllocationUpdatesError := fun _ _ => none
  UpdatesAssignModel := false
  CommitToFileStore := fun _ _ => none
  CommittedConnection := 2
  DeleteChanges := fun table c =>
    table.map fun x => if x.ConnectionID = c.ConnectionID then { x with Changes := [] } else x
  GetReferenceLookup := fun aid path => aid ++ ":" ++ path
  GetReferenceFromLookupHash := fun refs aid lookup =>
    match refs.find? (fun x => x.AllocationID == aid && x.LookupHash == lookup) with
    | some x => .ok x
    | none => .error ⟨"", "record not found"⟩
  ParseReadMarker := fun s =>
    match ParseInt s with
    | some n => .ok (demoReadMarker n)
    | none => .error ⟨"", "invalid character"⟩
  ReadMarkerVerify := fun _ r m a =>
    match m.LatestRM with
    | some rm =>
      if rm.AllocationID = a.ID ∧ rm.ClientID = r.ClientID then none
      else some ⟨"read_marker_validation_failed", "Read Marker is not for the same allocation"⟩
    | none => some ⟨"invalid_read_marker", "No read marker was found"⟩
  ParseAuthTicket := fun s =>
    if s = "" then .error ⟨"", "unexpected end of JSON input"⟩
    else .ok ⟨"exampleReaderId", "exampleOwnerId", "exampleId", s, "", "f", 5000, 1, "sig"⟩
  AuthTicketVerify := fun t a client =>
    if t.AllocationID = a.ID ∧ t.ClientID = client then none
    else some ⟨"invalid_parameters", "Invalid auth ticket"⟩
  GetLatestReadMarkerEntity := fun db client =>
    match db.readMarkers.find?
      (fun e => (e.LatestRM.map fun m => m.ClientID) == some client) with
    | some e => (some e, none)
    | none => (none, some ⟨"", "record not found"⟩)
  IsRecordNotFound := fun e => e.Msg == "record not found"
  PendNumBlocks := fun _ => .ok 0
  GetFileBlock := fun _ _ _ numBlocks => .ok (List.replicate numBlocks.toNat 0)
  SaveLatestReadMarker := fun table rm _ =>
    .ok (table.filter (fun e => (e.LatestRM.map fun m => m.ClientID) != some rm.ClientID) ++
      [⟨some rm, true⟩])
  FilepathJoin := fun dir name => if dir = "/" then "/" ++ name else dir ++ "/" ++ name
  ParseUploadMeta := fun s =>
    if s = "" then .error ⟨"", "unexpected end of JSON input"⟩
    else .ok ⟨"", "", "new_file", s, "", "", 0, "", 0, ""⟩
  FileStoreWrite := fun _ d content _ =>
    .ok ⟨d.Name, d.Path, "merkle", "content", content.length⟩
  Marshal := fun c =>
    match c with
    | .rename _ _ path newName => "rename " ++ path ++ " " ++ newName
    | .copy _ _ dest src => "copy " ++ src ++ " " ++ dest
    | .delete _ _ _ _ path _ => "delete " ++ path
    | .newFile f => "insert " ++ f.Path
    | .update f => "update " ++ f.Path
  ConnectionSave := fun table c =>
    .ok (table.filter (fun x => x.ConnectionID != c.ConnectionID) ++ [c])
  MiraclToHerumiSig := fun sign => sign
  Verify := fun pbK sign hash => (sign == "signed(" ++ hash ++ ")by(" ++ pbK ++ ")", none)
  CheckValidDate := fun date _ =>
    if date = "" ∨ date.length = 20 then none
    else some ⟨"invalid_parameters", "Invalid date"⟩
  ReferenceGetRefs := fun db aid path _ _ _ pageLimit =>
    .ok ((db.refs.filter fun x =>
        x.AllocationID == aid && path.data.isPrefixOf x.Path.data).take pageLimit.toNat,
      1, "")
  GetUpdatedRefs := fun db aid path _ _ _ _ _ pageLimit _ =>
    .ok ((db.refs.filter fun x =>
        x.AllocationID == aid && path.data.isPrefixOf x.Path.data).take pageLimit.toNat,
      1, "", "")
  GetDeletedRefs := fun _ _ _ _ _ _ _ => .ok ([], 0, "", "")
  GetListingData := fun ref => [("name", ref.Name), ("path", ref.Path), ("type", ref.RefType)]
  AtoiError := fun s => ⟨"", "strconv.Atoi: parsing " ++ s ++ ": invalid syntax"⟩

/-- A commit request of the owner for `connection_id`. -/
def demoRequest : Request :=
  { Method := "POST", AllocationTx := "exampleTransaction", ClientID := "exampleOwnerId",
    ClientKey := "abcd", ParseMultipartForm := none,
    FormValue := fun k =>
      if k = "connection_id" then "connection_id"
      else if k = "write_marker" then "marker" else "" }

/-- The test allocation with a capacity of only 1000 bytes on this blobber. -/
def smallAllocation : Allocation := { demoAllocation with BlobberSize := 1000 }

/-- The test data with `smallAllocation` as the allocation row. -/
def smallWorld : World := ⟨{ demoDB with allocations := [smallAllocation] }, []⟩

/-- The latest accepted marker of `staleWorld`, for the root `H(newer)`. -/
def newerMarker : WriteMarkerEntity :=
  { demoLatestMarker with WM := { demoLatestMarker.WM with AllocationRoot := "H(newer)" } }

/-- The test allocation after another commit moved its root to `H(newer)`. -/
def staleAllocation : Allocation := { demoAllocation with AllocationRoot := "H(newer)" }

/-- The test data after another commit moved the root to `H(newer)`: a marker
whose previous root is `/` is stale. -/
def staleWorld : World :=
  ⟨{ demoDB with allocations := [staleAllocation],
                 writeMarkers := [demoLatestMarker, newerMarker] }, []⟩

/-- The test allocation with a capacity of 2000 bytes, all of it on this
blobber, of which 1000 bytes are used according to `used_size` and none
according to `blobber_size_used`. -/
def sharedAllocation : Allocation :=
  { demoAllocation with TotalSize := 2000, BlobberSize := 2000, UsedSize := 1000 }

/-- The test data with `sharedAllocation` as the allocation row. -/
def sharedWorld : World := ⟨{ demoDB with allocations := [sharedAllocation] }, []⟩

/-- The test allocation with a capacity of 100000 bytes, 2000 of them on this
blobber, of which 10 bytes are used according to `used_size` and none
according to `blobber_size_used`. -/
def wideAllocation : Allocation :=
  { demoAllocation with TotalSize := 100000, BlobberSize := 2000, UsedSize := 10 }

/-- The test data with `wideAllocation` as the allocation row. -/
def wideWorld : World := ⟨{ demoDB with allocations := [wideAllocation] }, []⟩

/-- The root that the commit of `connection_id` leads to on the test data. -/
def demoNewRoot : String := "H(someHash+connection_id:7)"

/-- A commit request of the owner that names a connection nobody opened. -/
def unknownConnectionRequest : Request :=
  { demoRequest with
    FormValue := fun k =>
      if k = "connection_id" then "no_such_connection"
      else if k = "write_marker" then "marker" else "" }

/-- The file `/some_file` of the download test data. -/
def demoFile : Ref :=
  { ID := 123, RefType := "f", AllocationID := "exampleId",
    LookupHash := "exampleId:/some_file", Name := "some_file", Path := "/some_file",
    Hash := "someHash", ParentPath := "/", Size := 1337, ContentHash := "tmpMonWenMyFile",
    MerkleRoot := "merkleRoot", ThumbnailHash := "thumbnailHash" }

/-- The download test data: the owner has already redeemed a read marker with
the counter 5. -/
def downloadWorld : World :=
  ⟨{ demoDB with refs := [demoRoot, demoFile],
                 readMarkers := [⟨some (demoReadMarker 5), false⟩] }, []⟩

/-- The download test data for a client that never read: no read marker is
stored. -/
def firstDownloadWorld : World := ⟨{ demoDB with refs := [demoRoot, demoFile] }, []⟩

/-- A download request of the owner for `/some_file`, block 1, with the form
values `num_blocks` and `read_marker` (the counter of the submitted marker). -/
def downloadRequest (numBlocks counter : String) : Request :=
  { Method := "POST", AllocationTx := "exampleTransaction", ClientID := "exampleOwnerId",
    ClientKey := "abcd", ParseMultipartForm := none,
    FormValue := fun k =>
      if k = "path" then "/some_file"
      else if k = "block_num" then "1"
      else if k = "num_blocks" then numBlocks
      else if k = "read_marker" then counter else "" }

/-- The context that the checks of `DownloadFile` establish on the download
test data for `numBlocks` blocks and a marker with the counter `counter`. -/
def demoDownloadContext (numBlocks counter : Int) : DownloadContext :=
  ⟨demoAllocation, demoFile, demoReadMarker counter, 1, numBlocks, "exampleOwnerId"⟩

/-! ## Runs of `CommitWrite` -/

/-- The request went through the method, allocation, owner, form and
connection checks of `CommitWrite` (lines 396-435): `allocationObj` is the
allocation that `verifyAllocation` loaded and `connectionObj` the connection
that `GetAllocationChanges` loaded, with at least one change. -/
def PassesChecks (env : Env) (r : Request) (w : World) (allocationObj : Allocation)
    (connectionObj : AllocationChangeCollector) : Prop :=
  r.Method ≠ "GET" ∧ r.AllocationTx ≠ "" ∧
  env.VerifyAllocationTransaction w.db r.AllocationTx false = .ok allocationObj ∧
  env.Now ≤ allocationObj.Expiration ∧
  r.ClientID ≠ "" ∧ allocationObj.OwnerID = r.ClientID ∧ r.ClientKey ≠ "" ∧
  env.Hash (.bytes (hexDecode r.ClientKey.data)) = r.ClientID ∧
  r.ParseMultipartForm = none ∧ r.FormValue "connection_id" ≠ "" ∧
  env.GetAllocationChanges w.db (r.FormValue "connection_id") allocationObj.ID r.ClientID
    = .ok connectionObj ∧
  connectionObj.Changes ≠ []

/-- The state in which the locked part of `CommitWrite` has loaded the
connection: three calls after the start. -/
def connectionLoaded (w : World) : World :=
  ((w.log .verifyAllocationTransaction).log .mutexLock).log .getAllocationChanges

/-- The state in which `CommitWrite` calls `VerifyMarker`. -/
def verifyWorld (env : Env) (allocationObj : Allocation) (w : World) : World :=
  (latestWriteMarker env allocationObj (connectionLoaded w)).2.log .verifyMarker

/-- The run reaches the call of `VerifyMarker` (line 462): the early checks and
the capacity check passed, the marker parsed to `writeMarker` and the lookup of
the latest marker gave `latestWM`. -/
def ReachesVerify (env : Env) (r : Request) (w : World) (allocationObj : Allocation)
    (connectionObj : AllocationChangeCollector) (writeMarker : WriteMarker)
    (latestWM : Option WriteMarkerEntity) : Prop :=
  PassesChecks env r w allocationObj connectionObj ∧
  add64 allocationObj.BlobberSizeUsed connectionObj.Size ≤ allocationObj.BlobberSize ∧
  env.ParseWriteMarker (r.FormValue "write_marker") = .ok writeMarker ∧
  (latestWriteMarker env allocationObj (connectionLoaded w)).1 = .ok latestWM

/-- The run reaches the pre-redeem (line 473): it reaches `VerifyMarker`, which
accepts the marker. -/
def ReachesPreRedeem (env : Env) (r : Request) (w : World) (allocationObj : Allocation)
    (connectionObj : AllocationChangeCollector) (writeMarker : WriteMarker)
    (latestWM : Option WriteMarkerEntity) : Prop :=
  ReachesVerify env r w allocationObj connectionObj writeMarker latestWM ∧
  env.VerifyMarker w.db ⟨writeMarker, "", ""⟩ allocationObj connectionObj = none

/-- The state in which the pre-redeem of `CommitWrite` has returned. -/
def redeemedWorld (env : Env) (allocationObj : Allocation) (writeMarker : WriteMarker)
    (w : World) : World :=
  (writePreRedeem env allocationObj writeMarker (verifyWorld env allocationObj w)).2

/-- The state in which `CommitWrite` compares the roots (line 487): the staged
changes are applied and the root directory has been read. -/
def rootCheckWorld (env : Env) (allocationObj : Allocation)
    (connectionObj : AllocationChangeCollector) (writeMarker : WriteMarker)
    (w : World) : World :=
  let w1 := (redeemedWorld env allocationObj writeMarker w).log .applyChanges
  (w1.setDB { w1.db with
    refs := (env.ApplyChanges w1.db.refs connectionObj writeMarker.AllocationRoot).1 }).log
      .getReference

/-- The root that `CommitWrite` recomputes (line 485). -/
def recomputedRoot (env : Env) (rootRef : Ref) (writeMarker : WriteMarker) : String :=
  env.Hash (.str (rootRef.Hash ++ ":" ++ FormatInt writeMarker.Timestamp))

/-- The run reaches the comparison of the roots (line 487): the pre-redeem
admitted the write, `ApplyChanges` succeeded on the reference rows and the
root directory read afterwards is `rootRef`. -/
def ReachesRootCheck (env : Env) (r : Request) (w : World) (allocationObj : Allocation)
    (connectionObj : AllocationChangeCollector) (writeMarker : WriteMarker)
    (latestWM : Option WriteMarkerEntity) (rootRef : Ref) : Prop :=
  ReachesPreRedeem env r w allocationObj connectionObj writeMarker latestWM ∧
  (writePreRedeem env allocationObj writeMarker (verifyWorld env allocationObj w)).1 = none ∧
  (env.ApplyChanges w.db.refs connectionObj writeMarker.AllocationRoot).2 = none ∧
  env.GetReference (env.ApplyChanges w.db.refs connectionObj writeMarker.AllocationRoot).1
    allocationObj.ID "/" = .ok rootRef

/-- The run fails after the pre-redeem admitted the write and before the
persistence step: at `ApplyChanges`, at reading the root reference, or at the
comparison of the roots (lines 477-495). -/
def FailsBeforePersist (env : Env) (r : Request) (w : World) (allocationObj : Allocation)
    (connectionObj : AllocationChangeCollector) (writeMarker : WriteMarker)
    (latestWM : Option WriteMarkerEntity) : Prop :=
  ReachesPreRedeem env r w allocationObj connectionObj writeMarker latestWM ∧
  (writePreRedeem env allocationObj writeMarker (verifyWorld env allocationObj w)).1 = none ∧
  ((env.ApplyChanges w.db.refs connectionObj writeMarker.AllocationRoot).2 ≠ none ∨
   (∃ err, env.GetReference
      (env.ApplyChanges w.db.refs connectionObj writeMarker.AllocationRoot).1
      allocationObj.ID "/" = .error err) ∨
   (∃ rootRef, env.GetReference
      (env.ApplyChanges w.db.refs connectionObj writeMarker.AllocationRoot).1
      allocationObj.ID "/" = .ok rootRef ∧
    recomputedRoot env rootRef writeMarker ≠ writeMarker.AllocationRoot))

/-- The calls of `CommitWrite` up to and including the pre-redeem. -/
def admissionCalls : List Call :=
  [.verifyAllocationTransaction, .mutexLock, .getAllocationChanges, .getWriteMarkerEntity,
    .verifyMarker, .getPending, .writePools, .requestWritePools, .setWritePools,
    .addPendingWrite, .pendingSave]

/-- Lines 116-133 of `writePreRedeem` on the transaction state `db`: the write
is priced (size and price positive), the pending record `pend` is loaded and
the balance on the locally cached pools is `have0`. -/
def CachedWriteBalance (env : Env) (alloc : Allocation) (wm : WriteMarker) (db : DB)
    (pend : Pending) (have0 : Int) : Prop :=
  0 < wm.Size ∧ 0 < env.WantWrite alloc env.SelfID wm.Size ∧
  env.GetPending db wm.ClientID alloc.ID env.SelfID = .ok pend ∧
  ∃ wps, env.PendingWritePools db pend env.SelfID
      (add64 env.Now env.WriteLockTimeout) = .ok wps ∧
    env.HaveWrite pend wps alloc = have0

/-- Lines 134-153 of `writePreRedeem`: the cached balance is short, the ledger
answers, the snapshot is persisted (the write pool table is then `table`), the
pools are read again and the recomputed balance is `have1`. -/
def RefreshedWriteBalance (env : Env) (alloc : Allocation) (wm : WriteMarker) (db : DB)
    (pend : Pending) (table : List WritePool) (have1 : Int) : Prop :=
  ∃ have0, CachedWriteBalance env alloc wm db pend have0 ∧
    have0 < env.WantWrite alloc env.SelfID wm.Size ∧
    ∃ fresh wps2, env.RequestWritePools wm.ClientID alloc.ID = .ok fresh ∧
      env.SetWritePools db.writePools wm.ClientID alloc.ID env.SelfID fresh = .ok table ∧
      env.PendingWritePools { db with writePools := table } pend env.SelfID
        (add64 env.Now env.WriteLockTimeout) = .ok wps2 ∧
      env.HaveWrite pend wps2 alloc = have1

/-- The error of line 156 of `writePreRedeem`. -/
def notEnoughWriteTokens (env : Env) (alloc : Allocation) (wm : WriteMarker)
    (have1 : Int) : GoError :=
  NewError "write_pre_redeem" ("not enough " ++
    "tokens in write pools (client -> allocation ->  blobber)" ++
    "(" ++ wm.ClientID ++ " -> " ++ alloc.ID ++ " -> " ++
    wm.BlobberID ++ "), have " ++ FormatInt have1 ++
    ", want " ++ FormatInt (env.WantWrite alloc env.SelfID wm.Size))

/-- The balance check of `writePreRedeem` is met on the transaction state
`db`: on the cached pools (`db1` is `db`), or after the one refresh from the
ledger (`db1` is `db` with the refreshed pool table). -/
def WriteAdmitted (env : Env) (alloc : Allocation) (wm : WriteMarker) (db : DB)
    (pend : Pending) (db1 : DB) : Prop :=
  (∃ have0, CachedWriteBalance env alloc wm db pend have0 ∧
    env.WantWrite alloc env.SelfID wm.Size ≤ have0 ∧ db1 = db) ∨
  (∃ table have1, RefreshedWriteBalance env alloc wm db pend table have1 ∧
    env.WantWrite alloc env.SelfID wm.Size ≤ have1 ∧
    db1 = { db with writePools := table })

/-- The error of line 92 of `readPreRedeem`. -/
def notEnoughReadTokens : GoError :=
  NewError "read_pre_redeem" ("not enough " ++
    "tokens in client's read pools associated with the" ++
    " allocation->blobber")

/-- The request went through the method, allocation, owner and form checks
of `CommitWrite` and carries a connection id (lines 396-423); `allocationObj`
is the allocation that `verifyAllocation` loaded. -/
def PassesOwnerChecks (env : Env) (r : Request) (w : World) (allocationObj : Allocation) :
    Prop :=
  r.Method ≠ "GET" ∧ r.AllocationTx ≠ "" ∧
  env.VerifyAllocationTransaction w.db r.AllocationTx false = .ok allocationObj ∧
  env.Now ≤ allocationObj.Expiration ∧
  r.ClientID ≠ "" ∧ allocationObj.OwnerID = r.ClientID ∧ r.ClientKey ≠ "" ∧
  env.Hash (.bytes (hexDecode r.ClientKey.data)) = r.ClientID ∧
  r.ParseMultipartForm = none ∧ r.FormValue "connection_id" ≠ ""

/-- The calls that the checks of `DownloadFile` can make (lines 175-304). -/
def downloadCheckCalls : List Call :=
  [.verifyAllocationTransaction, .readMarkerVerify, .getReferenceFromLookupHash,
    .authTicketVerify]

/-- The state in which `DownloadFile` has looked up the latest read marker
entity of the client (line 311). -/
def latestLookedUp (env : Env) (r : Request) (w : World) : World :=
  (downloadChecks env r w).2.log .getLatestReadMarkerEntity

/-- The request passes the parameter, marker, path and auth checks of
`DownloadFile`, which establish the context `c`, and the lookup of the latest
read marker entity of the client gives the pointer `rme` with no error or with
the record-not-found error (lines 175-315). -/
def ReachesCounterCheck (env : Env) (r : Request) (w : World) (c : DownloadContext)
    (rme : Option ReadMarkerEntity) : Prop :=
  (downloadChecks env r w).1 = .ok c ∧
  (env.GetLatestReadMarkerEntity w.db r.ClientID).1 = rme ∧
  ∀ e, (env.GetLatestReadMarkerEntity w.db r.ClientID).2 = some e →
    env.IsRecordNotFound e = true

/-- The call of `readPreRedeem` made by `DownloadFile` (line 338) from the
state `w` with the pending blocks `pendNumBlocks`. -/
def servePreRedeem (env : Env) (c : DownloadContext) (pendNumBlocks : Int) (w : World) :
    Option GoError × World :=
  readPreRedeem env c.allocationObj c.numBlocks pendNumBlocks c.clientIDForReadRedeem w

/-! ## Runs of the staging handlers -/

/-- The three handlers that stage a change on a connection. -/
inductive StagingOp where
  | writeFile
  | renameObject
  | copyObject
deriving DecidableEq, Repr

/-- The handler named by `op`. -/
def stage (op : StagingOp) (env : Env) (r : Request) (w : World) : Staged × World :=
  match op with
  | .writeFile => WriteFile env r w
  | .renameObject => RenameObject env r w
  | .copyObject => CopyObject env r w

/-- The sum of the `Size` fields of a sequence of changes, added up in `int64`
as Go adds them. -/
def sizeOfChanges (changes : List AllocationChange) : Int :=
  changes.foldl (fun total c => add64 total c.Size) 0

/-- The sum of the `Size` fields of a sequence of changes as integers. -/
def exactSizeOfChanges (changes : List AllocationChange) : Int :=
  (changes.map fun c => c.Size).sum

/-- The lookup hash under which `RenameObject` and `CopyObject` look for the
object (lines 558-565 and 639-646): the form value `path_hash`, or the hash of
the form value `path`. -/
def objectLookupHash (env : Env) (r : Request) (allocationObj : Allocation) : String :=
  if r.FormValue "path_hash" = "" then
    env.GetReferenceLookup allocationObj.ID (r.FormValue "path")
  else r.FormValue "path_hash"

/-- The request went through the checks of `CopyObject` (lines 615-667):
`allocationObj` is the allocation that `verifyAllocation` loaded,
`connectionObj` the connection that `GetAllocationChanges` loaded and
`objectRef` the source object. -/
def ReachesCopyDestination (env : Env) (r : Request) (w : World) (allocationObj : Allocation)
    (connectionObj : AllocationChangeCollector) (objectRef : Ref) : Prop :=
  r.Method ≠ "GET" ∧ r.AllocationTx ≠ "" ∧
  env.VerifyAllocationTransaction w.db r.AllocationTx false = .ok allocationObj ∧
  env.Now ≤ allocationObj.Expiration ∧
  r.ClientID ≠ "" ∧ r.FormValue "dest" ≠ "" ∧
  (r.FormValue "path_hash" ≠ "" ∨ r.FormValue "path" ≠ "") ∧
  allocationObj.OwnerID = r.ClientID ∧ r.FormValue "connection_id" ≠ "" ∧
  env.GetAllocationChanges w.db (r.FormValue "connection_id") allocationObj.ID r.ClientID =
    .ok connectionObj ∧
  env.GetReferenceFromLookupHash w.db.refs allocationObj.ID
    (objectLookupHash env r allocationObj) = .ok objectRef

/-- The calls of `CopyObject` up to the lookup of the source object. -/
def copyCheckCalls : List Call :=
  [.verifyAllocationTransaction, .getAllocationChanges, .mutexLock,
    .getReferenceFromLookupHash]

/-- The request went through the checks of `WriteFile` for an insert or an
update and its meta data was parsed (lines 741-795): `allocationObj` is the
allocation that `verifyAllocation` loaded, `connectionObj` the connection that
`GetAllocationChanges` loaded and `formData` the parsed meta data. -/
def ReachesUpload (env : Env) (r : Request) (w : World) (allocationObj : Allocation)
    (connectionObj : AllocationChangeCollector) (formData : UpdateFileChange) : Prop :=
  r.Method ≠ "GET" ∧ r.Method ≠ "DELETE" ∧ r.AllocationTx ≠ "" ∧
  env.VerifyAllocationTransaction w.db r.AllocationTx false = .ok allocationObj ∧
  env.Now ≤ allocationObj.Expiration ∧
  r.ClientID ≠ "" ∧
  (allocationObj.OwnerID = r.ClientID ∨ allocationObj.PayerID = r.ClientID) ∧
  r.ParseMultipartForm = none ∧ r.FormValue "connection_id" ≠ "" ∧
  env.GetAllocationChanges w.db (r.FormValue "connection_id") allocationObj.ID
    allocationObj.OwnerID = .ok connectionObj ∧
  env.ParseUploadMeta (r.FormValue (if r.Method = "PUT" then "updateMeta" else "uploadMeta")) =
    .ok formData

/-- The calls of a `WriteFile` run that ends at the test of the existing
reference. -/
def existenceCheckCalls : List Call :=
  [.verifyAllocationTransaction, .getAllocationChanges, .mutexLock, .getReference,
    .mutexUnlock]

/-- Where the size of the change staged by the handler `op` comes from: zero
for a rename, the size of the source object for a copy, zero less the size of
the deleted file for a delete, and the size that the file store reports less
the size of the existing file (zero for an insert) for an upload. -/
def StagedSize (op : StagingOp) (env : Env) (r : Request) (db : DB)
    (allocationObj : Allocation) (before : AllocationChangeCollector)
    (change : AllocationChange) : Prop :=
  match op with
  | .renameObject => change.Operation = RENAME_OPERATION ∧ change.Size = 0
  | .copyObject =>
    change.Operation = COPY_OPERATION ∧
    ∃ objectRef, env.GetReferenceFromLookupHash db.refs allocationObj.ID
        (objectLookupHash env r allocationObj) = .ok objectRef ∧
      change.Size = objectRef.Size
  | .writeFile =>
    if r.Method = "DELETE" then
      change.Operation = DELETE_OPERATION ∧
      ∃ fileRef, env.GetReference db.refs before.AllocationID (r.FormValue "path") =
          .ok fileRef ∧
        change.Size = sub64 0 fileRef.Size
    else if r.Method = "PUT" then
      change.Operation = UPDATE_OPERATION ∧
      ∃ formData existing origfile stored,
        env.ParseUploadMeta (r.FormValue "updateMeta") = .ok formData ∧
        env.GetReference db.refs allocationObj.ID formData.Path = .ok existing ∧
        r.FormFile "uploadFile" = .ok origfile ∧
        env.FileStoreWrite allocationObj.ID
          ⟨formData.Filename, formData.Path, "", existing.OnCloud⟩ origfile.Content
          before.ConnectionID = .ok stored ∧
        change.Size = sub64 stored.Size existing.Size
    else
      change.Operation = INSERT_OPERATION ∧
      ∃ formData origfile stored,
        env.ParseUploadMeta (r.FormValue "uploadMeta") = .ok formData ∧
        (∀ existing, env.GetReference db.refs allocationObj.ID formData.Path ≠
          .ok existing) ∧
        r.FormFile "uploadFile" = .ok origfile ∧
        env.FileStoreWrite allocationObj.ID ⟨formData.Filename, formData.Path, "", false⟩
          origfile.Content before.ConnectionID = .ok stored ∧
        change.Size = sub64 stored.Size 0

/-- The directory `/copy` of the copy test data (`AddCopyObjectData` in
`helper_integration_test.go`). -/
def copyDir : Ref :=
  { ID := 1234, RefType := "d", AllocationID := "exampleId",
    LookupHash := "exampleId:/copy", Name := "root", Path := "/copy",
    Hash := "someHash", ParentPath := "/", Size := 0, ContentHash := "contentHash",
    MerkleRoot := "merkleRoot", ThumbnailHash := "thumbnailHash" }

/-- The connection row of the copy test data: size 1337 and no change row. -/
def copyConnection : AllocationChangeCollector := { demoConnection with Changes := [] }

/-- The copy test data: the directory `/copy` and the file `/some_file`. -/
def copyWorld : World :=
  ⟨{ demoDB with connections := [copyConnection], refs := [copyDir, demoFile] }, []⟩

/-- A copy request of the owner for `/some_file` with the destination `dest`. -/
def copyRequest (dest : String) : Request :=
  { Method := "POST", AllocationTx := "exampleTransaction", ClientID := "exampleOwnerId",
    ClientKey := "abcd", ParseMultipartForm := none,
    FormValue := fun k =>
      if k = "path" then "/some_file"
      else if k = "dest" then dest
      else if k = "connection_id" then "connection_id" else "" }

/-- A rename request of the owner: `/some_file` becomes `new_name`. -/
def renameRequest : Request :=
  { Method := "POST", AllocationTx := "exampleTransaction", ClientID := "exampleOwnerId",
    ClientKey := "abcd", ParseMultipartForm := none,
    FormValue := fun k =>
      if k = "path" then "/some_file"
      else if k = "new_name" then "new_name"
      else if k = "connection_id" then "connection_id" else "" }

/-- An upload request of the owner with the method `method` for the path
`path`, the part `uploadFile` holding `content`. -/
def uploadRequest (method path : String) (content : List Nat) : Request :=
  { Method := method, AllocationTx := "exampleTransaction", ClientID := "exampleOwnerId",
    ClientKey := "abcd", ParseMultipartForm := none,
    FormValue := fun k =>
      if k = "connection_id" then "connection_id"
      else if k = "uploadMeta" ∨ k = "updateMeta" ∨ k = "path" then path else "",
    FormFile := fun k =>
      if k = "uploadFile" then .ok ⟨"new_file", content⟩
      else .error ⟨"", "http: no such file"⟩ }

/-- The connection of the test data with the size of its one change. -/
def balancedConnection : AllocationChangeCollector := { demoConnection with Size := 1200 }

/-- The test data with the file `/some_file` and the directory `/copy`, the
size of the connection being the size of its one change. -/
def stagingWorld : World :=
  ⟨{ demoDB with connections := [balancedConnection],
                 refs := [demoRoot, copyDir, demoFile] }, []⟩

/-! ## Data for the auth ticket check -/

/-- Following the spec (section 6, the auth-ticket verifier: access to a path or
its subtree, by prefix-matching the anchor path against the ancestry of the
requested path):
the parent path `parent` of a requested reference is the anchor path or lies
below it. -/
def liesInSubtree (anchor parent : String) : Bool :=
  parent == anchor ||
    HasPrefix parent (if anchor.data.getLast? = some '/' then anchor else anchor ++ "/")

/-- A directory `/a` of the allocation of the test data. -/
def anchorDir : Ref :=
  { ID := 201, RefType := "d", AllocationID := "exampleId", LookupHash := "exampleId:/a",
    Name := "a", Path := "/a", Hash := "hashA", ParentPath := "/", Size := 0,
    ContentHash := "", MerkleRoot := "", ThumbnailHash := "" }

/-- A file with the path `dir/name` in the allocation of the test data. -/
def fileIn (dir name : String) : Ref :=
  { ID := 202, RefType := "f", AllocationID := "exampleId",
    LookupHash := "exampleId:" ++ dir ++ "/" ++ name, Name := name,
    Path := dir ++ "/" ++ name, Hash := "hashF", ParentPath := dir, Size := 10,
    ContentHash := "", MerkleRoot := "", ThumbnailHash := "" }

/-- The test data with the root directory, the directory `/a` and the file
`/some_file`. -/
def ticketWorld : World :=
  ⟨{ demoDB with refs := [demoRoot, anchorDir, demoFile] }, []⟩

/-! ## Runs of `GetRefs` -/

/-- Following the spec's words: the effective page limit for the form value
`pageLimit`: 100 when the value is absent, `min(o, 100)` when it parses to an
integer `o >= 1`, and none (the request is refused) otherwise. -/
def effectivePageLimit (pageLimitStr : String) : Option Int :=
  if pageLimitStr = "" then some 100
  else
    match ParseInt pageLimitStr with
    | none => none
    | some o => if 1 ≤ o then some (min o 100) else none

/-- The calls of the three page queries with the page limit `n`. -/
def pageQueries (n : Int) : List Call := [.getRefs n, .getUpdatedRefs n, .getDeletedRefs n]

/-- The request went through the allocation, signature, owner and path checks
of `GetRefs` (lines 676-695); `allocationObj` is the allocation that
`verifyAllocation` loaded. -/
def ReachesPageLimit (env : Env) (r : Request) (w : World) (allocationObj : Allocation) :
    Prop :=
  r.AllocationTx ≠ "" ∧
  env.VerifyAllocationTransaction w.db r.AllocationTx false = .ok allocationObj ∧
  env.Now ≤ allocationObj.Expiration ∧
  verifySignatureFromRequest env r.AllocationTx r.ClientSignature
    allocationObj.OwnerPublicKey = (true, none) ∧
  r.ClientID ≠ "" ∧ allocationObj.OwnerID = r.ClientID ∧ r.FormValue "path" ≠ ""

/-- A request of the owner for the references under `/` with the form values
`pageLimit` and `refType`. -/
def refsRequest (pageLimit refType : String) : Request :=
  { Method := "GET", AllocationTx := "exampleTransaction", ClientID := "exampleOwnerId",
    ClientKey := "abcd", ParseMultipartForm := none,
    ClientSignature :=
      "signed(H(exampleTransaction))by(aaaaaaaaaaaaaaaaaaaaaaaaaaaaaaaaaaaaaaaaaaaaaaaaa)",
    FormValue := fun k =>
      if k = "path" then "/"
      else if k = "pageLimit" then pageLimit
      else if k = "refType" then refType else "" }

/-- The test data with the public key of the owner on the allocation. -/
def refsWorld : World :=
  ⟨{ demoDB with
     allocations := [{ demoAllocation with
       OwnerPublicKey := "aaaaaaaaaaaaaaaaaaaaaaaaaaaaaaaaaaaaaaaaaaaaaaaaa" }],
     refs := [demoRoot, copyDir, demoFile] }, []⟩

/-! ## Two commits on one allocation -/

/-- The marker of the first request: it claims the root that the changes of
`connection_id` lead to, from the previous root `/`. -/
def raceMarkerA : WriteMarker := demoMarker "H(someHash+connection_id:7)" 1337

/-- The marker of the second request: it claims the root that the changes of
`connection_b` lead to after those of `connection_id`, from the previous root
`/` as well. -/
def raceMarkerB : WriteMarker := demoMarker "H(someHash+connection_id+connection_b:7)" 1337

/-- The deployment of the test data with free writes, where the form value
`write_marker` names one of the two markers. -/
def raceEnv : Env :=
  { demoEnv 0 0 "" 0 with
    ParseWriteMarker := fun s =>
      if s = "marker_a" then .ok raceMarkerA
      else if s = "marker_b" then .ok raceMarkerB
      else .error ⟨"", "unexpected end of JSON input"⟩ }

/-- A second connection of the owner, of 1337 bytes as the first. -/
def connectionB : AllocationChangeCollector :=
  { demoConnection with ConnectionID := "connection_b" }

/-- The test data with the two connections, the allocation having a capacity of
`capacity` bytes on this blobber. -/
def raceWorld (capacity : Int) : World :=
  ⟨{ demoDB with
     allocations := [{ demoAllocation with BlobberSize := capacity }],
     connections := [demoConnection, connectionB] }, []⟩

/-- The commit request of the owner for the connection `cid` with the marker
named `marker`. -/
def raceRequest (cid marker : String) : Request :=
  { demoRequest with
    FormValue := fun k =>
      if k = "connection_id" then cid
      else if k = "write_marker" then marker else "" }

/-! ## Reference trees -/

mutual
/-- The number of nodes of a reference tree. -/
def RefTree.size : RefTree → Nat
  | .node _ Children => 1 + sizeForest Children
/-- The number of nodes of a list of reference trees. -/
def sizeForest : List RefTree → Nat
  | [] => 0
  | t :: ts => t.size + sizeForest ts
end

/-- The nodes of the trees of `queue` in breadth-first order, `fuel` of them at
most: the first tree of the queue, then what follows from the queue with the
children of that tree at its end. -/
def breadthFirst : Nat → List RefTree → List RefTree
  | 0, _ => []
  | _ + 1, [] => []
  | fuel + 1, t :: ts => t :: breadthFirst fuel (ts ++ t.Children)

/-- The nodes of the trees of `level` and of the levels below them, level by
level: the trees of `level` in their order, then the levels of their children.
At most `depth` levels are listed. -/
def levelOrder : Nat → List RefTree → List RefTree
  | 0, _ => []
  | depth + 1, level => level ++ levelOrder depth (level.flatMap RefTree.Children)

/-- The cell `&reference.ReferencePath{Ref: t}` as it is allocated. -/
def freshCell (t : RefTree) : ReferencePath := ⟨none, none, t⟩

/-- The cell of `t` after its turn, when the cells of its children are at the
addresses from `first` on. -/
def doneCell (env : Env) (t : RefTree) (first : Nat) : ReferencePath :=
  ⟨some (env.GetListingData t.ref),
    if t.Children.length > 0 then some ((List.range' first t.Children.length).map some)
    else none, t⟩

/-- The slice `list` after the addresses `addr`, `addr + 1`, ... of `n` cells
have been stored at the indices `idx`, `idx + 1`, ... -/
def fillPointers : List (Option Nat) → Nat → Nat → Nat → List (Option Nat)
  | list, _, _, 0 => list
  | list, idx, addr, n + 1 => fillPointers (list.set idx (some addr)) (idx + 1) (addr + 1) n

/-- The cells that the loop leaves for the trees of `queue`, the first of which
is at the address `addr`: the cell of the first tree points behind the cells of
the queue, where the cells of its children are appended. -/
def layout (env : Env) : Nat → Nat → List RefTree → List ReferencePath
  | 0, _, _ => []
  | _ + 1, _, [] => []
  | fuel + 1, addr, t :: ts =>
    doneCell env t (addr + 1 + ts.length) :: layout env fuel (addr + 1) (ts ++ t.Children)

/-- A directory `name` with the given children. -/
def dirTree (name : String) (Children : List RefTree) : RefTree :=
  .node { demoRoot with Name := name, Path := "/" ++ name } Children

/-- A tree of six refs: the root has the directories `a` and `b`; `a` holds
the directories `c`, which holds `e`, and `d`. -/
def sampleTree : RefTree :=
  dirTree "" [dirTree "a" [dirTree "c" [dirTree "e" []], dirTree "d" []], dirTree "b" []]

/-! ## A later attempt -/

/-- The deployment `env` at another time: the clock reads `now` and the ledger
answers the request for the write pools with `ledger`; the code of the
collaborators and the configuration are those of `env`. -/
def Env.later (env : Env) (now : Int)
    (ledger : String → String → Except GoError (List WritePool)) : Env :=
  { env with Now := now, RequestWritePools := ledger }

/-! ## Frame lemmas -/

@[simp] theorem World.log_db (w : World) (c : Call) : (w.log c).db = w.db := rfl

@[simp] theorem World.log_trace (w : World) (c : Call) :
    (w.log c).trace = w.trace ++ [c] := rfl

@[simp] theorem World.setDB_db (w : World) (d : DB) : (w.setDB d).db = d := rfl

@[simp] theorem World.setDB_trace (w : World) (d : DB) : (w.setDB d).trace = w.trace := rfl

/-- Under `PassesChecks`, `CommitWrite` is its locked part run on the loaded
allocation, between the lock and the unlock of the mutex. -/
theorem CommitWrite_of_checks (env : Env) (r : Request) (w : World)
    (allocationObj : Allocation) (connectionObj : AllocationChangeCollector)
    (h : PassesChecks env r w allocationObj connectionObj) :
    CommitWrite env r w =
      ((CommitWriteLocked env r allocationObj (r.FormValue "connection_id")
          ((w.log .verifyAllocationTransaction).log .mutexLock)).1,
       (CommitWriteLocked env r allocationObj (r.FormValue "connection_id")
          ((w.log .verifyAllocationTransaction).log .mutexLock)).2.log .mutexUnlock) := by
  obtain ⟨hm, htx, hva, hexp, hc, ho, hk, hh, hp, hcid, -, -⟩ := h
  simp [CommitWrite, verifyAllocation, hm, htx, hva, not_lt.mpr hexp, hc, ho, hk, hh, hp, hcid]

/-- On `int64` values the wrapped reading is the value itself. -/
theorem wrap64_of_inInt64 (x : Int) (h : inInt64 x = true) : wrap64 x = x := by
  unfold inInt64 at h
  unfold wrap64
  norm_num at h ⊢
  omega

/-- Every error of `writePreRedeem` carries the code `write_pre_redeem`. -/
theorem writePreRedeem_error_code (env : Env) (alloc : Allocation) (wm : WriteMarker)
    (w : World) (e : GoError) (h : (writePreRedeem env alloc wm w).1 = some e) :
    e.Code = "write_pre_redeem" := by
  unfold writePreRedeem savePendingWrite at h
  simp only [NewErrorf, NewError] at h
  repeat' split at h
  all_goals first
    | (simp at h; done)
    | (simp at h; rw [← h])

/-- An error of the persistence step is one of its own three. -/
theorem commitPersist_error_code (env : Env) (r : Request) (allocationObj : Allocation)
    (connectionObj : AllocationChangeCollector) (wm : WriteMarker) (root : String)
    (w : World) (e : GoError)
    (h : (commitPersist env r allocationObj connectionObj wm root w).1.2 = some e) :
    e.Code = "write_marker_error" ∨ e.Code = "allocation_write_error" ∨
      e.Code = "file_store_error" := by
  unfold commitPersist at h
  simp only [NewError] at h
  repeat' split at h
  all_goals first
    | (simp at h; done)
    | (simp at h; rw [← h]; simp)

/-- An error of `commitVerified` does not carry the code `max_allocation_size`
unless `ApplyChanges` or `GetReference` handed one through. -/
theorem commitVerified_error_code (env : Env) (r : Request) (allocationObj : Allocation)
    (connectionObj : AllocationChangeCollector) (wm : WriteMarker)
    (latestWM : Option WriteMarkerEntity) (w : World) (e : GoError)
    (hApply : ∀ refs c root e, (env.ApplyChanges refs c root).2 = some e →
      e.Code ≠ "max_allocation_size")
    (hGetRef : ∀ refs a p e, env.GetReference refs a p = .error e →
      e.Code ≠ "max_allocation_size")
    (h : (commitVerified env r allocationObj connectionObj wm latestWM w).1.2 = some e) :
    e.Code ≠ "max_allocation_size" := by
  unfold commitVerified at h
  split at h
  · rename_i err w1 hpre
    simp at h
    subst h
    have := writePreRedeem_error_code env allocationObj wm w err (by rw [hpre])
    rw [this]; decide
  · dsimp only at h
    split at h
    · rename_i err happ
      simp at h
      subst h
      exact hApply _ _ _ _ happ
    · split at h
      · rename_i err hget
        simp at h
        subst h
        exact hGetRef _ _ _ _ hget
      · split at h
        · simp [NewError] at h
          rw [← h]; simp
        · rcases commitPersist_error_code _ _ _ _ _ _ _ _ h with h1 | h1 | h1 <;>
            rw [h1] <;> decide

/-- C1: for a call that passed the method, allocation, owner and connection
checks, when `BlobberSizeUsed + connection.Size` (the `int64` sum the code
computes) exceeds `BlobberSize`, `CommitWrite` returns no result and the
error `max_allocation_size`, the transaction state is untouched and the only
calls made are the allocation lookup, the lock, the connection lookup and the
unlock (no marker verification, pre-redeem, `ApplyChanges`, marker save or
allocation update); when the sum is at most `BlobberSize`, the error of
`CommitWrite` never has that code, the errors that `ApplyChanges` and
`GetReference` hand through unchanged being taken not to carry it. The
`int64` sum is the exact sum whenever the exact sum is an `int64`. -/
theorem CommitWrite_max_allocation_size (env : Env) (r : Request) (w : World)
    (allocationObj : Allocation) (connectionObj : AllocationChangeCollector)
    (h : PassesChecks env r w allocationObj connectionObj)
    (hApply : ∀ refs c root e, (env.ApplyChanges refs c root).2 = some e →
      e.Code ≠ "max_allocation_size")
    (hGetRef : ∀ refs a p e, env.GetReference refs a p = .error e →
      e.Code ≠ "max_allocation_size") :
    (add64 allocationObj.BlobberSizeUsed connectionObj.Size > allocationObj.BlobberSize →
      CommitWrite env r w =
        ((none, some (NewError "max_allocation_size"
            "Max size reached for the allocation with this blobber")),
         ⟨w.db, w.trace ++ [.verifyAllocationTransaction, .mutexLock,
            .getAllocationChanges, .mutexUnlock]⟩)) ∧
    (add64 allocationObj.BlobberSizeUsed connectionObj.Size ≤ allocationObj.BlobberSize →
      ∀ e, (CommitWrite env r w).1.2 = some e → e.Code ≠ "max_allocation_size") ∧
    (inInt64 (allocationObj.BlobberSizeUsed + connectionObj.Size) = true →
      add64 allocationObj.BlobberSizeUsed connectionObj.Size =
        allocationObj.BlobberSizeUsed + connectionObj.Size) := by
  rw [CommitWrite_of_checks env r w allocationObj connectionObj h]
  obtain ⟨-, -, -, -, -, -, -, -, -, -, hconn, hch⟩ := h
  have hlen : connectionObj.Changes.length ≠ 0 := by
    simpa [List.length_eq_zero] using hch
  refine ⟨?_, ?_, fun hr => wrap64_of_inInt64 _ hr⟩
  · intro hgt
    simp [CommitWriteLocked, hconn, hlen, hgt, World.log]
  · intro hle e he
    have hngt : ¬ (allocationObj.BlobberSize <
        add64 allocationObj.BlobberSizeUsed connectionObj.Size) := not_lt.mpr hle
    simp only [CommitWriteLocked, World.log_db, hconn, hlen, if_false, gt_iff_lt, hngt] at he
    split at he
    · simp [NewError] at he
      rw [← he]; simp
    · split at he
      · rename_i err w2 hl
        simp at he
        subst he
        unfold latestWriteMarker at hl
        split at hl
        · simp at hl
        · dsimp only at hl
          split at hl
          · simp [NewError] at hl
            rw [← hl.1]; simp
          · simp at hl
      · split at he
        · simp [NewError] at he
          rw [← he]; simp
        · exact commitVerified_error_code _ _ _ _ _ _ _ _ hApply hGetRef he

/-- Witness for C1: the 1337-byte connection on an allocation of capacity 1000
is refused with `max_allocation_size` after four calls. -/
theorem CommitWrite_max_allocation_size_witness :
    CommitWrite (demoEnv 0 0 "/" 1337) demoRequest smallWorld =
      ((none, some (NewError "max_allocation_size"
          "Max size reached for the allocation with this blobber")),
       ⟨smallWorld.db, smallWorld.trace ++ [.verifyAllocationTransaction, .mutexLock,
          .getAllocationChanges, .mutexUnlock]⟩) :=
  (CommitWrite_max_allocation_size (demoEnv 0 0 "/" 1337) demoRequest smallWorld
    smallAllocation demoConnection
    ⟨by decide, by decide, rfl, by decide, by decide, rfl, by decide, rfl, rfl,
      by decide, rfl, by decide⟩
    (by intro refs c root e h; simp [demoEnv] at h)
    (by
      intro refs a p e h
      simp only [demoEnv] at h
      split at h
      · simp at h
      · simp at h
        rw [← h]; simp)).1 (by decide)

/-- The pre-redeem of a write touches only the pending records and the cached
write pools. -/
theorem writePreRedeem_frame (env : Env) (alloc : Allocation) (wm : WriteMarker)
    (w : World) :
    (writePreRedeem env alloc wm w).2.db.allocations = w.db.allocations ∧
    (writePreRedeem env alloc wm w).2.db.connections = w.db.connections ∧
    (writePreRedeem env alloc wm w).2.db.writeMarkers = w.db.writeMarkers ∧
    (writePreRedeem env alloc wm w).2.db.readPools = w.db.readPools ∧
    (writePreRedeem env alloc wm w).2.db.refs = w.db.refs := by
  unfold writePreRedeem savePendingWrite
  dsimp only
  repeat' split
  all_goals simp

/-- Looking up the latest write marker leaves the transaction state alone. -/
theorem latestWriteMarker_db (env : Env) (allocationObj : Allocation) (w : World) :
    (latestWriteMarker env allocationObj w).2.db = w.db := by
  unfold latestWriteMarker
  dsimp only
  repeat' split
  all_goals simp

@[simp] theorem connectionLoaded_db (w : World) : (connectionLoaded w).db = w.db := rfl

@[simp] theorem verifyWorld_db (env : Env) (allocationObj : Allocation) (w : World) :
    (verifyWorld env allocationObj w).db = w.db := by
  simp [verifyWorld, latestWriteMarker_db]

/-- The calls made up to and including `VerifyMarker`. -/
theorem verifyWorld_trace (env : Env) (allocationObj : Allocation) (w : World) :
    (verifyWorld env allocationObj w).trace =
      w.trace ++ [.verifyAllocationTransaction, .mutexLock, .getAllocationChanges] ++
        (if allocationObj.AllocationRoot = "" then [] else [.getWriteMarkerEntity]) ++
        [.verifyMarker] := by
  unfold verifyWorld latestWriteMarker connectionLoaded
  dsimp only
  repeat' split
  all_goals simp

/-- A run that reaches `VerifyMarker` and is refused there. -/
theorem CommitWrite_verify_fails (env : Env) (r : Request) (w : World)
    (allocationObj : Allocation) (connectionObj : AllocationChangeCollector)
    (writeMarker : WriteMarker) (latestWM : Option WriteMarkerEntity) (err : GoError)
    (h : ReachesVerify env r w allocationObj connectionObj writeMarker latestWM)
    (hv : env.VerifyMarker w.db ⟨writeMarker, "", ""⟩ allocationObj connectionObj = some err) :
    CommitWrite env r w =
      ((some { AllocationRoot := allocationObj.AllocationRoot
               WriteMarker := latestWM.map (fun e => e.WM)
               Success := false
               ErrorMessage := "Verification of write marker failed. " ++ env.ErrorText err
               Changes := [] },
        some (NewError "write_marker_verification_failed"
          ("Verification of write marker failed. " ++ env.ErrorText err))),
       (verifyWorld env allocationObj w).log .mutexUnlock) := by
  obtain ⟨hp, hcap, hparse, hl⟩ := h
  rw [CommitWrite_of_checks env r w allocationObj connectionObj hp]
  obtain ⟨-, -, -, -, -, -, -, -, -, -, hconn, hch⟩ := hp
  have hlen : connectionObj.Changes.length ≠ 0 := by
    simpa [List.length_eq_zero] using hch
  have hngt : ¬ (allocationObj.BlobberSize <
      add64 allocationObj.BlobberSizeUsed connectionObj.Size) := not_lt.mpr hcap
  have hdb := latestWriteMarker_db env allocationObj (connectionLoaded w)
  cases hX : latestWriteMarker env allocationObj (connectionLoaded w) with
  | mk res w2 =>
    rw [hX] at hl hdb
    simp only at hl hdb
    subst hl
    simp only [connectionLoaded] at hX
    simp only [CommitWriteLocked, World.log_db, hconn, hlen, if_false, gt_iff_lt, hngt,
      hparse, hX]
    simp [hdb, hv, verifyWorld, connectionLoaded, hX, CommitResult.zero]

/-- A run that reaches the pre-redeem continues as `commitVerified`. -/
theorem CommitWrite_verified (env : Env) (r : Request) (w : World)
    (allocationObj : Allocation) (connectionObj : AllocationChangeCollector)
    (writeMarker : WriteMarker) (latestWM : Option WriteMarkerEntity)
    (h : ReachesPreRedeem env r w allocationObj connectionObj writeMarker latestWM) :
    CommitWrite env r w =
      ((commitVerified env r allocationObj connectionObj writeMarker latestWM
          (verifyWorld env allocationObj w)).1,
       (commitVerified env r allocationObj connectionObj writeMarker latestWM
          (verifyWorld env allocationObj w)).2.log .mutexUnlock) := by
  obtain ⟨⟨hp, hcap, hparse, hl⟩, hv⟩ := h
  rw [CommitWrite_of_checks env r w allocationObj connectionObj hp]
  obtain ⟨-, -, -, -, -, -, -, -, -, -, hconn, hch⟩ := hp
  have hlen : connectionObj.Changes.length ≠ 0 := by
    simpa [List.length_eq_zero] using hch
  have hngt : ¬ (allocationObj.BlobberSize <
      add64 allocationObj.BlobberSizeUsed connectionObj.Size) := not_lt.mpr hcap
  have hdb := latestWriteMarker_db env allocationObj (connectionLoaded w)
  cases hX : latestWriteMarker env allocationObj (connectionLoaded w) with
  | mk res w2 =>
    rw [hX] at hl hdb
    simp only at hl hdb
    subst hl
    simp only [connectionLoaded] at hX
    simp only [CommitWriteLocked, World.log_db, hconn, hlen, if_false, gt_iff_lt, hngt,
      hparse, hX]
    simp [hdb, hv, verifyWorld, connectionLoaded, hX]

/-- The latest marker handed to the client is the one stored for the loaded
root, and `nil` when that root is empty. -/
theorem latestWriteMarker_ok (env : Env) (allocationObj : Allocation) (w : World)
    (latestWM : Option WriteMarkerEntity)
    (h : (latestWriteMarker env allocationObj w).1 = .ok latestWM) :
    (allocationObj.AllocationRoot = "" → latestWM = none) ∧
    (allocationObj.AllocationRoot ≠ "" → ∃ e,
      env.GetWriteMarkerEntity w.db allocationObj.AllocationRoot = .ok e ∧
      latestWM = some e) := by
  unfold latestWriteMarker at h
  split at h
  · rename_i hroot
    simp at h
    exact ⟨fun _ => h.symm, fun hne => absurd hroot hne⟩
  · rename_i hroot
    dsimp only at h
    split at h
    · simp at h
    · rename_i e he
      simp at h
      exact ⟨fun h0 => absurd h0 hroot, fun _ => ⟨e, by simpa using he, h.symm⟩⟩

/-- C5: when `VerifyMarker` (the collaborator that holds the previous-root
continuity check) refuses the marker, `CommitWrite` returns a `CommitResult`
with `Success == false`, the root of the loaded allocation (the stored root
when the stored row is the loaded one) and the marker stored for that root
(`nil` when the root is empty), with the error
`write_marker_verification_failed`; the transaction state is unchanged and the
calls made are the lookups, the lock, `VerifyMarker` and the unlock, so that
`writePreRedeem`, `ApplyChanges`, the marker `Save`, the allocation update,
`CommitToFileStore` and `DeleteChanges` are not invoked. -/
theorem CommitWrite_marker_verification_failed (env : Env) (r : Request) (w : World)
    (allocationObj : Allocation) (connectionObj : AllocationChangeCollector)
    (writeMarker : WriteMarker) (latestWM : Option WriteMarkerEntity) (err : GoError)
    (h : ReachesVerify env r w allocationObj connectionObj writeMarker latestWM)
    (hv : env.VerifyMarker w.db ⟨writeMarker, "", ""⟩ allocationObj connectionObj = some err) :
    (∃ res, (CommitWrite env r w).1 =
        (some res, some (NewError "write_marker_verification_failed"
          ("Verification of write marker failed. " ++ env.ErrorText err))) ∧
      res.Success = false ∧
      res.AllocationRoot = allocationObj.AllocationRoot ∧
      res.WriteMarker = latestWM.map (fun e => e.WM) ∧
      ((∀ row ∈ w.db.allocations, row.ID = allocationObj.ID → row = allocationObj) →
        ∀ row ∈ (CommitWrite env r w).2.db.allocations, row.ID = allocationObj.ID →
          res.AllocationRoot = row.AllocationRoot)) ∧
    ((allocationObj.AllocationRoot = "" → latestWM = none) ∧
      (allocationObj.AllocationRoot ≠ "" → ∃ e,
        env.GetWriteMarkerEntity w.db allocationObj.AllocationRoot = .ok e ∧
        latestWM = some e)) ∧
    (CommitWrite env r w).2.db = w.db ∧
    (CommitWrite env r w).2.trace =
      w.trace ++ [.verifyAllocationTransaction, .mutexLock, .getAllocationChanges] ++
        (if allocationObj.AllocationRoot = "" then [] else [.getWriteMarkerEntity]) ++
        [.verifyMarker, .mutexUnlock] := by
  have hl := latestWriteMarker_ok env allocationObj (connectionLoaded w) latestWM h.2.2.2
  rw [CommitWrite_verify_fails env r w allocationObj connectionObj writeMarker latestWM err h hv]
  refine ⟨⟨_, rfl, rfl, rfl, rfl, ?_⟩, ?_, ?_, ?_⟩
  · intro hst row hrow hid
    simp only [World.log_db, verifyWorld_db] at hrow
    rw [hst row hrow hid]
  · simpa using hl
  · simp
  · simp [verifyWorld_trace]

/-- Witness for C5: a marker whose previous root is `/`, submitted after the
stored root moved to `H(newer)`. -/
theorem CommitWrite_marker_verification_failed_witness :
    (CommitWrite (demoEnv 0 0 "x" 1337) demoRequest staleWorld).2.db = staleWorld.db :=
  (CommitWrite_marker_verification_failed (demoEnv 0 0 "x" 1337) demoRequest staleWorld
    staleAllocation demoConnection (demoMarker "x" 1337) (some newerMarker)
    ⟨"write_marker_validation_failed",
      "Invalid write marker. Prev Allocation root does not match"⟩
    ⟨⟨by decide, by decide, rfl, by decide, by decide, rfl, by decide, rfl, rfl,
      by decide, rfl, by decide⟩, by decide, rfl, rfl⟩
    rfl).2.2.1

set_option linter.unusedTactic false in
/-- The pre-redeem of a write makes only pool and pending calls. -/
theorem writePreRedeem_trace (env : Env) (alloc : Allocation) (wm : WriteMarker)
    (w : World) :
    ∃ calls, (writePreRedeem env alloc wm w).2.trace = w.trace ++ calls ∧
      ∀ c ∈ calls, c ∈ [Call.getPending, .writePools, .requestWritePools, .setWritePools,
        .addPendingWrite, .pendingSave] := by
  unfold writePreRedeem savePendingWrite
  dsimp only
  repeat' split
  all_goals first
    | (refine ⟨[], ?_, ?_⟩ <;> simp; done)
    | (refine ⟨[.getPending], ?_, ?_⟩ <;> simp; done)
    | (refine ⟨[.getPending, .writePools], ?_, ?_⟩ <;> simp; done)
    | (refine ⟨[.getPending, .writePools, .addPendingWrite, .pendingSave], ?_, ?_⟩ <;> simp; done)
    | (refine ⟨[.getPending, .writePools, .requestWritePools], ?_, ?_⟩ <;> simp; done)
    | (refine ⟨[.getPending, .writePools, .requestWritePools, .setWritePools], ?_, ?_⟩ <;> simp; done)
    | (refine ⟨[.getPending, .writePools, .requestWritePools, .setWritePools, .writePools], ?_, ?_⟩ <;> simp; done)
    | (refine ⟨[.getPending, .writePools, .requestWritePools, .setWritePools, .writePools,
        .addPendingWrite, .pendingSave], ?_, ?_⟩ <;> simp; done)

@[simp] theorem redeemedWorld_refs (env : Env) (allocationObj : Allocation)
    (wm : WriteMarker) (w : World) :
    (redeemedWorld env allocationObj wm w).db.refs = w.db.refs := by
  simp [redeemedWorld, (writePreRedeem_frame env allocationObj wm _).2.2.2.2]

/-- A run that reaches the comparison of the roots and finds them different. -/
theorem CommitWrite_root_mismatch (env : Env) (r : Request) (w : World)
    (allocationObj : Allocation) (connectionObj : AllocationChangeCollector)
    (writeMarker : WriteMarker) (latestWM : Option WriteMarkerEntity) (rootRef : Ref)
    (h : ReachesRootCheck env r w allocationObj connectionObj writeMarker latestWM rootRef)
    (hne : recomputedRoot env rootRef writeMarker ≠ writeMarker.AllocationRoot) :
    CommitWrite env r w =
      ((some { AllocationRoot := allocationObj.AllocationRoot
               WriteMarker := latestWM.map (fun e => e.WM)
               Success := false
               ErrorMessage := "Allocation root in the write marker does not match the " ++
                 "calculated allocation root. Expected hash: " ++
                 recomputedRoot env rootRef writeMarker
               Changes := [] },
        some (NewError "allocation_root_mismatch"
          ("Allocation root in the write marker does not match the " ++
            "calculated allocation root. Expected hash: " ++
            recomputedRoot env rootRef writeMarker))),
       (rootCheckWorld env allocationObj connectionObj writeMarker w).log .mutexUnlock) := by
  obtain ⟨hr, hpre, happ, hget⟩ := h
  rw [CommitWrite_verified env r w allocationObj connectionObj writeMarker latestWM hr]
  have hrefs := redeemedWorld_refs env allocationObj writeMarker w
  unfold redeemedWorld at hrefs
  cases hX : writePreRedeem env allocationObj writeMarker (verifyWorld env allocationObj w) with
  | mk res w1 =>
    rw [hX] at hpre hrefs
    simp only at hpre hrefs
    subst hpre
    unfold recomputedRoot at hne
    simp [commitVerified, hX, hrefs, happ, hget, hne, rootCheckWorld, redeemedWorld,
      recomputedRoot, CommitResult.zero]

/-- A run that reaches the comparison of the roots and finds them equal goes
on to the persistence step. -/
theorem CommitWrite_root_match (env : Env) (r : Request) (w : World)
    (allocationObj : Allocation) (connectionObj : AllocationChangeCollector)
    (writeMarker : WriteMarker) (latestWM : Option WriteMarkerEntity) (rootRef : Ref)
    (h : ReachesRootCheck env r w allocationObj connectionObj writeMarker latestWM rootRef)
    (heq : recomputedRoot env rootRef writeMarker = writeMarker.AllocationRoot) :
    CommitWrite env r w =
      ((commitPersist env r allocationObj connectionObj writeMarker
          (recomputedRoot env rootRef writeMarker)
          (rootCheckWorld env allocationObj connectionObj writeMarker w)).1,
       (commitPersist env r allocationObj connectionObj writeMarker
          (recomputedRoot env rootRef writeMarker)
          (rootCheckWorld env allocationObj connectionObj writeMarker w)).2.log
            .mutexUnlock) := by
  obtain ⟨hr, hpre, happ, hget⟩ := h
  rw [CommitWrite_verified env r w allocationObj connectionObj writeMarker latestWM hr]
  have hrefs := redeemedWorld_refs env allocationObj writeMarker w
  unfold redeemedWorld at hrefs
  cases hX : writePreRedeem env allocationObj writeMarker (verifyWorld env allocationObj w) with
  | mk res w1 =>
    rw [hX] at hpre hrefs
    simp only at hpre hrefs
    subst hpre
    have heq2 := heq
    unfold recomputedRoot at heq2
    simp [commitVerified, hX, hrefs, happ, hget, heq2, rootCheckWorld, redeemedWorld,
      recomputedRoot]

/-- The calls made up to the comparison of the roots: none of them is the
marker save, the allocation update, the file-store commit or the deletion of
the staged changes. -/
theorem rootCheckWorld_trace (env : Env) (allocationObj : Allocation)
    (connectionObj : AllocationChangeCollector) (wm : WriteMarker) (w : World) :
    ∃ calls, (rootCheckWorld env allocationObj connectionObj wm w).trace = w.trace ++ calls ∧
      Call.writeMarkerSave ∉ calls ∧ Call.allocationUpdates ∉ calls ∧
      Call.commitToFileStore ∉ calls ∧ Call.deleteChanges ∉ calls ∧
      Call.connectionUpdates ∉ calls ∧ Call.mutexUnlock ∉ calls := by
  obtain ⟨calls, hc, hmem⟩ :=
    writePreRedeem_trace env allocationObj wm (verifyWorld env allocationObj w)
  refine ⟨[.verifyAllocationTransaction, .mutexLock, .getAllocationChanges] ++
      (if allocationObj.AllocationRoot = "" then [] else [.getWriteMarkerEntity]) ++
      [.verifyMarker] ++ calls ++ [.applyChanges, .getReference], ?_, ?_⟩
  · simp [rootCheckWorld, redeemedWorld, hc, verifyWorld_trace]
  · have hno : ∀ c, c ∈ calls → c ≠ Call.writeMarkerSave ∧ c ≠ Call.allocationUpdates ∧
        c ≠ Call.commitToFileStore ∧ c ≠ Call.deleteChanges ∧
        c ≠ Call.connectionUpdates ∧ c ≠ Call.mutexUnlock := by
      intro c hcm
      have := hmem c hcm
      simp at this
      rcases this with h | h | h | h | h | h <;> subst h <;> simp
    refine ⟨?_, ?_, ?_, ?_, ?_, ?_⟩ <;>
    · split <;> simp <;> intro hin
      · first
          | exact (hno _ hin).1 rfl
          | exact (hno _ hin).2.1 rfl
          | exact (hno _ hin).2.2.1 rfl
          | exact (hno _ hin).2.2.2.1 rfl
          | exact (hno _ hin).2.2.2.2.1 rfl
          | exact (hno _ hin).2.2.2.2.2 rfl
      · first
          | exact (hno _ hin).1 rfl
          | exact (hno _ hin).2.1 rfl
          | exact (hno _ hin).2.2.1 rfl
          | exact (hno _ hin).2.2.2.1 rfl
          | exact (hno _ hin).2.2.2.2.1 rfl
          | exact (hno _ hin).2.2.2.2.2 rfl

/-- Up to the comparison of the roots only the pending records, the cached
write pools and the reference rows can have changed. -/
theorem rootCheckWorld_frame (env : Env) (allocationObj : Allocation)
    (connectionObj : AllocationChangeCollector) (wm : WriteMarker) (w : World) :
    (rootCheckWorld env allocationObj connectionObj wm w).db.allocations = w.db.allocations ∧
    (rootCheckWorld env allocationObj connectionObj wm w).db.connections = w.db.connections ∧
    (rootCheckWorld env allocationObj connectionObj wm w).db.writeMarkers =
      w.db.writeMarkers ∧
    (rootCheckWorld env allocationObj connectionObj wm w).db.readPools = w.db.readPools ∧
    (rootCheckWorld env allocationObj connectionObj wm w).db.refs =
      (env.ApplyChanges w.db.refs connectionObj wm.AllocationRoot).1 := by
  obtain ⟨h1, h2, h3, h4, h5⟩ :=
    writePreRedeem_frame env allocationObj wm (verifyWorld env allocationObj w)
  simp [rootCheckWorld, redeemedWorld, h1, h2, h3, h4, h5]

/-- C4: in a run that reaches the comparison of the roots and in which the
recomputed root `Hash(rootRef.Hash + ":" + timestamp)` differs from the root
claimed by the marker, `CommitWrite` returns a `CommitResult` with
`Success == false`, the root of the allocation as it was loaded and the marker
stored for that root (`nil` when that root is empty), together with the error
`allocation_root_mismatch`; the run calls neither the marker `Save`, the
allocation update, `CommitToFileStore` nor `DeleteChanges`, and the write
marker, allocation and connection tables are as before. -/
theorem CommitWrite_allocation_root_mismatch (env : Env) (r : Request) (w : World)
    (allocationObj : Allocation) (connectionObj : AllocationChangeCollector)
    (writeMarker : WriteMarker) (latestWM : Option WriteMarkerEntity) (rootRef : Ref)
    (h : ReachesRootCheck env r w allocationObj connectionObj writeMarker latestWM rootRef)
    (hne : recomputedRoot env rootRef writeMarker ≠ writeMarker.AllocationRoot) :
    (∃ res, (CommitWrite env r w).1 =
        (some res, some (NewError "allocation_root_mismatch"
          ("Allocation root in the write marker does not match the " ++
            "calculated allocation root. Expected hash: " ++
            recomputedRoot env rootRef writeMarker))) ∧
      res.Success = false ∧
      res.AllocationRoot = allocationObj.AllocationRoot ∧
      res.WriteMarker = latestWM.map (fun e => e.WM)) ∧
    ((allocationObj.AllocationRoot = "" → latestWM = none) ∧
      (allocationObj.AllocationRoot ≠ "" → ∃ e,
        env.GetWriteMarkerEntity w.db allocationObj.AllocationRoot = .ok e ∧
        latestWM = some e)) ∧
    (∃ calls, (CommitWrite env r w).2.trace = w.trace ++ calls ∧
      Call.writeMarkerSave ∉ calls ∧ Call.allocationUpdates ∉ calls ∧
      Call.commitToFileStore ∉ calls ∧ Call.deleteChanges ∉ calls) ∧
    (CommitWrite env r w).2.db.writeMarkers = w.db.writeMarkers ∧
    (CommitWrite env r w).2.db.allocations = w.db.allocations ∧
    (CommitWrite env r w).2.db.connections = w.db.connections := by
  have hl := latestWriteMarker_ok env allocationObj (connectionLoaded w) latestWM h.1.1.2.2.2
  rw [CommitWrite_root_mismatch env r w allocationObj connectionObj writeMarker latestWM
    rootRef h hne]
  obtain ⟨f1, f2, f3, -, -⟩ := rootCheckWorld_frame env allocationObj connectionObj writeMarker w
  obtain ⟨calls, hc, n1, n2, n3, n4, -, -⟩ :=
    rootCheckWorld_trace env allocationObj connectionObj writeMarker w
  refine ⟨⟨_, rfl, rfl, rfl, rfl⟩, by simpa using hl, ⟨calls ++ [.mutexUnlock], ?_, ?_, ?_, ?_, ?_⟩,
    ?_, ?_, ?_⟩
  · simp [hc]
  · simpa using n1
  · simpa using n2
  · simpa using n3
  · simpa using n4
  · simpa using f3
  · simpa using f1
  · simpa using f2

/-- Witness for C4: on the test data the commit of `connection_id` leads to the
root `H(someHash+connection_id:7)`; a marker claiming `bad` is turned down. -/
theorem CommitWrite_allocation_root_mismatch_witness :
    (CommitWrite (demoEnv 0 0 "bad" 1337) demoRequest demoWorld).2.db.allocations =
      demoWorld.db.allocations :=
  (CommitWrite_allocation_root_mismatch (demoEnv 0 0 "bad" 1337) demoRequest demoWorld
    demoAllocation demoConnection (demoMarker "bad" 1337) (some demoLatestMarker)
    { demoRoot with Hash := "someHash+connection_id" }
    ⟨⟨⟨⟨by decide, by decide, rfl, by decide, by decide, rfl, by decide, rfl, rfl,
      by decide, rfl, by decide⟩, by decide, rfl, rfl⟩, rfl⟩, rfl, rfl, rfl⟩
    (by decide)).2.2.2.2.1

/-- What a successful `verifyAllocation` says. -/
theorem verifyAllocation_ok (env : Env) (tx : String) (readonly : Bool) (w w1 : World)
    (alloc : Allocation) (h : verifyAllocation env tx readonly w = (.ok alloc, w1)) :
    tx ≠ "" ∧ env.VerifyAllocationTransaction w.db tx readonly = .ok alloc ∧
      env.Now ≤ alloc.Expiration ∧ w1 = w.log .verifyAllocationTransaction := by
  unfold verifyAllocation at h
  split at h
  · simp at h
  rename_i htx
  dsimp only at h
  split at h
  · simp at h
  rename_i a hv
  split at h
  · simp at h
  rename_i hexp
  simp at h
  obtain ⟨h1, h2⟩ := h
  subst h1
  exact ⟨htx, by simpa using hv, not_lt.mp hexp, h2.symm⟩

/-- A run of `commitVerified` from the state after `VerifyMarker` that returns
no error. -/
theorem commitVerified_success_inv (env : Env) (r : Request) (w : World)
    (allocationObj : Allocation) (connectionObj : AllocationChangeCollector)
    (writeMarker : WriteMarker) (latestWM : Option WriteMarkerEntity)
    (h : (commitVerified env r allocationObj connectionObj writeMarker latestWM
      (verifyWorld env allocationObj w)).1.2 = none) :
    (writePreRedeem env allocationObj writeMarker (verifyWorld env allocationObj w)).1 = none ∧
    (env.ApplyChanges w.db.refs connectionObj writeMarker.AllocationRoot).2 = none ∧
    ∃ rootRef,
      env.GetReference (env.ApplyChanges w.db.refs connectionObj writeMarker.AllocationRoot).1
        allocationObj.ID "/" = .ok rootRef ∧
      recomputedRoot env rootRef writeMarker = writeMarker.AllocationRoot ∧
      (commitPersist env r allocationObj connectionObj writeMarker
        (recomputedRoot env rootRef writeMarker)
        (rootCheckWorld env allocationObj connectionObj writeMarker w)).1.2 = none := by
  have hrefs := redeemedWorld_refs env allocationObj writeMarker w
  unfold commitVerified at h
  unfold rootCheckWorld redeemedWorld
  unfold redeemedWorld at hrefs
  cases hX : writePreRedeem env allocationObj writeMarker (verifyWorld env allocationObj w) with
  | mk res w1 =>
    rw [hX] at h hrefs
    simp only at hrefs
    cases res with
    | some err => simp at h
    | none =>
      simp only [World.log_db, World.setDB_db, hrefs] at h ⊢
      split at h
      · simp at h
      rename_i happ
      split at h
      · simp at h
      rename_i rootRef hget
      split at h
      · simp at h
      rename_i heq
      simp only [ne_eq, not_not] at heq
      refine ⟨trivial, happ, rootRef, hget, heq, ?_⟩
      simpa [recomputedRoot] using h

/-- A run of `CommitWrite` that returns no error went through every check:
it reached the comparison of the roots, found them equal and its persistence
step returned no error. -/
theorem CommitWrite_success_inv (env : Env) (r : Request) (w : World)
    (h : (CommitWrite env r w).1.2 = none) :
    ∃ allocationObj connectionObj writeMarker latestWM rootRef,
      ReachesRootCheck env r w allocationObj connectionObj writeMarker latestWM rootRef ∧
      recomputedRoot env rootRef writeMarker = writeMarker.AllocationRoot ∧
      (commitPersist env r allocationObj connectionObj writeMarker
        (recomputedRoot env rootRef writeMarker)
        (rootCheckWorld env allocationObj connectionObj writeMarker w)).1.2 = none := by
  unfold CommitWrite at h
  split at h
  · simp at h
  rename_i hm
  dsimp only at h
  split at h
  · simp at h
  rename_i allocationObj w1 hva
  split at h
  · simp at h
  rename_i hown
  split at h
  · simp at h
  rename_i hparse
  split at h
  · simp at h
  rename_i hcid
  obtain ⟨htx, hv, hexp, hw1⟩ := verifyAllocation_ok _ _ _ _ _ _ hva
  subst hw1
  simp only [not_or, ne_eq, not_not] at hown
  obtain ⟨hc, ho, hk, hh⟩ := hown
  simp only at h
  unfold CommitWriteLocked at h
  dsimp only at h
  split at h
  · simp at h
  rename_i connectionObj hconn
  split at h
  · simp at h
  rename_i hlen
  split at h
  · simp at h
  rename_i hcap
  split at h
  · simp at h
  rename_i writeMarker hwm
  split at h
  · simp at h
  rename_i latestWM w2 hl
  split at h
  · simp at h
  rename_i hver
  have hp : PassesChecks env r w allocationObj connectionObj :=
    ⟨hm, htx, hv, hexp, hc, ho, hk, hh, hparse, hcid, by simpa using hconn,
      by intro h0; exact hlen (by simp [h0])⟩
  have hl1 : (latestWriteMarker env allocationObj (connectionLoaded w)).1 = .ok latestWM := by
    simp only [connectionLoaded]; rw [hl]
  have hw2 : w2.log .verifyMarker = verifyWorld env allocationObj w := by
    simp only [verifyWorld, connectionLoaded]; rw [hl]
  have hdb2 : w2.db = w.db := by
    have := latestWriteMarker_db env allocationObj (connectionLoaded w)
    simp only [connectionLoaded] at this
    rw [hl] at this
    simpa using this
  rw [hw2] at h
  have hrv : ReachesPreRedeem env r w allocationObj connectionObj writeMarker latestWM :=
    ⟨⟨hp, not_lt.mp hcap, hwm, hl1⟩, by simpa [hdb2] using hver⟩
  obtain ⟨h1, h2, rootRef, h3, h4, h5⟩ :=
    commitVerified_success_inv env r w allocationObj connectionObj writeMarker latestWM h
  exact ⟨allocationObj, connectionObj, writeMarker, latestWM, rootRef,
    ⟨hrv, h1, h2, h3⟩, h4, h5⟩

/-- What a successful allocation `UPDATE` says: the rows of the allocation
are rewritten by `applyAllocationUpdates` and their new sizes are `int64`. -/
theorem allocationUpdates_ok (env : Env) (d : DB) (allocationObj : Allocation)
    (size : Int) (root : String) (rows : List Allocation)
    (h : allocationUpdates env d allocationObj size root = .ok rows) :
    rows = d.allocations.map (fun row =>
      if row.ID = allocationObj.ID then applyAllocationUpdates size root row else row) ∧
    ∀ row ∈ d.allocations, row.ID = allocationObj.ID →
      inInt64 (row.BlobberSizeUsed + size) = true ∧ inInt64 (row.UsedSize + size) = true := by
  unfold allocationUpdates at h
  split at h
  · simp at h
  split at h
  · simp at h
  rename_i hany
  simp only [Except.ok.injEq] at h
  refine ⟨h.symm, ?_⟩
  intro row hrow hid
  simp only [List.any_eq_true, not_exists, not_and, Bool.and_eq_true, beq_iff_eq,
    Bool.not_eq_true', Bool.and_eq_false_imp] at hany
  have := hany row hrow
  simp only [hid, true_and] at this
  by_cases h1 : inInt64 (row.BlobberSizeUsed + size) = true
  · by_cases h2 : inInt64 (row.UsedSize + size) = true
    · exact ⟨h1, h2⟩
    · simp [h1, h2] at this
  · simp [h1] at this

/-- The allocation table after the persistence step: as before, or the result
of the allocation `UPDATE`. -/
theorem commitPersist_allocations (env : Env) (r : Request) (allocationObj : Allocation)
    (connectionObj : AllocationChangeCollector) (wm : WriteMarker) (root : String)
    (w : World) :
    (commitPersist env r allocationObj connectionObj wm root w).2.db.allocations =
      w.db.allocations ∨
    ∃ d : DB, d.allocations = w.db.allocations ∧
      allocationUpdates env d allocationObj connectionObj.Size root =
        .ok (commitPersist env r allocationObj connectionObj wm root w).2.db.allocations := by
  unfold commitPersist
  dsimp only
  split
  · left; simp
  rename_i markers hm
  split
  · left; simp
  rename_i rows hrows
  right
  refine ⟨{ w.db with writeMarkers := markers }, rfl, ?_⟩
  have hrows2 : allocationUpdates env { w.db with writeMarkers := markers } allocationObj
      connectionObj.Size root = .ok rows := by simpa using hrows
  rw [hrows2]
  split <;> simp

/-- The allocation table after `commitVerified`: as before, or the result of
the allocation `UPDATE`. -/
theorem commitVerified_allocations (env : Env) (r : Request) (allocationObj : Allocation)
    (connectionObj : AllocationChangeCollector) (wm : WriteMarker)
    (latestWM : Option WriteMarkerEntity) (w : World) :
    (commitVerified env r allocationObj connectionObj wm latestWM w).2.db.allocations =
      w.db.allocations ∨
    ∃ (d : DB) (root : String), d.allocations = w.db.allocations ∧
      allocationUpdates env d allocationObj connectionObj.Size root =
        .ok (commitVerified env r allocationObj connectionObj wm latestWM w).2.db.allocations := by
  have hf := (writePreRedeem_frame env allocationObj wm w).1
  unfold commitVerified
  cases hX : writePreRedeem env allocationObj wm w with
  | mk res w1 =>
    rw [hX] at hf
    simp only at hf
    cases res with
    | some err => left; simpa using hf
    | none =>
      dsimp only
      split
      · left; simpa using hf
      split
      · left; simpa using hf
      rename_i rootRef hget
      split
      · left; simpa using hf
      rcases commitPersist_allocations env r allocationObj connectionObj wm
        (env.Hash (.str (rootRef.Hash ++ ":" ++ FormatInt wm.Timestamp)))
        ((((w1.log .applyChanges).setDB { (w1.log .applyChanges).db with
            refs := (env.ApplyChanges (w1.log .applyChanges).db.refs connectionObj
              wm.AllocationRoot).1 }).log .getReference)) with h | ⟨d, hd, h⟩
      · left
        rw [h]
        simpa using hf
      · right
        exact ⟨d, _, by rw [hd]; simpa using hf, h⟩

/-- The allocation table after any run of `CommitWrite` that passed the early
checks: as before, or the result of the allocation `UPDATE`, which is reached
only across the capacity check. -/
theorem CommitWrite_allocations (env : Env) (r : Request) (w : World)
    (allocationObj : Allocation) (connectionObj : AllocationChangeCollector)
    (h : PassesChecks env r w allocationObj connectionObj) :
    (CommitWrite env r w).2.db.allocations = w.db.allocations ∨
    (add64 allocationObj.BlobberSizeUsed connectionObj.Size ≤ allocationObj.BlobberSize ∧
      ∃ (d : DB) (root : String), d.allocations = w.db.allocations ∧
        allocationUpdates env d allocationObj connectionObj.Size root =
          .ok (CommitWrite env r w).2.db.allocations) := by
  rw [CommitWrite_of_checks env r w allocationObj connectionObj h]
  obtain ⟨-, -, -, -, -, -, -, -, -, -, hconn, hch⟩ := h
  have hlen : connectionObj.Changes.length ≠ 0 := by
    simpa [List.length_eq_zero] using hch
  simp only [World.log_db]
  unfold CommitWriteLocked
  simp only [World.log_db, hconn, hlen, if_false]
  split
  · left; simp
  rename_i hcap
  split
  · left; simp
  rename_i writeMarker hwm
  have hdb := latestWriteMarker_db env allocationObj (connectionLoaded w)
  simp only [connectionLoaded] at hdb
  split
  · rename_i err w2 hl
    rw [hl] at hdb
    left
    simp only at hdb
    rw [hdb]
    simp
  rename_i latestWM w2 hl
  rw [hl] at hdb
  simp only at hdb
  split
  · left
    simp [hdb]
  rcases commitVerified_allocations env r allocationObj connectionObj writeMarker latestWM
    (w2.log .verifyMarker) with h1 | ⟨d, root, hd, h1⟩
  · left
    rw [h1]
    simp [hdb]
  · right
    exact ⟨not_lt.mp hcap, d, root, by rw [hd]; simp [hdb], h1⟩

/-- C2 (amended): in every run of `CommitWrite` that passed the early checks,
started on a stored allocation row that equals the loaded allocation and has
`blobber_size_used <= blobber_size`, the stored row afterwards is either
untouched or has both `blobber_size_used` and `used_size` increased by
`connection.Size`, and its `blobber_size_used` is still at most
`blobber_size`. The `used_size` column is compared with no capacity: after
the update it is at most the total size exactly when the old `used_size` plus
`connection.Size` is. That is so when, before the run,
`used_size <= blobber_size_used` and `blobber_size <= size`; these two
conditions are sufficient, not necessary. -/
theorem CommitWrite_blobber_size_invariant (env : Env) (r : Request) (w : World)
    (allocationObj : Allocation) (connectionObj : AllocationChangeCollector)
    (h : PassesChecks env r w allocationObj connectionObj)
    (hst : ∀ row ∈ w.db.allocations, row.ID = allocationObj.ID → row = allocationObj)
    (hinv : allocationObj.BlobberSizeUsed ≤ allocationObj.BlobberSize) :
    ∀ row ∈ (CommitWrite env r w).2.db.allocations, row.ID = allocationObj.ID →
      row.BlobberSize = allocationObj.BlobberSize ∧
      row.TotalSize = allocationObj.TotalSize ∧
      (row.BlobberSizeUsed = allocationObj.BlobberSizeUsed ∧
          row.UsedSize = allocationObj.UsedSize ∨
        row.BlobberSizeUsed = allocationObj.BlobberSizeUsed + connectionObj.Size ∧
          row.UsedSize = allocationObj.UsedSize + connectionObj.Size) ∧
      row.BlobberSizeUsed ≤ row.BlobberSize ∧
      (allocationObj.UsedSize ≤ allocationObj.BlobberSizeUsed →
        allocationObj.BlobberSize ≤ allocationObj.TotalSize →
        row.UsedSize ≤ row.TotalSize) ∧
      (row.UsedSize = allocationObj.UsedSize + connectionObj.Size →
        (row.UsedSize ≤ row.TotalSize ↔
          allocationObj.UsedSize + connectionObj.Size ≤ allocationObj.TotalSize)) := by
  intro row hrow hid
  rcases CommitWrite_allocations env r w allocationObj connectionObj h with
    hsame | ⟨hcap, d, root, hd, hupd⟩
  · rw [hsame] at hrow
    have := hst row hrow hid
    subst this
    exact ⟨rfl, rfl, Or.inl ⟨rfl, rfl⟩, hinv, fun h1 h2 => by omega,
      fun h1 => by omega⟩
  · obtain ⟨hrows, hrange⟩ := allocationUpdates_ok env d allocationObj _ root _ hupd
    rw [hrows, hd] at hrow
    rw [hd] at hrange
    obtain ⟨old, hold, hrowdef⟩ := List.mem_map.mp hrow
    by_cases hoid : old.ID = allocationObj.ID
    · have hold2 := hst old hold hoid
      have hr := (hrange old hold hoid).1
      rw [hold2] at hr
      have hw := wrap64_of_inInt64 _ hr
      unfold add64 at hcap
      rw [hw] at hcap
      simp only [hoid, if_true] at hrowdef
      rw [hold2] at hrowdef
      subst hrowdef
      refine ⟨rfl, rfl, Or.inr ⟨rfl, rfl⟩, hcap, fun h1 h2 => ?_, fun _ => Iff.rfl⟩
      simp only [applyAllocationUpdates]
      omega
    · simp only [hoid, if_false] at hrowdef
      subst hrowdef
      exact absurd hid hoid

/-- Witness for C2 (amended): the commit of the 1337-byte connection on the
test data leaves the row of `exampleId` with 1337 bytes used of 99999999. -/
theorem CommitWrite_blobber_size_invariant_witness :
    (applyAllocationUpdates 1337 demoNewRoot demoAllocation).BlobberSizeUsed ≤
      (applyAllocationUpdates 1337 demoNewRoot demoAllocation).BlobberSize :=
  ((CommitWrite_blobber_size_invariant (demoEnv 0 0 demoNewRoot 1337) demoRequest demoWorld
    demoAllocation demoConnection
    ⟨by decide, by decide, rfl, by decide, by decide, rfl, by decide, rfl, rfl,
      by decide, rfl, by decide⟩
    (by decide) (by decide))
    (applyAllocationUpdates 1337 demoNewRoot demoAllocation) (by decide) rfl).2.2.2.1

/-- Counterexample to C2 as stated: an allocation of capacity 2000 with
`used_size` 1000 and `blobber_size_used` 0, stored as loaded; the commit of
the 1337-byte connection reaches the allocation update, succeeds, and leaves
`used_size` at 2337, above the total size and above `blobber_size`. -/
theorem CommitWrite_used_size_counterexample :
    (∀ row ∈ sharedWorld.db.allocations, row = sharedAllocation) ∧
    sharedAllocation.BlobberSizeUsed ≤ sharedAllocation.BlobberSize ∧
    sharedAllocation.UsedSize ≤ sharedAllocation.TotalSize ∧
    (CommitWrite (demoEnv 0 0 demoNewRoot 1337) demoRequest sharedWorld).1.2 = none ∧
    Call.allocationUpdates ∈
      (CommitWrite (demoEnv 0 0 demoNewRoot 1337) demoRequest sharedWorld).2.trace ∧
    ∃ row ∈ (CommitWrite (demoEnv 0 0 demoNewRoot 1337) demoRequest sharedWorld).2.db.allocations,
      row.ID = sharedAllocation.ID ∧ row.UsedSize = 2337 ∧
      row.TotalSize < row.UsedSize ∧ row.BlobberSize < row.UsedSize := by
  decide

/-- The two conditions of C2 (amended) are not necessary: on an allocation of
capacity 100000 with `used_size` 10 above `blobber_size_used` 0, the commit of
the 1337-byte connection succeeds and leaves `used_size` at 1347, within the
total size. -/
theorem CommitWrite_used_size_within_total :
    (∀ row ∈ wideWorld.db.allocations, row = wideAllocation) ∧
    wideAllocation.BlobberSizeUsed ≤ wideAllocation.BlobberSize ∧
    wideAllocation.BlobberSizeUsed < wideAllocation.UsedSize ∧
    (CommitWrite (demoEnv 0 0 demoNewRoot 1337) demoRequest wideWorld).1.2 = none ∧
    ∃ row ∈ (CommitWrite (demoEnv 0 0 demoNewRoot 1337) demoRequest wideWorld).2.db.allocations,
      row.ID = wideAllocation.ID ∧ row.UsedSize = 1347 ∧ row.UsedSize ≤ row.TotalSize := by
  decide

/-- A persistence step that returns no error: the marker was saved, the
allocation updated, the files committed, the staged changes deleted and the
connection marked committed. -/
theorem commitPersist_success (env : Env) (r : Request) (allocationObj : Allocation)
    (connectionObj : AllocationChangeCollector) (wm : WriteMarker) (root : String)
    (w : World)
    (h : (commitPersist env r allocationObj connectionObj wm root w).1.2 = none) :
    ∃ markers rows,
      env.WriteMarkerSave w.db.writeMarkers ⟨wm, connectionObj.ConnectionID, r.ClientKey⟩ =
        .ok markers ∧
      allocationUpdates env { w.db with writeMarkers := markers } allocationObj
        connectionObj.Size root = .ok rows ∧
      env.CommitToFileStore { w.db with writeMarkers := markers, allocations := rows }
        connectionObj = none ∧
      commitPersist env r allocationObj connectionObj wm root w =
        ((some { Changes := connectionObj.Changes
                 AllocationRoot :=
                   if env.UpdatesAssignModel then root else allocationObj.AllocationRoot
                 WriteMarker := some wm
                 Success := true
                 ErrorMessage := "" }, none),
         ⟨{ w.db with
            writeMarkers := markers
            allocations := rows
            connections :=
              connectionUpdates env (env.DeleteChanges w.db.connections connectionObj)
                connectionObj },
          w.trace ++ [.writeMarkerSave, .allocationUpdates, .commitToFileStore,
            .deleteChanges, .connectionUpdates]⟩) := by
  unfold commitPersist at h ⊢
  dsimp only at h ⊢
  split at h
  · simp at h
  rename_i markers hm
  split at h
  · simp at h
  rename_i rows hrows
  split at h
  · simp at h
  rename_i hfs
  simp only [World.log_db, World.setDB_db] at hm hrows hfs
  refine ⟨markers, rows, hm, hrows, hfs, ?_⟩
  simp only [World.log_db, World.setDB_db, hm, hrows, hfs]
  split <;> simp [World.log, World.setDB, CommitResult.zero]

/-- C3: in every run of `CommitWrite` that returns no error, the
`allocation_root` written to the rows of the allocation by the allocation
update is `Hash(rootRef.Hash + ":" + decimal timestamp of the marker)`, where
`rootRef` is the reference at `/` read from the reference rows that
`ApplyChanges` left, and that value equals the root claimed by the submitted
marker. -/
theorem CommitWrite_allocation_root (env : Env) (r : Request) (w : World)
    (h : (CommitWrite env r w).1.2 = none) :
    ∃ allocationObj connectionObj writeMarker rootRef,
      env.VerifyAllocationTransaction w.db r.AllocationTx false = .ok allocationObj ∧
      env.GetAllocationChanges w.db (r.FormValue "connection_id") allocationObj.ID
        r.ClientID = .ok connectionObj ∧
      env.ParseWriteMarker (r.FormValue "write_marker") = .ok writeMarker ∧
      (CommitWrite env r w).2.db.refs =
        (env.ApplyChanges w.db.refs connectionObj writeMarker.AllocationRoot).1 ∧
      env.GetReference (CommitWrite env r w).2.db.refs allocationObj.ID "/" = .ok rootRef ∧
      (CommitWrite env r w).2.db.allocations = w.db.allocations.map (fun row =>
        if row.ID = allocationObj.ID then
          applyAllocationUpdates connectionObj.Size
            (env.Hash (.str (rootRef.Hash ++ ":" ++ FormatInt writeMarker.Timestamp))) row
        else row) ∧
      env.Hash (.str (rootRef.Hash ++ ":" ++ FormatInt writeMarker.Timestamp)) =
        writeMarker.AllocationRoot ∧
      ∀ row ∈ (CommitWrite env r w).2.db.allocations, row.ID = allocationObj.ID →
        row.AllocationRoot =
          env.Hash (.str (rootRef.Hash ++ ":" ++ FormatInt writeMarker.Timestamp)) ∧
        row.AllocationRoot = writeMarker.AllocationRoot := by
  obtain ⟨allocationObj, connectionObj, writeMarker, latestWM, rootRef, hreach, heq, hper⟩ :=
    CommitWrite_success_inv env r w h
  obtain ⟨markers, rows, -, hrows, -, hfinal⟩ := commitPersist_success _ _ _ _ _ _ _ hper
  obtain ⟨f1, -, -, -, f5⟩ := rootCheckWorld_frame env allocationObj connectionObj writeMarker w
  obtain ⟨hrowsdef, -⟩ := allocationUpdates_ok _ _ _ _ _ _ hrows
  have hcw := CommitWrite_root_match env r w allocationObj connectionObj writeMarker latestWM
    rootRef hreach heq
  rw [hfinal] at hcw
  have hallocs : (CommitWrite env r w).2.db.allocations = w.db.allocations.map (fun row =>
      if row.ID = allocationObj.ID then
        applyAllocationUpdates connectionObj.Size (recomputedRoot env rootRef writeMarker) row
      else row) := by
    rw [hcw, hrowsdef]
    simp [f1]
  have hrefs : (CommitWrite env r w).2.db.refs =
      (env.ApplyChanges w.db.refs connectionObj writeMarker.AllocationRoot).1 := by
    rw [hcw]
    simp [f5]
  refine ⟨allocationObj, connectionObj, writeMarker, rootRef, hreach.1.1.1.2.2.1,
    hreach.1.1.1.2.2.2.2.2.2.2.2.2.2.1, hreach.1.1.2.2.1, hrefs, ?_, hallocs, heq, ?_⟩
  · rw [hrefs]
    exact hreach.2.2.2
  · intro row hrow hid
    rw [hallocs] at hrow
    obtain ⟨old, -, hdef⟩ := List.mem_map.mp hrow
    by_cases hoid : old.ID = allocationObj.ID
    · simp only [hoid, if_true] at hdef
      subst hdef
      exact ⟨rfl, heq⟩
    · simp only [hoid, if_false] at hdef
      subst hdef
      exact absurd hid hoid

/-- Witness for C3: the commit of `connection_id` on the test data with the
marker that claims the right root. -/
theorem CommitWrite_allocation_root_witness :
    ∃ allocationObj connectionObj writeMarker rootRef,
      (demoEnv 0 0 demoNewRoot 1337).VerifyAllocationTransaction demoWorld.db
        demoRequest.AllocationTx false = .ok allocationObj ∧
      (demoEnv 0 0 demoNewRoot 1337).GetAllocationChanges demoWorld.db
        (demoRequest.FormValue "connection_id") allocationObj.ID demoRequest.ClientID =
          .ok connectionObj ∧
      (demoEnv 0 0 demoNewRoot 1337).ParseWriteMarker (demoRequest.FormValue "write_marker") =
        .ok writeMarker ∧
      (CommitWrite (demoEnv 0 0 demoNewRoot 1337) demoRequest demoWorld).2.db.refs =
        ((demoEnv 0 0 demoNewRoot 1337).ApplyChanges demoWorld.db.refs connectionObj
          writeMarker.AllocationRoot).1 ∧
      (demoEnv 0 0 demoNewRoot 1337).GetReference
        (CommitWrite (demoEnv 0 0 demoNewRoot 1337) demoRequest demoWorld).2.db.refs
        allocationObj.ID "/" = .ok rootRef ∧
      (CommitWrite (demoEnv 0 0 demoNewRoot 1337) demoRequest demoWorld).2.db.allocations =
        demoWorld.db.allocations.map (fun row =>
          if row.ID = allocationObj.ID then
            applyAllocationUpdates connectionObj.Size
              ((demoEnv 0 0 demoNewRoot 1337).Hash
                (.str (rootRef.Hash ++ ":" ++ FormatInt writeMarker.Timestamp))) row
          else row) ∧
      (demoEnv 0 0 demoNewRoot 1337).Hash
        (.str (rootRef.Hash ++ ":" ++ FormatInt writeMarker.Timestamp)) =
          writeMarker.AllocationRoot ∧
      ∀ row ∈ (CommitWrite (demoEnv 0 0 demoNewRoot 1337) demoRequest demoWorld).2.db.allocations,
        row.ID = allocationObj.ID →
        row.AllocationRoot = (demoEnv 0 0 demoNewRoot 1337).Hash
          (.str (rootRef.Hash ++ ":" ++ FormatInt writeMarker.Timestamp)) ∧
        row.AllocationRoot = writeMarker.AllocationRoot :=
  CommitWrite_allocation_root (demoEnv 0 0 demoNewRoot 1337) demoRequest demoWorld (by decide)

/-- The calls made up to the return of the pre-redeem are lookups, the lock,
the marker check and pool and pending calls. -/
theorem redeemedWorld_trace (env : Env) (allocationObj : Allocation) (wm : WriteMarker)
    (w : World) :
    ∃ calls, (redeemedWorld env allocationObj wm w).trace = w.trace ++ calls ∧
      ∀ c ∈ calls, c ∈ admissionCalls := by
  obtain ⟨calls, hc, hmem⟩ :=
    writePreRedeem_trace env allocationObj wm (verifyWorld env allocationObj w)
  refine ⟨[.verifyAllocationTransaction, .mutexLock, .getAllocationChanges] ++
      (if allocationObj.AllocationRoot = "" then [] else [.getWriteMarkerEntity]) ++
      [.verifyMarker] ++ calls, ?_, ?_⟩
  · simp [redeemedWorld, hc, verifyWorld_trace]
  · intro c hcm
    have hsub : ∀ c ∈ calls, c ∈ admissionCalls := by
      intro c h
      have := hmem c h
      simp only [List.mem_cons, List.mem_singleton, List.not_mem_nil, or_false] at this
      rcases this with h | h | h | h | h | h <;> subst h <;> decide
    by_cases hroot : allocationObj.AllocationRoot = ""
    · simp [hroot] at hcm
      rcases hcm with h | h | h | h | h <;> first | (subst h; decide) | exact hsub c h
    · simp [hroot] at hcm
      rcases hcm with h | h | h | h | h | h <;> first | (subst h; decide) | exact hsub c h

/-- A run that fails after admission and before the persistence step returns
an error; the transaction state it leaves is the one the pre-redeem left, with
the reference rows as `ApplyChanges` left them; it makes no persistence call. -/
theorem CommitWrite_fails_before_persist (env : Env) (r : Request) (w : World)
    (allocationObj : Allocation) (connectionObj : AllocationChangeCollector)
    (writeMarker : WriteMarker) (latestWM : Option WriteMarkerEntity)
    (h : FailsBeforePersist env r w allocationObj connectionObj writeMarker latestWM) :
    (CommitWrite env r w).1.2 ≠ none ∧
    (CommitWrite env r w).2.db =
      { (redeemedWorld env allocationObj writeMarker w).db with
        refs := (env.ApplyChanges w.db.refs connectionObj writeMarker.AllocationRoot).1 } ∧
    ∃ calls, (CommitWrite env r w).2.trace = w.trace ++ calls ∧
      ∀ c ∈ calls, c ∈ admissionCalls ++ [.applyChanges, .getReference, .mutexUnlock] := by
  obtain ⟨hr, hpre, hfail⟩ := h
  rw [CommitWrite_verified env r w allocationObj connectionObj writeMarker latestWM hr]
  have hrefs := redeemedWorld_refs env allocationObj writeMarker w
  obtain ⟨calls, hc, hmem⟩ := redeemedWorld_trace env allocationObj writeMarker w
  unfold redeemedWorld at hrefs hc ⊢
  cases hX : writePreRedeem env allocationObj writeMarker (verifyWorld env allocationObj w) with
  | mk res w1 =>
    rw [hX] at hpre hrefs hc
    simp only at hpre hrefs hc
    subst hpre
    have hmem2 : ∀ c ∈ calls ++ [Call.applyChanges, .mutexUnlock],
        c ∈ admissionCalls ++ [.applyChanges, .getReference, .mutexUnlock] := by
      intro c hcm
      rcases List.mem_append.mp hcm with h1 | h1
      · exact List.mem_append_left _ (hmem c h1)
      · simp at h1
        rcases h1 with h1 | h1 <;> subst h1 <;> simp
    have hmem3 : ∀ c ∈ calls ++ [Call.applyChanges, .getReference, .mutexUnlock],
        c ∈ admissionCalls ++ [.applyChanges, .getReference, .mutexUnlock] := by
      intro c hcm
      rcases List.mem_append.mp hcm with h1 | h1
      · exact List.mem_append_left _ (hmem c h1)
      · exact List.mem_append_right _ h1
    unfold commitVerified
    simp only [hX, World.log_db, World.setDB_db, hrefs]
    cases happ : (env.ApplyChanges w.db.refs connectionObj writeMarker.AllocationRoot).2 with
    | some err =>
      refine ⟨by simp, by simp, calls ++ [.applyChanges, .mutexUnlock], by simp [hc], hmem2⟩
    | none =>
      simp only
      cases hget : env.GetReference
          (env.ApplyChanges w.db.refs connectionObj writeMarker.AllocationRoot).1
          allocationObj.ID "/" with
      | error err =>
        refine ⟨by simp, by simp,
          calls ++ [.applyChanges, .getReference, .mutexUnlock], by simp [hc], hmem3⟩
      | ok rootRef =>
        have hne : recomputedRoot env rootRef writeMarker ≠ writeMarker.AllocationRoot := by
          rcases hfail with h1 | ⟨err, h1⟩ | ⟨rr, h1, h2⟩
          · exact absurd happ h1
          · rw [hget] at h1; simp at h1
          · rw [hget] at h1
            simp only [Except.ok.injEq] at h1
            subst h1
            exact h2
        unfold recomputedRoot at hne
        simp only [ne_eq, hne, not_false_eq_true, if_true]
        refine ⟨by simp, by simp,
          calls ++ [.applyChanges, .getReference, .mutexUnlock], by simp [hc], hmem3⟩

/-- The pre-redeem when the cached pools cover the price: the ledger is not
asked. -/
theorem writePreRedeem_cached_enough (env : Env) (alloc : Allocation) (wm : WriteMarker)
    (w : World) (pend : Pending) (have0 : Int)
    (h : CachedWriteBalance env alloc wm w.db pend have0)
    (hge : env.WantWrite alloc env.SelfID wm.Size ≤ have0) :
    writePreRedeem env alloc wm w =
      savePendingWrite env pend wm.Size ⟨w.db, w.trace ++ [.getPending, .writePools]⟩ := by
  obtain ⟨hs, hw, hp, wps, hwps, hh⟩ := h
  subst hh
  have hskip : ¬ (wm.Size ≤ 0 ∨ env.WantWrite alloc env.SelfID wm.Size ≤ 0) := by
    intro h0
    rcases h0 with h0 | h0 <;> omega
  simp [writePreRedeem, hskip, hp, hwps, not_lt.mpr hge, World.log]

/-- The pre-redeem when the cached pools are short and the one refresh from
the ledger has been made: the recomputed balance decides. -/
theorem writePreRedeem_refreshed (env : Env) (alloc : Allocation) (wm : WriteMarker)
    (w : World) (pend : Pending) (table : List WritePool) (have1 : Int)
    (h : RefreshedWriteBalance env alloc wm w.db pend table have1) :
    writePreRedeem env alloc wm w =
      if have1 < env.WantWrite alloc env.SelfID wm.Size then
        (some (notEnoughWriteTokens env alloc wm have1),
          ⟨{ w.db with writePools := table },
            w.trace ++ [.getPending, .writePools, .requestWritePools, .setWritePools,
              .writePools]⟩)
      else
        savePendingWrite env pend wm.Size
          ⟨{ w.db with writePools := table },
            w.trace ++ [.getPending, .writePools, .requestWritePools, .setWritePools,
              .writePools]⟩ := by
  obtain ⟨have0, ⟨hs, hw, hp, wps, hwps, hh⟩, hlt, fresh, wps2, hreq, hset, hwps2, hh2⟩ := h
  subst hh hh2
  have hskip : ¬ (wm.Size ≤ 0 ∨ env.WantWrite alloc env.SelfID wm.Size ≤ 0) := by
    intro h0
    rcases h0 with h0 | h0 <;> omega
  simp [writePreRedeem, hskip, hp, hwps, hlt, hreq, hset, hwps2, World.log, World.setDB,
    notEnoughWriteTokens]

/-- A run whose pre-redeem returns an error returns that error, unwrapped, from
the state the pre-redeem left. -/
theorem CommitWrite_redeem_fails (env : Env) (r : Request) (w w1 : World)
    (allocationObj : Allocation) (connectionObj : AllocationChangeCollector)
    (writeMarker : WriteMarker) (latestWM : Option WriteMarkerEntity) (err : GoError)
    (h : ReachesPreRedeem env r w allocationObj connectionObj writeMarker latestWM)
    (hpre : writePreRedeem env allocationObj writeMarker (verifyWorld env allocationObj w) =
      (some err, w1)) :
    CommitWrite env r w = ((none, some err), w1.log .mutexUnlock) := by
  rw [CommitWrite_verified env r w allocationObj connectionObj writeMarker latestWM h]
  simp [commitVerified, hpre]

/-- C7: a write is not applied when the balance is below the price after the
one top-up. In a run of `CommitWrite` that reaches the pre-redeem with
`writeMarker.Size > 0` and `want > 0`, when `HaveWrite` is below `want` on the
cached pools and again on the pools re-read after the refresh from the ledger,
`writePreRedeem` returns a `write_pre_redeem` error and `CommitWrite` returns
that error with no result; the only change of state is the refreshed pool
table, and the calls end with the second pool read and the unlock:
`ApplyChanges`, the marker `Save` and the allocation update are not invoked. -/
theorem CommitWrite_insufficient_write_funds (env : Env) (r : Request) (w : World)
    (allocationObj : Allocation) (connectionObj : AllocationChangeCollector)
    (writeMarker : WriteMarker) (latestWM : Option WriteMarkerEntity)
    (pend : Pending) (table : List WritePool) (have1 : Int)
    (h : ReachesPreRedeem env r w allocationObj connectionObj writeMarker latestWM)
    (hb : RefreshedWriteBalance env allocationObj writeMarker w.db pend table have1)
    (hlt : have1 < env.WantWrite allocationObj env.SelfID writeMarker.Size) :
    (writePreRedeem env allocationObj writeMarker (verifyWorld env allocationObj w)).1 =
      some (notEnoughWriteTokens env allocationObj writeMarker have1) ∧
    (notEnoughWriteTokens env allocationObj writeMarker have1).Code = "write_pre_redeem" ∧
    (CommitWrite env r w).1 =
      (none, some (notEnoughWriteTokens env allocationObj writeMarker have1)) ∧
    (CommitWrite env r w).2.db = { w.db with writePools := table } ∧
    ∃ calls, (CommitWrite env r w).2.trace = w.trace ++ calls ∧
      calls = [.verifyAllocationTransaction, .mutexLock, .getAllocationChanges] ++
        (if allocationObj.AllocationRoot = "" then [] else [.getWriteMarkerEntity]) ++
        [.verifyMarker, .getPending, .writePools, .requestWritePools, .setWritePools,
          .writePools, .mutexUnlock] ∧
      Call.applyChanges ∉ calls ∧ Call.writeMarkerSave ∉ calls ∧
      Call.allocationUpdates ∉ calls ∧ Call.addPendingWrite ∉ calls ∧
      Call.pendingSave ∉ calls := by
  have hb2 : RefreshedWriteBalance env allocationObj writeMarker
      (verifyWorld env allocationObj w).db pend table have1 := by
    rw [verifyWorld_db]; exact hb
  have hpre := writePreRedeem_refreshed env allocationObj writeMarker
    (verifyWorld env allocationObj w) pend table have1 hb2
  simp only [hlt, if_true, verifyWorld_db] at hpre
  rw [CommitWrite_redeem_fails env r w _ allocationObj connectionObj writeMarker latestWM _ h
    hpre, hpre]
  refine ⟨rfl, rfl, rfl, rfl, _, ?_, rfl, ?_⟩
  · simp [World.log, verifyWorld_trace]
  · split <;> simp

/-- Witness for C7: on the test data with a price of one token a byte the
cached pool holds 500 tokens and the ledger knows of 1000; the 1337-byte write
is refused. -/
theorem CommitWrite_insufficient_write_funds_witness :
    (CommitWrite (demoEnv 1 1000 demoNewRoot 1337) demoRequest demoWorld).1 =
      (none, some (notEnoughWriteTokens (demoEnv 1 1000 demoNewRoot 1337) demoAllocation
        (demoMarker demoNewRoot 1337) 1000)) :=
  (CommitWrite_insufficient_write_funds (demoEnv 1 1000 demoNewRoot 1337) demoRequest demoWorld
    demoAllocation demoConnection (demoMarker demoNewRoot 1337) (some demoLatestMarker)
    ⟨"exampleOwnerId", "exampleId", "blobber_id", 0⟩
    [⟨"ledger", "exampleOwnerId", "exampleId", "blobber_id", 1000, 5000⟩] 1000
    ⟨⟨⟨by decide, by decide, rfl, by decide, by decide, rfl, by decide, rfl, rfl,
      by decide, rfl, by decide⟩, by decide, rfl, rfl⟩, rfl⟩
    ⟨500, ⟨by decide, by decide, rfl, _, rfl, by decide⟩, by decide, _, _, rfl, rfl, rfl,
      by decide⟩
    (by decide)).2.2.1

/-- A pre-redeem that admits a priced write has saved the pending record with
the size of the write added. -/
theorem writePreRedeem_admitted_inv (env : Env) (alloc : Allocation) (wm : WriteMarker)
    (w : World) (h : (writePreRedeem env alloc wm w).1 = none)
    (hs : 0 < wm.Size) (hw : 0 < env.WantWrite alloc env.SelfID wm.Size) :
    ∃ pend, env.GetPending w.db wm.ClientID alloc.ID env.SelfID = .ok pend ∧
      env.PendingSave w.db.pendings (pend.AddPendingWrite wm.Size) =
        .ok (writePreRedeem env alloc wm w).2.db.pendings := by
  have hskip : ¬ (wm.Size ≤ 0 ∨ env.WantWrite alloc env.SelfID wm.Size ≤ 0) := by
    intro h0
    rcases h0 with h0 | h0 <;> omega
  revert h
  unfold writePreRedeem savePendingWrite
  simp only [hskip, if_false, World.log_db, World.setDB_db]
  cases env.GetPending w.db wm.ClientID alloc.ID env.SelfID with
  | error e => simp
  | ok pend =>
    simp only [Except.ok.injEq, exists_eq_left']
    repeat' split
    all_goals simp_all [World.setDB, World.log]

/-- A pre-redeem of a free write or of a deletion returns at once. -/
theorem writePreRedeem_skip (env : Env) (alloc : Allocation) (wm : WriteMarker)
    (w : World) (h : wm.Size ≤ 0 ∨ env.WantWrite alloc env.SelfID wm.Size ≤ 0) :
    writePreRedeem env alloc wm w = (none, w) := by
  simp [writePreRedeem, h]

/-- C6 (amended): a run of `CommitWrite` that fails at `ApplyChanges`, at
reading the root reference or at the comparison of the roots returns an
error, makes no persistence call (marker `Save`, allocation update,
`CommitToFileStore`, `DeleteChanges`) and leaves the allocation, write marker
and connection tables as they were. What it already wrote through the
transaction is not undone by `CommitWrite`: the reference rows are the ones
`ApplyChanges` left, and the pending record is the one `writePreRedeem` saved,
with the size of the write added when the write is priced (it is the old
table only for a free write or a deletion). -/
theorem CommitWrite_failure_before_persist (env : Env) (r : Request) (w : World)
    (allocationObj : Allocation) (connectionObj : AllocationChangeCollector)
    (writeMarker : WriteMarker) (latestWM : Option WriteMarkerEntity)
    (h : FailsBeforePersist env r w allocationObj connectionObj writeMarker latestWM) :
    (CommitWrite env r w).1.2 ≠ none ∧
    (CommitWrite env r w).2.db.allocations = w.db.allocations ∧
    (CommitWrite env r w).2.db.writeMarkers = w.db.writeMarkers ∧
    (CommitWrite env r w).2.db.connections = w.db.connections ∧
    (CommitWrite env r w).2.db.refs =
      (env.ApplyChanges w.db.refs connectionObj writeMarker.AllocationRoot).1 ∧
    (0 < writeMarker.Size → 0 < env.WantWrite allocationObj env.SelfID writeMarker.Size →
      ∃ pend, env.GetPending w.db writeMarker.ClientID allocationObj.ID env.SelfID = .ok pend ∧
        env.PendingSave w.db.pendings (pend.AddPendingWrite writeMarker.Size) =
          .ok (CommitWrite env r w).2.db.pendings) ∧
    (writeMarker.Size ≤ 0 ∨ env.WantWrite allocationObj env.SelfID writeMarker.Size ≤ 0 →
      (CommitWrite env r w).2.db.pendings = w.db.pendings) ∧
    ∃ calls, (CommitWrite env r w).2.trace = w.trace ++ calls ∧
      Call.writeMarkerSave ∉ calls ∧ Call.allocationUpdates ∉ calls ∧
      Call.commitToFileStore ∉ calls ∧ Call.deleteChanges ∉ calls := by
  obtain ⟨hne, hdb, calls, hc, hmem⟩ :=
    CommitWrite_fails_before_persist env r w allocationObj connectionObj writeMarker latestWM h
  obtain ⟨f1, f2, f3, -, -⟩ :=
    writePreRedeem_frame env allocationObj writeMarker (verifyWorld env allocationObj w)
  have hno : ∀ c, c ∉ admissionCalls ++ [Call.applyChanges, .getReference, .mutexUnlock] →
      c ∉ calls := fun c hc hin => hc (hmem c hin)
  refine ⟨hne, ?_, ?_, ?_, ?_, ?_, ?_, calls, hc, hno _ (by decide), hno _ (by decide),
    hno _ (by decide), hno _ (by decide)⟩
  · rw [hdb]; simpa [redeemedWorld] using f1
  · rw [hdb]; simpa [redeemedWorld] using f3
  · rw [hdb]; simpa [redeemedWorld] using f2
  · rw [hdb]
  · intro hs hw
    obtain ⟨pend, hp, hsave⟩ := writePreRedeem_admitted_inv env allocationObj writeMarker
      (verifyWorld env allocationObj w) h.2.1 hs hw
    refine ⟨pend, by simpa using hp, ?_⟩
    rw [hdb]
    simpa [redeemedWorld] using hsave
  · intro hskip
    rw [hdb]
    simp [redeemedWorld, writePreRedeem_skip env allocationObj writeMarker _ hskip]

/-- Witness for C6 (amended): a marker claiming the root `bad` for the test
connection, on a priced allocation whose ledger pools cover the write. -/
theorem CommitWrite_failure_before_persist_witness :
    (CommitWrite (demoEnv 1 2000 "bad" 1337) demoRequest demoWorld).2.db.allocations =
      demoWorld.db.allocations :=
  (CommitWrite_failure_before_persist (demoEnv 1 2000 "bad" 1337) demoRequest demoWorld
    demoAllocation demoConnection (demoMarker "bad" 1337) (some demoLatestMarker)
    ⟨⟨⟨⟨by decide, by decide, rfl, by decide, by decide, rfl, by decide, rfl, rfl,
      by decide, rfl, by decide⟩, by decide, rfl, rfl⟩, rfl⟩, rfl,
      Or.inr (Or.inr ⟨{ demoRoot with Hash := "someHash+connection_id" }, rfl,
        by decide⟩)⟩).2.1

/-- Counterexample to C6 as stated: on the test data, priced at one token a
byte with 2000 tokens on the ledger, a marker that claims the root `bad` is
refused with `allocation_root_mismatch`, and the state `CommitWrite` leaves
holds a pending record of 1337 bytes where there was none and a root directory
whose hash has changed. -/
theorem CommitWrite_failure_side_effect_counterexample :
    ((CommitWrite (demoEnv 1 2000 "bad" 1337) demoRequest demoWorld).1.2.map
      (fun e => e.Code)) = some "allocation_root_mismatch" ∧
    demoWorld.db.pendings = [] ∧
    (CommitWrite (demoEnv 1 2000 "bad" 1337) demoRequest demoWorld).2.db.pendings =
      [⟨"exampleOwnerId", "exampleId", "blobber_id", 1337⟩] ∧
    demoWorld.db.refs = [demoRoot] ∧
    (CommitWrite (demoEnv 1 2000 "bad" 1337) demoRequest demoWorld).2.db.refs =
      [{ demoRoot with Hash := "someHash+connection_id" }] ∧
    (CommitWrite (demoEnv 1 2000 "bad" 1337) demoRequest demoWorld).2.db ≠ demoWorld.db := by
  decide

set_option linter.unusedTactic false in
/-- The persistence step only adds calls to the trace. -/
theorem commitPersist_trace (env : Env) (r : Request) (allocationObj : Allocation)
    (connectionObj : AllocationChangeCollector) (wm : WriteMarker) (root : String)
    (w : World) :
    ∃ post, (commitPersist env r allocationObj connectionObj wm root w).2.trace =
      w.trace ++ post := by
  unfold commitPersist
  dsimp only
  repeat' split
  all_goals first
    | (refine ⟨[.writeMarkerSave], ?_⟩; simp; done)
    | (refine ⟨[.writeMarkerSave, .allocationUpdates], ?_⟩; simp; done)
    | (refine ⟨[.writeMarkerSave, .allocationUpdates, .commitToFileStore], ?_⟩; simp; done)
    | (refine ⟨[.writeMarkerSave, .allocationUpdates, .commitToFileStore, .deleteChanges,
        .connectionUpdates], ?_⟩; simp; done)

/-- Once the pre-redeem has admitted the write, the next call of
`commitVerified` is `ApplyChanges`. -/
theorem commitVerified_trace_of_admitted (env : Env) (r : Request)
    (allocationObj : Allocation) (connectionObj : AllocationChangeCollector)
    (wm : WriteMarker) (latestWM : Option WriteMarkerEntity) (w w1 : World)
    (h : writePreRedeem env allocationObj wm w = (none, w1)) :
    ∃ post, (commitVerified env r allocationObj connectionObj wm latestWM w).2.trace =
      w1.trace ++ [.applyChanges] ++ post := by
  unfold commitVerified
  simp only [h]
  split
  · exact ⟨[], by simp⟩
  split
  · exact ⟨[.getReference], by simp⟩
  split
  · exact ⟨[.getReference], by simp⟩
  rename_i rootRef hget hroot
  obtain ⟨post, hpost⟩ := commitPersist_trace env r allocationObj connectionObj wm
    (env.Hash (.str (rootRef.Hash ++ ":" ++ FormatInt wm.Timestamp)))
    ((((w1.log .applyChanges).setDB { (w1.log .applyChanges).db with
        refs := (env.ApplyChanges (w1.log .applyChanges).db.refs connectionObj
          wm.AllocationRoot).1 }).log .getReference))
  exact ⟨[.getReference] ++ post, by rw [hpost]; simp⟩

/-- An admitted pre-redeem is the save of the pending record, after pool and
pending reads only. -/
theorem writePreRedeem_of_admitted (env : Env) (alloc : Allocation) (wm : WriteMarker)
    (w : World) (pend : Pending) (db1 : DB)
    (h : WriteAdmitted env alloc wm w.db pend db1) :
    ∃ calls, writePreRedeem env alloc wm w =
        savePendingWrite env pend wm.Size ⟨db1, w.trace ++ calls⟩ ∧
      ∀ c ∈ calls, c ∈ [Call.getPending, .writePools, .requestWritePools, .setWritePools] := by
  rcases h with ⟨have0, hc, hge, hdb⟩ | ⟨table, have1, hr, hge, hdb⟩
  · subst hdb
    exact ⟨_, writePreRedeem_cached_enough env alloc wm w pend have0 hc hge, by simp⟩
  · subst hdb
    have := writePreRedeem_refreshed env alloc wm w pend table have1 hr
    rw [if_neg (not_lt.mpr hge)] at this
    exact ⟨_, this, by simp⟩

/-- C10: on write admission the pending amount is incremented and persisted
before the tree mutation. In a run of `CommitWrite` that reaches the
pre-redeem with `Size > 0` and `want > 0` and in which the balance covers the
price (on the cached pools or after the top-up), `writePreRedeem` hands to
`Pending.Save` the pending record with exactly `writeMarker.Size` added to its
pending-write amount (a size, not the token amount `want`). When the save
succeeds, the state in which the pre-redeem returns holds the saved table, and
the call of `ApplyChanges` comes right after `AddPendingWrite` and the save,
and not before; when the save fails, `CommitWrite` returns the
`write_pre_redeem` error and `ApplyChanges` is not called. -/
theorem CommitWrite_pending_before_apply (env : Env) (r : Request) (w : World)
    (allocationObj : Allocation) (connectionObj : AllocationChangeCollector)
    (writeMarker : WriteMarker) (latestWM : Option WriteMarkerEntity)
    (pend : Pending) (db1 : DB)
    (h : ReachesPreRedeem env r w allocationObj connectionObj writeMarker latestWM)
    (hadm : WriteAdmitted env allocationObj writeMarker w.db pend db1) :
    pend.AddPendingWrite writeMarker.Size =
      { pend with PendingWrite := add64 pend.PendingWrite writeMarker.Size } ∧
    (∀ saved, env.PendingSave db1.pendings (pend.AddPendingWrite writeMarker.Size) =
        .ok saved →
      (redeemedWorld env allocationObj writeMarker w).db = { db1 with pendings := saved } ∧
      ∃ pre post, (CommitWrite env r w).2.trace =
          w.trace ++ pre ++ [.addPendingWrite, .pendingSave, .applyChanges] ++ post ∧
        Call.applyChanges ∉ pre ∧ Call.addPendingWrite ∉ pre ∧ Call.pendingSave ∉ pre) ∧
    (∀ err, env.PendingSave db1.pendings (pend.AddPendingWrite writeMarker.Size) =
        .error err →
      (CommitWrite env r w).1 = (none, some (NewErrorf env "write_pre_redeem"
        "can't save pending writes in DB: " err)) ∧
      (CommitWrite env r w).2.db = db1 ∧
      ∃ calls, (CommitWrite env r w).2.trace = w.trace ++ calls ∧
        Call.applyChanges ∉ calls) := by
  have hadm2 : WriteAdmitted env allocationObj writeMarker
      (verifyWorld env allocationObj w).db pend db1 := by
    rw [verifyWorld_db]; exact hadm
  obtain ⟨calls, hpre, hmem⟩ := writePreRedeem_of_admitted env allocationObj writeMarker
    (verifyWorld env allocationObj w) pend db1 hadm2
  have hno : ∀ c, c ∉ [Call.getPending, .writePools, .requestWritePools, .setWritePools] →
      c ∉ calls := fun c hc hin => hc (hmem c hin)
  have hvt := verifyWorld_trace env allocationObj w
  refine ⟨rfl, ?_, ?_⟩
  · intro saved hsave
    have hpre2 : writePreRedeem env allocationObj writeMarker (verifyWorld env allocationObj w) =
        (none, ⟨{ db1 with pendings := saved },
          (verifyWorld env allocationObj w).trace ++ calls ++
            [.addPendingWrite, .pendingSave]⟩) := by
      rw [hpre]
      simp [savePendingWrite, hsave, World.log, World.setDB]
    obtain ⟨post, hpost⟩ := commitVerified_trace_of_admitted env r allocationObj connectionObj
      writeMarker latestWM _ _ hpre2
    refine ⟨by simp [redeemedWorld, hpre2], ?_⟩
    refine ⟨[.verifyAllocationTransaction, .mutexLock, .getAllocationChanges] ++
      (if allocationObj.AllocationRoot = "" then [] else [.getWriteMarkerEntity]) ++
      [.verifyMarker] ++ calls, post ++ [.mutexUnlock], ?_, ?_, ?_, ?_⟩
    · rw [CommitWrite_verified env r w allocationObj connectionObj writeMarker latestWM h]
      simp [hpost, hvt]
    · have := hno Call.applyChanges (by decide)
      split <;> simp [this]
    · have := hno Call.addPendingWrite (by decide)
      split <;> simp [this]
    · have := hno Call.pendingSave (by decide)
      split <;> simp [this]
  · intro err hsave
    have hpre2 : writePreRedeem env allocationObj writeMarker (verifyWorld env allocationObj w) =
        (some (NewErrorf env "write_pre_redeem" "can't save pending writes in DB: " err),
          ⟨db1, (verifyWorld env allocationObj w).trace ++ calls ++
            [.addPendingWrite, .pendingSave]⟩) := by
      rw [hpre]
      simp [savePendingWrite, hsave, World.log]
    rw [CommitWrite_redeem_fails env r w _ allocationObj connectionObj writeMarker latestWM _ h
      hpre2]
    refine ⟨rfl, rfl, [.verifyAllocationTransaction, .mutexLock, .getAllocationChanges] ++
      (if allocationObj.AllocationRoot = "" then [] else [.getWriteMarkerEntity]) ++
      [.verifyMarker] ++ calls ++ [.addPendingWrite, .pendingSave, .mutexUnlock], ?_, ?_⟩
    · simp [World.log, hvt]
    · have := hno Call.applyChanges (by decide)
      split <;> simp [this]

/-- Witness for C10: on the test data, priced at one token a byte with 2000
tokens on the ledger, the 1337-byte write is admitted after the top-up. -/
theorem CommitWrite_pending_before_apply_witness :
    (redeemedWorld (demoEnv 1 2000 demoNewRoot 1337) demoAllocation
        (demoMarker demoNewRoot 1337) demoWorld).db =
      { demoDB with
        writePools := [⟨"ledger", "exampleOwnerId", "exampleId", "blobber_id", 2000, 5000⟩]
        pendings := [⟨"exampleOwnerId", "exampleId", "blobber_id", 1337⟩] } :=
  ((CommitWrite_pending_before_apply (demoEnv 1 2000 demoNewRoot 1337) demoRequest demoWorld
    demoAllocation demoConnection (demoMarker demoNewRoot 1337) (some demoLatestMarker)
    ⟨"exampleOwnerId", "exampleId", "blobber_id", 0⟩
    { demoDB with
      writePools := [⟨"ledger", "exampleOwnerId", "exampleId", "blobber_id", 2000, 5000⟩] }
    ⟨⟨⟨by decide, by decide, rfl, by decide, by decide, rfl, by decide, rfl, rfl,
      by decide, rfl, by decide⟩, by decide, rfl, rfl⟩, rfl⟩
    (Or.inr ⟨_, 2000,
      ⟨500, ⟨by decide, by decide, rfl, _, rfl, by decide⟩, by decide, _, _, rfl, rfl, rfl,
        by decide⟩, by decide, rfl⟩)).2.1
    [⟨"exampleOwnerId", "exampleId", "blobber_id", 1337⟩] rfl).1

/-- C8: for a call of `readPreRedeem` with `numBlocks` and `want` different
from zero (in particular both positive) whose first pool read succeeds with
`rps`: when `HaveRead` on these cached pools is at least `want`, it returns
`nil` after that one read, without a request to the ledger; when it is below
`want` and the ledger request, the save of the snapshot and the second read
succeed, the snapshot is what the pool table holds afterwards, the calls are
read, request, save, read, and an error is returned exactly when `HaveRead`
recomputed on the re-read pools is still below `want`. -/
theorem readPreRedeem_balance (env : Env) (alloc : Allocation)
    (numBlocks pendNumBlocks : Int) (clientID : String) (w : World) (rps : List ReadPool)
    (hn : numBlocks ≠ 0) (hw : env.WantRead alloc env.SelfID numBlocks ≠ 0)
    (hrps : env.ReadPools w.db clientID alloc.ID env.SelfID
      (add64 env.Now env.ReadLockTimeout) = .ok rps) :
    (env.WantRead alloc env.SelfID numBlocks ≤
        env.HaveRead alloc rps env.SelfID pendNumBlocks →
      readPreRedeem env alloc numBlocks pendNumBlocks clientID w =
        (none, ⟨w.db, w.trace ++ [.readPools]⟩)) ∧
    (env.HaveRead alloc rps env.SelfID pendNumBlocks <
        env.WantRead alloc env.SelfID numBlocks →
      ∀ fresh table rps2,
        env.RequestReadPools clientID alloc.ID = .ok fresh →
        env.SetReadPools w.db.readPools clientID alloc.ID env.SelfID fresh = .ok table →
        env.ReadPools { w.db with readPools := table } clientID alloc.ID env.SelfID
          (add64 env.Now env.ReadLockTimeout) = .ok rps2 →
        (readPreRedeem env alloc numBlocks pendNumBlocks clientID w).2 =
          ⟨{ w.db with readPools := table },
            w.trace ++ [.readPools, .requestReadPools, .setReadPools, .readPools]⟩ ∧
        ((readPreRedeem env alloc numBlocks pendNumBlocks clientID w).1 ≠ none ↔
          env.HaveRead alloc rps2 env.SelfID pendNumBlocks <
            env.WantRead alloc env.SelfID numBlocks) ∧
        (env.HaveRead alloc rps2 env.SelfID pendNumBlocks <
            env.WantRead alloc env.SelfID numBlocks →
          (readPreRedeem env alloc numBlocks pendNumBlocks clientID w).1 =
            some notEnoughReadTokens)) := by
  constructor
  · intro hge
    simp [readPreRedeem, hn, hw, hrps, not_lt.mpr hge, World.log]
  · intro hlt fresh table rps2 hreq hset hrps2
    by_cases h2 : env.HaveRead alloc rps2 env.SelfID pendNumBlocks <
        env.WantRead alloc env.SelfID numBlocks
    · simp [readPreRedeem, hn, hw, hrps, hlt, hreq, hset, hrps2, h2, World.log, World.setDB,
        notEnoughReadTokens]
    · simp [readPreRedeem, hn, hw, hrps, hlt, hreq, hset, hrps2, h2, World.log, World.setDB]

/-- Witness for C8: on the test data a read of 3 blocks at 2 tokens a block
finds 5 tokens cached and 10 on the ledger. -/
theorem readPreRedeem_balance_witness :
    (readPreRedeem (demoEnv 2 10 "/" 0) demoAllocation 3 0 "exampleOwnerId" demoWorld).2 =
      ⟨{ demoDB with
          readPools := [⟨"ledger", "exampleOwnerId", "exampleId", "blobber_id", 10, 5000⟩] },
        [.readPools, .requestReadPools, .setReadPools, .readPools]⟩ :=
  ((readPreRedeem_balance (demoEnv 2 10 "/" 0) demoAllocation 3 0 "exampleOwnerId" demoWorld
    [⟨"rp1", "exampleOwnerId", "exampleId", "blobber_id", 5, 5000⟩]
    (by decide) (by decide) rfl).2 (by decide)
    [⟨"ledger", "exampleOwnerId", "exampleId", "blobber_id", 10, 5000⟩]
    [⟨"ledger", "exampleOwnerId", "exampleId", "blobber_id", 10, 5000⟩]
    [⟨"ledger", "exampleOwnerId", "exampleId", "blobber_id", 10, 5000⟩]
    rfl rfl rfl).1

/-- C9: when the price is zero all pool logic is skipped. A call of
`readPreRedeem` with `WantRead == 0`, and a call of `writePreRedeem` with
`writeMarker.Size <= 0` (a deletion) or `WantWrite <= 0`, returns `nil` and
leaves the state and the trace as they were: no pool or pending record is
read, the ledger is not asked, no pending amount is changed or saved. -/
theorem preRedeem_zero_price (env : Env) (alloc : Allocation) (w : World) :
    (∀ (numBlocks pendNumBlocks : Int) (clientID : String),
      env.WantRead alloc env.SelfID numBlocks = 0 →
      readPreRedeem env alloc numBlocks pendNumBlocks clientID w = (none, w)) ∧
    (∀ wm : WriteMarker,
      wm.Size ≤ 0 ∨ env.WantWrite alloc env.SelfID wm.Size ≤ 0 →
      writePreRedeem env alloc wm w = (none, w)) := by
  constructor
  · intro numBlocks pendNumBlocks clientID h0
    simp [readPreRedeem, h0]
  · intro wm h0
    exact writePreRedeem_skip env alloc wm w h0

/-- Witness for C9: a read of 3 blocks on the test data at price zero. -/
theorem preRedeem_zero_price_witness :
    readPreRedeem (demoEnv 0 0 "/" 0) demoAllocation 3 0 "exampleOwnerId" demoWorld =
      (none, demoWorld) :=
  (preRedeem_zero_price (demoEnv 0 0 "/" 0) demoAllocation demoWorld).1 3 0
    "exampleOwnerId" (by decide)

/-! ## Ledger use of `writePreRedeem` and the connection check of `CommitWrite` -/

/-- Under `PassesOwnerChecks`, `CommitWrite` is its locked part run on the
loaded allocation, between the lock and the unlock of the mutex. -/
theorem CommitWrite_of_owner_checks (env : Env) (r : Request) (w : World)
    (allocationObj : Allocation) (h : PassesOwnerChecks env r w allocationObj) :
    CommitWrite env r w =
      ((CommitWriteLocked env r allocationObj (r.FormValue "connection_id")
          ((w.log .verifyAllocationTransaction).log .mutexLock)).1,
       (CommitWriteLocked env r allocationObj (r.FormValue "connection_id")
          ((w.log .verifyAllocationTransaction).log .mutexLock)).2.log .mutexUnlock) := by
  obtain ⟨hm, htx, hva, hexp, hc, ho, hk, hh, hp, hcid⟩ := h
  simp [CommitWrite, verifyAllocation, hm, htx, hva, not_lt.mpr hexp, hc, ho, hk, hh, hp, hcid]

/-- C16: for a call of `CommitWrite` that passed the method, allocation, owner
and form checks, when `GetAllocationChanges` fails for (connection id,
allocation id, client id), or loads a connection without changes,
`CommitWrite` returns no result and an `invalid_parameters` error. This holds
whatever the sizes and the submitted marker are: the transaction state is
untouched and the only calls are the allocation lookup, the lock, the
connection lookup and the unlock, so the capacity check, the parsing of the
marker and every pool, tree or persistence operation come later. -/
theorem CommitWrite_invalid_connection (env : Env) (r : Request) (w : World)
    (allocationObj : Allocation) (h : PassesOwnerChecks env r w allocationObj) :
    (∀ err, env.GetAllocationChanges w.db (r.FormValue "connection_id") allocationObj.ID
        r.ClientID = .error err →
      CommitWrite env r w =
        ((none, some (NewError "invalid_parameters"
            ("Invalid connection id. Connection id was not found. " ++ env.ErrorText err))),
         ⟨w.db, w.trace ++ [.verifyAllocationTransaction, .mutexLock,
            .getAllocationChanges, .mutexUnlock]⟩)) ∧
    (∀ connectionObj, env.GetAllocationChanges w.db (r.FormValue "connection_id")
        allocationObj.ID r.ClientID = .ok connectionObj →
      connectionObj.Changes = [] →
      CommitWrite env r w =
        ((none, some (NewError "invalid_parameters"
            "Invalid connection id. Connection does not have any changes.")),
         ⟨w.db, w.trace ++ [.verifyAllocationTransaction, .mutexLock,
            .getAllocationChanges, .mutexUnlock]⟩)) := by
  rw [CommitWrite_of_owner_checks env r w allocationObj h]
  constructor
  · intro err herr
    simp [CommitWriteLocked, herr, World.log]
  · intro connectionObj hconn hnil
    simp [CommitWriteLocked, hconn, hnil, World.log]

/-- Witness for C16: a commit on the test data for a connection id that was
never opened. -/
theorem CommitWrite_invalid_connection_witness :
    CommitWrite (demoEnv 0 0 demoNewRoot 1337) unknownConnectionRequest demoWorld =
      ((none, some (NewError "invalid_parameters"
          ("Invalid connection id. Connection id was not found. " ++
            (demoEnv 0 0 demoNewRoot 1337).ErrorText ⟨"", "record not found"⟩))),
       ⟨demoWorld.db, demoWorld.trace ++ [.verifyAllocationTransaction, .mutexLock,
          .getAllocationChanges, .mutexUnlock]⟩) :=
  (CommitWrite_invalid_connection (demoEnv 0 0 demoNewRoot 1337) unknownConnectionRequest
    demoWorld demoAllocation
    ⟨by decide, by decide, rfl, by decide, by decide, rfl, by decide, rfl, rfl,
      by decide⟩).1 ⟨"", "record not found"⟩ rfl

set_option linter.unusedTactic false in
/-- The calls of `writePreRedeem` in each of its runs: the request to the
ledger is made at most once, and exactly in the runs that computed a first
balance below the price. -/
theorem writePreRedeem_ledger_calls (env : Env) (alloc : Allocation) (wm : WriteMarker)
    (w : World) :
    ∃ calls, (writePreRedeem env alloc wm w).2.trace = w.trace ++ calls ∧
      calls.count Call.requestWritePools ≤ 1 ∧
      (Call.requestWritePools ∈ calls ↔
        ∃ pend have0, CachedWriteBalance env alloc wm w.db pend have0 ∧
          have0 < env.WantWrite alloc env.SelfID wm.Size) := by
  unfold writePreRedeem savePendingWrite
  dsimp only
  split
  · rename_i hskip
    refine ⟨[], by simp, by simp, ?_⟩
    simp only [List.not_mem_nil, false_iff, not_exists, not_and]
    rintro pend have0 ⟨hs, hw, -⟩
    rcases hskip with h0 | h0 <;> omega
  rename_i hskip
  have hs : 0 < wm.Size := by
    by_contra h0; exact hskip (Or.inl (not_lt.mp h0))
  have hw : 0 < env.WantWrite alloc env.SelfID wm.Size := by
    by_contra h0; exact hskip (Or.inr (not_lt.mp h0))
  simp only [World.log_db]
  cases hp : env.GetPending w.db wm.ClientID alloc.ID env.SelfID with
  | error e =>
    refine ⟨[.getPending], by simp, by simp, ?_⟩
    simp only [List.mem_cons, List.mem_singleton, List.not_mem_nil, or_false,
      reduceCtorEq, false_iff, not_exists, not_and]
    rintro pend1 have0 ⟨-, -, hpe, -⟩
    rw [hp] at hpe
    simp at hpe
  | ok pend =>
    simp only
    cases hwps : env.PendingWritePools w.db pend env.SelfID
        (add64 env.Now env.WriteLockTimeout) with
    | error e =>
      refine ⟨[.getPending, .writePools], by simp, by simp, ?_⟩
      simp only [List.mem_cons, List.mem_singleton, List.not_mem_nil, or_false,
        reduceCtorEq, or_self, false_iff, not_exists, not_and]
      rintro pend1 have0 ⟨-, -, hpe, wps1, hw1, -⟩
      rw [hp] at hpe
      simp only [Except.ok.injEq] at hpe
      subst hpe
      rw [hwps] at hw1
      simp at hw1
    | ok wps =>
      simp only
      have hiff : ∀ calls : List Call,
          (Call.requestWritePools ∈ calls ↔
            env.HaveWrite pend wps alloc < env.WantWrite alloc env.SelfID wm.Size) →
          (Call.requestWritePools ∈ calls ↔
            ∃ pend1 have0, CachedWriteBalance env alloc wm w.db pend1 have0 ∧
              have0 < env.WantWrite alloc env.SelfID wm.Size) := by
        intro calls hc
        rw [hc]
        constructor
        · intro hlt
          exact ⟨pend, _, ⟨hs, hw, hp, wps, hwps, rfl⟩, hlt⟩
        · rintro ⟨pend1, have0, ⟨-, -, hpe, wps1, hw1, hh⟩, hlt⟩
          rw [hp] at hpe
          simp only [Except.ok.injEq] at hpe
          subst hpe
          rw [hwps] at hw1
          simp only [Except.ok.injEq] at hw1
          subst hw1
          subst hh
          exact hlt
      by_cases hlt : env.HaveWrite pend wps alloc < env.WantWrite alloc env.SelfID wm.Size
      · simp only [hlt, if_true]
        repeat' split
        all_goals first
          | (refine ⟨[.getPending, .writePools, .requestWritePools], ?_, ?_,
              hiff _ ?_⟩ <;> simp [hlt]; done)
          | (refine ⟨[.getPending, .writePools, .requestWritePools, .setWritePools], ?_, ?_,
              hiff _ ?_⟩ <;> simp [hlt]; done)
          | (refine ⟨[.getPending, .writePools, .requestWritePools, .setWritePools,
              .writePools], ?_, ?_, hiff _ ?_⟩ <;> simp [hlt]; done)
          | (refine ⟨[.getPending, .writePools, .requestWritePools, .setWritePools,
              .writePools, .addPendingWrite, .pendingSave], ?_, ?_, hiff _ ?_⟩ <;>
                simp [hlt]; done)
      · simp only [hlt, if_false]
        repeat' split
        all_goals first
          | (refine ⟨[.getPending, .writePools], ?_, ?_, hiff _ ?_⟩ <;> simp [hlt]; done)
          | (refine ⟨[.getPending, .writePools, .addPendingWrite, .pendingSave], ?_, ?_,
              hiff _ ?_⟩ <;> simp [hlt]; done)

/-- C11: in `writePreRedeem` the ledger is consulted only when the locally
known balance is short, and at most once. In every run `RequestWritePools` is
called at most once, and it is called exactly when a first balance was
computed (priced write, pending record and cached pools read) and is below
`want`. When the balance recomputed after the refresh is still below `want`,
the function returns the `write_pre_redeem` error, the pending records are as
before, and the calls end with the second pool read: `AddPendingWrite` and
`Pending.Save` are not called. -/
theorem writePreRedeem_ledger_once (env : Env) (alloc : Allocation) (wm : WriteMarker)
    (w : World) :
    (∃ calls, (writePreRedeem env alloc wm w).2.trace = w.trace ++ calls ∧
      calls.count Call.requestWritePools ≤ 1 ∧
      (Call.requestWritePools ∈ calls ↔
        ∃ pend have0, CachedWriteBalance env alloc wm w.db pend have0 ∧
          have0 < env.WantWrite alloc env.SelfID wm.Size)) ∧
    (∀ pend table have1, RefreshedWriteBalance env alloc wm w.db pend table have1 →
      have1 < env.WantWrite alloc env.SelfID wm.Size →
      (writePreRedeem env alloc wm w).1 = some (notEnoughWriteTokens env alloc wm have1) ∧
      (writePreRedeem env alloc wm w).2.db.pendings = w.db.pendings ∧
      (writePreRedeem env alloc wm w).2.trace =
        w.trace ++ [.getPending, .writePools, .requestWritePools, .setWritePools,
          .writePools]) := by
  refine ⟨writePreRedeem_ledger_calls env alloc wm w, ?_⟩
  intro pend table have1 hr hlt
  rw [writePreRedeem_refreshed env alloc wm w pend table have1 hr]
  simp [hlt]

/-- Witness for C11: on the test data the cached pool holds 500 tokens, the
1337-byte write costs 1337 and the ledger knows of 1000. -/
theorem writePreRedeem_ledger_once_witness :
    (writePreRedeem (demoEnv 1 1000 demoNewRoot 1337) demoAllocation
        (demoMarker demoNewRoot 1337) demoWorld).1 =
      some (notEnoughWriteTokens (demoEnv 1 1000 demoNewRoot 1337) demoAllocation
        (demoMarker demoNewRoot 1337) 1000) ∧
    (writePreRedeem (demoEnv 1 1000 demoNewRoot 1337) demoAllocation
        (demoMarker demoNewRoot 1337) demoWorld).2.db.pendings = demoWorld.db.pendings ∧
    (writePreRedeem (demoEnv 1 1000 demoNewRoot 1337) demoAllocation
        (demoMarker demoNewRoot 1337) demoWorld).2.trace =
      demoWorld.trace ++ [.getPending, .writePools, .requestWritePools, .setWritePools,
        .writePools] :=
  (writePreRedeem_ledger_once (demoEnv 1 1000 demoNewRoot 1337) demoAllocation
    (demoMarker demoNewRoot 1337) demoWorld).2
    ⟨"exampleOwnerId", "exampleId", "blobber_id", 0⟩
    [⟨"ledger", "exampleOwnerId", "exampleId", "blobber_id", 1000, 5000⟩] 1000
    ⟨500, ⟨by decide, by decide, rfl, _, rfl, by decide⟩, by decide, _, _, rfl, rfl, rfl,
      by decide⟩
    (by decide)

/-! ## Runs of `DownloadFile` -/

/-- The allocation check reads only. -/
theorem verifyAllocation_frame (env : Env) (tx : String) (readonly : Bool) (w : World) :
    (verifyAllocation env tx readonly w).2.db = w.db ∧
    ((verifyAllocation env tx readonly w).2.trace = w.trace ∨
      (verifyAllocation env tx readonly w).2.trace =
        w.trace ++ [.verifyAllocationTransaction]) := by
  unfold verifyAllocation
  dsimp only
  repeat' split
  all_goals simp

set_option linter.unusedTactic false in
/-- The auth ticket check reads only. -/
theorem verifyAuthTicket_frame (env : Env) (authTokenString : String)
    (allocationObj : Allocation) (refRequested : Ref) (clientID : String) (w : World) :
    (verifyAuthTicket env authTokenString allocationObj refRequested clientID w).2.db =
      w.db ∧
    ∃ calls, (verifyAuthTicket env authTokenString allocationObj refRequested clientID
        w).2.trace = w.trace ++ calls ∧
      ∀ c ∈ calls, c ∈ [Call.authTicketVerify, .getReferenceFromLookupHash] := by
  unfold verifyAuthTicket
  dsimp only
  repeat' split
  all_goals first
    | (refine ⟨by simp, [], ?_, ?_⟩ <;> simp; done)
    | (refine ⟨by simp, [.authTicketVerify], ?_, ?_⟩ <;> simp; done)
    | (refine ⟨by simp, [.authTicketVerify, .getReferenceFromLookupHash], ?_, ?_⟩ <;>
        simp; done)

set_option linter.unusedTactic false in
/-- The checks of `DownloadFile` read only, and make none of the pool, file
store or read marker save calls. -/
theorem downloadChecks_frame (env : Env) (r : Request) (w : World) :
    (downloadChecks env r w).2.db = w.db ∧
    ∃ calls, (downloadChecks env r w).2.trace = w.trace ++ calls ∧
      ∀ c ∈ calls, c ∈ downloadCheckCalls := by
  obtain ⟨hvdb, hvt⟩ := verifyAllocation_frame env r.AllocationTx false w
  unfold downloadChecks
  cases hva : verifyAllocation env r.AllocationTx false w with
  | mk res w1 =>
    rw [hva] at hvdb hvt
    simp only at hvdb hvt
    have hw1 : ∃ calls1, w1.trace = w.trace ++ calls1 ∧
        ∀ c ∈ calls1, c ∈ downloadCheckCalls := by
      rcases hvt with h | h
      · exact ⟨[], by simp [h], by simp⟩
      · exact ⟨[.verifyAllocationTransaction], h, by simp [downloadCheckCalls]⟩
    obtain ⟨calls1, hc1, hm1⟩ := hw1
    have ext : ∀ (extra : List Call), (∀ c ∈ extra, c ∈ downloadCheckCalls) →
        ∀ c ∈ calls1 ++ extra, c ∈ downloadCheckCalls := by
      intro extra he c hc
      rcases List.mem_append.mp hc with h | h
      · exact hm1 c h
      · exact he c h
    by_cases hmeth : r.Method = "GET"
    · simp only [hmeth, if_true]
      refine ⟨trivial, [], ?_, ?_⟩ <;> simp
    by_cases hcl : r.ClientID = ""
    · simp only [hmeth, hcl, if_true, if_false]
      refine ⟨trivial, [], ?_, ?_⟩ <;> simp
    simp only [hmeth, hcl, if_false]
    cases res with
    | error err => exact ⟨hvdb, calls1, hc1, hm1⟩
    | ok allocationObj =>
    dsimp only
    have hauthf : ∀ (fileref : Ref) (res : Bool × Option GoError) (w4 : World),
        verifyAuthTicket env (r.FormValue "auth_token") allocationObj fileref r.ClientID
          ((w1.log .readMarkerVerify).log .getReferenceFromLookupHash) = (res, w4) →
        w4.db = w.db ∧ ∃ calls, w4.trace = w.trace ++ calls ∧
          ∀ c ∈ calls, c ∈ downloadCheckCalls := by
      intro fileref res w4 hauth
      have hf := verifyAuthTicket_frame env (r.FormValue "auth_token") allocationObj fileref
        r.ClientID ((w1.log .readMarkerVerify).log .getReferenceFromLookupHash)
      rw [hauth] at hf
      obtain ⟨hfdb, calls2, hc2, hm2⟩ := hf
      simp only [World.log_db, World.log_trace] at hfdb hc2
      refine ⟨by rw [hfdb, hvdb], calls1 ++ [.readMarkerVerify,
        .getReferenceFromLookupHash] ++ calls2, by simp [hc2, hc1], ?_⟩
      intro c hc
      rcases List.mem_append.mp hc with h | h
      · exact ext _ (by simp [downloadCheckCalls]) c h
      · have := hm2 c h
        simp at this
        rcases this with h1 | h1 <;> subst h1 <;> simp [downloadCheckCalls]
    repeat' split
    all_goals first
      | (exact ⟨hvdb, calls1, hc1, hm1⟩)
      | (refine ⟨?_, calls1 ++ [.readMarkerVerify], ?_, ext _ ?_⟩ <;>
          simp [hvdb, hc1, downloadCheckCalls]; done)
      | (refine ⟨?_, calls1 ++ [.readMarkerVerify, .getReferenceFromLookupHash], ?_,
          ext _ ?_⟩ <;> simp [hvdb, hc1, downloadCheckCalls]; done)
      | (exact hauthf _ _ _ (by assumption))

set_option linter.unusedTactic false in
/-- The numbers of a request that passed the checks of `DownloadFile` are not
negative. -/
theorem downloadChecks_ok (env : Env) (r : Request) (w : World) (c : DownloadContext)
    (h : (downloadChecks env r w).1 = .ok c) : 0 ≤ c.numBlocks ∧ 0 ≤ c.blockNum := by
  revert h
  unfold downloadChecks
  by_cases hmeth : r.Method = "GET"
  · simp [hmeth]
  by_cases hcl : r.ClientID = ""
  · simp [hmeth, hcl]
  simp only [hmeth, hcl, if_false]
  cases verifyAllocation env r.AllocationTx false w with
  | mk res w1 =>
    cases res with
    | error err => simp
    | ok allocationObj =>
      dsimp only
      repeat' split
      all_goals first
        | (intro h; simp at h; done)
        | (intro h
           simp only [Except.ok.injEq] at h
           subst h
           dsimp only
           constructor <;> omega)

set_option linter.unusedTactic false in
/-- The pre-redeem of a read touches only the cached read pools and makes
only read pool calls. -/
theorem readPreRedeem_frame (env : Env) (alloc : Allocation)
    (numBlocks pendNumBlocks : Int) (clientID : String) (w : World) :
    (readPreRedeem env alloc numBlocks pendNumBlocks clientID w).2.db.readMarkers =
      w.db.readMarkers ∧
    ∃ calls, (readPreRedeem env alloc numBlocks pendNumBlocks clientID w).2.trace =
        w.trace ++ calls ∧
      ∀ c ∈ calls, c ∈ [Call.readPools, .requestReadPools, .setReadPools] := by
  unfold readPreRedeem
  dsimp only
  repeat' split
  all_goals first
    | (refine ⟨?_, [], ?_, ?_⟩ <;> simp; done)
    | (refine ⟨?_, [.readPools], ?_, ?_⟩ <;> simp; done)
    | (refine ⟨?_, [.readPools, .requestReadPools], ?_, ?_⟩ <;> simp; done)
    | (refine ⟨?_, [.readPools, .requestReadPools, .setReadPools], ?_, ?_⟩ <;> simp; done)
    | (refine ⟨?_, [.readPools, .requestReadPools, .setReadPools, .readPools], ?_, ?_⟩ <;>
        simp; done)

/-- A request that passed the checks and whose lookup of the latest read
marker entity did not fail goes on to the continuity test of the counter. -/
theorem DownloadFile_of_reaches (env : Env) (r : Request) (w : World)
    (c : DownloadContext) (rme : Option ReadMarkerEntity)
    (h : ReachesCounterCheck env r w c rme) :
    DownloadFile env r w = downloadLatest env r c rme (latestLookedUp env r w) := by
  obtain ⟨hc, hrme, herr⟩ := h
  have hdb := (downloadChecks_frame env r w).1
  unfold DownloadFile latestLookedUp
  cases hX : downloadChecks env r w with
  | mk res w1 =>
    rw [hX] at hc hdb
    simp only at hc hdb
    subst hc
    simp only [downloadAuthorized, World.log_db, hdb, hrme]
    cases herr2 : (env.GetLatestReadMarkerEntity w.db r.ClientID).2 with
    | none => rfl
    | some e => simp [herr e herr2]

/-- The state and the calls when the latest read marker entity has been
looked up: nothing is written, and none of the calls is a pool, file store or
marker save call. -/
theorem latestLookedUp_frame (env : Env) (r : Request) (w : World) :
    (latestLookedUp env r w).db = w.db ∧
    ∃ calls, (latestLookedUp env r w).trace = w.trace ++ calls ∧
      ∀ c ∈ calls, c ∈ downloadCheckCalls ++ [.getLatestReadMarkerEntity] := by
  obtain ⟨hdb, calls, hc, hm⟩ := downloadChecks_frame env r w
  refine ⟨by simpa [latestLookedUp] using hdb, calls ++ [.getLatestReadMarkerEntity],
    by simp [latestLookedUp, hc], ?_⟩
  intro c hcm
  rcases List.mem_append.mp hcm with h | h
  · exact List.mem_append_left _ (hm c h)
  · exact List.mem_append_right _ h

/-- C12: for a request of `DownloadFile` that passed the parameter, marker and
auth checks and for which the lookup gave a last known read marker `latest`
(with its pending blocks), when `latest.ReadCounter + numBlocks` is not the
submitted `ReadCounter`, `DownloadFile` returns a `DownloadResponse` with
`Success == false` and `LatestRM` the last known marker, together with a
`nil` error. The state is untouched and the run makes no read pool call (so
`readPreRedeem` did not run and no pool is debited), no `GetFileBlock` call
(no bytes served) and no `SaveLatestReadMarker` call. -/
theorem DownloadFile_counter_conflict (env : Env) (r : Request) (w : World)
    (c : DownloadContext) (rme : ReadMarkerEntity) (latest : ReadMarker) (pend : Int)
    (h : ReachesCounterCheck env r w c (some rme))
    (hl : rme.LatestRM = some latest)
    (hp : env.PendNumBlocks rme = .ok pend)
    (hne : add64 latest.ReadCounter c.numBlocks ≠ c.readMarker.ReadCounter) :
    (DownloadFile env r w).1 =
      (some (.response
        { Success := false
          LatestRM := some latest
          Path := c.fileref.Path
          AllocationID := c.fileref.AllocationID
          Data := [] }), none) ∧
    (DownloadFile env r w).2.db = w.db ∧
    ∃ calls, (DownloadFile env r w).2.trace = w.trace ++ calls ∧
      Call.readPools ∉ calls ∧ Call.requestReadPools ∉ calls ∧
      Call.setReadPools ∉ calls ∧ Call.getFileBlock ∉ calls ∧
      Call.saveLatestReadMarker ∉ calls := by
  obtain ⟨hdb, calls, hc, hm⟩ := latestLookedUp_frame env r w
  have hmis : counterMismatch (some latest) c.numBlocks c.readMarker = true := by
    simp [counterMismatch, hne]
  have hrun : DownloadFile env r w =
      ((some (.response
        { Success := false
          LatestRM := some latest
          Path := c.fileref.Path
          AllocationID := c.fileref.AllocationID
          Data := [] }), none), (latestLookedUp env r w).log .pendNumBlocks) := by
    rw [DownloadFile_of_reaches env r w c (some rme) h]
    simp [downloadLatest, hp, hl, hmis]
  have hno : ∀ x, x ∉ downloadCheckCalls ++ [Call.getLatestReadMarkerEntity] →
      x ≠ Call.pendNumBlocks → x ∉ calls ++ [Call.pendNumBlocks] := by
    intro x hx hx2 hin
    rcases List.mem_append.mp hin with h1 | h1
    · exact hx (hm x h1)
    · simp at h1; exact hx2 h1
  rw [hrun]
  refine ⟨rfl, by simpa using hdb, calls ++ [.pendNumBlocks], by simp [hc],
    hno _ (by decide) (by decide), hno _ (by decide) (by decide),
    hno _ (by decide) (by decide), hno _ (by decide) (by decide),
    hno _ (by decide) (by decide)⟩

/-- Witness for C12: one block asked, last known counter 5, submitted counter
7. -/
theorem DownloadFile_counter_conflict_witness :
    (DownloadFile (demoEnv 0 0 "" 0) (downloadRequest "1" "7") downloadWorld).1 =
      (some (.response
        { Success := false
          LatestRM := some (demoReadMarker 5)
          Path := "/some_file"
          AllocationID := "exampleId"
          Data := [] }), none) :=
  (DownloadFile_counter_conflict (demoEnv 0 0 "" 0) (downloadRequest "1" "7") downloadWorld
    (demoDownloadContext 1 7) ⟨some (demoReadMarker 5), false⟩ (demoReadMarker 5) 0
    ⟨rfl, rfl, by intro e he; cases he⟩ rfl rfl (by decide)).1

/-- C13 (amended): for a request of `DownloadFile` that passed the checks while
a previous latest read marker `latest` exists, the number of blocks is not
negative; when the request is accepted (the bytes read are returned), the
submitted `ReadCounter` is the `int64` sum `latest.ReadCounter + numBlocks`,
so that, when this sum does not overflow, it is at least the previous counter
and strictly greater when `numBlocks > 0` (it is equal for `numBlocks == 0`);
a marker whose counter is not that sum is not accepted: no bytes are returned,
the state is untouched and neither `GetFileBlock` nor `SaveLatestReadMarker`
is called. -/
theorem DownloadFile_counter_step (env : Env) (r : Request) (w : World)
    (c : DownloadContext) (rme : ReadMarkerEntity) (latest : ReadMarker)
    (h : ReachesCounterCheck env r w c (some rme))
    (hl : rme.LatestRM = some latest) :
    0 ≤ c.numBlocks ∧
    (∀ respData, (DownloadFile env r w).1 = (some (.data respData), none) →
      c.readMarker.ReadCounter = add64 latest.ReadCounter c.numBlocks ∧
      (inInt64 (latest.ReadCounter + c.numBlocks) = true →
        c.readMarker.ReadCounter = latest.ReadCounter + c.numBlocks ∧
        latest.ReadCounter ≤ c.readMarker.ReadCounter ∧
        (0 < c.numBlocks → latest.ReadCounter < c.readMarker.ReadCounter))) ∧
    (add64 latest.ReadCounter c.numBlocks ≠ c.readMarker.ReadCounter →
      (∀ respData, (DownloadFile env r w).1.1 ≠ some (.data respData)) ∧
      (DownloadFile env r w).2.db = w.db ∧
      ∃ calls, (DownloadFile env r w).2.trace = w.trace ++ calls ∧
        Call.getFileBlock ∉ calls ∧ Call.saveLatestReadMarker ∉ calls) := by
  have hnum := (downloadChecks_ok env r w c h.1).1
  obtain ⟨hdb, calls, hc, hm⟩ := latestLookedUp_frame env r w
  have hno : ∀ x, x ∉ downloadCheckCalls ++ [Call.getLatestReadMarkerEntity] →
      x ≠ Call.pendNumBlocks → x ∉ calls ++ [Call.pendNumBlocks] := by
    intro x hx hx2 hin
    rcases List.mem_append.mp hin with h1 | h1
    · exact hx (hm x h1)
    · simp at h1; exact hx2 h1
  rw [DownloadFile_of_reaches env r w c (some rme) h]
  refine ⟨hnum, ?_, ?_⟩
  · intro respData hres
    have heq : c.readMarker.ReadCounter = add64 latest.ReadCounter c.numBlocks := by
      by_contra hne
      have hmis : counterMismatch (some latest) c.numBlocks c.readMarker = true := by
        simp [counterMismatch]
        exact fun h0 => hne h0.symm
      cases hp : env.PendNumBlocks rme with
      | error err => simp [downloadLatest, hp] at hres
      | ok n => simp [downloadLatest, hp, hl, hmis] at hres
    refine ⟨heq, fun hr => ?_⟩
    have hw := wrap64_of_inInt64 _ hr
    unfold add64 at heq
    rw [hw] at heq
    refine ⟨heq, by omega, fun hpos => by omega⟩
  · intro hne
    have hmis : counterMismatch (some latest) c.numBlocks c.readMarker = true := by
      simp [counterMismatch, hne]
    cases hp : env.PendNumBlocks rme with
    | error err =>
      simp only [downloadLatest, hp]
      refine ⟨by simp, by simpa using hdb, calls ++ [.pendNumBlocks], by simp [hc],
        hno _ (by decide) (by decide), hno _ (by decide) (by decide)⟩
    | ok n =>
      simp only [downloadLatest, hp, hl, hmis, if_true]
      refine ⟨by simp, by simpa using hdb, calls ++ [.pendNumBlocks], by simp [hc],
        hno _ (by decide) (by decide), hno _ (by decide) (by decide)⟩

/-- Witness for C13 (amended): one block asked after the counter 5; only the
counter 6 can be accepted. -/
theorem DownloadFile_counter_step_witness :
    (demoReadMarker 6).ReadCounter = add64 (demoReadMarker 5).ReadCounter 1 ∧
    (inInt64 ((demoReadMarker 5).ReadCounter + 1) = true →
      (demoReadMarker 6).ReadCounter = (demoReadMarker 5).ReadCounter + 1 ∧
      (demoReadMarker 5).ReadCounter ≤ (demoReadMarker 6).ReadCounter ∧
      ((0 : Int) < 1 → (demoReadMarker 5).ReadCounter < (demoReadMarker 6).ReadCounter)) :=
  (DownloadFile_counter_step (demoEnv 0 0 "" 0) (downloadRequest "1" "6") downloadWorld
    (demoDownloadContext 1 6) ⟨some (demoReadMarker 5), false⟩ (demoReadMarker 5)
    ⟨rfl, rfl, by intro e he; cases he⟩ rfl).2.1 [0] (by decide)

/-- Counterexample to C13 as stated: on the download test data the last known
counter is 5; a request for `num_blocks` 0 with a marker whose counter is
again 5 passes the checks and is accepted: `GetFileBlock` is called, its bytes
are returned with a `nil` error and the marker is saved as the latest one,
with a counter that is not greater than the previous one. -/
theorem DownloadFile_counter_repeat_counterexample :
    (downloadChecks (demoEnv 0 0 "" 0) (downloadRequest "0" "5") downloadWorld).1 =
      .ok (demoDownloadContext 0 5) ∧
    (demoEnv 0 0 "" 0).GetLatestReadMarkerEntity downloadWorld.db "exampleOwnerId" =
      (some ⟨some (demoReadMarker 5), false⟩, none) ∧
    (DownloadFile (demoEnv 0 0 "" 0) (downloadRequest "0" "5") downloadWorld).1 =
      (some (.data []), none) ∧
    Call.getFileBlock ∈
      (DownloadFile (demoEnv 0 0 "" 0) (downloadRequest "0" "5") downloadWorld).2.trace ∧
    (DownloadFile (demoEnv 0 0 "" 0) (downloadRequest "0" "5") downloadWorld).2.db.readMarkers =
      [⟨some (demoReadMarker 5), true⟩] ∧
    ¬ ((demoReadMarker 5).ReadCounter < (demoDownloadContext 0 5).readMarker.ReadCounter) :=
  ⟨rfl, rfl, by decide, by decide, by decide, by decide⟩

/-- The serve stage of `DownloadFile`, step by step: the pre-redeem, then the
read of the blocks, then the save of the marker. -/
theorem downloadServe_steps (env : Env) (r : Request) (c : DownloadContext)
    (latestRM : Option ReadMarker) (pend : Int) (w : World) :
    (∀ err, (servePreRedeem env c pend w).1 = some err →
      downloadServe env r c latestRM pend w =
        ((none, some (NewErrorf env "download_file" "pre-redeeming read marker: " err)),
          (servePreRedeem env c pend w).2)) ∧
    ((servePreRedeem env c pend w).1 = none →
      (∀ err, env.GetFileBlock c.allocationObj.ID (downloadFileData r c) c.blockNum
          c.numBlocks = .error err →
        (downloadServe env r c latestRM pend w).1.1 = none ∧
        (downloadServe env r c latestRM pend w).1.2 ≠ none ∧
        (downloadServe env r c latestRM pend w).2 =
          (servePreRedeem env c pend w).2.log .getFileBlock) ∧
      (∀ respData, env.GetFileBlock c.allocationObj.ID (downloadFileData r c) c.blockNum
          c.numBlocks = .ok respData →
        (∀ err, env.SaveLatestReadMarker (servePreRedeem env c pend w).2.db.readMarkers
            c.readMarker latestRM.isNone = .error err →
          (downloadServe env r c latestRM pend w).1.1 = none ∧
          (downloadServe env r c latestRM pend w).1.2 ≠ none ∧
          (downloadServe env r c latestRM pend w).2 =
            ((servePreRedeem env c pend w).2.log .getFileBlock).log .saveLatestReadMarker) ∧
        (∀ table, env.SaveLatestReadMarker (servePreRedeem env c pend w).2.db.readMarkers
            c.readMarker latestRM.isNone = .ok table →
          downloadServe env r c latestRM pend w =
            ((some (.data respData), none),
              ⟨{ (servePreRedeem env c pend w).2.db with readMarkers := table },
                (servePreRedeem env c pend w).2.trace ++
                  [.getFileBlock, .saveLatestReadMarker, .fileBlockDownloaded]⟩)))) := by
  unfold servePreRedeem downloadServe
  cases hX : readPreRedeem env c.allocationObj c.numBlocks pend c.clientIDForReadRedeem w with
  | mk res w1 =>
    cases res with
    | some e =>
      refine ⟨?_, ?_⟩
      · intro err herr
        simp only [Option.some.injEq] at herr
        subst herr
        rfl
      · intro h0
        simp at h0
    | none =>
      refine ⟨?_, fun _ => ⟨?_, ?_⟩⟩
      · intro err herr
        simp at herr
      · intro err hget
        simp [hget]
      · intro respData hget
        refine ⟨?_, ?_⟩
        · intro err hsave
          simp [hget, hsave]
        · intro table hsave
          simp [hget, hsave, World.log, World.setDB]

/-- C14: for a request of `DownloadFile` that passed the checks from a client
with no stored read marker (the lookup gives no entity, with no error or with
record-not-found), the continuity test of the counter is skipped whatever the
submitted `ReadCounter` is: the run is the serve stage with no last known
marker and `pendNumBlocks == 0`. `readPreRedeem` is called with zero pending
blocks, an error of it is returned; when it admits the read and the blocks are
read, the marker is saved with the flag `latestRM == nil` set, and the bytes
are returned. -/
theorem DownloadFile_first_marker (env : Env) (r : Request) (w : World)
    (c : DownloadContext) (h : ReachesCounterCheck env r w c none) :
    DownloadFile env r w = downloadServe env r c none 0 (latestLookedUp env r w) ∧
    (∀ n, counterMismatch none c.numBlocks { c.readMarker with ReadCounter := n } = false) ∧
    (∀ err w1, readPreRedeem env c.allocationObj c.numBlocks 0 c.clientIDForReadRedeem
        (latestLookedUp env r w) = (some err, w1) →
      DownloadFile env r w =
        ((none, some (NewErrorf env "download_file" "pre-redeeming read marker: " err)),
          w1)) ∧
    (∀ w1 respData table,
      readPreRedeem env c.allocationObj c.numBlocks 0 c.clientIDForReadRedeem
        (latestLookedUp env r w) = (none, w1) →
      env.GetFileBlock c.allocationObj.ID (downloadFileData r c) c.blockNum c.numBlocks =
        .ok respData →
      env.SaveLatestReadMarker w1.db.readMarkers c.readMarker true = .ok table →
      DownloadFile env r w =
        ((some (.data respData), none),
          ⟨{ w1.db with readMarkers := table },
            w1.trace ++ [.getFileBlock, .saveLatestReadMarker, .fileBlockDownloaded]⟩)) := by
  have hrun : DownloadFile env r w =
      downloadServe env r c none 0 (latestLookedUp env r w) := by
    rw [DownloadFile_of_reaches env r w c none h]
    simp [downloadLatest, counterMismatch]
  obtain ⟨s1, s2⟩ := downloadServe_steps env r c none 0 (latestLookedUp env r w)
  refine ⟨hrun, fun n => rfl, ?_, ?_⟩
  · intro err w1 herr
    rw [hrun]
    have hpre2 : servePreRedeem env c 0 (latestLookedUp env r w) = (some err, w1) := herr
    have := s1 err (by rw [hpre2])
    rw [hpre2] at this
    exact this
  · intro w1 respData table hpre hget hsave
    rw [hrun]
    have hpre2 : servePreRedeem env c 0 (latestLookedUp env r w) = (none, w1) := hpre
    have := (s2 (by rw [hpre2])).2 respData hget
    rw [hpre2] at this
    exact this.2 table hsave

/-- Witness for C14: on the test data without a stored read marker, a request
for two blocks with a marker whose counter is 99. -/
theorem DownloadFile_first_marker_witness :
    DownloadFile (demoEnv 0 0 "" 0) (downloadRequest "2" "99") firstDownloadWorld =
      downloadServe (demoEnv 0 0 "" 0) (downloadRequest "2" "99") (demoDownloadContext 2 99)
        none 0 (latestLookedUp (demoEnv 0 0 "" 0) (downloadRequest "2" "99")
          firstDownloadWorld) :=
  (DownloadFile_first_marker (demoEnv 0 0 "" 0) (downloadRequest "2" "99") firstDownloadWorld
    (demoDownloadContext 2 99)
    ⟨rfl, rfl, by intro e he; simp [demoEnv, firstDownloadWorld, demoDB] at he; rw [← he]; rfl⟩).1

/-- Every run of `DownloadFile` either stops before the serve stage, with no
file store or marker save call, the state of the store as before and no bytes
returned, or is the serve stage entered from a state reached without such a
call, for the context of the checks, the last known marker and the pending
blocks of the latest entity of the client. -/
theorem DownloadFile_reaches_serve (env : Env) (r : Request) (w : World) :
    ((∃ calls, (DownloadFile env r w).2.trace = w.trace ++ calls ∧
        Call.getFileBlock ∉ calls ∧ Call.saveLatestReadMarker ∉ calls) ∧
      (DownloadFile env r w).2.db = w.db ∧
      ∀ respData, (DownloadFile env r w).1.1 ≠ some (.data respData)) ∨
    (∃ c latestRM pend w0, DownloadFile env r w = downloadServe env r c latestRM pend w0 ∧
      (downloadChecks env r w).1 = .ok c ∧
      (((env.GetLatestReadMarkerEntity w.db r.ClientID).1 = none ∧ latestRM = none ∧
          pend = 0) ∨
        ∃ e, (env.GetLatestReadMarkerEntity w.db r.ClientID).1 = some e ∧
          latestRM = e.LatestRM ∧ env.PendNumBlocks e = .ok pend) ∧
      w0.db = w.db ∧
      ∃ calls0, w0.trace = w.trace ++ calls0 ∧
        Call.getFileBlock ∉ calls0 ∧ Call.saveLatestReadMarker ∉ calls0) := by
  obtain ⟨hcdb, ccalls, hcc, hcm⟩ := downloadChecks_frame env r w
  have hno0 : ∀ x, x ∉ downloadCheckCalls → x ∉ ccalls := fun x hx hin => hx (hcm x hin)
  unfold DownloadFile
  cases hX : downloadChecks env r w with
  | mk res w1 =>
    rw [hX] at hcdb hcc
    simp only at hcdb hcc
    cases res with
    | error err =>
      left
      exact ⟨⟨ccalls, hcc, hno0 _ (by decide), hno0 _ (by decide)⟩, hcdb, by simp⟩
    | ok c =>
      simp only [downloadAuthorized]
      have hno1 : ∀ x, x ∉ downloadCheckCalls → x ≠ Call.getLatestReadMarkerEntity →
          x ∉ ccalls ++ [Call.getLatestReadMarkerEntity] := by
        intro x hx hx2 hin
        rcases List.mem_append.mp hin with h1 | h1
        · exact hno0 x hx h1
        · simp at h1; exact hx2 h1
      have hno2 : ∀ x, x ∉ downloadCheckCalls → x ≠ Call.getLatestReadMarkerEntity →
          x ≠ Call.pendNumBlocks →
          x ∉ ccalls ++ [Call.getLatestReadMarkerEntity, Call.pendNumBlocks] := by
        intro x hx hx2 hx3 hin
        rcases List.mem_append.mp hin with h1 | h1
        · exact hno0 x hx h1
        · simp at h1
          rcases h1 with h1 | h1
          · exact hx2 h1
          · exact hx3 h1
      have hfound : env.GetLatestReadMarkerEntity (w1.log .getLatestReadMarkerEntity).db
          r.ClientID = env.GetLatestReadMarkerEntity w.db r.ClientID := by
        simp [hcdb]
      rw [hfound]
      generalize (env.GetLatestReadMarkerEntity w.db r.ClientID).1 = rme
      have hlatest :
          ((∃ calls, (downloadLatest env r c rme (w1.log .getLatestReadMarkerEntity)).2.trace =
                w.trace ++ calls ∧
              Call.getFileBlock ∉ calls ∧ Call.saveLatestReadMarker ∉ calls) ∧
            (downloadLatest env r c rme (w1.log .getLatestReadMarkerEntity)).2.db = w.db ∧
            ∀ respData, (downloadLatest env r c rme
              (w1.log .getLatestReadMarkerEntity)).1.1 ≠ some (.data respData)) ∨
          (∃ c0 latestRM pend w0,
            downloadLatest env r c rme (w1.log .getLatestReadMarkerEntity) =
              downloadServe env r c0 latestRM pend w0 ∧
            Except.ok (ε := GoError) c = .ok c0 ∧
            ((rme = none ∧ latestRM = none ∧ pend = 0) ∨
              ∃ e, rme = some e ∧ latestRM = e.LatestRM ∧ env.PendNumBlocks e = .ok pend) ∧
            w0.db = w.db ∧
            ∃ calls0, w0.trace = w.trace ++ calls0 ∧
              Call.getFileBlock ∉ calls0 ∧ Call.saveLatestReadMarker ∉ calls0) := by
        unfold downloadLatest
        cases rme with
        | none =>
          right
          refine ⟨c, none, 0, w1.log .getLatestReadMarkerEntity, ?_, rfl,
            Or.inl ⟨rfl, rfl, rfl⟩, by simpa using hcdb,
            ccalls ++ [.getLatestReadMarkerEntity], by simp [hcc],
            hno1 _ (by decide) (by decide), hno1 _ (by decide) (by decide)⟩
          simp [counterMismatch]
        | some e =>
          dsimp only
          cases hp : env.PendNumBlocks e with
          | error err =>
            left
            exact ⟨⟨ccalls ++ [.getLatestReadMarkerEntity, .pendNumBlocks], by simp [hcc],
              hno2 _ (by decide) (by decide) (by decide),
              hno2 _ (by decide) (by decide) (by decide)⟩, by simpa using hcdb, by simp⟩
          | ok n =>
            dsimp only
            by_cases hmis : counterMismatch e.LatestRM c.numBlocks c.readMarker = true
            · left
              simp only [hmis, if_true]
              exact ⟨⟨ccalls ++ [.getLatestReadMarkerEntity, .pendNumBlocks], by simp [hcc],
                hno2 _ (by decide) (by decide) (by decide),
                hno2 _ (by decide) (by decide) (by decide)⟩, by simpa using hcdb, by simp⟩
            · right
              simp only [hmis]
              exact ⟨c, e.LatestRM, n,
                (w1.log .getLatestReadMarkerEntity).log .pendNumBlocks, by simp, rfl,
                Or.inr ⟨e, rfl, rfl, hp⟩,
                by simpa using hcdb,
                ccalls ++ [.getLatestReadMarkerEntity, .pendNumBlocks], by simp [hcc],
                hno2 _ (by decide) (by decide) (by decide),
                hno2 _ (by decide) (by decide) (by decide)⟩
      cases herr : (env.GetLatestReadMarkerEntity w.db r.ClientID).2 with
      | none => exact hlatest
      | some e =>
        dsimp only
        by_cases hnf : env.IsRecordNotFound e = true
        · simp only [hnf, if_true]
          exact hlatest
        · left
          simp only [hnf]
          exact ⟨⟨ccalls ++ [.getLatestReadMarkerEntity], by simp [hcc],
            hno1 _ (by decide) (by decide), hno1 _ (by decide) (by decide)⟩,
            by simpa using hcdb, by simp⟩

/-- C15: every run of `DownloadFile` either ends before the serve stage, with
no `GetFileBlock` and no `SaveLatestReadMarker` call, the store unchanged and
no bytes returned, or reaches `readPreRedeem` for `numBlocks` and the pending
blocks of the latest entity without any such call. In the second case the
pre-redeem makes none of the two calls and leaves the read markers alone; if
it fails, its error is returned from its final state, so no bytes are read and
no marker is saved; if it returns nil, `GetFileBlock` is called next, and only
when that succeeds is `SaveLatestReadMarker` called: a failing `GetFileBlock`
ends the run with the read markers as they were. -/
theorem DownloadFile_serve_order (env : Env) (r : Request) (w : World) :
    ((∃ calls, (DownloadFile env r w).2.trace = w.trace ++ calls ∧
        Call.getFileBlock ∉ calls ∧ Call.saveLatestReadMarker ∉ calls) ∧
      (DownloadFile env r w).2.db = w.db ∧
      ∀ respData, (DownloadFile env r w).1.1 ≠ some (.data respData)) ∨
    (∃ c latestRM pend w0 calls0 calls1,
      (downloadChecks env r w).1 = .ok c ∧
      (((env.GetLatestReadMarkerEntity w.db r.ClientID).1 = none ∧ latestRM = none ∧
          pend = 0) ∨
        ∃ e, (env.GetLatestReadMarkerEntity w.db r.ClientID).1 = some e ∧
          latestRM = e.LatestRM ∧ env.PendNumBlocks e = .ok pend) ∧
      w0.db = w.db ∧ w0.trace = w.trace ++ calls0 ∧
      Call.getFileBlock ∉ calls0 ∧ Call.saveLatestReadMarker ∉ calls0 ∧
      (servePreRedeem env c pend w0).2.trace = w0.trace ++ calls1 ∧
      Call.getFileBlock ∉ calls1 ∧ Call.saveLatestReadMarker ∉ calls1 ∧
      (servePreRedeem env c pend w0).2.db.readMarkers = w.db.readMarkers ∧
      (∀ err, (servePreRedeem env c pend w0).1 = some err →
        DownloadFile env r w =
          ((none, some (NewErrorf env "download_file" "pre-redeeming read marker: " err)),
            (servePreRedeem env c pend w0).2)) ∧
      ((servePreRedeem env c pend w0).1 = none →
        (∀ err, env.GetFileBlock c.allocationObj.ID (downloadFileData r c) c.blockNum
            c.numBlocks = .error err →
          (DownloadFile env r w).1.1 = none ∧
          (DownloadFile env r w).1.2 ≠ none ∧
          (DownloadFile env r w).2 = (servePreRedeem env c pend w0).2.log .getFileBlock ∧
          (DownloadFile env r w).2.db.readMarkers = w.db.readMarkers) ∧
        (∀ respData, env.GetFileBlock c.allocationObj.ID (downloadFileData r c) c.blockNum
            c.numBlocks = .ok respData →
          (∀ err, env.SaveLatestReadMarker (servePreRedeem env c pend w0).2.db.readMarkers
              c.readMarker latestRM.isNone = .error err →
            (DownloadFile env r w).1.1 = none ∧
            (DownloadFile env r w).1.2 ≠ none ∧
            (DownloadFile env r w).2 =
              ((servePreRedeem env c pend w0).2.log .getFileBlock).log
                .saveLatestReadMarker) ∧
          (∀ table, env.SaveLatestReadMarker (servePreRedeem env c pend w0).2.db.readMarkers
              c.readMarker latestRM.isNone = .ok table →
            DownloadFile env r w =
              ((some (.data respData), none),
                ⟨{ (servePreRedeem env c pend w0).2.db with readMarkers := table },
                  (servePreRedeem env c pend w0).2.trace ++
                    [.getFileBlock, .saveLatestReadMarker, .fileBlockDownloaded]⟩))))) := by
  rcases DownloadFile_reaches_serve env r w with h | ⟨c, latestRM, pend, w0, hrun, hc, hpend,
    hdb, calls0, htr, hn1, hn2⟩
  · exact Or.inl h
  · right
    obtain ⟨hrm, calls1, htr1, hmem⟩ := readPreRedeem_frame env c.allocationObj c.numBlocks
      pend c.clientIDForReadRedeem w0
    obtain ⟨s1, s2⟩ := downloadServe_steps env r c latestRM pend w0
    have hrm2 : (servePreRedeem env c pend w0).2.db.readMarkers = w.db.readMarkers := by
      unfold servePreRedeem
      rw [hrm, hdb]
    refine ⟨c, latestRM, pend, w0, calls0, calls1, hc, hpend, hdb, htr, hn1, hn2, htr1,
      fun hin => absurd (hmem _ hin) (by decide),
      fun hin => absurd (hmem _ hin) (by decide), hrm2, ?_, ?_⟩
    · intro err herr
      rw [hrun]
      exact s1 err herr
    · intro hnone
      obtain ⟨t1, t2⟩ := s2 hnone
      rw [hrun]
      refine ⟨?_, ?_⟩
      · intro err herr
        obtain ⟨a1, a2, a3⟩ := t1 err herr
        refine ⟨a1, a2, a3, ?_⟩
        rw [a3]
        simpa using hrm2
      · intro respData hresp
        exact t2 respData hresp

/-- The order of the calls on the download test data: a download of two
blocks at one token a block goes from the checks to the pools, then to the
file store, then to the save of the marker. -/
theorem DownloadFile_serve_order_run :
    (DownloadFile (demoEnv 1 1000 "" 0) (downloadRequest "2" "7") downloadWorld).2.trace =
      [.verifyAllocationTransaction, .readMarkerVerify, .getReferenceFromLookupHash,
        .getLatestReadMarkerEntity, .pendNumBlocks, .readPools, .getFileBlock,
        .saveLatestReadMarker, .fileBlockDownloaded] := by
  decide

/-! ## Runs of the staging handlers -/

/-- A successful allocation check, from its conditions. -/
theorem verifyAllocation_of_ok (env : Env) (tx : String) (readonly : Bool) (w : World)
    (alloc : Allocation) (htx : tx ≠ "")
    (hv : env.VerifyAllocationTransaction w.db tx readonly = .ok alloc)
    (hexp : env.Now ≤ alloc.Expiration) :
    verifyAllocation env tx readonly w = (.ok alloc, w.log .verifyAllocationTransaction) := by
  simp [verifyAllocation, htx, hv, not_lt.mpr hexp]

/-- The Go sum of the sizes after one more change. -/
theorem sizeOfChanges_append (changes : List AllocationChange) (change : AllocationChange) :
    sizeOfChanges (changes ++ [change]) = add64 (sizeOfChanges changes) change.Size := by
  simp [sizeOfChanges, List.foldl_append]

/-- The integer sum of the sizes after one more change. -/
theorem exactSizeOfChanges_append (changes : List AllocationChange)
    (change : AllocationChange) :
    exactSizeOfChanges (changes ++ [change]) = exactSizeOfChanges changes + change.Size := by
  simp [exactSizeOfChanges]

/-- What `DeleteFile` has done when it returns a result: the file was found,
and one delete change of zero less its size was added to the connection. -/
theorem DeleteFile_ok (env : Env) (r : Request) (connectionObj : AllocationChangeCollector)
    (w w1 : World) (result : UploadResult) (after : AllocationChangeCollector)
    (h : DeleteFile env r connectionObj w = ((.ok result, after), w1)) :
    w1 = w.log .getReference ∧
    ∃ fileRef, env.GetReference w.db.refs connectionObj.AllocationID (r.FormValue "path") =
        .ok fileRef ∧
      after = { connectionObj with
        Size := add64 connectionObj.Size (sub64 0 fileRef.Size)
        Changes := connectionObj.Changes ++
          [⟨connectionObj.ConnectionID, DELETE_OPERATION, sub64 0 fileRef.Size,
            env.Marshal (.delete connectionObj.ConnectionID connectionObj.AllocationID
              fileRef.Name fileRef.Hash fileRef.Path fileRef.Size)⟩] } := by
  unfold DeleteFile at h
  dsimp only at h
  split at h
  · simp at h
  split at h
  · rename_i fileRef hf
    simp only [Prod.mk.injEq, Except.ok.injEq] at h
    obtain ⟨⟨-, h2⟩, h3⟩ := h
    refine ⟨h3.symm, fileRef, by simpa using hf, ?_⟩
    rw [← h2]
    rfl
  · simp at h

/-- Under `ReachesCopyDestination`, `CopyObject` is its locked part run on the
loaded connection, between the lock and the unlock of the mutex. -/
theorem CopyObject_of_checks (env : Env) (r : Request) (w : World)
    (allocationObj : Allocation) (connectionObj : AllocationChangeCollector) (objectRef : Ref)
    (h : ReachesCopyDestination env r w allocationObj connectionObj objectRef) :
    CopyObject env r w =
      ((CopyObjectLocked env allocationObj.ID connectionObj
          (objectLookupHash env r allocationObj) (r.FormValue "dest")
          (((w.log .verifyAllocationTransaction).log .getAllocationChanges).log
            .mutexLock)).1,
        (CopyObjectLocked env allocationObj.ID connectionObj
          (objectLookupHash env r allocationObj) (r.FormValue "dest")
          (((w.log .verifyAllocationTransaction).log .getAllocationChanges).log
            .mutexLock)).2.log .mutexUnlock) := by
  obtain ⟨hm, htx, hva, hexp, hc, hdest, hpath, ho, hcid, hconn, -⟩ := h
  have hpath2 : ¬ (r.FormValue "path_hash" = "" ∧ r.FormValue "path" = "") := by
    rcases hpath with h1 | h1
    · exact fun h2 => h1 h2.1
    · exact fun h2 => h1 h2.2
  unfold CopyObject
  rw [verifyAllocation_of_ok env r.AllocationTx false w allocationObj htx hva hexp]
  simp [hm, hc, hdest, hpath2, ho, hcid, hconn, objectLookupHash]

/-- C17: a `CopyObject` request that went through the checks and whose source
object exists is refused with `Object Already exists` when a reference exists
at `join(dest, source.Name)`, and with `invalid_parameters` when no reference
exists at `dest` or the reference there is no directory, the message being
`Should be a valid directory` when the joined path is free. In both cases the
connection object at the return is the loaded one, the store is unchanged
and `Save` is not among the calls made. -/
theorem CopyObject_destination_rejected (env : Env) (r : Request) (w : World)
    (allocationObj : Allocation) (connectionObj : AllocationChangeCollector) (objectRef : Ref)
    (h : ReachesCopyDestination env r w allocationObj connectionObj objectRef) :
    (∀ existing, env.GetReference w.db.refs allocationObj.ID
        (env.FilepathJoin (r.FormValue "dest") objectRef.Name) = .ok existing →
      CopyObject env r w =
        (⟨none, some (NewError "invalid_parameters"
            "Invalid destination path. Object Already exists."), some connectionObj⟩,
          ⟨w.db, w.trace ++ copyCheckCalls ++ [.getReference, .mutexUnlock]⟩)) ∧
    ((∀ destRef, env.GetReference w.db.refs allocationObj.ID (r.FormValue "dest") =
          .ok destRef → destRef.RefType ≠ DIRECTORY) →
      ∃ msg calls, CopyObject env r w =
          (⟨none, some (NewError "invalid_parameters" msg), some connectionObj⟩,
            ⟨w.db, w.trace ++ copyCheckCalls ++ calls⟩) ∧
        Call.connectionSave ∉ calls ∧
        ((∀ existing, env.GetReference w.db.refs allocationObj.ID
            (env.FilepathJoin (r.FormValue "dest") objectRef.Name) ≠ .ok existing) →
          msg = "Invalid destination path. Should be a valid directory.")) := by
  have hrun := CopyObject_of_checks env r w allocationObj connectionObj objectRef h
  obtain ⟨-, -, -, -, -, -, -, -, -, -, href⟩ := h
  refine ⟨?_, ?_⟩
  · intro existing hex
    rw [hrun]
    simp [CopyObjectLocked, href, hex, World.log, copyCheckCalls]
  · intro hdir
    rw [hrun]
    cases hnew : env.GetReference w.db.refs allocationObj.ID
        (env.FilepathJoin (r.FormValue "dest") objectRef.Name) with
    | ok existing =>
      refine ⟨"Invalid destination path. Object Already exists.", [.getReference, .mutexUnlock],
        ?_, by decide, ?_⟩
      · simp [CopyObjectLocked, href, hnew, World.log, copyCheckCalls]
      · intro hfree
        exact absurd rfl (hfree existing)
    | error e =>
      refine ⟨"Invalid destination path. Should be a valid directory.",
        [.getReference, .getReference, .mutexUnlock], ?_, by decide, fun _ => rfl⟩
      cases hd : env.GetReference w.db.refs allocationObj.ID (r.FormValue "dest") with
      | error e2 =>
        simp [CopyObjectLocked, href, hnew, hd, World.log, copyCheckCalls]
      | ok destRef =>
        have := hdir destRef hd
        simp [CopyObjectLocked, href, hnew, hd, this, World.log, copyCheckCalls]

/-- C17 on the copy test data: the copy of `/some_file` into `/`, where
`/some_file` is, is refused as existing, and the copy into `/some_file`, a
file, is refused as no directory; the connection object stays the loaded row
and `Save` is not called. -/
theorem CopyObject_destination_rejected_witness :
    CopyObject (demoEnv 0 0 "" 0) (copyRequest "/") copyWorld =
      (⟨none, some (NewError "invalid_parameters"
          "Invalid destination path. Object Already exists."), some copyConnection⟩,
        ⟨copyWorld.db, copyWorld.trace ++ copyCheckCalls ++ [.getReference, .mutexUnlock]⟩) ∧
    ∃ msg calls, CopyObject (demoEnv 0 0 "" 0) (copyRequest "/some_file") copyWorld =
        (⟨none, some (NewError "invalid_parameters" msg), some copyConnection⟩,
          ⟨copyWorld.db, copyWorld.trace ++ copyCheckCalls ++ calls⟩) ∧
      Call.connectionSave ∉ calls ∧
      ((∀ existing, (demoEnv 0 0 "" 0).GetReference copyWorld.db.refs demoAllocation.ID
          ((demoEnv 0 0 "" 0).FilepathJoin ((copyRequest "/some_file").FormValue "dest")
            demoFile.Name) ≠ .ok existing) →
        msg = "Invalid destination path. Should be a valid directory.") :=
  ⟨(CopyObject_destination_rejected (demoEnv 0 0 "" 0) (copyRequest "/") copyWorld
      demoAllocation copyConnection demoFile
      ⟨by decide, by decide, rfl, by decide, by decide, by decide, Or.inr (by decide), rfl,
        by decide, rfl, rfl⟩).1 demoFile rfl,
    (CopyObject_destination_rejected (demoEnv 0 0 "" 0) (copyRequest "/some_file") copyWorld
      demoAllocation copyConnection demoFile
      ⟨by decide, by decide, rfl, by decide, by decide, by decide, Or.inr (by decide), rfl,
        by decide, rfl, rfl⟩).2
      (by
        intro destRef hd
        have hf : (demoEnv 0 0 "" 0).GetReference copyWorld.db.refs demoAllocation.ID
            ((copyRequest "/some_file").FormValue "dest") = .ok demoFile := rfl
        rw [hf] at hd
        cases hd
        decide)⟩

/-- Under `ReachesUpload`, `WriteFile` is its locked part run on the loaded
allocation and connection, between the lock and the unlock of the mutex. -/
theorem WriteFile_of_checks (env : Env) (r : Request) (w : World)
    (allocationObj : Allocation) (connectionObj : AllocationChangeCollector)
    (formData : UpdateFileChange)
    (h : ReachesUpload env r w allocationObj connectionObj formData) :
    WriteFile env r w =
      ((WriteFileLocked env r allocationObj connectionObj
          (((w.log .verifyAllocationTransaction).log .getAllocationChanges).log
            .mutexLock)).1,
        (WriteFileLocked env r allocationObj connectionObj
          (((w.log .verifyAllocationTransaction).log .getAllocationChanges).log
            .mutexLock)).2.log .mutexUnlock) := by
  obtain ⟨hm, -, htx, hva, hexp, hc, ho, hp, hcid, hconn, -⟩ := h
  have ho2 : ¬ (allocationObj.OwnerID ≠ r.ClientID ∧ allocationObj.PayerID ≠ r.ClientID) := by
    rcases ho with h1 | h1
    · exact fun h2 => h2.1 h1
    · exact fun h2 => h2.2 h1
  unfold WriteFile
  rw [verifyAllocation_of_ok env r.AllocationTx false w allocationObj htx hva hexp]
  simp [hm, hc, ho2, hp, hcid, hconn]

/-- C20: a `WriteFile` request that went through the checks with parsable meta
data is refused with `invalid_file_update` when it is an update (`PUT`) of a
path without reference, and with `duplicate_file` when it is an insert (any
method but `PUT` and `DELETE`, so `POST`) at a path with a reference. In both
cases the connection object is the loaded one, the store is unchanged and the
calls made are those of `existenceCheckCalls`: neither the file store nor
`Save` is called. -/
theorem WriteFile_existence_checks (env : Env) (r : Request) (w : World)
    (allocationObj : Allocation) (connectionObj : AllocationChangeCollector)
    (formData : UpdateFileChange)
    (h : ReachesUpload env r w allocationObj connectionObj formData) :
    (r.Method = "PUT" →
      (∀ existing, env.GetReference w.db.refs allocationObj.ID formData.Path ≠
        .ok existing) →
      WriteFile env r w =
        (⟨none, some (NewError "invalid_file_update" "File at path does not exist for update"),
            some connectionObj⟩,
          ⟨w.db, w.trace ++ existenceCheckCalls⟩)) ∧
    (r.Method ≠ "PUT" →
      ∀ existing, env.GetReference w.db.refs allocationObj.ID formData.Path = .ok existing →
      WriteFile env r w =
        (⟨none, some (NewError "duplicate_file" "File at path already exists"),
            some connectionObj⟩,
          ⟨w.db, w.trace ++ existenceCheckCalls⟩)) ∧
    Call.fileStoreWrite ∉ existenceCheckCalls ∧ Call.connectionSave ∉ existenceCheckCalls := by
  have hrun := WriteFile_of_checks env r w allocationObj connectionObj formData h
  obtain ⟨hm, hdel, htx, hva, hexp, hc, ho, hp, hcid, hconn, hparse⟩ := h
  refine ⟨?_, ?_, by decide, by decide⟩
  · intro hput hfree
    rw [hrun]
    simp only [hput, if_true] at hparse
    cases hg : env.GetReference w.db.refs allocationObj.ID formData.Path with
    | ok existing => exact absurd hg (hfree existing)
    | error e =>
      simp [WriteFileLocked, writeFileStage, writeMode, hput, writeFileUpload, hparse,
        checkIfFileAlreadyExists, hg, World.log, existenceCheckCalls, UPDATE_OPERATION,
        DELETE_OPERATION, INSERT_OPERATION]
  · intro hput existing hg
    rw [hrun]
    simp only [hput, if_false] at hparse
    simp [WriteFileLocked, writeFileStage, writeMode, hput, hdel, writeFileUpload, hparse,
      checkIfFileAlreadyExists, hg, World.log, existenceCheckCalls, UPDATE_OPERATION,
      DELETE_OPERATION, INSERT_OPERATION]

/-- C20 on the test data: a `PUT` for `/missing`, where nothing is, ends with
`invalid_file_update`, and a `POST` for `/some_file`, which exists, ends with
`duplicate_file`; the connection object is the stored row and the calls are
those of `existenceCheckCalls`. -/
theorem WriteFile_existence_checks_witness :
    WriteFile (demoEnv 0 0 "" 0) (uploadRequest "PUT" "/missing" [1, 2, 3]) stagingWorld =
      (⟨none, some (NewError "invalid_file_update" "File at path does not exist for update"),
          some balancedConnection⟩,
        ⟨stagingWorld.db, stagingWorld.trace ++ existenceCheckCalls⟩) ∧
    WriteFile (demoEnv 0 0 "" 0) (uploadRequest "POST" "/some_file" [1, 2, 3]) stagingWorld =
      (⟨none, some (NewError "duplicate_file" "File at path already exists"),
          some balancedConnection⟩,
        ⟨stagingWorld.db, stagingWorld.trace ++ existenceCheckCalls⟩) :=
  ⟨(WriteFile_existence_checks (demoEnv 0 0 "" 0) (uploadRequest "PUT" "/missing" [1, 2, 3])
      stagingWorld demoAllocation balancedConnection
      ⟨"", "", "new_file", "/missing", "", "", 0, "", 0, ""⟩
      ⟨by decide, by decide, by decide, rfl, by decide, by decide, Or.inl rfl, rfl,
        by decide, rfl, rfl⟩).1 rfl
      (by
        intro existing hg
        have hf : (demoEnv 0 0 "" 0).GetReference stagingWorld.db.refs demoAllocation.ID
            "/missing" = .error ⟨"", "record not found"⟩ := rfl
        rw [hf] at hg
        cases hg),
    (WriteFile_existence_checks (demoEnv 0 0 "" 0)
      (uploadRequest "POST" "/some_file" [1, 2, 3]) stagingWorld demoAllocation
      balancedConnection ⟨"", "", "new_file", "/some_file", "", "", 0, "", 0, ""⟩
      ⟨by decide, by decide, by decide, rfl, by decide, by decide, Or.inl rfl, rfl,
        by decide, rfl, rfl⟩).2.1 (by decide) demoFile rfl⟩

/-- The method `checkIfFileAlreadyExists` gives the reference that
`GetReference` found, if any, after one call. -/
theorem checkIfFileAlreadyExists_eq (env : Env) (allocationID path : String) (w : World) :
    checkIfFileAlreadyExists env allocationID path w =
      ((env.GetReference w.db.refs allocationID path).toOption, w.log .getReference) := by
  unfold checkIfFileAlreadyExists
  dsimp only
  split <;> simp_all [Except.toOption]

/-- What the upload branch of `WriteFile` has done when it leaves a result: the
meta data was parsed, the file part was stored, and one change of the stored
size less the size of the existing file was added to the connection; an insert
found no reference at the path, an update found one. -/
theorem writeFileUpload_ok (env : Env) (r : Request) (allocationObj : Allocation)
    (c : AllocationChangeCollector) (mode : String) (w w1 : World) (result : UploadResult)
    (after : AllocationChangeCollector)
    (hmode : mode = INSERT_OPERATION ∨ mode = UPDATE_OPERATION)
    (h : writeFileUpload env r allocationObj c mode w = (.ok (result, after), w1)) :
    w1.db = w.db ∧
    ∃ formData origfile stored existingSize onCloud input,
      env.ParseUploadMeta
        (r.FormValue (if mode = UPDATE_OPERATION then "updateMeta" else "uploadMeta")) =
          .ok formData ∧
      r.FormFile "uploadFile" = .ok origfile ∧
      ((mode = INSERT_OPERATION ∧
          (∀ existing, env.GetReference w.db.refs allocationObj.ID formData.Path ≠
            .ok existing) ∧ existingSize = 0 ∧ onCloud = false) ∨
        (mode = UPDATE_OPERATION ∧
          ∃ existing, env.GetReference w.db.refs allocationObj.ID formData.Path =
            .ok existing ∧ existingSize = existing.Size ∧ onCloud = existing.OnCloud)) ∧
      env.FileStoreWrite allocationObj.ID ⟨formData.Filename, formData.Path, "", onCloud⟩
        origfile.Content c.ConnectionID = .ok stored ∧
      after = { c with
        Size := add64 c.Size (sub64 stored.Size existingSize)
        Changes := c.Changes ++
          [⟨c.ConnectionID, mode, sub64 stored.Size existingSize, input⟩] } := by
  unfold writeFileUpload at h
  simp only [checkIfFileAlreadyExists_eq] at h
  split at h
  · simp at h
  rename_i formData hparse
  split at h
  · simp at h
  split at h
  · simp at h
  rename_i hdup hupd
  split at h
  · simp at h
  rename_i origfile hfile
  split at h
  · simp at h
  rename_i stored hstore
  split at h
  · simp at h
  split at h
  · simp at h
  split at h
  · simp at h
  rename_i formData2 w3 hthumb
  split at h
  · simp at h
  simp only [Prod.mk.injEq, Except.ok.injEq] at h
  obtain ⟨⟨-, hafter⟩, hw⟩ := h
  have hw3 : w3.db = w.db := by
    revert hthumb
    repeat' split
    all_goals
      intro hh
      have h2 := congrArg Prod.snd hh
      simp only at h2
      rw [← h2]
      simp
  refine ⟨by rw [← hw, hw3], ?_⟩
  cases hg : env.GetReference w.db.refs allocationObj.ID formData.Path with
  | error e =>
    simp only [hg, Except.toOption, ne_eq, not_true_eq_false, and_false, not_false_eq_true,
      and_true] at hdup hupd hstore hafter
    have hins : mode = INSERT_OPERATION := by
      rcases hmode with h1 | h1
      · exact h1
      · exact absurd h1 hupd
    simp only [hins, if_true] at hafter
    refine ⟨formData, origfile, stored, 0, false, env.Marshal (.newFile formData2), hparse,
      hfile, Or.inl ⟨hins, fun existing => by rw [hg]; simp, rfl, rfl⟩, hstore, ?_⟩
    rw [← hafter, hins]
    rfl
  | ok existing =>
    simp only [hg, Except.toOption, ne_eq, reduceCtorEq, not_false_eq_true, and_true,
      and_false] at hdup hupd hstore hafter
    have hup : mode = UPDATE_OPERATION := by
      rcases hmode with h1 | h1
      · exact absurd h1 hdup
      · exact h1
    have hne : ¬ UPDATE_OPERATION = INSERT_OPERATION := by decide
    simp only [hup, hne, if_true, if_false] at hafter
    refine ⟨formData, origfile, stored, existing.Size, existing.OnCloud,
      env.Marshal (.update formData2), hparse, hfile,
      Or.inr ⟨hup, existing, hg, rfl, rfl⟩, hstore, ?_⟩
    rw [← hafter, hup]
    rfl

/-- What the branch on the operation of `WriteFile` has done when it leaves a
result: one change was added to the connection, with the size and the
operation that `StagedSize` describes. -/
theorem writeFileStage_ok (env : Env) (r : Request) (allocationObj : Allocation)
    (c : AllocationChangeCollector) (w w1 : World) (result : UploadResult)
    (after : AllocationChangeCollector)
    (h : writeFileStage env r allocationObj c w = (.ok (result, after), w1)) :
    w1.db = w.db ∧
    ∃ change,
      after = { c with Size := add64 c.Size change.Size, Changes := c.Changes ++ [change] } ∧
      StagedSize .writeFile env r w.db allocationObj c change := by
  unfold writeFileStage at h
  unfold StagedSize
  dsimp only at h ⊢
  by_cases hdel : r.Method = "DELETE"
  · have hmode : writeMode r = DELETE_OPERATION := by
      simp [writeMode, hdel]
    simp only [hmode, if_true] at h
    cases hd : DeleteFile env r c w with
    | mk out w2 =>
    obtain ⟨res, c2⟩ := out
    rw [hd] at h
    cases res with
    | error e => simp at h
    | ok result2 =>
    simp only [Prod.mk.injEq, Except.ok.injEq] at h
    obtain ⟨⟨hres, hc2⟩, hw2⟩ := h
    subst hres hc2 hw2
    obtain ⟨hw, fileRef, hf, hafter⟩ := DeleteFile_ok env r c w w2 result2 c2 hd
    refine ⟨by rw [hw]; rfl,
      ⟨c.ConnectionID, DELETE_OPERATION, sub64 0 fileRef.Size,
        env.Marshal (.delete c.ConnectionID c.AllocationID fileRef.Name fileRef.Hash
          fileRef.Path fileRef.Size)⟩, hafter, ?_⟩
    simp only [hdel, if_true]
    exact ⟨trivial, fileRef, hf, rfl⟩
  · by_cases hput : r.Method = "PUT"
    · have hmode : writeMode r = UPDATE_OPERATION := by
        simp [writeMode, hput]
      have hne : ¬ UPDATE_OPERATION = DELETE_OPERATION := by decide
      simp only [hmode, hne, if_false, or_true, if_true] at h
      obtain ⟨hw, formData, origfile, stored, existingSize, onCloud, input, hparse, hfile,
        hcase, hstore, hafter⟩ :=
        writeFileUpload_ok env r allocationObj c _ w w1 result after (Or.inr rfl) h
      refine ⟨hw, ⟨c.ConnectionID, UPDATE_OPERATION, sub64 stored.Size existingSize, input⟩,
        hafter, ?_⟩
      simp only [hdel, hput, if_false, if_true]
      rcases hcase with ⟨hins, -⟩ | ⟨-, existing, hg, hsize, hcloud⟩
      · exact absurd hins (by decide)
      · subst hsize hcloud
        simp only [if_true] at hparse
        exact ⟨trivial, formData, existing, origfile, stored, hparse, hg, hfile, hstore, rfl⟩
    · have hmode : writeMode r = INSERT_OPERATION := by
        simp [writeMode, hput, hdel]
      have hne : ¬ INSERT_OPERATION = DELETE_OPERATION := by decide
      simp only [hmode, hne, if_false, true_or, if_true] at h
      obtain ⟨hw, formData, origfile, stored, existingSize, onCloud, input, hparse, hfile,
        hcase, hstore, hafter⟩ :=
        writeFileUpload_ok env r allocationObj c _ w w1 result after (Or.inl rfl) h
      refine ⟨hw, ⟨c.ConnectionID, INSERT_OPERATION, sub64 stored.Size existingSize, input⟩,
        hafter, ?_⟩
      simp only [hdel, hput, if_false]
      rcases hcase with ⟨-, hfree, hsize, hcloud⟩ | ⟨hupd, -⟩
      · subst hsize hcloud
        have hne2 : ¬ INSERT_OPERATION = UPDATE_OPERATION := by decide
        simp only [hne2, if_false] at hparse
        exact ⟨trivial, formData, origfile, stored, hparse, hfree, hfile, hstore, rfl⟩
      · exact absurd hupd (by decide)

/-- What `WriteFile` has done when it returns no error: the loaded connection
got one more change and its size was stepped by the size of that change, and
this object was saved. -/
theorem WriteFile_success (env : Env) (r : Request) (w : World)
    (hok : (WriteFile env r w).1.err = none) :
    ∃ allocationObj before change,
      env.VerifyAllocationTransaction w.db r.AllocationTx false = .ok allocationObj ∧
      env.GetAllocationChanges w.db (r.FormValue "connection_id") allocationObj.ID
        allocationObj.OwnerID = .ok before ∧
      (WriteFile env r w).1.connectionObj =
        some { before with Size := add64 before.Size change.Size,
                           Changes := before.Changes ++ [change] } ∧
      env.ConnectionSave w.db.connections
        { before with Size := add64 before.Size change.Size,
                      Changes := before.Changes ++ [change] } =
          .ok (WriteFile env r w).2.db.connections ∧
      StagedSize .writeFile env r w.db allocationObj before change := by
  by_cases hm : r.Method = "GET"
  · simp [WriteFile, hm] at hok
  cases hv : verifyAllocation env r.AllocationTx false w with
  | mk res w1 =>
  cases res with
  | error e => simp [WriteFile, hm, hv] at hok
  | ok allocationObj =>
  obtain ⟨-, hva, -, hw1⟩ := verifyAllocation_ok env r.AllocationTx false w w1 allocationObj hv
  subst hw1
  by_cases hcl : r.ClientID = "" ∨
      (allocationObj.OwnerID ≠ r.ClientID ∧ allocationObj.PayerID ≠ r.ClientID)
  · simp [WriteFile, hm, hv, hcl] at hok
  cases hp : r.ParseMultipartForm with
  | some e => simp [WriteFile, hm, hv, hcl, hp] at hok
  | none =>
  by_cases hcid : r.FormValue "connection_id" = ""
  · simp [WriteFile, hm, hv, hcl, hp, hcid] at hok
  cases hconn : env.GetAllocationChanges w.db (r.FormValue "connection_id") allocationObj.ID
      allocationObj.OwnerID with
  | error e => simp [WriteFile, hm, hv, hcl, hp, hcid, hconn] at hok
  | ok before =>
  have hrun : WriteFile env r w =
      ((WriteFileLocked env r allocationObj before
          (((w.log .verifyAllocationTransaction).log .getAllocationChanges).log
            .mutexLock)).1,
        (WriteFileLocked env r allocationObj before
          (((w.log .verifyAllocationTransaction).log .getAllocationChanges).log
            .mutexLock)).2.log .mutexUnlock) := by
    simp [WriteFile, hm, hv, hcl, hp, hcid, hconn]
  rw [hrun] at hok ⊢
  unfold WriteFileLocked at hok ⊢
  cases hst : writeFileStage env r allocationObj before
      (((w.log .verifyAllocationTransaction).log .getAllocationChanges).log .mutexLock) with
  | mk res2 w2 =>
  cases res2 with
  | error e => simp [hst] at hok
  | ok pair =>
  obtain ⟨result, after⟩ := pair
  obtain ⟨hdb, change, hafter, hsize⟩ := writeFileStage_ok env r allocationObj before _ w2
    result after hst
  simp only [World.log_db] at hdb hsize
  cases hsave : env.ConnectionSave w2.db.connections after with
  | error e => simp [hst, hsave] at hok
  | ok table =>
    refine ⟨allocationObj, before, change, hva, hconn, ?_, ?_, hsize⟩
    · simp [hst, hsave]
      exact hafter
    · rw [← hafter, ← hdb, hsave]
      simp [hst, hsave]

/-- What `RenameObject` has done when it returns no error: the loaded
connection got one rename change of size zero, and this object was saved. -/
theorem RenameObject_success (env : Env) (r : Request) (w : World)
    (hok : (RenameObject env r w).1.err = none) :
    ∃ allocationObj before change,
      env.VerifyAllocationTransaction w.db r.AllocationTx false = .ok allocationObj ∧
      env.GetAllocationChanges w.db (r.FormValue "connection_id") allocationObj.ID
        allocationObj.OwnerID = .ok before ∧
      (RenameObject env r w).1.connectionObj =
        some { before with Size := add64 before.Size change.Size,
                           Changes := before.Changes ++ [change] } ∧
      env.ConnectionSave w.db.connections
        { before with Size := add64 before.Size change.Size,
                      Changes := before.Changes ++ [change] } =
          .ok (RenameObject env r w).2.db.connections ∧
      StagedSize .renameObject env r w.db allocationObj before change := by
  by_cases hm : r.Method = "GET"
  · simp [RenameObject, hm] at hok
  cases hv : verifyAllocation env r.AllocationTx false w with
  | mk res w1 =>
  cases res with
  | error e => simp [RenameObject, hm, hv] at hok
  | ok allocationObj =>
  obtain ⟨-, hva, -, hw1⟩ := verifyAllocation_ok env r.AllocationTx false w w1 allocationObj hv
  subst hw1
  by_cases hc : r.ClientID = ""
  · simp [RenameObject, hm, hv, hc] at hok
  by_cases hname : r.FormValue "new_name" = ""
  · simp [RenameObject, hm, hv, hc, hname] at hok
  by_cases hpath : r.FormValue "path_hash" = "" ∧ r.FormValue "path" = ""
  · simp [RenameObject, hm, hv, hc, hname, hpath] at hok
  by_cases ho : allocationObj.OwnerID = r.ClientID
  swap
  · simp [RenameObject, hm, hv, hc, hname, hpath, ho] at hok
  by_cases hcid : r.FormValue "connection_id" = ""
  · simp [RenameObject, hm, hv, hc, hname, hpath, ho, hcid] at hok
  cases hconn : env.GetAllocationChanges w.db (r.FormValue "connection_id") allocationObj.ID
      r.ClientID with
  | error e => simp [RenameObject, hm, hv, hc, hname, hpath, ho, hcid, hconn] at hok
  | ok before =>
  have hrun : RenameObject env r w =
      ((RenameObjectLocked env allocationObj.ID before (objectLookupHash env r allocationObj)
          (r.FormValue "new_name")
          (((w.log .verifyAllocationTransaction).log .getAllocationChanges).log
            .mutexLock)).1,
        (RenameObjectLocked env allocationObj.ID before (objectLookupHash env r allocationObj)
          (r.FormValue "new_name")
          (((w.log .verifyAllocationTransaction).log .getAllocationChanges).log
            .mutexLock)).2.log .mutexUnlock) := by
    simp [RenameObject, hm, hv, hc, hname, hpath, ho, hcid, hconn, objectLookupHash]
  rw [hrun] at hok ⊢
  unfold RenameObjectLocked at hok ⊢
  simp only [World.log_db] at hok ⊢
  cases href : env.GetReferenceFromLookupHash w.db.refs allocationObj.ID
      (objectLookupHash env r allocationObj) with
  | error e => simp [href] at hok
  | ok objectRef =>
  simp only [href] at hok ⊢
  cases hsave : env.ConnectionSave w.db.connections
      (AllocationChangeCollector.AddChange env
        { before with Size := add64 before.Size 0 }
        ⟨before.ConnectionID, RENAME_OPERATION, 0, ""⟩
        (.rename before.ConnectionID before.AllocationID objectRef.Path
          (r.FormValue "new_name"))) with
  | error e => simp [hsave] at hok
  | ok table =>
    refine ⟨allocationObj, before,
      ⟨before.ConnectionID, RENAME_OPERATION, 0,
        env.Marshal (.rename before.ConnectionID before.AllocationID objectRef.Path
          (r.FormValue "new_name"))⟩, hva, by rw [ho]; exact hconn, ?_, ?_, ⟨rfl, rfl⟩⟩
    · simp [hsave]
      rfl
    · simp only [hsave]
      exact hsave

/-- What `CopyObject` has done when it returns no error: the loaded connection
got one copy change of the size of the source object, and this object was
saved. -/
theorem CopyObject_success (env : Env) (r : Request) (w : World)
    (hok : (CopyObject env r w).1.err = none) :
    ∃ allocationObj before change,
      env.VerifyAllocationTransaction w.db r.AllocationTx false = .ok allocationObj ∧
      env.GetAllocationChanges w.db (r.FormValue "connection_id") allocationObj.ID
        allocationObj.OwnerID = .ok before ∧
      (CopyObject env r w).1.connectionObj =
        some { before with Size := add64 before.Size change.Size,
                           Changes := before.Changes ++ [change] } ∧
      env.ConnectionSave w.db.connections
        { before with Size := add64 before.Size change.Size,
                      Changes := before.Changes ++ [change] } =
          .ok (CopyObject env r w).2.db.connections ∧
      StagedSize .copyObject env r w.db allocationObj before change := by
  by_cases hm : r.Method = "GET"
  · simp [CopyObject, hm] at hok
  cases hv : verifyAllocation env r.AllocationTx false w with
  | mk res w1 =>
  cases res with
  | error e => simp [CopyObject, hm, hv] at hok
  | ok allocationObj =>
  obtain ⟨-, hva, -, hw1⟩ := verifyAllocation_ok env r.AllocationTx false w w1 allocationObj hv
  subst hw1
  by_cases hc : r.ClientID = ""
  · simp [CopyObject, hm, hv, hc] at hok
  by_cases hdest : r.FormValue "dest" = ""
  · simp [CopyObject, hm, hv, hc, hdest] at hok
  by_cases hpath : r.FormValue "path_hash" = "" ∧ r.FormValue "path" = ""
  · simp [CopyObject, hm, hv, hc, hdest, hpath] at hok
  by_cases ho : allocationObj.OwnerID = r.ClientID
  swap
  · simp [CopyObject, hm, hv, hc, hdest, hpath, ho] at hok
  by_cases hcid : r.FormValue "connection_id" = ""
  · simp [CopyObject, hm, hv, hc, hdest, hpath, ho, hcid] at hok
  cases hconn : env.GetAllocationChanges w.db (r.FormValue "connection_id") allocationObj.ID
      r.ClientID with
  | error e => simp [CopyObject, hm, hv, hc, hdest, hpath, ho, hcid, hconn] at hok
  | ok before =>
  have hrun : CopyObject env r w =
      ((CopyObjectLocked env allocationObj.ID before (objectLookupHash env r allocationObj)
          (r.FormValue "dest")
          (((w.log .verifyAllocationTransaction).log .getAllocationChanges).log
            .mutexLock)).1,
        (CopyObjectLocked env allocationObj.ID before (objectLookupHash env r allocationObj)
          (r.FormValue "dest")
          (((w.log .verifyAllocationTransaction).log .getAllocationChanges).log
            .mutexLock)).2.log .mutexUnlock) := by
    simp [CopyObject, hm, hv, hc, hdest, hpath, ho, hcid, hconn, objectLookupHash]
  rw [hrun] at hok ⊢
  unfold CopyObjectLocked at hok ⊢
  simp only [World.log_db] at hok ⊢
  cases href : env.GetReferenceFromLookupHash w.db.refs allocationObj.ID
      (objectLookupHash env r allocationObj) with
  | error e => simp [href] at hok
  | ok objectRef =>
  simp only [href] at hok ⊢
  cases hnew : env.GetReference w.db.refs allocationObj.ID
      (env.FilepathJoin (r.FormValue "dest") objectRef.Name) with
  | ok existing => simp [hnew] at hok
  | error e1 =>
  simp only [hnew] at hok ⊢
  cases hd : env.GetReference w.db.refs allocationObj.ID (r.FormValue "dest") with
  | error e2 => simp [hd] at hok
  | ok destRef =>
  simp only [hd] at hok ⊢
  by_cases hdir : destRef.RefType ≠ DIRECTORY
  · simp [hdir] at hok
  simp only [hdir, if_false] at hok ⊢
  cases hsave : env.ConnectionSave w.db.connections
      (AllocationChangeCollector.AddChange env
        { before with Size := add64 before.Size objectRef.Size }
        ⟨before.ConnectionID, COPY_OPERATION, objectRef.Size, ""⟩
        (.copy before.ConnectionID before.AllocationID (r.FormValue "dest")
          objectRef.Path)) with
  | error e => simp [hsave] at hok
  | ok table =>
    refine ⟨allocationObj, before,
      ⟨before.ConnectionID, COPY_OPERATION, objectRef.Size,
        env.Marshal (.copy before.ConnectionID before.AllocationID (r.FormValue "dest")
          objectRef.Path)⟩, hva, by rw [ho]; exact hconn, ?_, ?_, ⟨rfl, objectRef, href, rfl⟩⟩
    · simp [hsave]
      rfl
    · simp only [hsave]
      exact hsave

/-- What a staging handler has done when it returns no error: the loaded
connection got one more change and its size was stepped by the size of that
change, and this object was saved. -/
theorem stage_success (op : StagingOp) (env : Env) (r : Request) (w : World)
    (hok : (stage op env r w).1.err = none) :
    ∃ allocationObj before change,
      env.VerifyAllocationTransaction w.db r.AllocationTx false = .ok allocationObj ∧
      env.GetAllocationChanges w.db (r.FormValue "connection_id") allocationObj.ID
        allocationObj.OwnerID = .ok before ∧
      (stage op env r w).1.connectionObj =
        some { before with Size := add64 before.Size change.Size,
                           Changes := before.Changes ++ [change] } ∧
      env.ConnectionSave w.db.connections
        { before with Size := add64 before.Size change.Size,
                      Changes := before.Changes ++ [change] } =
          .ok (stage op env r w).2.db.connections ∧
      StagedSize op env r w.db allocationObj before change := by
  cases op with
  | writeFile => exact WriteFile_success env r w hok
  | renameObject => exact RenameObject_success env r w hok
  | copyObject => exact CopyObject_success env r w hok

/-- C18: when a staging handler (`WriteFile` for an insert, an update or a
delete, `RenameObject`, `CopyObject`) returns no error, the connection object
`after` that it saved is the loaded connection `before` with exactly one
change appended and with `Size` stepped by the `Size` of that change (`int64`
addition). So if `before.Size` was the sum of the sizes of its changes, as Go
adds them, `after.Size` is the sum of the sizes of its changes; and the same
holds for the sum as integers when the addition does not overflow. -/
theorem staging_size_invariant (op : StagingOp) (env : Env) (r : Request) (w : World)
    (hok : (stage op env r w).1.err = none) :
    ∃ allocationObj before change after,
      env.VerifyAllocationTransaction w.db r.AllocationTx false = .ok allocationObj ∧
      env.GetAllocationChanges w.db (r.FormValue "connection_id") allocationObj.ID
        allocationObj.OwnerID = .ok before ∧
      (stage op env r w).1.connectionObj = some after ∧
      env.ConnectionSave w.db.connections after = .ok (stage op env r w).2.db.connections ∧
      after.Changes = before.Changes ++ [change] ∧
      after.Size = add64 before.Size change.Size ∧
      (before.Size = sizeOfChanges before.Changes →
        after.Size = sizeOfChanges after.Changes) ∧
      (before.Size = exactSizeOfChanges before.Changes →
        inInt64 (before.Size + change.Size) = true →
        after.Size = before.Size + change.Size ∧
        after.Size = exactSizeOfChanges after.Changes) := by
  obtain ⟨allocationObj, before, change, hva, hconn, hafter, hsave, -⟩ :=
    stage_success op env r w hok
  refine ⟨allocationObj, before, change, _, hva, hconn, hafter, hsave, rfl, rfl, ?_, ?_⟩
  · intro hinv
    dsimp only
    rw [sizeOfChanges_append, hinv]
  · intro hinv hrange
    dsimp only
    have hadd : add64 before.Size change.Size = before.Size + change.Size :=
      wrap64_of_inInt64 _ hrange
    rw [exactSizeOfChanges_append, hadd, hinv]
    exact ⟨rfl, rfl⟩

/-- C18 on the test data: the insert of a file of three bytes under a
connection whose size is the size of its one change. -/
theorem staging_size_invariant_witness :
    (stage .writeFile (demoEnv 0 0 "" 0) (uploadRequest "POST" "/new_file" [1, 2, 3])
      stagingWorld).1.err = none ∧
    ∃ allocationObj before change after,
      (demoEnv 0 0 "" 0).VerifyAllocationTransaction stagingWorld.db
        (uploadRequest "POST" "/new_file" [1, 2, 3]).AllocationTx false = .ok allocationObj ∧
      (demoEnv 0 0 "" 0).GetAllocationChanges stagingWorld.db
        ((uploadRequest "POST" "/new_file" [1, 2, 3]).FormValue "connection_id")
        allocationObj.ID allocationObj.OwnerID = .ok before ∧
      (stage .writeFile (demoEnv 0 0 "" 0) (uploadRequest "POST" "/new_file" [1, 2, 3])
        stagingWorld).1.connectionObj = some after ∧
      (demoEnv 0 0 "" 0).ConnectionSave stagingWorld.db.connections after =
        .ok (stage .writeFile (demoEnv 0 0 "" 0) (uploadRequest "POST" "/new_file" [1, 2, 3])
          stagingWorld).2.db.connections ∧
      after.Changes = before.Changes ++ [change] ∧
      after.Size = add64 before.Size change.Size ∧
      (before.Size = sizeOfChanges before.Changes →
        after.Size = sizeOfChanges after.Changes) ∧
      (before.Size = exactSizeOfChanges before.Changes →
        inInt64 (before.Size + change.Size) = true →
        after.Size = before.Size + change.Size ∧
        after.Size = exactSizeOfChanges after.Changes) :=
  ⟨by decide,
    staging_size_invariant .writeFile (demoEnv 0 0 "" 0)
      (uploadRequest "POST" "/new_file" [1, 2, 3]) stagingWorld (by decide)⟩

/-- The staged connections on the test data: an insert of three bytes, an
update of `/some_file` (1337 bytes) with three bytes, the delete and the
rename of `/some_file` and its copy into `/copy`, each under the connection
of size 1200 with one change of that size. -/
theorem stage_runs :
    (WriteFile (demoEnv 0 0 "" 0) (uploadRequest "POST" "/new_file" [1, 2, 3])
      stagingWorld).1.connectionObj =
      some { balancedConnection with
        Size := 1203
        Changes := balancedConnection.Changes ++
          [⟨"connection_id", "insert", 3, "insert /new_file"⟩] } ∧
    (WriteFile (demoEnv 0 0 "" 0) (uploadRequest "PUT" "/some_file" [1, 2, 3])
      stagingWorld).1.connectionObj =
      some { balancedConnection with
        Size := -134
        Changes := balancedConnection.Changes ++
          [⟨"connection_id", "update", -1334, "update /some_file"⟩] } ∧
    (WriteFile (demoEnv 0 0 "" 0) (uploadRequest "DELETE" "/some_file" [])
      stagingWorld).1.connectionObj =
      some { balancedConnection with
        Size := -137
        Changes := balancedConnection.Changes ++
          [⟨"connection_id", "delete", -1337, "delete /some_file"⟩] } ∧
    (RenameObject (demoEnv 0 0 "" 0) renameRequest stagingWorld).1.connectionObj =
      some { balancedConnection with
        Size := 1200
        Changes := balancedConnection.Changes ++
          [⟨"connection_id", "rename", 0, "rename /some_file new_name"⟩] } ∧
    (CopyObject (demoEnv 0 0 "" 0) (copyRequest "/copy") stagingWorld).1.connectionObj =
      some { balancedConnection with
        Size := 2537
        Changes := balancedConnection.Changes ++
          [⟨"connection_id", "copy", 1337, "copy /some_file /copy"⟩] } := by
  decide

/-- C19 (amended): when a staging handler returns no error, the `Size` of the
one change that it appended is: zero for a rename; the size of the source
object for a copy; `0 - size` of the deleted file for a delete, so not
positive for a file of a size from 0 up; the size that the file store reports
less the size of the existing file for an update, of either sign; and the size
that the file store reports for an insert (no file exists, so zero is
subtracted), zero for an empty file. The subtractions are those of `int64`
and are exact when the difference is an `int64`. -/
theorem staged_change_size (op : StagingOp) (env : Env) (r : Request) (w : World)
    (hok : (stage op env r w).1.err = none) :
    ∃ allocationObj before change,
      (stage op env r w).1.connectionObj =
        some { before with Size := add64 before.Size change.Size,
                           Changes := before.Changes ++ [change] } ∧
      StagedSize op env r w.db allocationObj before change ∧
      (op = .renameObject → change.Operation = RENAME_OPERATION ∧ change.Size = 0) ∧
      (op = .writeFile → r.Method = "DELETE" →
        change.Operation = DELETE_OPERATION ∧
        ∃ fileRef, env.GetReference w.db.refs before.AllocationID (r.FormValue "path") =
            .ok fileRef ∧
          change.Size = sub64 0 fileRef.Size ∧
          (0 ≤ fileRef.Size → inInt64 fileRef.Size = true →
            change.Size = -fileRef.Size ∧ change.Size ≤ 0)) ∧
      (op = .writeFile → r.Method ≠ "DELETE" →
        (change.Operation = if r.Method = "PUT" then UPDATE_OPERATION
          else INSERT_OPERATION) ∧
        ∃ (stored : FileOutputData) (existingSize : Int),
          change.Size = sub64 stored.Size existingSize ∧
          (r.Method ≠ "PUT" → existingSize = 0) ∧
          (inInt64 (stored.Size - existingSize) = true →
            change.Size = stored.Size - existingSize ∧
            (0 < change.Size ↔ existingSize < stored.Size))) := by
  obtain ⟨allocationObj, before, change, -, -, hafter, -, hsize⟩ :=
    stage_success op env r w hok
  refine ⟨allocationObj, before, change, hafter, hsize, ?_, ?_, ?_⟩
  · intro hop
    subst hop
    exact hsize
  · intro hop hdel
    subst hop
    simp only [StagedSize, hdel, if_true] at hsize
    obtain ⟨h1, fileRef, hf, hs⟩ := hsize
    refine ⟨h1, fileRef, hf, hs, fun hpos hr => ?_⟩
    have hr2 : inInt64 (0 - fileRef.Size) = true := by
      unfold inInt64 at hr ⊢
      norm_num at hr ⊢
      omega
    have := wrap64_of_inInt64 _ hr2
    unfold sub64 at hs
    rw [this] at hs
    constructor <;> omega
  · intro hop hdel
    subst hop
    simp only [StagedSize, hdel, if_false] at hsize
    by_cases hput : r.Method = "PUT"
    · simp only [hput, if_true] at hsize ⊢
      obtain ⟨h1, formData, existing, origfile, stored, -, -, -, -, hs⟩ := hsize
      refine ⟨h1, stored, existing.Size, hs, fun h => absurd rfl h, fun hr => ?_⟩
      have := wrap64_of_inInt64 _ hr
      unfold sub64 at hs
      rw [this] at hs
      constructor
      · exact hs
      · omega
    · simp only [hput, if_false] at hsize ⊢
      obtain ⟨h1, formData, origfile, stored, -, -, -, -, hs⟩ := hsize
      refine ⟨h1, stored, 0, hs, fun _ => rfl, fun hr => ?_⟩
      have := wrap64_of_inInt64 _ hr
      unfold sub64 at hs
      rw [this] at hs
      constructor
      · exact hs
      · omega

/-- C19 on the test data: the rename of `/some_file`. -/
theorem staged_change_size_witness :
    (stage .renameObject (demoEnv 0 0 "" 0) renameRequest stagingWorld).1.err = none ∧
    ∃ allocationObj before change,
      (stage .renameObject (demoEnv 0 0 "" 0) renameRequest stagingWorld).1.connectionObj =
        some { before with Size := add64 before.Size change.Size,
                           Changes := before.Changes ++ [change] } ∧
      StagedSize .renameObject (demoEnv 0 0 "" 0) renameRequest stagingWorld.db allocationObj
        before change ∧
      (StagingOp.renameObject = .renameObject →
        change.Operation = RENAME_OPERATION ∧ change.Size = 0) ∧
      (StagingOp.renameObject = .writeFile → renameRequest.Method = "DELETE" →
        change.Operation = DELETE_OPERATION ∧
        ∃ fileRef, (demoEnv 0 0 "" 0).GetReference stagingWorld.db.refs before.AllocationID
            (renameRequest.FormValue "path") = .ok fileRef ∧
          change.Size = sub64 0 fileRef.Size ∧
          (0 ≤ fileRef.Size → inInt64 fileRef.Size = true →
            change.Size = -fileRef.Size ∧ change.Size ≤ 0)) ∧
      (StagingOp.renameObject = .writeFile → renameRequest.Method ≠ "DELETE" →
        (change.Operation = if renameRequest.Method = "PUT" then UPDATE_OPERATION
          else INSERT_OPERATION) ∧
        ∃ (stored : FileOutputData) (existingSize : Int),
          change.Size = sub64 stored.Size existingSize ∧
          (renameRequest.Method ≠ "PUT" → existingSize = 0) ∧
          (inInt64 (stored.Size - existingSize) = true →
            change.Size = stored.Size - existingSize ∧
            (0 < change.Size ↔ existingSize < stored.Size))) :=
  ⟨by decide,
    staged_change_size .renameObject (demoEnv 0 0 "" 0) renameRequest stagingWorld
      (by decide)⟩

/-- Counterexample to C19 as stated: on the test data `/some_file` holds 1337
bytes. An update (`PUT`) of it with three bytes returns no error and appends
an update change of size -1334, which is not positive; and the insert (`POST`)
of an empty file returns no error and appends an insert change of size 0,
which is not positive either. -/
theorem WriteFile_change_size_counterexample :
    (WriteFile (demoEnv 0 0 "" 0) (uploadRequest "PUT" "/some_file" [1, 2, 3])
      stagingWorld).1.err = none ∧
    (WriteFile (demoEnv 0 0 "" 0) (uploadRequest "PUT" "/some_file" [1, 2, 3])
      stagingWorld).1.connectionObj =
      some { balancedConnection with
        Size := -134
        Changes := balancedConnection.Changes ++
          [⟨"connection_id", UPDATE_OPERATION, -1334, "update /some_file"⟩] } ∧
    (WriteFile (demoEnv 0 0 "" 0) (uploadRequest "POST" "/empty" [])
      stagingWorld).1.err = none ∧
    (WriteFile (demoEnv 0 0 "" 0) (uploadRequest "POST" "/empty" [])
      stagingWorld).1.connectionObj =
      some { balancedConnection with
        Size := 1200
        Changes := balancedConnection.Changes ++
          [⟨"connection_id", INSERT_OPERATION, 0, "insert /empty"⟩] } ∧
    ¬ ((0 : Int) < -1334) ∧ ¬ ((0 : Int) < 0) := by
  decide

/-! ## The allocation check and the owner check of `CommitWrite` -/

/-- C24: `verifyAllocation` returns an error when the transaction id is empty,
when `VerifyAllocationTransaction` fails, and when the `Expiration` of the
loaded allocation is earlier than `common.Now()`; it returns the loaded
allocation (with a `nil` error) exactly when the id is not empty, the lookup
succeeds and `Expiration >= now`, so an allocation that expires exactly now is
accepted. It writes nothing. -/
theorem verifyAllocation_rejects (env : Env) (tx : String) (readonly : Bool) (w : World) :
    (tx = "" → verifyAllocation env tx readonly w =
      (.error (NewError "verify_allocation" "invalid allocation id"), w)) ∧
    (∀ err, tx ≠ "" → env.VerifyAllocationTransaction w.db tx readonly = .error err →
      verifyAllocation env tx readonly w =
        (.error (NewErrorf env "verify_allocation"
          "verifying allocation transaction error: " err),
          w.log .verifyAllocationTransaction)) ∧
    (∀ alloc, tx ≠ "" → env.VerifyAllocationTransaction w.db tx readonly = .ok alloc →
      alloc.Expiration < env.Now →
      verifyAllocation env tx readonly w =
        (.error (NewError "verify_allocation" "use of expired allocation"),
          w.log .verifyAllocationTransaction)) ∧
    (∀ alloc, (verifyAllocation env tx readonly w).1 = .ok alloc ↔
      tx ≠ "" ∧ env.VerifyAllocationTransaction w.db tx readonly = .ok alloc ∧
        env.Now ≤ alloc.Expiration) ∧
    (∀ alloc, tx ≠ "" → env.VerifyAllocationTransaction w.db tx readonly = .ok alloc →
      alloc.Expiration = env.Now →
      verifyAllocation env tx readonly w = (.ok alloc, w.log .verifyAllocationTransaction)) ∧
    (verifyAllocation env tx readonly w).2.db = w.db := by
  refine ⟨?_, ?_, ?_, ?_, ?_, (verifyAllocation_frame env tx readonly w).1⟩
  · intro htx
    simp [verifyAllocation, htx]
  · intro err htx hv
    simp [verifyAllocation, htx, hv]
  · intro alloc htx hv hexp
    simp [verifyAllocation, htx, hv, hexp]
  · intro alloc
    constructor
    · intro h
      cases hX : verifyAllocation env tx readonly w with
      | mk res w1 =>
        rw [hX] at h
        simp only at h
        subst h
        obtain ⟨h1, h2, h3, -⟩ := verifyAllocation_ok env tx readonly w w1 alloc hX
        exact ⟨h1, h2, h3⟩
    · rintro ⟨h1, h2, h3⟩
      rw [verifyAllocation_of_ok env tx readonly w alloc h1 h2 h3]
  · intro alloc htx hv hexp
    exact verifyAllocation_of_ok env tx readonly w alloc htx hv (le_of_eq hexp.symm)

/-- The allocation check on the test data, where `common.Now()` is 100: the
allocation is accepted when it expires at 100 and refused when it expires at
99. -/
theorem verifyAllocation_expiring_now :
    (verifyAllocation (demoEnv 0 0 "" 0) "exampleTransaction" false
      ⟨{ demoDB with allocations := [{ demoAllocation with Expiration := 100 }] }, []⟩).1 =
      .ok { demoAllocation with Expiration := 100 } ∧
    (verifyAllocation (demoEnv 0 0 "" 0) "exampleTransaction" false
      ⟨{ demoDB with allocations := [{ demoAllocation with Expiration := 99 }] }, []⟩).1 =
      .error (NewError "verify_allocation" "use of expired allocation") :=
  ⟨rfl, rfl⟩

/-- C30: for a request of `CommitWrite` that is not a `GET` and whose
allocation check succeeds, when the client id is empty, or is not the
`OwnerID` of the allocation, or the client key is empty, or `encryption.Hash`
of the hex-decoded client key is not the client id, `CommitWrite` returns
`invalid_operation` and has made no call but the lookup of the allocation: no
lock, no connection lookup, and the state is unchanged. So a run that takes
the lock, loads the connection, changes the state or returns no error
satisfies the four conditions. -/
theorem CommitWrite_owner_only (env : Env) (r : Request) (w : World)
    (allocationObj : Allocation)
    (hm : r.Method ≠ "GET") (htx : r.AllocationTx ≠ "")
    (hva : env.VerifyAllocationTransaction w.db r.AllocationTx false = .ok allocationObj)
    (hexp : env.Now ≤ allocationObj.Expiration) :
    (¬ (r.ClientID ≠ "" ∧ allocationObj.OwnerID = r.ClientID ∧ r.ClientKey ≠ "" ∧
        env.Hash (.bytes (hexDecode r.ClientKey.data)) = r.ClientID) →
      CommitWrite env r w =
        ((none, some (NewError "invalid_operation"
          "Operation needs to be performed by the owner of the allocation")),
          w.log .verifyAllocationTransaction)) ∧
    ((Call.mutexLock ∈ (CommitWrite env r w).2.trace.drop w.trace.length ∨
        Call.getAllocationChanges ∈ (CommitWrite env r w).2.trace.drop w.trace.length ∨
        (CommitWrite env r w).2.db ≠ w.db ∨
        (CommitWrite env r w).1.2 = none) →
      r.ClientID ≠ "" ∧ allocationObj.OwnerID = r.ClientID ∧ r.ClientKey ≠ "" ∧
        env.Hash (.bytes (hexDecode r.ClientKey.data)) = r.ClientID) := by
  have h1 : ¬ (r.ClientID ≠ "" ∧ allocationObj.OwnerID = r.ClientID ∧ r.ClientKey ≠ "" ∧
        env.Hash (.bytes (hexDecode r.ClientKey.data)) = r.ClientID) →
      CommitWrite env r w =
        ((none, some (NewError "invalid_operation"
          "Operation needs to be performed by the owner of the allocation")),
          w.log .verifyAllocationTransaction) := by
    intro hno
    have hor : r.ClientID = "" ∨ allocationObj.OwnerID ≠ r.ClientID ∨ r.ClientKey = "" ∨
        env.Hash (.bytes (hexDecode r.ClientKey.data)) ≠ r.ClientID := by
      by_contra hc
      push_neg at hc
      exact hno hc
    unfold CommitWrite
    rw [verifyAllocation_of_ok env r.AllocationTx false w allocationObj htx hva hexp]
    simp only [hm, if_false, hor, if_true]
  refine ⟨h1, ?_⟩
  intro hpast
  by_contra hno
  rw [h1 hno] at hpast
  simp [World.log] at hpast

/-- C30 on the test data: the commit request of the test data sent by a client
that is not the owner is refused after the lookup of the allocation. -/
theorem CommitWrite_owner_only_witness :
    CommitWrite (demoEnv 0 0 demoNewRoot 1337) { demoRequest with ClientID := "intruder" }
        demoWorld =
      ((none, some (NewError "invalid_operation"
        "Operation needs to be performed by the owner of the allocation")),
        demoWorld.log .verifyAllocationTransaction) :=
  (CommitWrite_owner_only (demoEnv 0 0 demoNewRoot 1337)
    { demoRequest with ClientID := "intruder" } demoWorld demoAllocation
    (by decide) (by decide) rfl (by decide)).1 (by decide)

/-! ## Auth tickets -/

/-- The test of `strings.HasPrefix` on a path that continues another one. -/
theorem HasPrefix_append (p s t : String) :
    HasPrefix (p ++ s) (p ++ t) = HasPrefix s t := by
  unfold HasPrefix
  simp only [String.data_append]
  induction p.data with
  | nil => rfl
  | cons c cs ih => simpa [List.isPrefixOf] using ih

/-- What a run of `verifyAuthTicket` that returns `true` went through. -/
theorem verifyAuthTicket_true (env : Env) (authTokenString : String)
    (allocationObj : Allocation) (refRequested : Ref) (clientID : String) (w : World)
    (h : (verifyAuthTicket env authTokenString allocationObj refRequested clientID w).1.1 =
      true) :
    authTokenString ≠ "" ∧
    ∃ authToken, env.ParseAuthTicket authTokenString = .ok authToken ∧
      env.AuthTicketVerify authToken allocationObj clientID = none ∧
      (refRequested.LookupHash = authToken.FilePathHash ∨
        ∃ authTokenRef, env.GetReferenceFromLookupHash w.db.refs authToken.AllocationID
            authToken.FilePathHash = .ok authTokenRef ∧
          (refRequested.ParentPath = authTokenRef.Path ∨
            HasPrefix refRequested.ParentPath (authTokenRef.Path ++ "/") = true)) := by
  unfold verifyAuthTicket at h
  split at h
  · simp at h
  rename_i hne
  split at h
  · simp at h
  rename_i authToken hparse
  dsimp only at h
  split at h
  · simp at h
  rename_i hver
  refine ⟨hne, authToken, hparse, hver, ?_⟩
  split at h
  · rename_i hlook
    split at h
    · simp at h
    rename_i authTokenRef href
    split at h
    · simp at h
    rename_i hpath
    right
    refine ⟨authTokenRef, by simpa using href, ?_⟩
    by_contra hc
    push_neg at hc
    exact hpath ⟨hc.1, hc.2⟩
  · rename_i hlook
    left
    simpa using hlook

/-- The two outcomes of `verifyAuthTicket`: `(true, nil)` or `false` with an
error. -/
theorem verifyAuthTicket_outcome (env : Env) (authTokenString : String)
    (allocationObj : Allocation) (refRequested : Ref) (clientID : String) (w : World) :
    (verifyAuthTicket env authTokenString allocationObj refRequested clientID w).1 =
      (true, none) ∨
    ((verifyAuthTicket env authTokenString allocationObj refRequested clientID w).1.1 =
        false ∧
      (verifyAuthTicket env authTokenString allocationObj refRequested clientID w).1.2 ≠
        none) := by
  unfold verifyAuthTicket
  dsimp only
  repeat' split
  all_goals simp

/-- A ticket that parses and passes `Verify` is accepted for the anchor itself,
and for a reference whose parent path is the path of the anchor or starts with
that path followed by `/`. -/
theorem verifyAuthTicket_grants (env : Env) (authTokenString : String)
    (allocationObj : Allocation) (refRequested : Ref) (clientID : String) (w : World)
    (authToken : AuthTicket) (authTokenRef : Ref)
    (hne : authTokenString ≠ "")
    (hparse : env.ParseAuthTicket authTokenString = .ok authToken)
    (hver : env.AuthTicketVerify authToken allocationObj clientID = none)
    (href : env.GetReferenceFromLookupHash w.db.refs authToken.AllocationID
      authToken.FilePathHash = .ok authTokenRef)
    (hsub : refRequested.LookupHash = authToken.FilePathHash ∨
      refRequested.ParentPath = authTokenRef.Path ∨
      HasPrefix refRequested.ParentPath (authTokenRef.Path ++ "/") = true) :
    (verifyAuthTicket env authTokenString allocationObj refRequested clientID w).1 =
      (true, none) := by
  unfold verifyAuthTicket
  simp only [hne, if_false, hparse, hver]
  by_cases hlook : refRequested.LookupHash = authToken.FilePathHash
  · simp [hlook]
  · rcases hsub with h1 | h1 | h1
    · exact absurd h1 hlook
    · simp [hlook, href, h1]
    · simp [hlook, href, h1]

/-- C23: `verifyAuthTicket` returns `true` only when the ticket string is not
empty, parses and passes `Verify`, and the `LookupHash` of the requested
reference is the `FilePathHash` of the ticket or its `ParentPath` is the `Path`
of the anchor or starts with that path followed by `/`; the error is then
`nil`. When it returns `false` the error is not `nil`. A requested reference
that is not the anchor and whose parent path is the anchor path continued by
text that does not start with `/` (for the anchor `/a`: `/ab`, `/ab/c`) is
refused. -/
theorem verifyAuthTicket_sound (env : Env) (authTokenString : String)
    (allocationObj : Allocation) (refRequested : Ref) (clientID : String) (w : World) :
    ((verifyAuthTicket env authTokenString allocationObj refRequested clientID w).1.1 =
        true →
      (verifyAuthTicket env authTokenString allocationObj refRequested clientID w).1.2 =
        none ∧
      authTokenString ≠ "" ∧
      ∃ authToken, env.ParseAuthTicket authTokenString = .ok authToken ∧
        env.AuthTicketVerify authToken allocationObj clientID = none ∧
        (refRequested.LookupHash = authToken.FilePathHash ∨
          ∃ authTokenRef, env.GetReferenceFromLookupHash w.db.refs authToken.AllocationID
              authToken.FilePathHash = .ok authTokenRef ∧
            (refRequested.ParentPath = authTokenRef.Path ∨
              HasPrefix refRequested.ParentPath (authTokenRef.Path ++ "/") = true))) ∧
    ((verifyAuthTicket env authTokenString allocationObj refRequested clientID w).1.1 =
        false →
      (verifyAuthTicket env authTokenString allocationObj refRequested clientID w).1.2 ≠
        none) ∧
    (∀ authToken authTokenRef suffix,
      env.ParseAuthTicket authTokenString = .ok authToken →
      env.GetReferenceFromLookupHash w.db.refs authToken.AllocationID
        authToken.FilePathHash = .ok authTokenRef →
      refRequested.LookupHash ≠ authToken.FilePathHash →
      refRequested.ParentPath = authTokenRef.Path ++ suffix →
      suffix ≠ "" → HasPrefix suffix "/" = false →
      (verifyAuthTicket env authTokenString allocationObj refRequested clientID w).1.1 =
          false ∧
        (verifyAuthTicket env authTokenString allocationObj refRequested clientID w).1.2 ≠
          none) := by
  have hout := verifyAuthTicket_outcome env authTokenString allocationObj refRequested
    clientID w
  refine ⟨?_, ?_, ?_⟩
  · intro h
    refine ⟨?_, verifyAuthTicket_true env authTokenString allocationObj refRequested clientID
      w h⟩
    rcases hout with h1 | ⟨h1, -⟩
    · rw [h1]
    · rw [h1] at h
      cases h
  · intro h
    rcases hout with h1 | ⟨-, h2⟩
    · rw [h1] at h
      cases h
    · exact h2
  · intro authToken authTokenRef suffix hparse href hlook hparent hsuf hslash
    rcases hout with h1 | h1
    · have htrue : (verifyAuthTicket env authTokenString allocationObj refRequested clientID
          w).1.1 = true := by rw [h1]
      obtain ⟨-, authToken2, hparse2, -, hcase⟩ :=
        verifyAuthTicket_true env authTokenString allocationObj refRequested clientID w htrue
      rw [hparse] at hparse2
      cases hparse2
      rcases hcase with h2 | ⟨authTokenRef2, href2, h2⟩
      · exact absurd h2 hlook
      · rw [href] at href2
        cases href2
        rcases h2 with h3 | h3
        · exfalso
          rw [hparent] at h3
          have hd := congrArg String.data h3
          simp only [String.data_append] at hd
          have hnil : suffix.data = [] := by simpa using hd
          exact hsuf (String.ext hnil)
        · exfalso
          rw [hparent, HasPrefix_append, hslash] at h3
          cases h3
    · exact h1

/-- C23 on the test data: a ticket anchored at the directory `/a`, presented by
the client it was issued to, is refused for files whose parent paths are `/ab`
and `/ab/c`, and accepted for a file whose parent path is `/a/sub`. -/
theorem verifyAuthTicket_sibling_refused :
    (verifyAuthTicket (demoEnv 0 0 "" 0) "exampleId:/a" demoAllocation (fileIn "/ab" "x")
      "exampleReaderId" ticketWorld).1 =
      (false, some (NewError "invalid_parameters"
        "Auth ticket is not valid for the resource being requested")) ∧
    (verifyAuthTicket (demoEnv 0 0 "" 0) "exampleId:/a" demoAllocation (fileIn "/ab/c" "x")
      "exampleReaderId" ticketWorld).1 =
      (false, some (NewError "invalid_parameters"
        "Auth ticket is not valid for the resource being requested")) ∧
    (verifyAuthTicket (demoEnv 0 0 "" 0) "exampleId:/a" demoAllocation (fileIn "/a/sub" "x")
      "exampleReaderId" ticketWorld).1 = (true, none) := by
  decide

/-- C22, the failing input: on the test data the ticket `exampleId:examplePath`
parses, passes `Verify` for the client it was issued to and is anchored at the
root directory `/`. The file `/a/b.txt`, whose parent path `/a` lies below `/`,
is refused with `invalid_parameters`: the code tests the parent path against
`/` and against the prefix `//`. The same file is accepted under a ticket
anchored at `/a`, and the files directly in `/` are accepted under the root
ticket. -/
theorem verifyAuthTicket_root_anchor_refused :
    (demoEnv 0 0 "" 0).ParseAuthTicket "exampleId:examplePath" =
      .ok ⟨"exampleReaderId", "exampleOwnerId", "exampleId", "exampleId:examplePath", "",
        "f", 5000, 1, "sig"⟩ ∧
    (demoEnv 0 0 "" 0).AuthTicketVerify
      ⟨"exampleReaderId", "exampleOwnerId", "exampleId", "exampleId:examplePath", "",
        "f", 5000, 1, "sig"⟩ demoAllocation "exampleReaderId" = none ∧
    (demoEnv 0 0 "" 0).GetReferenceFromLookupHash ticketWorld.db.refs "exampleId"
      "exampleId:examplePath" = .ok demoRoot ∧
    demoRoot.Path = "/" ∧
    (fileIn "/a" "b.txt").ParentPath = "/a" ∧
    liesInSubtree demoRoot.Path (fileIn "/a" "b.txt").ParentPath = true ∧
    (verifyAuthTicket (demoEnv 0 0 "" 0) "exampleId:examplePath" demoAllocation
      (fileIn "/a" "b.txt") "exampleReaderId" ticketWorld).1 =
      (false, some (NewError "invalid_parameters"
        "Auth ticket is not valid for the resource being requested")) ∧
    (verifyAuthTicket (demoEnv 0 0 "" 0) "exampleId:/a" demoAllocation
      (fileIn "/a" "b.txt") "exampleReaderId" ticketWorld).1 = (true, none) ∧
    (verifyAuthTicket (demoEnv 0 0 "" 0) "exampleId:examplePath" demoAllocation
      demoFile "exampleReaderId" ticketWorld).1 = (true, none) :=
  ⟨rfl, by decide, rfl, rfl, rfl, by decide, by decide, by decide, by decide⟩

/-- A ticket anchored at a path that does not end with `/` is accepted for
every requested reference whose parent path is the anchor path or lies below
it. -/
theorem verifyAuthTicket_subtree (env : Env) (authTokenString : String)
    (allocationObj : Allocation) (refRequested : Ref) (clientID : String) (w : World)
    (authToken : AuthTicket) (authTokenRef : Ref)
    (hne : authTokenString ≠ "")
    (hparse : env.ParseAuthTicket authTokenString = .ok authToken)
    (hver : env.AuthTicketVerify authToken allocationObj clientID = none)
    (href : env.GetReferenceFromLookupHash w.db.refs authToken.AllocationID
      authToken.FilePathHash = .ok authTokenRef)
    (hend : authTokenRef.Path.data.getLast? ≠ some '/')
    (hsub : liesInSubtree authTokenRef.Path refRequested.ParentPath = true) :
    (verifyAuthTicket env authTokenString allocationObj refRequested clientID w).1 =
      (true, none) := by
  apply verifyAuthTicket_grants env authTokenString allocationObj refRequested clientID w
    authToken authTokenRef hne hparse hver href
  right
  unfold liesInSubtree at hsub
  simp only [hend, if_false, Bool.or_eq_true, beq_iff_eq] at hsub
  exact hsub

/-- Under a ticket anchored at the root directory `/`, every requested
reference other than the anchor whose parent path is neither `/` nor starts
with `//` is refused: the descendants of the root from the second level on. -/
theorem verifyAuthTicket_root_anchor (env : Env) (authTokenString : String)
    (allocationObj : Allocation) (refRequested : Ref) (clientID : String) (w : World)
    (authToken : AuthTicket) (authTokenRef : Ref)
    (hparse : env.ParseAuthTicket authTokenString = .ok authToken)
    (href : env.GetReferenceFromLookupHash w.db.refs authToken.AllocationID
      authToken.FilePathHash = .ok authTokenRef)
    (hroot : authTokenRef.Path = "/")
    (hlook : refRequested.LookupHash ≠ authToken.FilePathHash)
    (hparent : refRequested.ParentPath ≠ "/")
    (hslash : HasPrefix refRequested.ParentPath "//" = false) :
    (verifyAuthTicket env authTokenString allocationObj refRequested clientID w).1.1 =
      false := by
  by_contra hc
  have htrue : (verifyAuthTicket env authTokenString allocationObj refRequested clientID
      w).1.1 = true := by simpa using hc
  obtain ⟨-, authToken2, hparse2, -, hcase⟩ :=
    verifyAuthTicket_true env authTokenString allocationObj refRequested clientID w htrue
  rw [hparse] at hparse2
  cases hparse2
  rcases hcase with h2 | ⟨authTokenRef2, href2, h2⟩
  · exact hlook h2
  · rw [href] at href2
    cases href2
    rw [hroot] at h2
    rcases h2 with h3 | h3
    · exact hparent h3
    · have : ("/" : String) ++ "/" = "//" := by decide
      rw [this, hslash] at h3
      cases h3

/-! ## `DeleteFile` and the successful commit -/

/-- C21: for a call of `DeleteFile` with a non-empty form value `path`: when
`GetReference` finds no reference at the path, the call returns the error
`invalid_file` and the connection object is as before (same `Changes`, same
`Size`); when it finds `fileRef`, the call returns the name, hash, merkle root
and size of `fileRef`, and the connection object has exactly one more change,
a delete change of size `0 - fileRef.Size`, and its `Size` is stepped by that
size. The arithmetic is that of `int64`: the size of the change is the
negation of `fileRef.Size`, and the new size is `Size - fileRef.Size`, whenever
these are `int64` values. -/
theorem DeleteFile_outcomes (env : Env) (r : Request)
    (connectionObj : AllocationChangeCollector) (w : World)
    (hpath : r.FormValue "path" ≠ "") :
    ((∀ fileRef, env.GetReference w.db.refs connectionObj.AllocationID
        (r.FormValue "path") ≠ .ok fileRef) →
      DeleteFile env r connectionObj w =
        ((.error (NewError "invalid_file" "File does not exist at path"), connectionObj),
          w.log .getReference)) ∧
    (∀ fileRef, env.GetReference w.db.refs connectionObj.AllocationID
        (r.FormValue "path") = .ok fileRef →
      ∃ change,
        DeleteFile env r connectionObj w =
          ((.ok { Filename := fileRef.Name, Hash := fileRef.Hash,
                  MerkleRoot := fileRef.MerkleRoot, Size := fileRef.Size },
            { connectionObj with
              Size := add64 connectionObj.Size change.Size
              Changes := connectionObj.Changes ++ [change] }),
            w.log .getReference) ∧
        change.Operation = DELETE_OPERATION ∧
        change.ConnectionID = connectionObj.ConnectionID ∧
        change.Size = sub64 0 fileRef.Size ∧
        (inInt64 (-fileRef.Size) = true → change.Size = -fileRef.Size ∧
          (inInt64 (connectionObj.Size - fileRef.Size) = true →
            add64 connectionObj.Size change.Size = connectionObj.Size - fileRef.Size))) := by
  refine ⟨?_, ?_⟩
  · intro hnone
    unfold DeleteFile
    simp only [hpath, if_false, World.log_db]
    cases hg : env.GetReference w.db.refs connectionObj.AllocationID (r.FormValue "path") with
    | ok fileRef => exact absurd hg (hnone fileRef)
    | error e => rfl
  · intro fileRef hg
    refine ⟨⟨connectionObj.ConnectionID, DELETE_OPERATION, sub64 0 fileRef.Size,
      env.Marshal (.delete connectionObj.ConnectionID connectionObj.AllocationID
        fileRef.Name fileRef.Hash fileRef.Path fileRef.Size)⟩, ?_, rfl, rfl, rfl, ?_⟩
    · unfold DeleteFile
      simp only [hpath, if_false, World.log_db, hg]
      rfl
    · intro hr
      have hneg : sub64 0 fileRef.Size = -fileRef.Size := by
        unfold sub64
        rw [zero_sub]
        exact wrap64_of_inInt64 _ hr
      refine ⟨hneg, fun hr2 => ?_⟩
      dsimp only
      rw [hneg]
      unfold add64
      have : connectionObj.Size + -fileRef.Size = connectionObj.Size - fileRef.Size := by ring
      rw [this]
      exact wrap64_of_inInt64 _ hr2

/-- C21 on the test data: the delete of `/some_file` (1337 bytes) under the
connection of size 1200. -/
theorem DeleteFile_outcomes_witness :
    ∃ change,
      DeleteFile (demoEnv 0 0 "" 0) (uploadRequest "DELETE" "/some_file" [])
          balancedConnection stagingWorld =
        ((.ok { Filename := demoFile.Name, Hash := demoFile.Hash,
                MerkleRoot := demoFile.MerkleRoot, Size := demoFile.Size },
          { balancedConnection with
            Size := add64 balancedConnection.Size change.Size
            Changes := balancedConnection.Changes ++ [change] }),
          stagingWorld.log .getReference) ∧
      change.Operation = DELETE_OPERATION ∧
      change.ConnectionID = balancedConnection.ConnectionID ∧
      change.Size = sub64 0 demoFile.Size ∧
      (inInt64 (-demoFile.Size) = true → change.Size = -demoFile.Size ∧
        (inInt64 (balancedConnection.Size - demoFile.Size) = true →
          add64 balancedConnection.Size change.Size =
            balancedConnection.Size - demoFile.Size)) :=
  (DeleteFile_outcomes (demoEnv 0 0 "" 0) (uploadRequest "DELETE" "/some_file" [])
    balancedConnection stagingWorld (by decide)).2 demoFile rfl

/-- The delete of a file and of a missing path on the test data: the first
leaves the connection with the size -137 and a second change of size -1337,
the second leaves it as it was. -/
theorem DeleteFile_runs :
    (DeleteFile (demoEnv 0 0 "" 0) (uploadRequest "DELETE" "/some_file" [])
        balancedConnection stagingWorld).1.2 =
      { balancedConnection with
        Size := -137
        Changes := balancedConnection.Changes ++
          [⟨"connection_id", "delete", -1337, "delete /some_file"⟩] } ∧
    (DeleteFile (demoEnv 0 0 "" 0) (uploadRequest "DELETE" "/missing" [])
        balancedConnection stagingWorld).1 =
      (.error (NewError "invalid_file" "File does not exist at path"), balancedConnection) :=
  ⟨by decide, rfl⟩

/-- C25: in every run of `CommitWrite` that returns no error, with the loaded
allocation, the loaded connection and the submitted marker: on the rows of the
allocation, `used_size` and `blobber_size_used` are each `connection.Size`
more than before, `is_redeem_required` is true and the root is the one the
marker claims; the marker was saved with the id of the connection and the
client key of the request; the connection table is the one that
`DeleteChanges` left, with the status of the connection set to
`CommittedConnection`; and the returned `CommitResult` has `Success == true`,
an empty `ErrorMessage`, the submitted marker and the changes of the
connection. -/
theorem CommitWrite_success (env : Env) (r : Request) (w : World)
    (h : (CommitWrite env r w).1.2 = none) :
    ∃ allocationObj connectionObj writeMarker,
      env.VerifyAllocationTransaction w.db r.AllocationTx false = .ok allocationObj ∧
      env.GetAllocationChanges w.db (r.FormValue "connection_id") allocationObj.ID
        r.ClientID = .ok connectionObj ∧
      env.ParseWriteMarker (r.FormValue "write_marker") = .ok writeMarker ∧
      (CommitWrite env r w).2.db.allocations = w.db.allocations.map (fun row =>
        if row.ID = allocationObj.ID then
          { row with
            UsedSize := row.UsedSize + connectionObj.Size
            BlobberSizeUsed := row.BlobberSizeUsed + connectionObj.Size
            AllocationRoot := writeMarker.AllocationRoot
            IsRedeemRequired := true }
        else row) ∧
      env.WriteMarkerSave w.db.writeMarkers
        ⟨writeMarker, connectionObj.ConnectionID, r.ClientKey⟩ =
          .ok (CommitWrite env r w).2.db.writeMarkers ∧
      (CommitWrite env r w).2.db.connections =
        (env.DeleteChanges w.db.connections connectionObj).map (fun row =>
          if row.ConnectionID = connectionObj.ConnectionID then
            { row with Status := env.CommittedConnection }
          else row) ∧
      (∃ root, (CommitWrite env r w).1.1 =
        some { Success := true, ErrorMessage := "", WriteMarker := some writeMarker,
               Changes := connectionObj.Changes, AllocationRoot := root }) ∧
      ∃ calls, (CommitWrite env r w).2.trace =
        w.trace ++ calls ++ [.writeMarkerSave, .allocationUpdates, .commitToFileStore,
          .deleteChanges, .connectionUpdates, .mutexUnlock] := by
  obtain ⟨allocationObj, connectionObj, writeMarker, latestWM, rootRef, hreach, heq, hper⟩ :=
    CommitWrite_success_inv env r w h
  obtain ⟨markers, rows, hmarkers, hrows, -, hfinal⟩ := commitPersist_success _ _ _ _ _ _ _ hper
  obtain ⟨f1, f2, f3, -, -⟩ := rootCheckWorld_frame env allocationObj connectionObj writeMarker w
  obtain ⟨hrowsdef, -⟩ := allocationUpdates_ok _ _ _ _ _ _ hrows
  obtain ⟨calls, hcalls, -⟩ := rootCheckWorld_trace env allocationObj connectionObj writeMarker w
  have hcw := CommitWrite_root_match env r w allocationObj connectionObj writeMarker latestWM
    rootRef hreach heq
  rw [hfinal] at hcw
  refine ⟨allocationObj, connectionObj, writeMarker, hreach.1.1.1.2.2.1,
    hreach.1.1.1.2.2.2.2.2.2.2.2.2.2.1, hreach.1.1.2.2.1, ?_, ?_, ?_, ?_, calls, ?_⟩
  · rw [hcw, hrowsdef]
    simp [f1, applyAllocationUpdates, heq]
  · rw [hcw]
    rw [f3] at hmarkers
    simpa using hmarkers
  · rw [hcw]
    simp [f2, connectionUpdates]
  · rw [hcw]
    exact ⟨_, rfl⟩
  · rw [hcw]
    simp [hcalls]

/-- C25 on the test data (`AddCommitTestData`): the commit of the connection of
size 1337 on the allocation with used size 0. -/
theorem CommitWrite_success_witness :
    (∃ allocationObj connectionObj writeMarker,
      (demoEnv 0 0 demoNewRoot 1337).VerifyAllocationTransaction demoWorld.db
        demoRequest.AllocationTx false = .ok allocationObj ∧
      (demoEnv 0 0 demoNewRoot 1337).GetAllocationChanges demoWorld.db
        (demoRequest.FormValue "connection_id") allocationObj.ID demoRequest.ClientID =
          .ok connectionObj ∧
      (demoEnv 0 0 demoNewRoot 1337).ParseWriteMarker (demoRequest.FormValue "write_marker") =
        .ok writeMarker ∧
      (CommitWrite (demoEnv 0 0 demoNewRoot 1337) demoRequest demoWorld).2.db.allocations =
        demoWorld.db.allocations.map (fun row =>
          if row.ID = allocationObj.ID then
            { row with
              UsedSize := row.UsedSize + connectionObj.Size
              BlobberSizeUsed := row.BlobberSizeUsed + connectionObj.Size
              AllocationRoot := writeMarker.AllocationRoot
              IsRedeemRequired := true }
          else row) ∧
      (demoEnv 0 0 demoNewRoot 1337).WriteMarkerSave demoWorld.db.writeMarkers
        ⟨writeMarker, connectionObj.ConnectionID, demoRequest.ClientKey⟩ =
          .ok (CommitWrite (demoEnv 0 0 demoNewRoot 1337) demoRequest
            demoWorld).2.db.writeMarkers ∧
      (CommitWrite (demoEnv 0 0 demoNewRoot 1337) demoRequest demoWorld).2.db.connections =
        ((demoEnv 0 0 demoNewRoot 1337).DeleteChanges demoWorld.db.connections
          connectionObj).map (fun row =>
          if row.ConnectionID = connectionObj.ConnectionID then
            { row with Status := (demoEnv 0 0 demoNewRoot 1337).CommittedConnection }
          else row) ∧
      (∃ root, (CommitWrite (demoEnv 0 0 demoNewRoot 1337) demoRequest demoWorld).1.1 =
        some { Success := true, ErrorMessage := "", WriteMarker := some writeMarker,
               Changes := connectionObj.Changes, AllocationRoot := root }) ∧
      ∃ calls, (CommitWrite (demoEnv 0 0 demoNewRoot 1337) demoRequest demoWorld).2.trace =
        demoWorld.trace ++ calls ++ [.writeMarkerSave, .allocationUpdates,
          .commitToFileStore, .deleteChanges, .connectionUpdates, .mutexUnlock]) ∧
    (CommitWrite (demoEnv 0 0 demoNewRoot 1337) demoRequest demoWorld).2.db.allocations =
      [{ demoAllocation with UsedSize := 1337, BlobberSizeUsed := 1337,
                             AllocationRoot := demoNewRoot, IsRedeemRequired := true }] ∧
    (CommitWrite (demoEnv 0 0 demoNewRoot 1337) demoRequest demoWorld).2.db.connections =
      [{ demoConnection with Changes := [], Status := 2 }] :=
  ⟨CommitWrite_success (demoEnv 0 0 demoNewRoot 1337) demoRequest demoWorld (by decide),
    by decide, by decide⟩

/-! ## Resubmission of a rejected commit -/

/-- The result of `writePreRedeem` and the state of the store that it leaves
depend on the state of the store only, not on the calls made before. -/
theorem writePreRedeem_of_db (env : Env) (alloc : Allocation) (wm : WriteMarker)
    (w1 w2 : World) (hdb : w1.db = w2.db) :
    (writePreRedeem env alloc wm w1).1 = (writePreRedeem env alloc wm w2).1 ∧
    (writePreRedeem env alloc wm w1).2.db = (writePreRedeem env alloc wm w2).2.db := by
  obtain ⟨d1, t1⟩ := w1
  obtain ⟨d2, t2⟩ := w2
  simp only at hdb
  subst hdb
  unfold writePreRedeem savePendingWrite
  simp only [World.log, World.setDB]
  repeat' split
  all_goals simp_all

/-- The marker that `latestWriteMarker` finds depends on the state of the
store only. -/
theorem latestWriteMarker_of_db (env : Env) (allocationObj : Allocation)
    (w1 w2 : World) (hdb : w1.db = w2.db) :
    (latestWriteMarker env allocationObj w1).1 = (latestWriteMarker env allocationObj w2).1 := by
  unfold latestWriteMarker
  simp only [World.log_db, hdb]
  repeat' split
  all_goals simp_all

/-- Whether a run reaches the comparison of the roots depends on the state of
the store only. -/
theorem ReachesRootCheck_of_db (env : Env) (r : Request) (w w2 : World)
    (allocationObj : Allocation) (connectionObj : AllocationChangeCollector)
    (writeMarker : WriteMarker) (latestWM : Option WriteMarkerEntity) (rootRef : Ref)
    (hdb : w2.db = w.db)
    (h : ReachesRootCheck env r w allocationObj connectionObj writeMarker latestWM rootRef) :
    ReachesRootCheck env r w2 allocationObj connectionObj writeMarker latestWM rootRef := by
  obtain ⟨⟨⟨hpass, hcap, hparse, hlatest⟩, hver⟩, hpre, happ, hget⟩ := h
  have hl : (latestWriteMarker env allocationObj (connectionLoaded w2)).1 =
      (latestWriteMarker env allocationObj (connectionLoaded w)).1 :=
    latestWriteMarker_of_db env allocationObj _ _ (by simp [hdb])
  have hp : (writePreRedeem env allocationObj writeMarker (verifyWorld env allocationObj w2)).1 =
      (writePreRedeem env allocationObj writeMarker (verifyWorld env allocationObj w)).1 :=
    (writePreRedeem_of_db env allocationObj writeMarker _ _ (by simp [hdb])).1
  refine ⟨⟨⟨?_, hcap, hparse, by rw [hl]; exact hlatest⟩, by rw [hdb]; exact hver⟩,
    by rw [hp]; exact hpre, by rw [hdb]; exact happ, by rw [hdb]; exact hget⟩
  unfold PassesChecks at hpass ⊢
  rw [hdb]
  exact hpass

/-- What the run does up to the call of `VerifyMarker` depends neither on the
clock beyond the expiry test of the allocation nor on the ledger: a run that
reaches the pre-redeem does so again on the same store at any time at which
the allocation has not expired. -/
theorem ReachesPreRedeem_later (env : Env) (now2 : Int)
    (ledger2 : String → String → Except GoError (List WritePool))
    (r : Request) (w w2 : World)
    (allocationObj : Allocation) (connectionObj : AllocationChangeCollector)
    (writeMarker : WriteMarker) (latestWM : Option WriteMarkerEntity)
    (hdb : w2.db = w.db) (hnow : now2 ≤ allocationObj.Expiration)
    (h : ReachesPreRedeem env r w allocationObj connectionObj writeMarker latestWM) :
    ReachesPreRedeem (env.later now2 ledger2) r w2 allocationObj connectionObj writeMarker
      latestWM := by
  obtain ⟨⟨hpass, hcap, hparse, hlatest⟩, hver⟩ := h
  obtain ⟨h1, h2, h3, -, h5, h6, h7, h8, h9, h10, h11, h12⟩ := hpass
  have hl : (latestWriteMarker (env.later now2 ledger2) allocationObj (connectionLoaded w2)).1 =
      (latestWriteMarker env allocationObj (connectionLoaded w)).1 :=
    latestWriteMarker_of_db env allocationObj _ _ (by simp [hdb])
  refine ⟨⟨⟨h1, h2, ?_, hnow, h5, h6, h7, h8, h9, h10, ?_, h12⟩, hcap, hparse, ?_⟩, ?_⟩
  · rw [hdb]; exact h3
  · rw [hdb]; exact h11
  · rw [hl]; exact hlatest
  · rw [hdb]; exact hver

/-- C26 (amended): a run of `CommitWrite` from the state `w` reaches the
comparison of the roots and is rejected with `allocation_root_mismatch`, with
the payload of the root of the allocation as loaded, the latest marker and
the message with the expected hash. The identical request is run again on
the store that the first attempt started from (the first attempt returned an
error, and nothing in `CommitWrite` commits its transaction), whatever calls
were made meanwhile, at a time `now2` and with the ledger answering `ledger2`.
When the allocation has expired by then, the second attempt returns
`invalid_parameters` and makes no call but the lookup of the allocation. When
it has not expired and the pre-redeem now returns an error, the second
attempt returns that error and no payload. When it has not expired and the
pre-redeem admits the write again, the second attempt returns the same
rejection with the same payload as the first. -/
theorem CommitWrite_rejection_repeats (env : Env) (now2 : Int)
    (ledger2 : String → String → Except GoError (List WritePool))
    (r : Request) (w w2 : World)
    (allocationObj : Allocation) (connectionObj : AllocationChangeCollector)
    (writeMarker : WriteMarker) (latestWM : Option WriteMarkerEntity) (rootRef : Ref)
    (h : ReachesRootCheck env r w allocationObj connectionObj writeMarker latestWM rootRef)
    (hne : recomputedRoot env rootRef writeMarker ≠ writeMarker.AllocationRoot)
    (hdb : w2.db = w.db) :
    (CommitWrite env r w).1 =
      (some { AllocationRoot := allocationObj.AllocationRoot
              WriteMarker := latestWM.map (fun e => e.WM)
              Success := false
              ErrorMessage := "Allocation root in the write marker does not match the " ++
                "calculated allocation root. Expected hash: " ++
                recomputedRoot env rootRef writeMarker
              Changes := [] },
        some (NewError "allocation_root_mismatch"
          ("Allocation root in the write marker does not match the " ++
            "calculated allocation root. Expected hash: " ++
            recomputedRoot env rootRef writeMarker))) ∧
    (allocationObj.Expiration < now2 →
      CommitWrite (env.later now2 ledger2) r w2 =
        ((none, some (NewError "invalid_parameters"
          ("Invalid allocation id passed." ++
            env.ErrorText (NewError "verify_allocation" "use of expired allocation")))),
          w2.log .verifyAllocationTransaction)) ∧
    (now2 ≤ allocationObj.Expiration →
      ∀ err, (writePreRedeem (env.later now2 ledger2) allocationObj writeMarker w2).1 =
          some err →
        (CommitWrite (env.later now2 ledger2) r w2).1 = (none, some err)) ∧
    (now2 ≤ allocationObj.Expiration →
      (writePreRedeem (env.later now2 ledger2) allocationObj writeMarker w2).1 = none →
      (CommitWrite (env.later now2 ledger2) r w2).1 = (CommitWrite env r w).1) := by
  have hfirst := CommitWrite_root_mismatch env r w allocationObj connectionObj writeMarker
    latestWM rootRef h hne
  obtain ⟨hr, hpre, happ, hget⟩ := h
  have hof : ∀ now2 ledger2,
      (writePreRedeem (env.later now2 ledger2) allocationObj writeMarker
        (verifyWorld (env.later now2 ledger2) allocationObj w2)).1 =
      (writePreRedeem (env.later now2 ledger2) allocationObj writeMarker w2).1 :=
    fun now2 ledger2 =>
      (writePreRedeem_of_db (env.later now2 ledger2) allocationObj writeMarker _ _
        (by simp)).1
  refine ⟨by rw [hfirst], ?_, ?_, ?_⟩
  · intro hexp
    obtain ⟨⟨⟨hm, htx, hva, -⟩, -⟩, -⟩ := hr
    have hva2 : (env.later now2 ledger2).VerifyAllocationTransaction w2.db r.AllocationTx
        false = .ok allocationObj := by rw [hdb]; exact hva
    have hnow : (env.later now2 ledger2).Now = now2 := rfl
    simp [CommitWrite, verifyAllocation, hm, htx, hva2, hnow, hexp, World.log_db]
    rfl
  · intro hnow err herr
    have hr2 := ReachesPreRedeem_later env now2 ledger2 r w w2 allocationObj connectionObj
      writeMarker latestWM hdb hnow hr
    rw [← hof] at herr
    rw [CommitWrite_redeem_fails (env.later now2 ledger2) r w2 _ allocationObj connectionObj
      writeMarker latestWM err hr2 (Prod.ext herr rfl)]
  · intro hnow hadm
    have hr2 := ReachesPreRedeem_later env now2 ledger2 r w w2 allocationObj connectionObj
      writeMarker latestWM hdb hnow hr
    rw [← hof] at hadm
    have h2 : ReachesRootCheck (env.later now2 ledger2) r w2 allocationObj connectionObj
        writeMarker latestWM rootRef :=
      ⟨hr2, hadm, by rw [hdb]; exact happ, by rw [hdb]; exact hget⟩
    rw [CommitWrite_root_mismatch (env.later now2 ledger2) r w2 allocationObj connectionObj
      writeMarker latestWM rootRef h2 hne, hfirst]
    rfl

/-- C26 (amended) on the test data: the commit of a marker of 300 bytes that
claims the root `wrong` is rejected at time 100; the identical request on the
same store at time 500, when the allocation has not expired and the cached
pools still cover the write, is rejected in the same way with the same
payload. -/
theorem CommitWrite_rejection_repeats_witness :
    (CommitWrite ((demoEnv 1 0 "wrong" 300).later 500 fun _ _ => .error ⟨"", "no answer"⟩)
        demoRequest ⟨demoWorld.db, [.verifyAllocationTransaction]⟩).1 =
      (CommitWrite (demoEnv 1 0 "wrong" 300) demoRequest demoWorld).1 :=
  (CommitWrite_rejection_repeats (demoEnv 1 0 "wrong" 300) 500
    (fun _ _ => .error ⟨"", "no answer"⟩) demoRequest demoWorld
    ⟨demoWorld.db, [.verifyAllocationTransaction]⟩ demoAllocation demoConnection
    (demoMarker "wrong" 300) (some demoLatestMarker)
    { demoRoot with Hash := "someHash+connection_id" }
    ⟨⟨⟨⟨by decide, by decide, rfl, by decide, by decide, rfl, by decide, rfl, rfl,
        by decide, rfl, by decide⟩, by decide, rfl, rfl⟩, rfl⟩, by decide, rfl, rfl⟩
    (by decide) rfl).2.2.2 (by decide) (by decide)

/-- Counterexample to C26 as stated: on the test data the allocation expires
at time 1000. The commit of a marker that claims a wrong root is rejected with
`allocation_root_mismatch` at time 100; the identical request on the same
store at time 2000 is rejected with `invalid_parameters`, with no payload.
And where the first attempt was admitted on the answer of the ledger (500
tokens cached, 700 wanted, 1000 on the ledger), the identical request on the
same store at the same time, the ledger now answering 600, is rejected with
`write_pre_redeem`. -/
theorem CommitWrite_resubmission_later_counterexample :
    demoAllocation.Expiration = 1000 ∧ (demoEnv 1 0 "wrong" 300).Now = 100 ∧
    (CommitWrite (demoEnv 1 0 "wrong" 300) demoRequest demoWorld).1.2 =
      some (NewError "allocation_root_mismatch"
        ("Allocation root in the write marker does not match the calculated allocation " ++
          "root. Expected hash: H(someHash+connection_id:7)")) ∧
    (CommitWrite ((demoEnv 1 0 "wrong" 300).later 2000
        (demoEnv 1 0 "wrong" 300).RequestWritePools) demoRequest demoWorld).1 =
      (none, some (NewError "invalid_parameters"
        "Invalid allocation id passed.verify_allocation: use of expired allocation")) ∧
    (CommitWrite (demoEnv 1 1000 "wrong" 700) demoRequest demoWorld).1.2 =
      some (NewError "allocation_root_mismatch"
        ("Allocation root in the write marker does not match the calculated allocation " ++
          "root. Expected hash: H(someHash+connection_id:7)")) ∧
    (CommitWrite ((demoEnv 1 1000 "wrong" 700).later 100 fun client aid =>
        .ok [⟨"ledger", client, aid, "blobber_id", 600, 5000⟩]) demoRequest demoWorld).1 =
      (none, some (NewError "write_pre_redeem"
        ("not enough tokens in write pools (client -> allocation ->  blobber)" ++
          "(exampleOwnerId -> exampleId -> blobber_id), have 600, want 700"))) := by
  decide

/-! ## The page limit of `GetRefs` -/

/-- The calls of `queryRefs`: none, or one page query made with the page limit
given; the store is not written. -/
theorem queryRefs_trace (env : Env) (r : Request) (allocationObj : Allocation)
    (level pageLimit : Int) (w : World) :
    (queryRefs env r allocationObj level pageLimit w).2.db = w.db ∧
    ((queryRefs env r allocationObj level pageLimit w).2.trace = w.trace ∨
      ∃ c ∈ pageQueries pageLimit,
        (queryRefs env r allocationObj level pageLimit w).2.trace = w.trace ++ [c]) := by
  unfold queryRefs pageQueries
  dsimp only
  repeat' split
  all_goals simp

/-- The calls of `getRefsPage`: at most one page query, made with the page
limit given, and the lookup of the latest write marker. -/
theorem getRefsPage_trace (env : Env) (r : Request) (allocationObj : Allocation)
    (pageLimit : Int) (w : World) :
    (getRefsPage env r allocationObj pageLimit w).2.db = w.db ∧
    ∃ calls, (getRefsPage env r allocationObj pageLimit w).2.trace = w.trace ++ calls ∧
      ∀ c ∈ calls, c = Call.getWriteMarkerEntity ∨ c ∈ pageQueries pageLimit := by
  unfold getRefsPage
  cases h1 : env.CheckValidDate (r.FormValue "offsetDate") OffsetDateLayout with
  | some e => exact ⟨rfl, [], by simp, by simp⟩
  | none =>
  cases h2 : env.CheckValidDate (r.FormValue "updatedDate") OffsetDateLayout with
  | some e => exact ⟨rfl, [], by simp, by simp⟩
  | none =>
  cases h3 : parseLevel env (r.FormValue "level") with
  | error e => exact ⟨rfl, [], by simp, by simp⟩
  | ok level =>
  obtain ⟨hqdb, hqtr⟩ := queryRefs_trace env r allocationObj level pageLimit w
  cases hq : queryRefs env r allocationObj level pageLimit w with
  | mk res w2 =>
  rw [hq] at hqdb hqtr
  simp only at hqdb hqtr
  have hq2 : ∃ qcalls, w2.trace = w.trace ++ qcalls ∧ ∀ c ∈ qcalls, c ∈ pageQueries pageLimit := by
    rcases hqtr with h | ⟨c, hc, h⟩
    · exact ⟨[], by simp [h], by simp⟩
    · exact ⟨[c], h, by simpa using hc⟩
  obtain ⟨qcalls, hqc, hqm⟩ := hq2
  cases res with
  | error e =>
    simp only [hq]
    exact ⟨hqdb, qcalls, hqc, fun c hc => Or.inr (hqm c hc)⟩
  | ok page =>
  obtain ⟨refs, totalPages, newOffsetPath, newOffsetDate⟩ := page
  simp only [hq]
  have hldb := latestWriteMarker_db env allocationObj w2
  have hltr : (latestWriteMarker env allocationObj w2).2.trace = w2.trace ∨
      (latestWriteMarker env allocationObj w2).2.trace = w2.trace ++ [.getWriteMarkerEntity] := by
    unfold latestWriteMarker
    dsimp only
    repeat' split
    all_goals simp
  cases hl : latestWriteMarker env allocationObj w2 with
  | mk lres w3 =>
  rw [hl] at hldb hltr
  simp only at hldb hltr
  have hfin : w3.db = w.db ∧ ∃ calls, w3.trace = w.trace ++ calls ∧
      ∀ c ∈ calls, c = Call.getWriteMarkerEntity ∨ c ∈ pageQueries pageLimit := by
    refine ⟨by rw [hldb, hqdb], ?_⟩
    rcases hltr with h | h
    · exact ⟨qcalls, by rw [h, hqc], fun c hc => Or.inr (hqm c hc)⟩
    · refine ⟨qcalls ++ [.getWriteMarkerEntity], by rw [h, hqc]; simp, ?_⟩
      intro c hc
      rcases List.mem_append.mp hc with h5 | h5
      · exact Or.inr (hqm c h5)
      · left
        simpa using h5
  cases lres with
  | error e =>
    simp only [hl]
    exact hfin
  | ok latestWM =>
    simp only [hl]
    exact hfin

/-- The effective page limit lies between 1 and `PageLimit`. -/
theorem effectivePageLimit_bounds (pageLimitStr : String) (n : Int)
    (h : effectivePageLimit pageLimitStr = some n) : 1 ≤ n ∧ n ≤ PageLimit := by
  unfold effectivePageLimit at h
  unfold PageLimit
  split at h
  · cases h
    constructor <;> omega
  · split at h
    · cases h
    · split at h
      · cases h
        constructor
        · exact le_min (by assumption) (by norm_num)
        · exact min_le_right _ _
      · cases h

/-- The page limit that `GetRefs` computes (lines 698-713) is the effective
page limit; it refuses the request where there is none. -/
theorem GetRefs_limit (env : Env) (pageLimitStr : String) :
    (if pageLimitStr = "" then (.ok PageLimit : Except GoError Int)
      else
        match Atoi env pageLimitStr with
        | .error _ => .error (NewError "invalid_parameters" "Invalid page limit value type")
        | .ok o =>
          if o ≤ 0 then
            .error (NewError "invalid_parameters"
              "Zero/Negative page limit value is not allowed")
          else if o > PageLimit then .ok PageLimit
          else .ok o) =
      match effectivePageLimit pageLimitStr with
      | some n => .ok n
      | none =>
        .error (NewError "invalid_parameters"
          (if ParseInt pageLimitStr = none then "Invalid page limit value type"
            else "Zero/Negative page limit value is not allowed")) := by
  unfold effectivePageLimit Atoi PageLimit
  by_cases hs : pageLimitStr = ""
  · simp [hs]
  · simp only [hs, if_false]
    cases hp : ParseInt pageLimitStr with
    | none => simp
    | some o =>
      simp only
      by_cases h0 : o ≤ 0
      · have : ¬ (1 ≤ o) := by omega
        simp [h0, this]
      · have h1 : 1 ≤ o := by omega
        simp only [h0, if_false, h1, if_true]
        by_cases h2 : o > 100
        · simp only [h2, if_true]
          rw [min_eq_right (by omega)]
        · simp only [h2, if_false]
          rw [min_eq_left (by omega)]

/-- Every run of `GetRefs` ends before the page limit is fixed, with an error,
or is `getRefsPage` run with the effective page limit. -/
theorem GetRefs_cases (env : Env) (r : Request) (w : World) :
    (∃ e, GetRefs env r w =
      ((none, some e), (verifyAllocation env r.AllocationTx false w).2)) ∨
    (∃ allocationObj n, effectivePageLimit (r.FormValue "pageLimit") = some n ∧
      GetRefs env r w =
        getRefsPage env r allocationObj n (verifyAllocation env r.AllocationTx false w).2) := by
  unfold GetRefs
  cases hv : verifyAllocation env r.AllocationTx false w with
  | mk res w1 =>
  cases res with
  | error e => exact Or.inl ⟨_, rfl⟩
  | ok allocationObj =>
  dsimp only
  rw [GetRefs_limit]
  split
  · exact Or.inl ⟨_, rfl⟩
  split
  · exact Or.inl ⟨_, rfl⟩
  split
  · exact Or.inl ⟨_, rfl⟩
  cases hl : effectivePageLimit (r.FormValue "pageLimit") with
  | none => exact Or.inl ⟨_, rfl⟩
  | some n => exact Or.inr ⟨allocationObj, n, rfl, rfl⟩

/-- Under `ReachesPageLimit`, `GetRefs` refuses the request where there is no
effective page limit, and is `getRefsPage` run with the effective page limit
otherwise. -/
theorem GetRefs_of_checks (env : Env) (r : Request) (w : World) (allocationObj : Allocation)
    (h : ReachesPageLimit env r w allocationObj) :
    GetRefs env r w =
      match effectivePageLimit (r.FormValue "pageLimit") with
      | some n => getRefsPage env r allocationObj n (w.log .verifyAllocationTransaction)
      | none =>
        ((none, some (NewError "invalid_parameters"
          (if ParseInt (r.FormValue "pageLimit") = none then "Invalid page limit value type"
            else "Zero/Negative page limit value is not allowed"))),
          w.log .verifyAllocationTransaction) := by
  obtain ⟨htx, hva, hexp, hsig, hc, ho, hpath⟩ := h
  unfold GetRefs
  rw [verifyAllocation_of_ok env r.AllocationTx false w allocationObj htx hva hexp]
  dsimp only
  rw [GetRefs_limit, hsig]
  simp only [Bool.true_eq_false, ne_eq, not_true_eq_false, or_self, if_false, hc, ho,
    false_or, hpath]
  cases hl : effectivePageLimit (r.FormValue "pageLimit") with
  | none => rfl
  | some n => rfl

/-- C29: in every run of `GetRefs` each page query (`GetRefs`,
`GetUpdatedRefs`, `GetDeletedRefs` of the reference package) is called with
the effective page limit of the form value `pageLimit`: 100 when the value is
absent, `min(o, 100)` when it parses to `o >= 1`; so with a limit from 1 to
`PageLimit`. The store is not written. A request that went through the
allocation, signature, owner and path checks is refused with
`invalid_parameters` when the value does not parse or parses to `o <= 0`, and
otherwise goes on with the effective page limit. A `refType` other than
`regular`, `updated` and `deleted` leads to no query and to an error, which is
`invalid_parameters` with the `refType` message when the dates and the level
pass their checks. -/
theorem GetRefs_page_limit (env : Env) (r : Request) (w : World) :
    (GetRefs env r w).2.db = w.db ∧
    (∃ calls, (GetRefs env r w).2.trace = w.trace ++ calls ∧
      ∀ c ∈ calls, ∀ n, c ∈ pageQueries n →
        effectivePageLimit (r.FormValue "pageLimit") = some n ∧ 1 ≤ n ∧ n ≤ PageLimit) ∧
    (∀ allocationObj, ReachesPageLimit env r w allocationObj →
      (r.FormValue "pageLimit" ≠ "" → ParseInt (r.FormValue "pageLimit") = none →
        GetRefs env r w =
          ((none, some (NewError "invalid_parameters" "Invalid page limit value type")),
            w.log .verifyAllocationTransaction)) ∧
      (∀ o, r.FormValue "pageLimit" ≠ "" → ParseInt (r.FormValue "pageLimit") = some o →
        o ≤ 0 →
        GetRefs env r w =
          ((none, some (NewError "invalid_parameters"
            "Zero/Negative page limit value is not allowed")),
            w.log .verifyAllocationTransaction)) ∧
      (∀ n, effectivePageLimit (r.FormValue "pageLimit") = some n →
        GetRefs env r w =
          getRefsPage env r allocationObj n (w.log .verifyAllocationTransaction)) ∧
      (∀ n level, effectivePageLimit (r.FormValue "pageLimit") = some n →
        env.CheckValidDate (r.FormValue "offsetDate") OffsetDateLayout = none →
        env.CheckValidDate (r.FormValue "updatedDate") OffsetDateLayout = none →
        parseLevel env (r.FormValue "level") = .ok level →
        ¬ (r.FormValue "refType" = "regular" ∨ r.FormValue "refType" = "updated" ∨
          r.FormValue "refType" = "deleted") →
        GetRefs env r w =
          ((none, some (NewError "invalid_parameters"
            "refType param should have value regular/updated/deleted")),
            w.log .verifyAllocationTransaction))) ∧
    (¬ (r.FormValue "refType" = "regular" ∨ r.FormValue "refType" = "updated" ∨
        r.FormValue "refType" = "deleted") →
      (GetRefs env r w).1.1 = none ∧ (GetRefs env r w).1.2 ≠ none ∧
      ∀ n, ∀ c ∈ pageQueries n, c ∉ (GetRefs env r w).2.trace.drop w.trace.length) := by
  obtain ⟨hvdb, hvtr⟩ := verifyAllocation_frame env r.AllocationTx false w
  have hv : ∃ vcalls, (verifyAllocation env r.AllocationTx false w).2.trace =
      w.trace ++ vcalls ∧ ∀ c ∈ vcalls, c = Call.verifyAllocationTransaction := by
    rcases hvtr with h | h
    · exact ⟨[], by simp [h], by simp⟩
    · exact ⟨[.verifyAllocationTransaction], h, by simp⟩
  obtain ⟨vcalls, hvc, hvm⟩ := hv
  have hnoq : ∀ n, ∀ c ∈ pageQueries n, c ∉ vcalls := by
    intro n c hc hin
    rw [hvm c hin] at hc
    simp [pageQueries] at hc
  refine ⟨?_, ?_, ?_, ?_⟩
  · rcases GetRefs_cases env r w with ⟨e, h⟩ | ⟨allocationObj, n, -, h⟩
    · rw [h]
      exact hvdb
    · rw [h, (getRefsPage_trace env r allocationObj n _).1]
      exact hvdb
  · rcases GetRefs_cases env r w with ⟨e, h⟩ | ⟨allocationObj, n, hn, h⟩
    · rw [h]
      exact ⟨vcalls, hvc, fun c hc m hm => absurd hc (hnoq m c hm)⟩
    · obtain ⟨-, pcalls, hpc, hpm⟩ := getRefsPage_trace env r allocationObj n
        (verifyAllocation env r.AllocationTx false w).2
      rw [h]
      refine ⟨vcalls ++ pcalls, by rw [hpc, hvc, List.append_assoc], ?_⟩
      intro c hc m hm
      rcases List.mem_append.mp hc with h1 | h1
      · exact absurd h1 (hnoq m c hm)
      · rcases hpm c h1 with h2 | h2
        · rw [h2] at hm
          simp [pageQueries] at hm
        · have hmn : m = n := by
            simp only [pageQueries, List.mem_cons, List.mem_singleton, List.not_mem_nil,
              or_false] at hm h2
            rcases hm with hm | hm | hm <;> rcases h2 with h2 | h2 | h2 <;>
              rw [hm] at h2 <;> cases h2 <;> rfl
          rw [hmn]
          exact ⟨hn, effectivePageLimit_bounds _ n hn⟩
  · intro allocationObj hreach
    have hrun := GetRefs_of_checks env r w allocationObj hreach
    refine ⟨?_, ?_, ?_, ?_⟩
    · intro hs hp
      have : effectivePageLimit (r.FormValue "pageLimit") = none := by
        simp [effectivePageLimit, hs, hp]
      rw [hrun, this]
      simp [hp]
    · intro o hs hp ho
      have h1 : ¬ (1 ≤ o) := by omega
      have : effectivePageLimit (r.FormValue "pageLimit") = none := by
        simp [effectivePageLimit, hs, hp, h1]
      rw [hrun, this]
      simp [hp]
    · intro n hn
      rw [hrun, hn]
    · intro n level hn h1 h2 h3 href
      push_neg at href
      rw [hrun, hn]
      simp [getRefsPage, h1, h2, h3, queryRefs, href.1, href.2.1, href.2.2]
  · intro href
    push_neg at href
    have hpage : ∀ allocationObj n w1,
        (getRefsPage env r allocationObj n w1).1.1 = none ∧
        (getRefsPage env r allocationObj n w1).1.2 ≠ none ∧
        (getRefsPage env r allocationObj n w1).2 = w1 := by
      intro allocationObj n w1
      unfold getRefsPage
      simp only [queryRefs, href.1, href.2.1, href.2.2, if_false]
      repeat' split
      all_goals simp
    rcases GetRefs_cases env r w with ⟨e, h⟩ | ⟨allocationObj, n, -, h⟩
    · rw [h]
      refine ⟨rfl, by simp, ?_⟩
      intro m c hc
      rw [hvc]
      simpa using hnoq m c hc
    · rw [h]
      obtain ⟨p1, p2, p3⟩ := hpage allocationObj n
        (verifyAllocation env r.AllocationTx false w).2
      refine ⟨p1, p2, ?_⟩
      intro m c hc
      rw [p3, hvc]
      simpa using hnoq m c hc

/-- The runs of `GetRefs` on the test data: a page limit of 2 is used as it is,
one of 500 is cut to 100, an absent one is 100, and the values `0` and `x` and
the `refType` `other` are refused with `invalid_parameters`. -/
theorem GetRefs_runs :
    (GetRefs (demoEnv 0 0 "" 0) (refsRequest "2" "regular") refsWorld).2.trace =
      [.verifyAllocationTransaction, .getRefs 2, .getWriteMarkerEntity] ∧
    (GetRefs (demoEnv 0 0 "" 0) (refsRequest "500" "updated") refsWorld).2.trace =
      [.verifyAllocationTransaction, .getUpdatedRefs 100, .getWriteMarkerEntity] ∧
    (GetRefs (demoEnv 0 0 "" 0) (refsRequest "" "deleted") refsWorld).2.trace =
      [.verifyAllocationTransaction, .getDeletedRefs 100, .getWriteMarkerEntity] ∧
    (GetRefs (demoEnv 0 0 "" 0) (refsRequest "0" "regular") refsWorld).1 =
      (none, some (NewError "invalid_parameters"
        "Zero/Negative page limit value is not allowed")) ∧
    (GetRefs (demoEnv 0 0 "" 0) (refsRequest "x" "regular") refsWorld).1 =
      (none, some (NewError "invalid_parameters" "Invalid page limit value type")) ∧
    (GetRefs (demoEnv 0 0 "" 0) (refsRequest "5" "other") refsWorld) =
      ((none, some (NewError "invalid_parameters"
        "refType param should have value regular/updated/deleted")),
        refsWorld.log .verifyAllocationTransaction) := by
  decide

/-! ## Interleaved commits -/

/-- The method `CommitWrite` is its part before the mutex followed by its part
under the mutex, run on the allocation object that the first part loaded. -/
theorem CommitWrite_of_admission (env : Env) (r : Request) (w : World) :
    CommitWrite env r w =
      match commitAdmission env r w with
      | (.error err, w1) => ((none, some err), w1)
      | (.ok (allocationObj, connectionID), w1) =>
        ((CommitWriteLocked env r allocationObj connectionID (w1.log .mutexLock)).1,
          (CommitWriteLocked env r allocationObj connectionID
            (w1.log .mutexLock)).2.log .mutexUnlock) := by
  unfold CommitWrite commitAdmission
  by_cases hm : r.Method = "GET"
  · simp [hm]
  simp only [hm, if_false]
  cases hv : verifyAllocation env r.AllocationTx false w with
  | mk res w1 =>
  cases res with
  | error e => rfl
  | ok allocationObj =>
  dsimp only
  split
  · rfl
  cases hp : r.ParseMultipartForm with
  | some e => rfl
  | none =>
  dsimp only
  split
  · rfl
  · rfl

/-- A request that takes its two steps with no other request in between does
what `CommitWrite` does. -/
theorem runCommits_alone (env : Env) (r : Request) (b : CommitThread) (w : World) :
    runCommits env [false, false] (.start r) b w =
      ((.returned (CommitWrite env r w).1.1 (CommitWrite env r w).1.2, b),
        (CommitWrite env r w).2) := by
  rw [CommitWrite_of_admission]
  simp only [runCommits, CommitThread.step]
  cases ha : commitAdmission env r w with
  | mk res w1 =>
  cases res with
  | error e => rfl
  | ok pair =>
    obtain ⟨allocationObj, connectionID⟩ := pair
    rfl

/-- What the part of `CommitWrite` before the mutex loads is the allocation row
of the store at that time; it writes nothing. -/
theorem commitAdmission_ok (env : Env) (r : Request) (w w1 : World)
    (allocationObj : Allocation) (connectionID : String)
    (h : commitAdmission env r w = (.ok (allocationObj, connectionID), w1)) :
    env.VerifyAllocationTransaction w.db r.AllocationTx false = .ok allocationObj ∧
    connectionID = r.FormValue "connection_id" ∧
    w1 = w.log .verifyAllocationTransaction := by
  unfold commitAdmission at h
  split at h
  · simp at h
  dsimp only at h
  cases hv : verifyAllocation env r.AllocationTx false w with
  | mk res w2 =>
  rw [hv] at h
  cases res with
  | error e => simp at h
  | ok alloc =>
  obtain ⟨-, hva, -, hw2⟩ := verifyAllocation_ok env r.AllocationTx false w w2 alloc hv
  dsimp only at h
  split at h
  · simp at h
  split at h
  · simp at h
  split at h
  · simp at h
  simp only [Prod.mk.injEq, Except.ok.injEq] at h
  obtain ⟨⟨h1, h2⟩, h3⟩ := h
  subst h1 h3
  exact ⟨hva, h2.symm, hw2⟩

/-- When two requests both reach `mutex.Lock()` before either takes the mutex,
the second runs its section under the mutex, after the first has returned,
with the allocation object that it loaded from the store as it was before the
first request wrote: its capacity check (line 437) and the marker check are
made on that object. -/
theorem runCommits_interleaved (env : Env) (rA rB : Request) (w w1 w2 : World)
    (allocA allocB : Allocation) (cidA cidB : String)
    (hA : commitAdmission env rA w = (.ok (allocA, cidA), w1))
    (hB : commitAdmission env rB w1 = (.ok (allocB, cidB), w2)) :
    env.VerifyAllocationTransaction w.db rB.AllocationTx false = .ok allocB ∧
    runCommits env [false, true, false, true] (.start rA) (.start rB) w =
      ((.returned (CommitWriteLocked env rA allocA cidA (w2.log .mutexLock)).1.1
          (CommitWriteLocked env rA allocA cidA (w2.log .mutexLock)).1.2,
        .returned
          (CommitWriteLocked env rB allocB cidB
            (((CommitWriteLocked env rA allocA cidA (w2.log .mutexLock)).2.log
              .mutexUnlock).log .mutexLock)).1.1
          (CommitWriteLocked env rB allocB cidB
            (((CommitWriteLocked env rA allocA cidA (w2.log .mutexLock)).2.log
              .mutexUnlock).log .mutexLock)).1.2),
        (CommitWriteLocked env rB allocB cidB
          (((CommitWriteLocked env rA allocA cidA (w2.log .mutexLock)).2.log
            .mutexUnlock).log .mutexLock)).2.log .mutexUnlock) := by
  obtain ⟨-, -, hw1⟩ := commitAdmission_ok env rA w w1 allocA cidA hA
  obtain ⟨hvb, -, -⟩ := commitAdmission_ok env rB w1 w2 allocB cidB hB
  refine ⟨by rw [hw1] at hvb; simpa using hvb, ?_⟩
  simp only [runCommits, CommitThread.step, hA, hB]

/-- C27, the failing input: on the test data with a capacity of 2000 bytes,
two commit requests of the owner for two connections of 1337 bytes each carry
markers whose previous root is the stored root `/`. When both requests have
loaded the allocation before the first takes the mutex (schedule first,
second, first, second), both run their sections one after the other and both
return `Success == true`: two markers with the previous root `/` are saved,
and the allocation ends with 2674 bytes used of 2000. When the second request
starts after the first has returned, it is refused: with
`max_allocation_size` at this capacity, and with
`write_marker_verification_failed` at a capacity of 5000 bytes. -/
theorem CommitWrite_race :
    ((runCommits raceEnv [false, true, false, true]
        (.start (raceRequest "connection_id" "marker_a"))
        (.start (raceRequest "connection_b" "marker_b")) (raceWorld 2000)).1.1.outcome.map
      fun o => (o.1.map fun res => (res.Success, res.WriteMarker), o.2)) =
      some (some (true, some raceMarkerA), none) ∧
    ((runCommits raceEnv [false, true, false, true]
        (.start (raceRequest "connection_id" "marker_a"))
        (.start (raceRequest "connection_b" "marker_b")) (raceWorld 2000)).1.2.outcome.map
      fun o => (o.1.map fun res => (res.Success, res.WriteMarker), o.2)) =
      some (some (true, some raceMarkerB), none) ∧
    (runCommits raceEnv [false, true, false, true]
        (.start (raceRequest "connection_id" "marker_a"))
        (.start (raceRequest "connection_b" "marker_b")) (raceWorld 2000)).2.db.writeMarkers =
      [demoLatestMarker, ⟨raceMarkerA, "connection_id", "abcd"⟩,
        ⟨raceMarkerB, "connection_b", "abcd"⟩] ∧
    raceMarkerA.PreviousAllocationRoot = "/" ∧ raceMarkerB.PreviousAllocationRoot = "/" ∧
    (runCommits raceEnv [false, true, false, true]
        (.start (raceRequest "connection_id" "marker_a"))
        (.start (raceRequest "connection_b" "marker_b")) (raceWorld 2000)).2.db.allocations =
      [{ demoAllocation with
         BlobberSize := 2000, BlobberSizeUsed := 2674, UsedSize := 2674,
         AllocationRoot := "H(someHash+connection_id+connection_b:7)",
         IsRedeemRequired := true }] ∧
    ((runCommits raceEnv [false, false, true, true]
        (.start (raceRequest "connection_id" "marker_a"))
        (.start (raceRequest "connection_b" "marker_b")) (raceWorld 2000)).1.2.outcome.map
      fun o => o.2) =
      some (some (NewError "max_allocation_size"
        "Max size reached for the allocation with this blobber")) ∧
    ((runCommits raceEnv [false, false, true, true]
        (.start (raceRequest "connection_id" "marker_a"))
        (.start (raceRequest "connection_b" "marker_b")) (raceWorld 5000)).1.2.outcome.map
      fun o => o.2.map fun e => e.Code) =
      some (some "write_marker_verification_failed") ∧
    (runCommits raceEnv [false, false, true, true]
        (.start (raceRequest "connection_id" "marker_a"))
        (.start (raceRequest "connection_b" "marker_b")) (raceWorld 5000)).2.db.writeMarkers =
      [demoLatestMarker, ⟨raceMarkerA, "connection_id", "abcd"⟩] := by
  decide

/-! ## The work list mirrors the tree -/

theorem sizeForest_append (a b : List RefTree) :
    sizeForest (a ++ b) = sizeForest a + sizeForest b := by
  induction a with
  | nil => simp [sizeForest]
  | cons t ts ih => simp [sizeForest, ih, Nat.add_assoc]

theorem RefTree.size_eq (t : RefTree) : t.size = 1 + sizeForest t.Children := by
  cases t
  simp [RefTree.size, RefTree.Children]

theorem take_succ_set (list : List (Option Nat)) (idx : Nat) (x : Option Nat)
    (h : idx < list.length) : (list.set idx x).take (idx + 1) = list.take idx ++ [x] := by
  induction list generalizing idx with
  | nil => simp at h
  | cons a l ih =>
    cases idx with
    | zero => simp
    | succ i =>
      simp only [List.length_cons, Nat.add_lt_add_iff_right] at h
      simp [ih i h]

theorem fillPointers_eq (n : Nat) : ∀ (list : List (Option Nat)) (idx addr : Nat),
    list.length = idx + n →
    fillPointers list idx addr n = list.take idx ++ (List.range' addr n).map some := by
  induction n with
  | zero =>
    intro list idx addr h
    rw [List.take_of_length_le (by omega)]
    simp [fillPointers]
  | succ n ih =>
    intro list idx addr h
    rw [fillPointers, ih _ _ _ (by simp; omega), take_succ_set _ _ _ (by omega)]
    simp [List.range'_succ]

theorem set_self (heap : List ReferencePath) (p : Nat) (cell : ReferencePath)
    (h : heap[p]? = some cell) : heap.set p cell = heap := by
  apply List.ext_getElem?
  intro i
  by_cases hi : p = i
  · subst hi
    rw [List.getElem?_set_self (by
      rcases List.getElem?_eq_some_iff.mp h with ⟨hlt, -⟩
      exact hlt), h]
  · rw [List.getElem?_set_ne hi]

/-- The inner loop in closed form: when the cell at `p` has a slice with room
for the children from `idx` on, the loop does not panic; it appends one fresh
cell for each child, stores their addresses in the slice and appends them to
the queue. -/
theorem linkChildren_eq (p : Nat) (children : List RefTree) :
    ∀ (idx : Nat) (heap : List ReferencePath) (queue : List Nat) (cell : ReferencePath)
      (list : List (Option Nat)),
      heap[p]? = some cell → cell.RefList = some list →
      idx + children.length ≤ list.length →
      linkChildren p children idx heap queue =
        some (heap.set p
            { cell with RefList := some (fillPointers list idx heap.length children.length) } ++
              children.map freshCell,
          queue ++ List.range' heap.length children.length) := by
  induction children with
  | nil =>
    intro idx heap queue cell list hc hl _
    have : ({ cell with RefList := some list } : ReferencePath) = cell := by
      cases cell
      simp_all
    simp [linkChildren, fillPointers, this, set_self heap p cell hc]
  | cons child more ih =>
    intro idx heap queue cell list hc hl hlen
    have hp : p < heap.length := (List.getElem?_eq_some_iff.mp hc).1
    have h1 : (heap ++ [(⟨none, none, child⟩ : ReferencePath)])[p]? = some cell := by
      rw [List.getElem?_append_left hp, hc]
    simp only [List.length_cons] at hlen
    rw [linkChildren]
    simp only [h1, hl, show idx < list.length by omega, if_true]
    rw [ih (idx + 1) _ _ { cell with RefList := some (list.set idx (some heap.length)) }
      (list.set idx (some heap.length)) (by
        rw [List.getElem?_set_self (by simp; omega)]) rfl (by simp; omega)]
    simp [fillPointers, freshCell, List.set_append, hp, List.range'_succ, Nat.add_comm]

theorem sizeForest_cons (t : RefTree) (ts : List RefTree) :
    sizeForest (t :: ts) = sizeForest (ts ++ t.Children) + 1 := by
  simp only [sizeForest, sizeForest_append, RefTree.size_eq]
  omega

theorem referencePathLoop_nil (env : Env) (fuel : Nat) (heap : List ReferencePath)
    (dequeued : List Nat) : referencePathLoop env fuel heap [] dequeued = some (heap, dequeued) := by
  cases fuel <;> rfl

/-- The loop in closed form: started on the cells `processed` followed by one
fresh cell for each tree of the queue, with fuel for the nodes of these trees,
the loop ends; it leaves the cells `processed` as they are, followed by the
layout of the trees, and it has taken one turn for each node, at the addresses
in their order. -/
theorem referencePathLoop_eq (env : Env) :
    ∀ (fuel : Nat) (processed : List ReferencePath) (pending : List RefTree)
      (dequeued : List Nat), sizeForest pending ≤ fuel →
      referencePathLoop env fuel (processed ++ pending.map freshCell)
        (List.range' processed.length pending.length) dequeued =
        some (processed ++ layout env (sizeForest pending) processed.length pending,
          dequeued ++ List.range' processed.length (sizeForest pending)) := by
  intro fuel
  induction fuel with
  | zero =>
    intro processed pending dequeued h
    cases pending with
    | nil => simp [referencePathLoop_nil, sizeForest, layout]
    | cons t ts => rw [sizeForest_cons] at h; omega
  | succ f ih =>
    intro processed pending dequeued h
    cases pending with
    | nil => simp [referencePathLoop_nil, sizeForest, layout]
    | cons t ts =>
      rw [sizeForest_cons] at h
      have hget : (processed ++ (t :: ts).map freshCell)[processed.length]? =
          some (freshCell t) := by
        rw [List.getElem?_append_right (Nat.le_refl _)]
        simp
      have hih := ih (processed ++ [doneCell env t (processed.length + 1 + ts.length)])
        (ts ++ t.Children) (dequeued ++ [processed.length]) (by omega)
      simp only [List.length_append, List.length_singleton, List.length_cons, List.length_nil,
        Nat.zero_add] at hih
      rw [sizeForest_cons, layout, List.length_cons, List.range'_succ, referencePathLoop]
      simp only [hget]
      have hset : ∀ x : ReferencePath,
          (processed ++ (t :: ts).map freshCell).set processed.length x =
            processed ++ [x] ++ ts.map freshCell := by
        intro x
        simp [List.set_append]
      cases hc : t.Children with
      | nil =>
        simp only [hc, List.append_nil, List.length_nil, Nat.add_zero] at hih
        simp only [freshCell, hc, List.length_nil, Nat.lt_irrefl, if_false, linkChildren,
          List.tail_cons, hset, List.append_nil]
        have hd : doneCell env t (processed.length + 1 + ts.length) =
            ⟨some (env.GetListingData t.ref), none, t⟩ := by
          simp [doneCell, hc]
        rw [hd] at hih
        rw [hd, hih, List.range'_succ]
        simp
      | cons c cs =>
        have hlink := linkChildren_eq processed.length (c :: cs) 0
          (processed ++ [(⟨some (env.GetListingData t.ref),
            some (List.replicate (c :: cs).length none), t⟩ : ReferencePath)] ++
            ts.map freshCell)
          (processed.length :: List.range' (processed.length + 1) ts.length)
          ⟨some (env.GetListingData t.ref), some (List.replicate (c :: cs).length none), t⟩
          (List.replicate (c :: cs).length none)
          (by rw [List.append_assoc, List.getElem?_append_right (Nat.le_refl _)]; simp)
          rfl (by simp)
        rw [fillPointers_eq _ _ _ _ (by simp)] at hlink
        simp only [hc] at hih
        simp only [freshCell, hc, hset]
        simp only [freshCell] at hlink
        simp only [List.length_cons, Nat.zero_lt_succ, if_true]
        simp only [List.length_cons] at hlink
        rw [hlink]
        have hd : doneCell env t (processed.length + 1 + ts.length) =
            ⟨some (env.GetListingData t.ref),
              some ((List.range' (processed.length + 1 + ts.length) (cs.length + 1)).map some),
              t⟩ := by
          simp [doneCell, hc]
        rw [hd] at hih
        have e1 : ∀ (x y : ReferencePath),
            (processed ++ [x] ++ List.map freshCell ts).set processed.length y =
              processed ++ [y] ++ List.map freshCell ts := by
          intro x y
          simp [List.set_append]
        have e2 : ∀ x : ReferencePath,
            (processed ++ [x] ++ List.map freshCell ts).length =
              processed.length + 1 + ts.length := by
          intro x
          simp only [List.length_append, List.length_singleton, List.length_map]
        have e3 : List.range' (processed.length + 1) ts.length ++
            List.range' (processed.length + 1 + ts.length) (cs.length + 1) =
              List.range' (processed.length + 1) (ts.length + (c :: cs).length) := by
          rw [List.range'_append_1, List.length_cons, Nat.add_comm ts.length]
        simp only [e1, e2, List.tail_cons, List.cons_append, List.take_zero, List.nil_append, e3]
        rw [hd]
        simpa [List.range'_succ] using hih

theorem breadthFirst_nil (fuel : Nat) : breadthFirst fuel [] = [] := by
  cases fuel <;> rfl

theorem levelOrder_nil (depth : Nat) : levelOrder depth [] = [] := by
  induction depth with
  | zero => rfl
  | succ d ih => simp [levelOrder, ih]

theorem length_le_sizeForest (forest : List RefTree) : forest.length ≤ sizeForest forest := by
  induction forest with
  | nil => simp
  | cons t ts ih =>
    simp only [sizeForest, List.length_cons, RefTree.size_eq]
    omega

theorem sizeForest_flatMap (forest : List RefTree) :
    sizeForest (forest.flatMap RefTree.Children) + forest.length = sizeForest forest := by
  induction forest with
  | nil => simp [sizeForest]
  | cons t ts ih =>
    simp only [List.flatMap_cons, sizeForest_append, sizeForest, List.length_cons,
      RefTree.size_eq]
    omega

/-- With fuel for every node, the fuel does not matter. -/
theorem breadthFirst_fuel : ∀ (k k' : Nat) (forest : List RefTree),
    sizeForest forest ≤ k → sizeForest forest ≤ k' →
    breadthFirst k forest = breadthFirst k' forest := by
  intro k
  induction k with
  | zero =>
    intro k' forest h _
    cases forest with
    | nil => simp [breadthFirst_nil]
    | cons t ts => rw [sizeForest_cons] at h; omega
  | succ k ih =>
    intro k' forest h h'
    cases forest with
    | nil => simp [breadthFirst_nil]
    | cons t ts =>
      rw [sizeForest_cons] at h h'
      cases k' with
      | zero => omega
      | succ k' =>
        simp only [breadthFirst]
        rw [ih k' _ (by omega) (by omega)]

/-- The queue comes out first, in its order, before any child of its trees. -/
theorem breadthFirst_append : ∀ (xs ys : List RefTree) (fuel : Nat), xs.length ≤ fuel →
    breadthFirst fuel (xs ++ ys) =
      xs ++ breadthFirst (fuel - xs.length) (ys ++ xs.flatMap RefTree.Children) := by
  intro xs
  induction xs with
  | nil => intro ys fuel _; simp
  | cons x xs ih =>
    intro ys fuel h
    cases fuel with
    | zero => simp at h
    | succ f =>
      simp only [List.length_cons, Nat.add_le_add_iff_right] at h
      rw [List.cons_append, breadthFirst, List.append_assoc, ih _ _ h]
      simp

/-- The order of the queue is the order level by level. -/
theorem breadthFirst_eq_levelOrder : ∀ (fuel : Nat) (forest : List RefTree),
    sizeForest forest ≤ fuel → breadthFirst fuel forest = levelOrder fuel forest := by
  intro fuel
  induction fuel with
  | zero =>
    intro forest h
    rfl
  | succ f ih =>
    intro forest h
    cases forest with
    | nil => simp [breadthFirst_nil, levelOrder_nil]
    | cons t ts =>
      have hlen := length_le_sizeForest (t :: ts)
      have hflat := sizeForest_flatMap (t :: ts)
      have happ := breadthFirst_append (t :: ts) [] (f + 1) (by omega)
      simp only [List.append_nil, List.nil_append] at happ
      rw [happ, levelOrder, ← ih _ (by simp only [List.length_cons] at hflat; omega)]
      rw [breadthFirst_fuel _ f _ (by omega) (by simp only [List.length_cons] at hflat; omega)]

/-- The cells of the layout hold the trees in breadth-first order. -/
theorem layout_map_Ref (env : Env) : ∀ (k a : Nat) (forest : List RefTree),
    (layout env k a forest).map (fun cell => cell.Ref) = breadthFirst k forest := by
  intro k
  induction k with
  | zero => intro a forest; rfl
  | succ k ih =>
    intro a forest
    cases forest with
    | nil => rfl
    | cons t ts => simp [layout, breadthFirst, doneCell, ih]

theorem breadthFirst_length : ∀ (k : Nat) (forest : List RefTree),
    sizeForest forest ≤ k → (breadthFirst k forest).length = sizeForest forest := by
  intro k
  induction k with
  | zero =>
    intro forest h
    cases forest with
    | nil => rfl
    | cons t ts => rw [sizeForest_cons] at h; omega
  | succ k ih =>
    intro forest h
    cases forest with
    | nil => rfl
    | cons t ts =>
      rw [sizeForest_cons] at h ⊢
      simp only [breadthFirst, List.length_cons]
      rw [ih _ (by omega)]

/-- Every cell of the layout has its listing data; it has no slice when its
ref has no children, and else its slice holds the addresses of as many cells
as the ref has children, the cells of these children in their order. -/
theorem layout_shape (env : Env) : ∀ (k a : Nat) (forest : List RefTree),
    sizeForest forest ≤ k → ∀ (p : Nat) (cell : ReferencePath),
    (layout env k a forest)[p]? = some cell →
    cell.Meta = some (env.GetListingData cell.Ref.ref) ∧
    (cell.Ref.Children = [] → cell.RefList = none) ∧
    (cell.Ref.Children ≠ [] → ∃ first : Nat, a ≤ first ∧
      cell.RefList = some ((List.range' first cell.Ref.Children.length).map some) ∧
      ∀ i : Nat, i < cell.Ref.Children.length →
        ((layout env k a forest)[first - a + i]?).map (fun c => c.Ref) =
          cell.Ref.Children[i]?) := by
  intro k
  induction k with
  | zero =>
    intro a forest _ p cell h
    simp [layout] at h
  | succ k ih =>
    intro a forest hk p cell h
    cases forest with
    | nil => simp [layout] at h
    | cons t ts =>
      rw [sizeForest_cons] at hk
      rw [layout] at h ⊢
      cases p with
      | zero =>
        simp only [List.getElem?_cons_zero, Option.some.injEq] at h
        subst h
        refine ⟨rfl, ?_, ?_⟩
        · intro hc
          have hc : t.Children = [] := hc
          simp [doneCell, hc]
        · intro hc
          have hc : t.Children ≠ [] := hc
          have hpos : 0 < t.Children.length := List.length_pos.mpr hc
          refine ⟨a + 1 + ts.length, by omega, by simp [doneCell, hpos], ?_⟩
          intro i hi
          have hi : i < t.Children.length := hi
          have hidx : a + 1 + ts.length - a + i = (ts.length + i) + 1 := by omega
          have hlen : (ts ++ t.Children).length ≤ k :=
            Nat.le_trans (length_le_sizeForest _) (by omega)
          have happ := breadthFirst_append (ts ++ t.Children) [] k hlen
          rw [List.append_nil] at happ
          simp only [doneCell]
          rw [hidx, List.getElem?_cons_succ, ← List.getElem?_map, layout_map_Ref, happ,
            List.getElem?_append_left (by simp; omega),
            List.getElem?_append_right (by omega)]
          simp
      | succ q =>
        rw [List.getElem?_cons_succ] at h
        obtain ⟨hmeta, hnil, hcons⟩ := ih (a + 1) (ts ++ t.Children) (by omega) q cell h
        refine ⟨hmeta, hnil, ?_⟩
        intro hc
        obtain ⟨first, hfirst, hlist, hchild⟩ := hcons hc
        refine ⟨first, by omega, hlist, ?_⟩
        intro i hi
        have hidx : first - a + i = (first - (a + 1) + i) + 1 := by omega
        rw [hidx, List.getElem?_cons_succ]
        exact hchild i hi

/-- C28: on every reference tree `rootRef`, with fuel for one turn per node or
more, the work list loop of `getReferencePath` and `GetObjectTree` ends without
a panic. It takes exactly as many turns as the tree has nodes, dequeuing the
addresses `0, 1, ...` once each, and the cells at these addresses hold the
nodes of the tree level by level, the root at address 0. Every cell has its
`Meta` set to the listing data of its ref; its `List` is nil when the ref has
no children, and else `List` has the length of `Ref.Children` and `List[i]`
is the address of a cell whose `Ref` is `Ref.Children[i]`, for every `i`. -/
theorem flattenReferencePath_mirrors (env : Env) (rootRef : RefTree) (extra : Nat) :
    ∃ heap : List ReferencePath,
      flattenReferencePath env (rootRef.size + extra) rootRef =
        some (heap, List.range rootRef.size) ∧
      heap.length = rootRef.size ∧
      heap.map (fun cell => cell.Ref) = levelOrder rootRef.size [rootRef] ∧
      heap[0]?.map (fun cell => cell.Ref) = some rootRef ∧
      ∀ (p : Nat) (cell : ReferencePath), heap[p]? = some cell →
        cell.Meta = some (env.GetListingData cell.Ref.ref) ∧
        (cell.Ref.Children = [] → cell.RefList = none) ∧
        (cell.Ref.Children ≠ [] → ∃ list : List Nat,
          cell.RefList = some (list.map some) ∧
          list.length = cell.Ref.Children.length ∧
          ∀ i : Nat, (list[i]?.bind fun q => heap[q]?.map fun c => c.Ref) =
            cell.Ref.Children[i]?) := by
  have hs : sizeForest [rootRef] = rootRef.size := by simp [sizeForest]
  have hrun := referencePathLoop_eq env (rootRef.size + extra) [] [rootRef] []
    (by rw [hs]; omega)
  simp only [List.nil_append, List.map_cons, List.map_nil, List.length_nil, List.length_cons,
    hs, freshCell] at hrun
  have hmap := layout_map_Ref env rootRef.size 0 [rootRef]
  have hlen : (layout env rootRef.size 0 [rootRef]).length = rootRef.size := by
    rw [← List.length_map, hmap, breadthFirst_length _ _ (by rw [hs]), hs]
  refine ⟨layout env rootRef.size 0 [rootRef], ?_, hlen, ?_, ?_, ?_⟩
  · have hq : List.range' 0 (0 + 1) = [0] := rfl
    rw [hq] at hrun
    rw [flattenReferencePath, hrun, List.range_eq_range']
  · rw [hmap, breadthFirst_eq_levelOrder _ _ (by rw [hs])]
  · rw [← List.getElem?_map, hmap, RefTree.size_eq, Nat.add_comm]
    simp [breadthFirst]
  · intro p cell hcell
    obtain ⟨hmeta, hnil, hcons⟩ :=
      layout_shape env rootRef.size 0 [rootRef] (by rw [hs]) p cell hcell
    refine ⟨hmeta, hnil, ?_⟩
    intro hc
    obtain ⟨first, -, hlist, hchild⟩ := hcons hc
    refine ⟨List.range' first cell.Ref.Children.length, hlist, by simp, ?_⟩
    intro i
    by_cases hi : i < cell.Ref.Children.length
    · have := hchild i hi
      simp only [Nat.sub_zero] at this
      rw [List.getElem?_range' _ _ hi]
      simpa using this
    · rw [List.getElem?_eq_none (by simpa using hi), List.getElem?_eq_none (by omega)]
      rfl

/-- A run of the loop on a tree of six refs, where the refs `a` and `c` of the
second and third level have children: six turns, the cells in the order of
the levels, the children of `a` behind its sibling `b`. With fuel for five
turns the run does not end. -/
theorem flattenReferencePath_runs :
    ((flattenReferencePath (demoEnv 0 0 "" 0) 6 sampleTree).map fun res =>
      (res.1.map fun cell => (cell.Ref.ref.Name, cell.RefList, cell.Meta.isSome), res.2)) =
      some ([("", some [some 1, some 2], true), ("a", some [some 3, some 4], true),
          ("b", none, true), ("c", some [some 5], true), ("d", none, true),
          ("e", none, true)],
        [0, 1, 2, 3, 4, 5]) ∧
    sampleTree.size = 6 ∧
    ((flattenReferencePath (demoEnv 0 0 "" 0) 5 sampleTree).map fun res => res.2) = none :=
  ⟨by rfl, by decide, by decide⟩

end Blobber
